import Mathlib

/-!
# Ice-halo ray tracer: a shallow embedding of the tracing core

The definitions below are translated from the C++ sources
(`simulation.cpp`, `render.cpp`, and the two `optics.h` headers).

Conventions of the embedding:

* `float` values are idealised as rationals (`ℚ`); `size_t` and `int`
  counters are `Nat` and `Int` without wrap-around. The product
  `population * total_ray_num_` of `Simulator::Start`, whose truncation is the
  ray count of a crystal, is modelled with binary32 rounding (`roundToFloat`).
* A `RaySegment*` is an index into the segment pool (`Option Nat`, `none`
  being the null pointer); the process-wide pool and random number generator
  singletons are fields of the simulator state.
* C arrays are total functions from the index; a freshly allocated array
  holds the default value in every slot.
* External collaborators that are not part of the translated sources (the
  random samplers, the rotation helpers, the optics kernels, the ray path
  filter) are fields of `Env`.
-/

namespace IceHalo

/-! ## Refractive index tables -/

/-- Wavelength table `IceRefractiveIndex::_wl` of `src/optics.h` (nm). -/
def IceRefractiveIndex._wl : List ℚ :=
  [350.0, 400.0, 410.0, 420.0, 430.0, 440.0, 450.0, 460.0, 470.0,
   480.0, 490.0, 500.0, 510.0, 520.0, 530.0, 540.0, 550.0, 560.0, 570.0, 580.0, 590.0,
   600.0, 610.0, 620.0, 630.0, 640.0, 650.0, 660.0, 670.0, 680.0, 690.0, 700.0, 710.0,
   720.0, 730.0, 740.0, 750.0, 760.0, 770.0, 780.0, 790.0, 800.0, 810.0, 820.0, 830.0,
   840.0, 850.0, 860.0, 870.0, 880.0, 890.0, 900.0]

/-- Refractive index table `IceRefractiveIndex::_n` of `src/optics.h`. -/
def IceRefractiveIndex._n : List ℚ :=
  [1.3249, 1.3194, 1.3185, 1.3177, 1.3170, 1.3163, 1.3157, 1.3151,
   1.3145, 1.3140, 1.3135, 1.3130, 1.3126, 1.3122, 1.3118, 1.3114, 1.3110, 1.3106, 1.3103,
   1.3100, 1.3097, 1.3094, 1.3091, 1.3088, 1.3085, 1.3083, 1.3080, 1.3078, 1.3076, 1.3073,
   1.3071, 1.3069, 1.3067, 1.3065, 1.3062, 1.3060, 1.3058, 1.3057, 1.3055, 1.3053, 1.3051,
   1.3049, 1.3047, 1.3045, 1.3044, 1.3042, 1.3040, 1.3038, 1.3037, 1.3035, 1.3033, 1.3032]

/-- Wavelength table `IceRefractiveIndex::_wl` of the flat layout (`cpp/optics.h`). -/
def Flat.IceRefractiveIndex._wl : List ℚ :=
  [350.0, 400.0, 410.0, 420.0, 430.0, 440.0, 450.0, 460.0, 470.0,
   480.0, 490.0, 500.0, 510.0, 520.0, 530.0, 540.0, 550.0, 560.0, 570.0, 580.0, 590.0,
   600.0, 610.0, 620.0, 630.0, 640.0, 650.0, 660.0, 670.0, 680.0, 690.0, 700.0, 710.0,
   720.0, 730.0, 740.0, 750.0, 760.0, 770.0, 780.0, 790.0, 800.0, 810.0, 820.0, 830.0,
   840.0, 850.0, 860.0, 870.0, 880.0, 890.0, 900.0]

/-- Refractive index table `IceRefractiveIndex::_n` of the flat layout (`cpp/optics.h`). -/
def Flat.IceRefractiveIndex._n : List ℚ :=
  [1.3249, 1.3194, 1.3185, 1.3177, 1.3170, 1.3163, 1.3157, 1.3151,
   1.3145, 1.3140, 1.3135, 1.3130, 1.3126, 1.3122, 1.3118, 1.3114, 1.3110, 1.3106, 1.3103,
   1.3100, 1.3097, 1.3094, 1.3091, 1.3088, 1.3085, 1.3083, 1.3080, 1.3078, 1.3076, 1.3073,
   1.3071, 1.3069, 1.3067, 1.3065, 1.3062, 1.3060, 1.3058, 1.3057, 1.3055, 1.3053, 1.3051,
   1.3049, 1.3047, 1.3045, 1.3044, 1.3042, 1.3040, 1.3038, 1.3037, 1.3035, 1.3033, 1.3032]

/-- Differences `t[i+1] - t[i]` of consecutive entries of a table. -/
def consecutiveSteps : List ℚ → List ℚ
  | a :: b :: rest => (b - a) :: consecutiveSteps (b :: rest)
  | _ => []

/-! ## Vectors, crystals and ray segments -/

/-- Three consecutive floats (`float[3]`, `Vec3f`). -/
structure Vec3 where
  x : ℚ
  y : ℚ
  z : ℚ
deriving DecidableEq

instance : Inhabited Vec3 := ⟨⟨0, 0, 0⟩⟩

/-- Modelled from the spec: `Math::Dot3` of `mymath.h` (not in the sources),
the dot product `n̂·d̂` of two 3-vectors. -/
def Math.Dot3 (a b : Vec3) : ℚ := a.x * b.x + a.y * b.y + a.z * b.z

/-- Modelled from the spec: the `Crystal` accessors read by the simulator
(`TotalFaces`, `GetFaceNorm`, `GetFaceVertex`, `GetFaceArea`; the class of the
fuller layout is not in the sources). `face_norm_isnan k` is
`std::isnan(face_norm[k * 3 + 0])`. -/
structure Crystal where
  TotalFaces : Nat
  face_norm : Nat → Vec3
  face_norm_isnan : Nat → Bool
  face_vertex : Int → Vec3 × Vec3 × Vec3
  face_area : Nat → ℚ

/-- The distribution tag `Math::Distribution`. -/
inductive Distribution
  | kUniform
  | kGaussian
deriving DecidableEq

/-- The axis distribution parameters of a crystal context (`ctx->axis`). -/
structure AxisDistribution where
  latitude_dist : Distribution
  roll_dist : Distribution
  latitude_mean : ℚ
  latitude_std : ℚ
  roll_mean : ℚ
  roll_std : ℚ

/-- A crystal with its axis distribution (`CrystalContext`). -/
structure CrystalContext where
  crystal : Crystal
  axis : AxisDistribution

/-- The record `RayInfo(r, ctx, axis_rot)` attached to a root segment. -/
structure RayInfo where
  first_ray_segment : Nat
  prev_ray_segment : Option Nat
  crystal_ctx : CrystalContext
  main_axis_rot : Vec3

/-- One ray segment of the pool. Pointers to other segments are pool indices. -/
structure RaySegment where
  next_reflect : Option Nat
  next_refract : Option Nat
  prev : Option Nat
  root_ctx : Option RayInfo
  pt : Vec3
  dir : Vec3
  w : ℚ
  face_id : Int
  is_finished : Bool

instance : Inhabited RaySegment :=
  ⟨⟨none, none, none, none, default, default, 0, -1, false⟩⟩

/-- The segment pool singleton: slot contents and the occupancy cursor. -/
structure RaySegmentPool where
  segments : Nat → RaySegment
  next_unused_id : Nat

/-- Modelled from the spec: `RaySegmentPool::Clear` resets the occupancy cursor;
chunk memory is retained. -/
def RaySegmentPool.Clear (p : RaySegmentPool) : RaySegmentPool :=
  { p with next_unused_id := 0 }

/-- Modelled from the spec: `RaySegmentPool::GetRaySegment(pt, dir, w, face_id)`
returns a handle to the next slot and initialises it (relations unattached, not
finished, no root context). -/
def RaySegmentPool.GetRaySegment (p : RaySegmentPool) (pt dir : Vec3) (w : ℚ) (face_id : Int) :
    Nat × RaySegmentPool :=
  (p.next_unused_id,
   { segments := Function.update p.segments p.next_unused_id
       ⟨none, none, none, none, pt, dir, w, face_id, false⟩,
     next_unused_id := p.next_unused_id + 1 })

/-- Assignment through a segment pointer: `h->field = ...`. -/
def RaySegmentPool.modify (p : RaySegmentPool) (h : Nat) (f : RaySegment → RaySegment) :
    RaySegmentPool :=
  { p with segments := Function.update p.segments h (f (p.segments h)) }

/-- Assignment through a possibly null segment pointer (a null pointer is not
dereferenced in the model). -/
def RaySegmentPool.modifyPtr (p : RaySegmentPool) (h : Option Nat) (f : RaySegment → RaySegment) :
    RaySegmentPool :=
  match h with
  | some i => p.modify i f
  | none => p

/-! ## Buffers -/

/-- The double buffer `SimulationBufferData`: `pt[b][i]`, `dir[b][i]`, `w[b][i]`,
`face_id[b][i]`, `ray_seg[b][i]` for `b < 2`, and the capacity `ray_num`. -/
structure SimulationBufferData where
  pt : Nat → Nat → Vec3
  dir : Nat → Nat → Vec3
  w : Nat → Nat → ℚ
  face_id : Nat → Nat → Int
  ray_seg : Nat → Nat → Option Nat
  ray_num : Nat

/-- The first `n` entries of `old`, in a fresh array. -/
def copyPrefix {α : Type} [Inhabited α] (n : Nat) (old : Nat → α) : Nat → α :=
  fun i => if i < n then old i else default

/-- The method `SimulationBufferData::Allocate(ray_number)`: both buffers are
replaced by fresh arrays holding the first `min(ray_num, ray_number)` old entries. -/
def SimulationBufferData.Allocate (b : SimulationBufferData) (ray_number : Nat) :
    SimulationBufferData :=
  let n := min b.ray_num ray_number
  { pt := fun i => copyPrefix n (b.pt i)
    dir := fun i => copyPrefix n (b.dir i)
    w := fun i => copyPrefix n (b.w i)
    face_id := fun i => copyPrefix n (b.face_id i)
    ray_seg := fun i => copyPrefix n (b.ray_seg i)
    ray_num := ray_number }

/-- The record `EnterRayData`: world-frame directions and previous-segment handles. -/
structure EnterRayData where
  ray_dir : Nat → Vec3
  ray_seg : Nat → Option Nat
  ray_num : Nat

/-- The method `EnterRayData::Clean`: both arrays are deleted, `ray_num = 0`. -/
def EnterRayData.Clean (_e : EnterRayData) : EnterRayData :=
  { ray_dir := fun _ => default, ray_seg := fun _ => none, ray_num := 0 }

/-- The method `EnterRayData::Allocate(ray_number)`: fresh zeroed arrays. -/
def EnterRayData.Allocate (_e : EnterRayData) (ray_number : Nat) : EnterRayData :=
  { ray_dir := fun _ => ⟨0, 0, 0⟩, ray_seg := fun _ => none, ray_num := ray_number }

/-- The `num` entries of an array starting at `off` (a pointer `a + off` read
for `num` entries). -/
def slice {α : Type} (a : Nat → α) (off num : Nat) : List α :=
  (List.range num).map (fun k => a (off + k))

/-- Writes `out 0 .. out (num - 1)` to the entries `off .. off + num - 1`. -/
def writeSlice {α : Type} (a : Nat → α) (off num : Nat) (out : Nat → α) : Nat → α :=
  fun i => if off ≤ i ∧ i < off + num then out (i - off) else a i

/-- The call `v.back().emplace_back(r)` on a vector of vectors (nothing is
stored when the outer vector is empty). -/
def backPush {α : Type} : List (List α) → α → List (List α)
  | [], _ => []
  | [l], r => [l ++ [r]]
  | l :: m :: ls, r => l :: backPush (m :: ls) r

/-! ## Project context and external collaborators -/

/-- One entry of `wavelengths_`. -/
structure WavelengthInfo where
  wavelength : Int
  weight : ℚ
deriving DecidableEq

/-- One `(crystal_id, population, filter_id)` entry of a scatter descriptor. -/
structure CrystalInfo where
  crystal_id : Int
  population : ℚ
  filter_id : Int

/-- One scatter descriptor of `multi_scatter_info_`. -/
structure MultiScatterContext where
  GetCrystalInfo : List CrystalInfo
  GetProbability : ℚ

/-- The sun context: position (unit vector) and diameter in degrees. -/
structure SunContext where
  GetSunPosition : Vec3
  GetSunDiameter : ℚ

/-- Modelled from the spec: `AbstractRayPathFilter`; `Filter crystal pool r` is
the verdict of `filter->Filter(crystal, r)` after `ApplySymmetry(crystal)`,
which walks the `prev` chain of `r` in the pool. -/
structure AbstractRayPathFilter where
  Filter : Crystal → RaySegmentPool → Nat → Bool

/-- Modelled from the spec: the members of `ProjectContext` the simulator reads
(the class is not in the sources). -/
structure ProjectContext where
  wavelengths_ : List WavelengthInfo
  multi_scatter_info_ : List MultiScatterContext
  sun_ctx_ : SunContext
  GetInitRayNum : Nat
  GetRayHitNum : Int
  kScatMinW : ℚ
  kPropMinW : ℚ
  GetCrystalContext : Int → CrystalContext
  GetCrystal : Int → Crystal
  GetRayPathFilter : Int → AbstractRayPathFilter

/-- Modelled from the spec: `kBufferSizeFactor` (`BUFFER_FACTOR`), 4. -/
def kBufferSizeFactor : Nat := 4

/-- External collaborators. Every use of the random number generator singleton
is one call, identified by the number of calls made before it (the first
argument of each sampler). The kernels read slices of buffer 0 and return the
entries they write to buffer 1. -/
structure Env where
  GetUniform : Nat → ℚ
  Get : Nat → Distribution → ℚ → ℚ → ℚ
  SampleSphericalPointsSph : Nat → Vec3
  SampleSphericalPointsSphAxis : Nat → AxisDistribution → Vec3
  SampleSphericalPointsCart : Nat → Vec3 → ℚ → Nat → Nat → Vec3
  SampleIntProb : Nat → List ℚ → Int
  SampleInt : Nat → Int → Int
  SampleTriangularPoints : Nat → Vec3 × Vec3 × Vec3 → Vec3
  RotateZ : Vec3 → Vec3 → Vec3
  RotateZBack : Vec3 → Vec3 → Vec3
  HitSurface : Crystal → ℚ → Nat → List Vec3 → List Int → List ℚ → (Nat → Vec3) × (Nat → ℚ)
  Propagate : Crystal → Nat → List Vec3 → List Vec3 → List ℚ → List Int →
    (Nat → Vec3) × (Nat → Int)
  kPi : ℚ
  kDegreeToRad : ℚ

/-- Modelled from the spec: piecewise-linear interpolation over a table of
`(wavelength, index)` pairs, clamped to the end points. -/
def IceRefractiveIndex.interpolate : List (ℚ × ℚ) → ℚ → ℚ
  | [], _ => 1
  | [p], _ => p.2
  | p :: q :: rest, wl =>
    if wl ≤ p.1 then p.2
    else if wl ≤ q.1 then p.2 + (wl - p.1) / (q.1 - p.1) * (q.2 - p.2)
    else IceRefractiveIndex.interpolate (q :: rest) wl

/-- Modelled from the spec: `IceRefractiveIndex::Get(wavelength)` (only its
tables are in the sources), linear interpolation over `_wl` and `_n`. -/
def IceRefractiveIndex.Get (wl : ℚ) : ℚ :=
  IceRefractiveIndex.interpolate (List.zip IceRefractiveIndex._wl IceRefractiveIndex._n) wl

/-! ## The simulator -/

/-- Faults of a run: reads the C++ code performs outside a `std::vector`. -/
inductive Fault
  | wavelength_index_out_of_range
  | back_of_empty_vector
deriving DecidableEq

/-- The state of a `Simulator`, with the pool and random generator singletons.
The field `rng` counts the calls made to the random number generator. -/
structure Simulator where
  current_wavelength_index_ : Int
  total_ray_num_ : Nat
  active_ray_num_ : Nat
  buffer_size_ : Nat
  enter_ray_offset_ : Nat
  buffer_ : SimulationBufferData
  enter_ray_data_ : EnterRayData
  rays_ : List (List RayInfo)
  exit_ray_segments_ : List (List Nat)
  final_ray_segments_ : List Nat
  active_crystal_ctxs_ : List CrystalContext
  pool : RaySegmentPool
  rng : Nat

/-- The constructor `Simulator::Simulator(context)` with empty buffers and pool. -/
def Simulator.new : Simulator :=
  { current_wavelength_index_ := -1
    total_ray_num_ := 0
    active_ray_num_ := 0
    buffer_size_ := 0
    enter_ray_offset_ := 0
    buffer_ :=
      { pt := fun _ _ => default, dir := fun _ _ => default, w := fun _ _ => 0
        face_id := fun _ _ => 0, ray_seg := fun _ _ => none, ray_num := 0 }
    enter_ray_data_ := { ray_dir := fun _ => default, ray_seg := fun _ => none, ray_num := 0 }
    rays_ := []
    exit_ray_segments_ := []
    final_ray_segments_ := []
    active_crystal_ctxs_ := []
    pool := { segments := fun _ => default, next_unused_id := 0 }
    rng := 0 }

/-- The method `Simulator::SetWavelengthIndex(index)`. -/
def Simulator.SetWavelengthIndex (ctx : ProjectContext) (s : Simulator) (index : Int) : Simulator :=
  if index < 0 ∨ index ≥ (ctx.wavelengths_.length : Int) then
    { s with current_wavelength_index_ := -1 }
  else
    { s with current_wavelength_index_ := index }

/-- The read `context_->wavelengths_[index]` with an `int` index. -/
def wavelengthAt (ctx : ProjectContext) (index : Int) : Option WavelengthInfo :=
  if index < 0 then none else ctx.wavelengths_[index.toNat]?

/-- The method `Simulator::InitSunRays`. -/
def Simulator.InitSunRays (ctx : ProjectContext) (env : Env) (s : Simulator) : Simulator :=
  let sun_r := ctx.sun_ctx_.GetSunDiameter / 2
  let sun_ray_dir := ctx.sun_ctx_.GetSunPosition
  let e1 := if s.enter_ray_data_.ray_num < s.total_ray_num_ then
      s.enter_ray_data_.Allocate s.total_ray_num_ else s.enter_ray_data_
  let sampled := env.SampleSphericalPointsCart s.rng sun_ray_dir sun_r s.total_ray_num_
  { s with
    enter_ray_data_ :=
      { ray_dir := fun i => if i < s.total_ray_num_ then sampled i else e1.ray_dir i
        ray_seg := fun i => if i < e1.ray_num then none else e1.ray_seg i
        ray_num := e1.ray_num }
    rng := s.rng + 1 }

/-- The method `Simulator::InitMainAxis(ctx, axis)`: returns the sampled axis
(`axis[0]`, `axis[1]`, `axis[2]`) and the advanced generator. -/
def Simulator.InitMainAxis (env : Env) (ctx : CrystalContext) (rng : Nat) : Vec3 × Nat :=
  let axis := if ctx.axis.latitude_dist = Distribution.kUniform then
      env.SampleSphericalPointsSph rng
    else
      env.SampleSphericalPointsSphAxis rng ctx.axis
  if ctx.axis.roll_dist = Distribution.kUniform then
    ({ axis with z := env.GetUniform (rng + 1) * 2 * env.kPi }, rng + 2)
  else
    ({ axis with z := env.Get (rng + 1) ctx.axis.roll_dist ctx.axis.roll_mean ctx.axis.roll_std
        * env.kDegreeToRad }, rng + 2)

/-- The first face loop of `InitEntryRays` at face `k`: sets `prob[k]` and adds
it to `sum`. The state is `(prob, sum)`. -/
def entryProbFace (crystal : Crystal) (d : Vec3) (acc : (Nat → ℚ) × ℚ) (k : Nat) :
    (Nat → ℚ) × ℚ :=
  let prob0 := Function.update acc.1 k 0
  if crystal.face_norm_isnan k = false ∧ crystal.face_area k > 0 then
    let p := max (-Math.Dot3 (crystal.face_norm k) d * crystal.face_area k) 0
    (Function.update prob0 k p, acc.2 + p)
  else
    (prob0, acc.2)

/-- The array `prob` and the value `sum` after the first face loop of `InitEntryRays`. -/
def entryProbRaw (crystal : Crystal) (d : Vec3) : (Nat → ℚ) × ℚ :=
  (List.range crystal.TotalFaces).foldl (entryProbFace crystal d) (fun _ => 0, 0)

/-- The array `prob` after the second face loop (`prob[k] /= sum`). -/
def entryProb (crystal : Crystal) (d : Vec3) : Nat → ℚ :=
  (List.range crystal.TotalFaces).foldl
    (fun prob k => Function.update prob k (prob k / (entryProbRaw crystal d).2))
    (entryProbRaw crystal d).1

/-- The values computed for ray `i` by the body of the ray loop of
`Simulator::InitEntryRays` before the root segment is acquired. -/
structure EntrySample where
  axis_rot : Vec3
  dir : Vec3
  face : Int
  pt : Vec3
  prev_r : Option Nat
  w : ℚ

/-- The sampling part of the body of the ray loop of `Simulator::InitEntryRays`:
main axis, crystal-frame direction, entry face, entry point, inherited weight. -/
def Simulator.InitEntryRays_sample (env : Env) (ctx : CrystalContext) (s : Simulator) (i : Nat) :
    EntrySample :=
  let crystal := ctx.crystal
  let axis_rot := (Simulator.InitMainAxis env ctx s.rng).1
  let rng1 := (Simulator.InitMainAxis env ctx s.rng).2
  let d := env.RotateZ axis_rot (s.enter_ray_data_.ray_dir (i + s.enter_ray_offset_))
  let prob := slice (entryProb crystal d) 0 crystal.TotalFaces
  let face := env.SampleIntProb rng1 prob
  let pt := env.SampleTriangularPoints (rng1 + 1) (crystal.face_vertex face)
  let prev_r := s.enter_ray_data_.ray_seg (s.enter_ray_offset_ + i)
  { axis_rot := axis_rot, dir := d, face := face, pt := pt, prev_r := prev_r
    w := match prev_r with
      | some p => (s.pool.segments p).w
      | none => 1 }

/-- Slot `i` of buffer 0 filled with an entry ray and its root segment handle. -/
def SimulationBufferData.setEntry (b : SimulationBufferData) (i : Nat) (e : EntrySample)
    (r : Nat) : SimulationBufferData :=
  { b with
    dir := Function.update b.dir 0 (Function.update (b.dir 0) i e.dir)
    face_id := Function.update b.face_id 0 (Function.update (b.face_id 0) i e.face)
    pt := Function.update b.pt 0 (Function.update (b.pt 0) i e.pt)
    w := Function.update b.w 0 (Function.update (b.w 0) i e.w)
    ray_seg := Function.update b.ray_seg 0 (Function.update (b.ray_seg 0) i (some r)) }

/-- The record `RayInfo(r, ctx, axis_rot)` with `prev_ray_segment = prev_r`. -/
def EntrySample.info (e : EntrySample) (ctx : CrystalContext) (r : Nat) : RayInfo :=
  { first_ray_segment := r, prev_ray_segment := e.prev_r, crystal_ctx := ctx,
    main_axis_rot := e.axis_rot }

/-- The pool after the root segment of an entry ray is acquired and its
`root_ctx` attached. -/
def RaySegmentPool.addRoot (p : RaySegmentPool) (e : EntrySample) (ctx : CrystalContext) :
    RaySegmentPool :=
  (p.GetRaySegment e.pt e.dir e.w e.face).2.modify (p.GetRaySegment e.pt e.dir e.w e.face).1
    (fun seg => { seg with root_ctx := some (e.info ctx (p.GetRaySegment e.pt e.dir e.w e.face).1) })

/-- The body of the ray loop of `Simulator::InitEntryRays` for ray `i`. -/
def Simulator.InitEntryRays_ray (env : Env) (ctx : CrystalContext) (s : Simulator) (i : Nat) :
    Simulator :=
  let e := Simulator.InitEntryRays_sample env ctx s i
  let r := (s.pool.GetRaySegment e.pt e.dir e.w e.face).1
  { s with
    buffer_ := s.buffer_.setEntry i e r
    pool := s.pool.addRoot e ctx
    rays_ := backPush s.rays_ (e.info ctx r)
    rng := (Simulator.InitMainAxis env ctx s.rng).2 + 2 }

/-- The method `Simulator::InitEntryRays(ctx)`. -/
def Simulator.InitEntryRays (env : Env) (ctx : CrystalContext) (s : Simulator) : Simulator :=
  (List.range s.active_ray_num_).foldl (Simulator.InitEntryRays_ray env ctx) s

/-- The start indexes `j = 0, step, 2 * step, ...` below `active` of the job loop
of `TraceRays` (`fuel` bounds the number of iterations). -/
def stripeStarts (active step : Nat) : Nat → Nat → List Nat
  | 0, _ => []
  | fuel + 1, j => if j < active then j :: stripeStarts active step fuel (j + step) else []

/-- One job of `TraceRays`: `Optics::HitSurface` then `Optics::Propagate` on the
stripe of `current_num` rays starting at slot `j`. -/
def traceJob (env : Env) (crystal : Crystal) (n : ℚ) (current_num : Nat)
    (b : SimulationBufferData) (j : Nat) : SimulationBufferData :=
  let hit := env.HitSurface crystal n current_num
    (slice (b.dir 0) j current_num) (slice (b.face_id 0) j current_num)
    (slice (b.w 0) j current_num)
  let b1 : SimulationBufferData :=
    { b with
      dir := Function.update b.dir 1 (writeSlice (b.dir 1) (j * 2) (current_num * 2) hit.1)
      w := Function.update b.w 1 (writeSlice (b.w 1) (j * 2) (current_num * 2) hit.2) }
  let prop := env.Propagate crystal (current_num * 2)
    (slice (b1.pt 0) j current_num) (slice (b1.dir 1) (j * 2) (current_num * 2))
    (slice (b1.w 1) (j * 2) (current_num * 2)) (slice (b1.face_id 0) j current_num)
  { b1 with
    pt := Function.update b1.pt 1 (writeSlice (b1.pt 1) (j * 2) (current_num * 2) prop.1)
    face_id := Function.update b1.face_id 1
      (writeSlice (b1.face_id 1) (j * 2) (current_num * 2) prop.2) }

/-- The job fan-out of one `TraceRays` step, jobs taken in submission order. -/
def traceFanOut (env : Env) (crystal : Crystal) (n : ℚ) (s : Simulator) : Simulator :=
  let step := max (s.active_ray_num_ / 100) 10
  { s with
    buffer_ := (stripeStarts s.active_ray_num_ step s.active_ray_num_ 0).foldl
      (fun b j => traceJob env crystal n (min (s.active_ray_num_ - j) step) b j) s.buffer_ }

/-- The pool after the body of the loop of `Simulator::StoreRaySegments` has
acquired the segment of child slot `i` and linked it to its parent: the new
segment is marked finished when `face_id[1][i] < 0`, becomes `next_reflect`
(even `i`) or `next_refract` (odd `i`) of the parent, and gets the parent as
`prev` and the parent's `root_ctx`. -/
def Simulator.StoreRaySegments_link (b : SimulationBufferData) (pool : RaySegmentPool) (i : Nat) :
    RaySegmentPool :=
  let r := (pool.GetRaySegment (b.pt 0 (i / 2)) (b.dir 1 i) (b.w 1 i) (b.face_id 0 (i / 2))).1
  let pool1 := (pool.GetRaySegment (b.pt 0 (i / 2)) (b.dir 1 i) (b.w 1 i) (b.face_id 0 (i / 2))).2
  let pool2 := if b.face_id 1 i < 0 then
      pool1.modify r (fun seg => { seg with is_finished := true })
    else pool1
  let prev_ray_seg := b.ray_seg 0 (i / 2)
  let pool3 := if i % 2 = 0 then
      pool2.modifyPtr prev_ray_seg (fun seg => { seg with next_reflect := some r })
    else
      pool2.modifyPtr prev_ray_seg (fun seg => { seg with next_refract := some r })
  let pool4 := pool3.modify r (fun seg => { seg with prev := prev_ray_seg })
  pool4.modify r (fun seg =>
    { seg with root_ctx := prev_ray_seg.bind (fun p => (pool4.segments p).root_ctx) })

/-- The assignment `buffer_.ray_seg[1][i] = r`. -/
def SimulationBufferData.setChildSeg (b : SimulationBufferData) (i r : Nat) :
    SimulationBufferData :=
  { b with ray_seg := Function.update b.ray_seg 1 (Function.update (b.ray_seg 1) i (some r)) }

/-- The body of the loop of `Simulator::StoreRaySegments` for child slot `i`. -/
def Simulator.StoreRaySegments_slot (ctx : ProjectContext) (crystal : Crystal)
    (filter : AbstractRayPathFilter) (s : Simulator) (i : Nat) : Simulator :=
  if s.buffer_.w 1 i ≤ 0 then s
  else
    let r := s.pool.next_unused_id
    let pool5 := Simulator.StoreRaySegments_link s.buffer_ s.pool i
    if filter.Filter crystal pool5 r = false then
      { s with pool := pool5, buffer_ := s.buffer_.setChildSeg i r }
    else if (pool5.segments r).is_finished = true ∨ (pool5.segments r).w < ctx.kPropMinW then
      { s with pool := pool5, buffer_ := s.buffer_.setChildSeg i r
               exit_ray_segments_ := backPush s.exit_ray_segments_ r }
    else
      { s with pool := pool5, buffer_ := s.buffer_.setChildSeg i r }

/-- The method `Simulator::StoreRaySegments(crystal, filter)`. -/
def Simulator.StoreRaySegments (ctx : ProjectContext) (crystal : Crystal)
    (filter : AbstractRayPathFilter) (s : Simulator) : Simulator :=
  (List.range (s.active_ray_num_ * 2)).foldl (Simulator.StoreRaySegments_slot ctx crystal filter) s

/-- Slot `i` of buffer 1 copied to slot `idx` of buffer 0. -/
def SimulationBufferData.keepSlot (b : SimulationBufferData) (idx i : Nat) :
    SimulationBufferData :=
  { b with
    pt := Function.update b.pt 0 (Function.update (b.pt 0) idx (b.pt 1 i))
    dir := Function.update b.dir 0 (Function.update (b.dir 0) idx (b.dir 1 i))
    w := Function.update b.w 0 (Function.update (b.w 0) idx (b.w 1 i))
    face_id := Function.update b.face_id 0 (Function.update (b.face_id 0) idx (b.face_id 1 i))
    ray_seg := Function.update b.ray_seg 0 (Function.update (b.ray_seg 0) idx (b.ray_seg 1 i)) }

/-- The body of the loop of `Simulator::RefreshBuffer` for slot `i`; the state is
the buffer and the local `idx`. -/
def Simulator.RefreshBuffer_slot (ctx : ProjectContext) (acc : SimulationBufferData × Nat)
    (i : Nat) : SimulationBufferData × Nat :=
  if acc.1.face_id 1 i ≥ 0 ∧ acc.1.w 1 i > ctx.kPropMinW then
    (acc.1.keepSlot acc.2 i, acc.2 + 1)
  else acc

/-- The method `Simulator::RefreshBuffer`. -/
def Simulator.RefreshBuffer (ctx : ProjectContext) (s : Simulator) : Simulator :=
  let res := (List.range (s.active_ray_num_ * 2)).foldl (Simulator.RefreshBuffer_slot ctx)
    (s.buffer_, 0)
  { s with buffer_ := res.1, active_ray_num_ := res.2 }

/-- The buffer growth at the head of an iteration of the hit loop of
`Simulator::TraceRays`. -/
def Simulator.growForTrace (s : Simulator) : Simulator :=
  if s.buffer_size_ < s.active_ray_num_ * 2 then
    { s with
      buffer_size_ := s.active_ray_num_ * kBufferSizeFactor
      buffer_ := s.buffer_.Allocate (s.active_ray_num_ * kBufferSizeFactor) }
  else s

/-- One iteration of the hit loop of `Simulator::TraceRays`. -/
def Simulator.TraceRays_step (ctx : ProjectContext) (env : Env) (crystal : Crystal)
    (filter : AbstractRayPathFilter) (n : ℚ) (s : Simulator) : Simulator :=
  Simulator.RefreshBuffer ctx
    (Simulator.StoreRaySegments ctx crystal filter (traceFanOut env crystal n s.growForTrace))

/-- The method `Simulator::TraceRays(crystal, filter)`. -/
def Simulator.TraceRays (ctx : ProjectContext) (env : Env) (crystal : Crystal)
    (filter : AbstractRayPathFilter) (s : Simulator) : Except Fault Simulator :=
  let max_recursion_num := ctx.GetRayHitNum
  match wavelengthAt ctx s.current_wavelength_index_ with
  | none => Except.error Fault.wavelength_index_out_of_range
  | some wl =>
    let n := IceRefractiveIndex.Get wl.wavelength
    Except.ok ((List.range max_recursion_num.toNat).foldl
      (fun s _ => Simulator.TraceRays_step ctx env crystal filter n s) s)

/-- The rotation `r->root_ctx->main_axis_rot` (a null `root_ctx` is not
dereferenced in the model). -/
def RaySegment.axis_rot (seg : RaySegment) : Vec3 :=
  match seg.root_ctx with
  | some c => c.main_axis_rot
  | none => default

/-- The body of the first loop of `Simulator::RestoreResultRays` for the exit
segment `r`; the state is the simulator and the local `idx`. -/
def Simulator.RestoreResultRays_seg (ctx : ProjectContext) (env : Env) (prob : ℚ)
    (acc : Simulator × Nat) (r : Nat) : Simulator × Nat :=
  let s := acc.1
  let idx := acc.2
  let seg := s.pool.segments r
  if seg.is_finished = false ∨ seg.w < ctx.kScatMinW then acc
  else if env.GetUniform s.rng > prob then
    ({ s with final_ray_segments_ := s.final_ray_segments_ ++ [r], rng := s.rng + 1 }, idx)
  else
    ({ s with
       enter_ray_data_ :=
         { s.enter_ray_data_ with
           ray_dir := Function.update s.enter_ray_data_.ray_dir idx
             (env.RotateZBack seg.axis_rot seg.dir)
           ray_seg := Function.update s.enter_ray_data_.ray_seg idx (some r) }
       rng := s.rng + 1 }, idx + 1)

/-- The body of the shuffle loop of `Simulator::RestoreResultRays` at index `i`. -/
def Simulator.RestoreResultRays_shuffle (env : Env) (s : Simulator) (i : Nat) : Simulator :=
  let tmp_idx := env.SampleInt s.rng ((s.total_ray_num_ - i : Nat) : Int)
  let j := ((i : Int) + tmp_idx).toNat
  let e := s.enter_ray_data_
  let tmp_dir := e.ray_dir j
  let tmp_r := e.ray_seg j
  { s with
    enter_ray_data_ :=
      { e with
        ray_dir := Function.update (Function.update e.ray_dir j (e.ray_dir i)) i tmp_dir
        ray_seg := Function.update (Function.update e.ray_seg j (e.ray_seg i)) i tmp_r }
    rng := s.rng + 1 }

/-- The last vector of a vector of vectors (`v.back()`), empty when there is none. -/
def backOf {α : Type} (v : List (List α)) : List α := v.getLastD []

/-- The buffer and enter-ray growth at the head of `Simulator::RestoreResultRays`. -/
def Simulator.growForRestore (s : Simulator) : Simulator :=
  let exits := backOf s.exit_ray_segments_
  let s1 : Simulator := if s.buffer_size_ < exits.length * 2 then
      { s with
        buffer_size_ := exits.length * 2
        buffer_ := s.buffer_.Allocate (exits.length * 2) }
    else s
  if s1.enter_ray_data_.ray_num < exits.length then
    { s1 with enter_ray_data_ := s1.enter_ray_data_.Allocate exits.length }
  else s1

/-- The first loop of `Simulator::RestoreResultRays(prob)` and the assignment
`total_ray_num_ = idx`. -/
def Simulator.RestoreResultRays_select (ctx : ProjectContext) (env : Env) (prob : ℚ)
    (s : Simulator) : Simulator :=
  let res := (backOf s.exit_ray_segments_).foldl (Simulator.RestoreResultRays_seg ctx env prob)
    (s.growForRestore, 0)
  { res.1 with total_ray_num_ := res.2 }

/-- The method `Simulator::RestoreResultRays(prob)`. -/
def Simulator.RestoreResultRays (ctx : ProjectContext) (env : Env) (prob : ℚ) (s : Simulator) :
    Simulator :=
  let s3 := Simulator.RestoreResultRays_select ctx env prob s
  (List.range s3.total_ray_num_).foldl (Simulator.RestoreResultRays_shuffle env) s3

/-- Rounding of a rational to the nearest integer, ties to the even integer
(the rounding mode of IEEE 754 arithmetic). -/
def roundHalfEven (q : ℚ) : Int :=
  if q - ⌊q⌋ < 1 / 2 then ⌊q⌋
  else if q - ⌊q⌋ > 1 / 2 then ⌊q⌋ + 1
  else if ⌊q⌋ % 2 = 0 then ⌊q⌋ else ⌊q⌋ + 1

/-- The spacing of binary32 values around `x >= 2^24`: doubled from `u` while
`2^24 * u <= x`, at most `fuel` times (the largest spacing of a finite binary32
value is `2^104`). -/
def ulpUp : Nat → ℚ → ℚ → ℚ
  | 0, _, u => u
  | fuel + 1, x, u => if 16777216 * u ≤ x then ulpUp fuel x (2 * u) else u

/-- The spacing of binary32 values around `0 <= x < 2^24`: halved from `u` while
`x < 2^23 * u`, at most `fuel` times (the spacing of the subnormal values is
`2^-149`). -/
def ulpDown : Nat → ℚ → ℚ → ℚ
  | 0, _, u => u
  | fuel + 1, x, u => if x < 8388608 * u then ulpDown fuel x (u / 2) else u

/-- The spacing of the binary32 values around `x >= 0`. -/
def floatUlp (x : ℚ) : ℚ :=
  if 16777216 ≤ x then ulpUp 104 x 1 else ulpDown 149 x 1

/-- The binary32 value nearest to `x` (round to nearest, ties to even; values
beyond the largest finite binary32 value are not modelled): the result of a
`float` operation whose exact result is `x`, and of the conversion of an
integer `x` to `float`. -/
def roundToFloat (x : ℚ) : ℚ :=
  if x < 0 then -((roundHalfEven (-x / floatUlp (-x)) : ℚ) * floatUlp (-x))
  else (roundHalfEven (x / floatUlp x) : ℚ) * floatUlp x

/-- The number of rays `static_cast<size_t>(c.population * total_ray_num_)` of a
crystal entry: the counter is converted to `float`, the product is a `float`
product, and the conversion to `size_t` truncates. -/
def activeOf (c : CrystalInfo) (total : Nat) : Nat :=
  (⌊roundToFloat (c.population * roundToFloat (total : ℚ))⌋).toNat

/-- The head of the crystal loop body of `Simulator::Start`: `active_ray_num_`
is set and the buffer grown. -/
def Simulator.crystalBegin (c : CrystalInfo) (s : Simulator) : Simulator :=
  let s1 : Simulator :=
    { s with active_ray_num_ := activeOf c s.total_ray_num_ }
  if s1.buffer_size_ < s1.total_ray_num_ * kBufferSizeFactor then
    { s1 with
      buffer_size_ := s1.total_ray_num_ * kBufferSizeFactor
      buffer_ := s1.buffer_.Allocate (s1.total_ray_num_ * kBufferSizeFactor) }
  else s1

/-- The assignment `enter_ray_offset_ += active_ray_num_`. -/
def Simulator.advanceOffset (s : Simulator) : Simulator :=
  { s with enter_ray_offset_ := s.enter_ray_offset_ + s.active_ray_num_ }

/-- The crystal loop body of `Simulator::Start` for the crystal entry `c`. -/
def Simulator.crystalPass (ctx : ProjectContext) (env : Env) (c : CrystalInfo) (s : Simulator) :
    Except Fault Simulator :=
  Simulator.TraceRays ctx env (ctx.GetCrystal c.crystal_id) (ctx.GetRayPathFilter c.filter_id)
    (Simulator.InitEntryRays env (ctx.GetCrystalContext c.crystal_id)
      (Simulator.crystalBegin c s)).advanceOffset

/-- The crystal loop of one scatter pass of `Simulator::Start`. -/
def Simulator.crystalLoop (ctx : ProjectContext) (env : Env) :
    List CrystalInfo → Simulator → Except Fault Simulator
  | [], s => Except.ok s
  | c :: cs, s =>
    match Simulator.crystalPass ctx env c s with
    | Except.error e => Except.error e
    | Except.ok s5 => Simulator.crystalLoop ctx env cs s5

/-- The head of the scatter loop body of `Simulator::Start`: a new ray list and
a new exit list are appended. -/
def Simulator.scatterBegin (s : Simulator) : Simulator :=
  { s with rays_ := s.rays_ ++ [[]], exit_ray_segments_ := s.exit_ray_segments_ ++ [[]] }

/-- The tail of the scatter loop body of `Simulator::Start`: `RestoreResultRays`
unless the descriptor is the last one, then `enter_ray_offset_ = 0`. -/
def Simulator.scatterEnd (ctx : ProjectContext) (env : Env) (it : MultiScatterContext)
    (is_last : Bool) (s : Simulator) : Simulator :=
  let s3 := if is_last = false then Simulator.RestoreResultRays ctx env it.GetProbability s else s
  { s3 with enter_ray_offset_ := 0 }

/-- The scatter loop of `Simulator::Start` over the remaining descriptors. -/
def Simulator.scatterLoop (ctx : ProjectContext) (env : Env) :
    List MultiScatterContext → Simulator → Except Fault Simulator
  | [], s => Except.ok s
  | it :: rest, s =>
    match Simulator.crystalLoop ctx env it.GetCrystalInfo s.scatterBegin with
    | Except.error e => Except.error e
    | Except.ok s2 =>
      Simulator.scatterLoop ctx env rest (Simulator.scatterEnd ctx env it rest.isEmpty s2)

/-- The reset at the head of `Simulator::Start`, up to the call of `InitSunRays`. -/
def Simulator.reset (ctx : ProjectContext) (s : Simulator) : Simulator :=
  { s with
    rays_ := []
    exit_ray_segments_ := []
    final_ray_segments_ := []
    active_crystal_ctxs_ := []
    pool := s.pool.Clear
    enter_ray_data_ := s.enter_ray_data_.Clean
    enter_ray_offset_ := 0
    total_ray_num_ := ctx.GetInitRayNum }

/-- The method `Simulator::Start`. -/
def Simulator.Start (ctx : ProjectContext) (env : Env) (s : Simulator) : Except Fault Simulator :=
  match Simulator.scatterLoop ctx env ctx.multi_scatter_info_
      (Simulator.InitSunRays ctx env (Simulator.reset ctx s)) with
  | Except.error e => Except.error e
  | Except.ok s1 =>
    match s1.exit_ray_segments_.getLast? with
    | none => Except.error Fault.back_of_empty_vector
    | some last =>
      Except.ok
        { s1 with
          final_ray_segments_ := last.foldl (fun final r => final ++ [r]) s1.final_ray_segments_ }

/-! ## Dump format -/

/-- The four floats `dx, dy, dz, w` written for the final segment `r`. -/
def writeRay (data : Nat → ℚ) (curr_data : Nat) (v : Vec3) (w : ℚ) : Nat → ℚ :=
  Function.update (Function.update (Function.update (Function.update data
    curr_data v.x) (curr_data + 1) v.y) (curr_data + 2) v.z) (curr_data + 3) w

/-- The body of the segment loop of `Simulator::SaveFinalDirections`; the state
is the array `data` and the local `idx` (`curr_data = data + 4 * idx`). -/
def Simulator.SaveFinalDirections_seg (env : Env) (s : Simulator) (acc : (Nat → ℚ) × Nat)
    (r : Nat) : (Nat → ℚ) × Nat :=
  let seg := s.pool.segments r
  (writeRay acc.1 (acc.2 * 4) (env.RotateZBack seg.axis_rot seg.dir) seg.w, acc.2 + 1)

/-- The method `Simulator::SaveFinalDirections(filename)`: the floats written to
the file, or `none` when the file cannot be opened. -/
def Simulator.SaveFinalDirections (ctx : ProjectContext) (env : Env) (file_opens : Bool)
    (s : Simulator) : Option (List ℚ) :=
  if file_opens = false then none
  else if s.current_wavelength_index_ < 0 ∨
      s.current_wavelength_index_ ≥ (ctx.wavelengths_.length : Int) then some []
  else
    match wavelengthAt ctx s.current_wavelength_index_ with
    | none => some []
    | some w =>
      let res := s.final_ray_segments_.foldl (Simulator.SaveFinalDirections_seg env s)
        (fun _ => 0, 0)
      some ([(w.wavelength : ℚ), w.weight] ++ slice res.1 0 (res.2 * 4))

/-- The conversion `static_cast<int>(float)`: truncation toward zero. -/
def truncToInt (q : ℚ) : Int := if 0 ≤ q then ⌊q⌋ else ⌈q⌉

/-- The call `File::Read(buffer, n)` at file position `pos`: the buffer after the
read and the number of floats read. -/
def fileRead (file : List ℚ) (pos : Nat) (buffer : Nat → ℚ) (n : Nat) : (Nat → ℚ) × Nat :=
  let count := min n (file.length - pos)
  (fun i => if i < count then file.getD (pos + i) 0 else buffer i, count)

/-- The arguments of a call `LoadData(wl, weight, ray_data, num)`; `ray_data`
holds the `4 * num` floats the call may read. -/
structure LoadDataCall where
  wl : ℚ
  weight : ℚ
  ray_data : List ℚ
  num : Nat
deriving DecidableEq

/-- The method `SpectrumRenderer::LoadDataFromFile(file)`: the returned value and
the call of `LoadData` it makes, if any. `file` lists the floats of the file,
`uninit` is the content of the memory that `read_buffer` points to before any
read. -/
def SpectrumRenderer.LoadDataFromFile (kMinWavelength kMaxWaveLength : Int) (uninit : Nat → ℚ)
    (file : List ℚ) : Int × Option LoadDataCall :=
  let size := file.length
  let rd1 := fileRead file 0 uninit 2
  if rd1.2 ≤ 0 then (-1, none)
  else
    let wavelength := truncToInt (rd1.1 0)
    let wavelength_weight := rd1.1 1
    if wavelength < kMinWavelength ∨ wavelength > kMaxWaveLength ∨ wavelength_weight < 0 then
      (-1, none)
    else
      let rd2 := fileRead file rd1.2 rd1.1 size
      let total_ray_count := rd2.2 / 4
      if total_ray_count = 0 then (0, none)
      else
        ((total_ray_count : Int),
          some ⟨(wavelength : ℚ), wavelength_weight, slice rd2.1 0 (4 * total_ray_count),
            total_ray_count⟩)

/-- Segments that `RestoreResultRays(prob)` appends to `final_ray_segments_` when run on `s`. -/
def Simulator.restoredBy (ctx : ProjectContext) (env : Env) (prob : ℚ) (s : Simulator) : List Nat :=
  (Simulator.RestoreResultRays ctx env prob s).final_ray_segments_.drop s.final_ray_segments_.length

/-- Segments moved into `final_ray_segments_` by the calls of `RestoreResultRays`
made by the scatter loop, in call order. -/
def Simulator.restoredInLoop (ctx : ProjectContext) (env : Env) :
    List MultiScatterContext → Simulator → List Nat
  | [], _ => []
  | it :: rest, s =>
    match Simulator.crystalLoop ctx env it.GetCrystalInfo s.scatterBegin with
    | Except.error _ => []
    | Except.ok s2 =>
      (if rest.isEmpty = false then Simulator.restoredBy ctx env it.GetProbability s2 else []) ++
        Simulator.restoredInLoop ctx env rest (Simulator.scatterEnd ctx env it rest.isEmpty s2)

/-- A one-face crystal used in the worked examples. -/
def sampleCrystal : Crystal :=
  { TotalFaces := 1, face_norm := fun _ => ⟨0, 0, 1⟩, face_norm_isnan := fun _ => false
    face_vertex := fun _ => (⟨0, 0, 0⟩, ⟨1, 0, 0⟩, ⟨0, 1, 0⟩), face_area := fun _ => 1 / 2 }

/-- Collaborators of the worked examples: every uniform draw is `1/2`, rotations
are the identity, the surface-hit kernel reflects `1999/2000` of the weight and
refracts the rest, the reflected child leaves the crystal and the refracted
child stays inside. -/
def sampleEnv : Env :=
  { GetUniform := fun _ => 1 / 2
    Get := fun _ _ _ _ => 0
    SampleSphericalPointsSph := fun _ => ⟨0, 0, 0⟩
    SampleSphericalPointsSphAxis := fun _ _ => ⟨0, 0, 0⟩
    SampleSphericalPointsCart := fun _ d _ _ _ => d
    SampleIntProb := fun _ _ => 0
    SampleInt := fun _ _ => 0
    SampleTriangularPoints := fun _ t => t.1
    RotateZ := fun _ d => d
    RotateZBack := fun _ d => d
    HitSurface := fun _ _ _ dirs _ ws =>
      (fun k => dirs.getD (k / 2) default,
       fun k => if k % 2 = 0 then ws.getD (k / 2) 0 * (1999 / 2000)
         else ws.getD (k / 2) 0 * (1 - 1999 / 2000))
    Propagate := fun _ _ pts _ _ _ =>
      (fun k => pts.getD (k / 2) default, fun k => if k % 2 = 0 then -1 else 0)
    kPi := 22 / 7
    kDegreeToRad := 11 / 630 }

/-- The project context of the worked examples: one wavelength, one initial
ray, one hit per trace, and the given scatter descriptors. -/
def sampleCtx (scatter : List MultiScatterContext) : ProjectContext :=
  { wavelengths_ := [⟨550, 1⟩]
    multi_scatter_info_ := scatter
    sun_ctx_ := ⟨⟨0, 0, -1⟩, 1 / 2⟩
    GetInitRayNum := 1
    GetRayHitNum := 1
    kScatMinW := 1 / 100000
    kPropMinW := 1 / 1000
    GetCrystalContext := fun _ =>
      ⟨sampleCrystal, ⟨Distribution.kUniform, Distribution.kUniform, 0, 0, 0, 0⟩⟩
    GetCrystal := fun _ => sampleCrystal
    GetRayPathFilter := fun _ => ⟨fun _ _ _ => true⟩ }

/-- Two scatter descriptors of one crystal each, the first with probability 0. -/
def sampleTwoPass : List MultiScatterContext := [⟨[⟨0, 1, 0⟩], 0⟩, ⟨[⟨0, 1, 0⟩], 0⟩]

/-- The final segment list of a run, when it returned. -/
def finalOf : Except Fault Simulator → Option (List Nat)
  | Except.ok s => some s.final_ray_segments_
  | Except.error _ => none

/-- The exit segment lists of a run, when it returned. -/
def exitOf : Except Fault Simulator → Option (List (List Nat))
  | Except.ok s => some s.exit_ray_segments_
  | Except.error _ => none

/-- The fault of a run, when it did not return. -/
def faultOf : Except Fault Simulator → Option Fault
  | Except.ok _ => none
  | Except.error e => some e

/-- Fields that neither `InitEntryRays` nor `TraceRays` changes. -/
def TraceFrame (s t : Simulator) : Prop :=
  t.current_wavelength_index_ = s.current_wavelength_index_ ∧
  t.final_ray_segments_ = s.final_ray_segments_ ∧
  t.total_ray_num_ = s.total_ray_num_ ∧
  t.enter_ray_data_ = s.enter_ray_data_ ∧
  t.enter_ray_offset_ = s.enter_ray_offset_ ∧
  t.exit_ray_segments_.length = s.exit_ray_segments_.length ∧
  t.rays_.length = s.rays_.length

/-- Fields that a whole crystal loop leaves unchanged. -/
def PassFrame (s t : Simulator) : Prop :=
  t.current_wavelength_index_ = s.current_wavelength_index_ ∧
  t.final_ray_segments_ = s.final_ray_segments_ ∧
  t.total_ray_num_ = s.total_ray_num_ ∧
  t.enter_ray_data_ = s.enter_ray_data_ ∧
  t.exit_ray_segments_.length = s.exit_ray_segments_.length ∧
  t.rays_.length = s.rays_.length

/-- Fields that `RestoreResultRays` leaves unchanged, and the growth of the final list. -/
def RestoreFrame (s t : Simulator) : Prop :=
  t.current_wavelength_index_ = s.current_wavelength_index_ ∧
  t.exit_ray_segments_ = s.exit_ray_segments_ ∧
  t.rays_ = s.rays_ ∧
  t.pool = s.pool ∧
  ∃ l, t.final_ray_segments_ = s.final_ray_segments_ ++ l

/-- The test of `RestoreResultRays` on an exit segment `r` of the pass just
finished: it is kept (not skipped) when it is finished and its weight is not
below `kScatMinW`. -/
def restoreEligible (ctx : ProjectContext) (pool : RaySegmentPool) (r : Nat) : Bool :=
  (pool.segments r).is_finished && decide (¬ (pool.segments r).w < ctx.kScatMinW)

/-- A one-descriptor scatter list of one crystal. -/
def sampleOnePass : List MultiScatterContext := [⟨[⟨0, 1, 0⟩], 0⟩]

/-- The weight of face `k` before normalisation, as the first face loop of
`InitEntryRays` leaves it in `prob[k]`. -/
def entryFaceWeight (crystal : Crystal) (d : Vec3) (k : Nat) : ℚ :=
  if crystal.face_norm_isnan k = false ∧ crystal.face_area k > 0 then
    max (-Math.Dot3 (crystal.face_norm k) d * crystal.face_area k) 0
  else 0

/-- The state of the one-pass example run right before `InitEntryRays`. -/
def sampleSeeded : Simulator :=
  Simulator.crystalBegin ⟨0, 1, 0⟩
    (Simulator.InitSunRays (sampleCtx sampleOnePass) sampleEnv
      (Simulator.reset (sampleCtx sampleOnePass)
        (Simulator.new.SetWavelengthIndex (sampleCtx sampleOnePass) 0))).scatterBegin

/-- The record of a final segment `r` in the dump: the three components of
`RotateZBack(main_axis_rot of its root_ctx, dir)` followed by its weight. -/
def rayRecord (env : Env) (s : Simulator) (r : Nat) : List ℚ :=
  [(env.RotateZBack (s.pool.segments r).axis_rot (s.pool.segments r).dir).x,
   (env.RotateZBack (s.pool.segments r).axis_rot (s.pool.segments r).dir).y,
   (env.RotateZBack (s.pool.segments r).axis_rot (s.pool.segments r).dir).z,
   (s.pool.segments r).w]

/-- The state a run returned, or the fresh simulator when it did not return. -/
def resultOf : Except Fault Simulator → Simulator
  | Except.ok s => s
  | Except.error _ => Simulator.new

/-- The state after `Start` in the two-pass example run. -/
def sampleRun : Simulator :=
  resultOf (Simulator.Start (sampleCtx sampleTwoPass) sampleEnv
    (Simulator.new.SetWavelengthIndex (sampleCtx sampleTwoPass) 0))

/-- The root record of segment `r` after the two-pass example run (a record
with a zero axis where the segment has none). -/
def sampleRunInfo (r : Nat) : RayInfo :=
  (sampleRun.pool.segments r).root_ctx.getD
    ⟨0, none, (sampleCtx sampleTwoPass).GetCrystalContext 0, ⟨0, 0, 0⟩⟩

/-- The weight of the segment a child link points to; 0 for a null link. -/
def RaySegmentPool.childW (p : RaySegmentPool) : Option Nat → ℚ
  | none => 0
  | some c => (p.segments c).w

/-- The energy bound on the segment tree of a pool: every segment with a
parent (`prev`) has a weight between 0 and the parent's weight, the weights of
the reflect and refract children of a segment that has a child sum to at most
its weight, child links point to acquired segments, and every segment without
a parent is a root segment carrying its own `RayInfo`. -/
def PoolEnergy (p : RaySegmentPool) : Prop :=
  (∀ h, h < p.next_unused_id → ∀ q, (p.segments h).prev = some q →
    q < p.next_unused_id ∧ 0 ≤ (p.segments h).w ∧ (p.segments h).w ≤ (p.segments q).w) ∧
  (∀ q, q < p.next_unused_id →
    ((p.segments q).next_reflect ≠ none ∨ (p.segments q).next_refract ≠ none) →
    p.childW (p.segments q).next_reflect + p.childW (p.segments q).next_refract ≤
      (p.segments q).w) ∧
  (∀ q, q < p.next_unused_id → ∀ a,
    ((p.segments q).next_reflect = some a ∨ (p.segments q).next_refract = some a) →
    a < p.next_unused_id) ∧
  (∀ h, h < p.next_unused_id → (p.segments h).prev = none →
    ∃ info, (p.segments h).root_ctx = some info ∧ info.first_ray_segment = h)

/-- The assumption on the surface-hit kernel: for every ray `m` of a stripe, the
weights written to child slots `2m` and `2m+1` are `w * R` and `w * (1 - R)`
for some `0 <= R <= 1`, where `w` is the weight of the parent slot. -/
def KernelSplits (env : Env) : Prop :=
  ∀ (crystal : Crystal) (n : ℚ) (num : Nat) (dirs : List Vec3) (faces : List Int) (ws : List ℚ)
    (m : Nat), m < num → m < ws.length →
    ∃ R : ℚ, 0 ≤ R ∧ R ≤ 1 ∧
      (env.HitSurface crystal n num dirs faces ws).2 (2 * m) = ws.getD m 0 * R ∧
      (env.HitSurface crystal n num dirs faces ws).2 (2 * m + 1) = ws.getD m 0 * (1 - R)

/-- Slot `k` of buffer 0 holds the weight of the segment its handle refers to. -/
def SlotMatches (b : SimulationBufferData) (pool : RaySegmentPool) (k : Nat) : Prop :=
  ∃ h, b.ray_seg 0 k = some h ∧ h < pool.next_unused_id ∧ (pool.segments h).w = b.w 0 k

/-- Slot `k` of buffer 0 matches its segment, and that segment has no child yet. -/
def SlotLinked (b : SimulationBufferData) (pool : RaySegmentPool) (k : Nat) : Prop :=
  ∃ h, b.ray_seg 0 k = some h ∧ h < pool.next_unused_id ∧ (pool.segments h).w = b.w 0 k ∧
    (pool.segments h).next_reflect = none ∧ (pool.segments h).next_refract = none

/-- The first `n` slots of buffer 0: every slot of positive weight is linked to
its own childless segment. -/
def LiveSlots (b : SimulationBufferData) (pool : RaySegmentPool) (n : Nat) : Prop :=
  (∀ k, k < n → 0 < b.w 0 k → SlotLinked b pool k) ∧
  (∀ k k', k < n → k' < n → 0 < b.w 0 k → 0 < b.w 0 k' →
    b.ray_seg 0 k = b.ray_seg 0 k' → k = k')

/-- The child weights of the first `n` parent slots obey the kernel's split. -/
def KernelRel (b : SimulationBufferData) (n : Nat) : Prop :=
  ∀ k, k < n → ∃ R : ℚ, 0 ≤ R ∧ R ≤ 1 ∧
    b.w 1 (2 * k) = b.w 0 k * R ∧ b.w 1 (2 * k + 1) = b.w 0 k * (1 - R)

/-- What the slot loop of `StoreRaySegments` has done after the child slots
below `i`, started from `s0`: buffer 0, the weights and `active_ray_num_` are
untouched, old segments keep their weight, and every child slot `j < i` of
positive weight has its own new segment of that weight in `ray_seg[1][j]`. -/
def StoreCreated (s0 : Simulator) (i : Nat) (t : Simulator) : Prop :=
  t.active_ray_num_ = s0.active_ray_num_ ∧
  t.buffer_.w = s0.buffer_.w ∧
  t.buffer_.face_id = s0.buffer_.face_id ∧
  t.buffer_.ray_seg 0 = s0.buffer_.ray_seg 0 ∧
  s0.pool.next_unused_id ≤ t.pool.next_unused_id ∧
  (∀ h, h < s0.pool.next_unused_id → (t.pool.segments h).w = (s0.pool.segments h).w) ∧
  (∀ j, j < i → 0 < s0.buffer_.w 1 j →
    ∃ r, t.buffer_.ray_seg 1 j = some r ∧ s0.pool.next_unused_id ≤ r ∧
      r < t.pool.next_unused_id ∧ (t.pool.segments r).w = s0.buffer_.w 1 j) ∧
  (∀ j j' r r', j < j' → j' < i → 0 < s0.buffer_.w 1 j → 0 < s0.buffer_.w 1 j' →
    t.buffer_.ray_seg 1 j = some r → t.buffer_.ray_seg 1 j' = some r' → r < r')

/-- The energy side of the slot loop of `StoreRaySegments` after the child
slots below `i`: the pool obeys the energy bound, new segments have no child,
and each parent slot `k` of positive weight has exactly the children of its
processed child slots. -/
def StoreEnergy (s0 : Simulator) (i : Nat) (t : Simulator) : Prop :=
  PoolEnergy t.pool ∧
  (∀ r, s0.pool.next_unused_id ≤ r → r < t.pool.next_unused_id →
    (t.pool.segments r).next_reflect = none ∧ (t.pool.segments r).next_refract = none) ∧
  (∀ k, k < s0.active_ray_num_ → 0 < s0.buffer_.w 0 k →
    ∃ h, s0.buffer_.ray_seg 0 k = some h ∧ h < s0.pool.next_unused_id ∧
      (i ≤ 2 * k + 1 → (t.pool.segments h).next_refract = none) ∧
      (i ≤ 2 * k → (t.pool.segments h).next_reflect = none) ∧
      (2 * k < i →
        t.pool.childW (t.pool.segments h).next_reflect = max (s0.buffer_.w 1 (2 * k)) 0))

/-- What the slot loop of `RefreshBuffer` has done after the slots below `i`,
started from the buffer `b0`: buffer 1 is untouched, and the first `idx` slots
of buffer 0 are copies of kept slots `src 0 < src 1 < ...` of buffer 1. -/
def RefreshInv (ctx : ProjectContext) (b0 : SimulationBufferData) (i : Nat)
    (acc : SimulationBufferData × Nat) : Prop :=
  acc.2 ≤ i ∧ acc.1.w 1 = b0.w 1 ∧ acc.1.face_id 1 = b0.face_id 1 ∧
  acc.1.ray_seg 1 = b0.ray_seg 1 ∧
  ∃ src : Nat → Nat,
    (∀ a, a < acc.2 → src a < i ∧ 0 ≤ b0.face_id 1 (src a) ∧ ctx.kPropMinW < b0.w 1 (src a) ∧
      acc.1.w 0 a = b0.w 1 (src a) ∧ acc.1.face_id 0 a = b0.face_id 1 (src a) ∧
      acc.1.ray_seg 0 a = b0.ray_seg 1 (src a)) ∧
    (∀ a a', a < a' → a' < acc.2 → src a < src a')

/-- What the ray loop of `InitEntryRays` has done after the rays below `i`,
started from `s0`: one root segment per ray, in order, each holding the weight
of its buffer slot and no child. -/
def InitInv (s0 : Simulator) (i : Nat) (t : Simulator) : Prop :=
  t.active_ray_num_ = s0.active_ray_num_ ∧
  t.pool.next_unused_id = s0.pool.next_unused_id + i ∧
  (PoolEnergy s0.pool → PoolEnergy t.pool) ∧
  (∀ k, k < i → t.buffer_.ray_seg 0 k = some (s0.pool.next_unused_id + k) ∧
    (t.pool.segments (s0.pool.next_unused_id + k)).w = t.buffer_.w 0 k ∧
    (t.pool.segments (s0.pool.next_unused_id + k)).next_reflect = none ∧
    (t.pool.segments (s0.pool.next_unused_id + k)).next_refract = none)

/-- The exit list that feeds scatter pass `j`: none for the first pass, the
exit list of pass `j - 1` afterwards. -/
def prevExitAt (exits : List (List Nat)) : Nat → Option (List Nat)
  | 0 => none
  | j + 1 => some (exits.getD j [])

/-- An enter-ray handle fits the pass fed by `prev`: null in the first pass, a
finished acquired segment of the previous pass's exit list afterwards. -/
def EntryOk (pool : RaySegmentPool) (prev : Option (List Nat)) (h : Option Nat) : Prop :=
  match prev with
  | none => h = none
  | some E => ∃ p, h = some p ∧ p ∈ E ∧ p < pool.next_unused_id ∧
      (pool.segments p).is_finished = true

/-- The root recorded by `info` fits the pass fed by `prev`: the root segment
is acquired and carries `info`; in the first pass it has weight 1 and no
previous segment, afterwards its previous segment is a finished exit segment of
the previous pass and it inherits that segment's weight. -/
def RootOk (pool : RaySegmentPool) (prev : Option (List Nat)) (info : RayInfo) : Prop :=
  info.first_ray_segment < pool.next_unused_id ∧
  (pool.segments info.first_ray_segment).root_ctx = some info ∧
  match prev with
  | none => info.prev_ray_segment = none ∧ (pool.segments info.first_ray_segment).w = 1
  | some E => ∃ p, info.prev_ray_segment = some p ∧ p ∈ E ∧ p < pool.next_unused_id ∧
      (pool.segments p).is_finished = true ∧
      (pool.segments info.first_ray_segment).w = (pool.segments p).w

/-- The pool `q` extends the pool `p`: it has at least as many segments, and the
segments of `p` keep their weight, finished flag and root context. -/
def PoolExt (p q : RaySegmentPool) : Prop :=
  p.next_unused_id ≤ q.next_unused_id ∧
  ∀ h, h < p.next_unused_id →
    (q.segments h).w = (p.segments h).w ∧
    (q.segments h).is_finished = (p.segments h).is_finished ∧
    (q.segments h).root_ctx = (p.segments h).root_ctx

/-- The bookkeeping of the passes run so far: one exit list per ray list, exit
handles are acquired segments, and every recorded root fits its pass. -/
def RootsCore (s : Simulator) : Prop :=
  s.rays_.length = s.exit_ray_segments_.length ∧
  (∀ j r, r ∈ s.exit_ray_segments_.getD j [] → r < s.pool.next_unused_id) ∧
  (∀ j info, info ∈ s.rays_.getD j [] → RootOk s.pool (prevExitAt s.exit_ray_segments_ j) info)

/-- The first `total_ray_num_` enter-ray handles fit pass number `m`. -/
def EnterFits (s : Simulator) (m : Nat) : Prop :=
  ∀ i, i < s.total_ray_num_ →
    EntryOk s.pool (prevExitAt s.exit_ray_segments_ m) (s.enter_ray_data_.ray_seg i)

/-- The invariant inside a scatter pass: the core bookkeeping, a current pass,
and enter-ray handles that fit it. -/
def PassInv (s : Simulator) : Prop :=
  RootsCore s ∧ 0 < s.rays_.length ∧ EnterFits s (s.rays_.length - 1)

/-- The populations of every scatter descriptor are non-negative and sum to at
most 1. -/
def PopulationsOk (ctx : ProjectContext) : Prop :=
  ∀ it ∈ ctx.multi_scatter_info_,
    (∀ c ∈ it.GetCrystalInfo, 0 ≤ c.population) ∧
    (it.GetCrystalInfo.map (fun c => c.population)).sum ≤ 1

/-- The contract of `SampleInt(n)`: a value in `[0, n)`. -/
def SampleIntInRange (env : Env) : Prop :=
  ∀ (k : Nat) (n : Int), 0 < n → 0 ≤ env.SampleInt k n ∧ env.SampleInt k n < n

/-- The state `t` has the same pass bookkeeping as `s`: ray lists, exit lists,
pool, `total_ray_num_` and enter-ray data. -/
def CoreEq (s t : Simulator) : Prop :=
  t.rays_ = s.rays_ ∧ t.exit_ray_segments_ = s.exit_ray_segments_ ∧ t.pool = s.pool ∧
  t.total_ray_num_ = s.total_ray_num_ ∧ t.enter_ray_data_ = s.enter_ray_data_

/-- The first `n` enter-ray entries of `t` are finished segments of the list `E`,
and `t` has the pool, exit lists and ray lists of `s`. -/
def SelectInv (s : Simulator) (E : List Nat) (t : Simulator) (n : Nat) : Prop :=
  t.pool = s.pool ∧ t.exit_ray_segments_ = s.exit_ray_segments_ ∧ t.rays_ = s.rays_ ∧
  ∀ i, i < n → ∃ p, t.enter_ray_data_.ray_seg i = some p ∧ p ∈ E ∧
    (s.pool.segments p).is_finished = true

/-- For every pass of a run that returned, the roots it created, each as the
pair of its `prev_ray_segment` handle and the weight of its root segment. -/
def rootsOf : Except Fault Simulator → Option (List (List (Option Nat × ℚ)))
  | Except.ok s => some (s.rays_.map (fun l =>
      l.map (fun info => (info.prev_ray_segment, (s.pool.segments info.first_ray_segment).w))))
  | Except.error _ => none

/-- Two scatter descriptors: one crystal of population 1 whose exit rays are
all scattered again, then two crystals of population 1 each. -/
def sampleOverfull : List MultiScatterContext :=
  [⟨[⟨0, 1, 0⟩], 1⟩, ⟨[⟨0, 1, 0⟩, ⟨0, 1, 0⟩], 0⟩]

/-- Two scatter descriptors of one crystal each, the exit rays of the first
being all scattered again. -/
def sampleReenter : List MultiScatterContext := [⟨[⟨0, 1, 0⟩], 1⟩, ⟨[⟨0, 1, 0⟩], 0⟩]

/-- The state after `Start` in the re-entering example run. -/
def sampleReenterRun : Simulator :=
  resultOf (Simulator.Start (sampleCtx sampleReenter) sampleEnv
    (Simulator.new.SetWavelengthIndex (sampleCtx sampleReenter) 0))

/-- The root records of `t` inherit their weight: a record of the first pass
has a null `prev_ray_segment` and a root segment of weight 1; a record of a
later pass `j + 1` has as `prev_ray_segment` a finished segment of the exit list
of pass `j` whose weight is the weight of the root segment. In both cases the
root segment is in the pool and carries the record as its `root_ctx`. -/
def RootsInherit (t : Simulator) : Prop :=
  (∀ info, info ∈ t.rays_.getD 0 [] →
    info.first_ray_segment < t.pool.next_unused_id ∧
    (t.pool.segments info.first_ray_segment).root_ctx = some info ∧
    info.prev_ray_segment = none ∧ (t.pool.segments info.first_ray_segment).w = 1) ∧
  (∀ j info, info ∈ t.rays_.getD (j + 1) [] →
    info.first_ray_segment < t.pool.next_unused_id ∧
    (t.pool.segments info.first_ray_segment).root_ctx = some info ∧
    ∃ p, info.prev_ray_segment = some p ∧ p ∈ t.exit_ray_segments_.getD j [] ∧
      (t.pool.segments p).is_finished = true ∧
      (t.pool.segments info.first_ray_segment).w = (t.pool.segments p).w)

/-- The segment reached from `h` by following `prev` links until a segment
without `prev` (the walk `p = p->prev` of `PrintRayInfo`), at most `fuel` links. -/
def RaySegmentPool.chainRoot (p : RaySegmentPool) : Nat → Nat → Nat
  | 0, h => h
  | fuel + 1, h =>
    match (p.segments h).prev with
    | none => h
    | some q => p.chainRoot fuel q

/-- The root of the segment `h`: the end of its `prev` chain. -/
def RaySegmentPool.rootOf (p : RaySegmentPool) (h : Nat) : Nat := p.chainRoot h h

/-- The `prev` links of a pool form a forest that shares root contexts: the
`prev` of an acquired segment is an earlier segment with the same `root_ctx`. -/
def PoolTree (p : RaySegmentPool) : Prop :=
  ∀ h, h < p.next_unused_id → ∀ q, (p.segments h).prev = some q →
    q < h ∧ (p.segments h).root_ctx = (p.segments q).root_ctx

/-- Every handle stored in an exit list or in the final list is an acquired segment. -/
def StoredValid (s : Simulator) : Prop :=
  (∀ l, l ∈ s.exit_ray_segments_ → ∀ r, r ∈ l → r < s.pool.next_unused_id) ∧
  (∀ r, r ∈ s.final_ray_segments_ → r < s.pool.next_unused_id)

/-- The segment `r` carries the `RayInfo` of its root: its `root_ctx` is the
record held by the segment at the end of its `prev` chain, that segment has no
`prev`, the record names it as `first_ray_segment`, and the rotation read
through `r->root_ctx->main_axis_rot` is the one of that record. -/
def CarriesRootInfo (p : RaySegmentPool) (r : Nat) : Prop :=
  ∃ info, (p.segments r).root_ctx = some info ∧
    info.first_ray_segment = p.rootOf r ∧
    (p.segments (p.rootOf r)).prev = none ∧
    (p.segments (p.rootOf r)).root_ctx = some info ∧
    (p.segments r).axis_rot = info.main_axis_rot

/-- The class invariant on the buffer capacity: `buffer_size_` is the capacity
`buffer_.ray_num` of the double buffer. -/
def Synced (s : Simulator) : Prop := s.buffer_.ray_num = s.buffer_size_

/-- What a guarded growth site does from `s` to `t` with the requested
capacity `n`: either no `Allocate` call is made, or one call `Allocate(n)` is
made and `n` exceeds the old capacity. -/
def GrowthSite (s t : Simulator) (n : Nat) : Prop :=
  (t.buffer_ = s.buffer_ ∧ t.buffer_size_ = s.buffer_size_) ∨
  (s.buffer_.ray_num < n ∧ t.buffer_ = s.buffer_.Allocate n ∧ t.buffer_size_ = n)

/-- The capacity does not shrink from `s` to `t`, and stays in step with
`buffer_size_`. -/
def CapGrows (s t : Simulator) : Prop :=
  Synced s → Synced t ∧ s.buffer_.ray_num ≤ t.buffer_.ray_num

/-- The split of the eligible exit segments by the uniform draws, the first
segment using draw number `k`: a segment whose draw exceeds `prob` goes to the
first list (final), the others to the second list (enqueued), in order. -/
def restoreSplit (env : Env) (prob : ℚ) : Nat → List Nat → List Nat × List Nat
  | _, [] => ([], [])
  | k, r :: rs =>
    if env.GetUniform k > prob then
      (r :: (restoreSplit env prob (k + 1) rs).1, (restoreSplit env prob (k + 1) rs).2)
    else
      ((restoreSplit env prob (k + 1) rs).1, r :: (restoreSplit env prob (k + 1) rs).2)

/-- The exit segments of the pass just finished that `RestoreResultRays` does
not skip, in exit order. -/
def Simulator.restoreKept (ctx : ProjectContext) (s : Simulator) : List Nat :=
  (backOf s.exit_ray_segments_).filter (restoreEligible ctx s.pool)

/-- The kept segments whose draw exceeds `prob`. -/
def Simulator.restoreFinal (ctx : ProjectContext) (env : Env) (prob : ℚ) (s : Simulator) :
    List Nat :=
  (restoreSplit env prob s.rng (s.restoreKept ctx)).1

/-- The kept segments whose draw does not exceed `prob`. -/
def Simulator.restoreEnqueued (ctx : ProjectContext) (env : Env) (prob : ℚ) (s : Simulator) :
    List Nat :=
  (restoreSplit env prob s.rng (s.restoreKept ctx)).2

/-- The first `n` enter-ray entries, each as the pair of its direction and its
segment handle. -/
def enterPairs (e : EnterRayData) (n : Nat) : List (Vec3 × Option Nat) :=
  (List.range n).map (fun k => (e.ray_dir k, e.ray_seg k))

/-- The enter-ray entry written for the enqueued segment `r`: the direction
`RotateZBack(r->root_ctx->main_axis_rot, r->dir)` and the handle `r`. -/
def enqueuedPair (env : Env) (pool : RaySegmentPool) (r : Nat) : Vec3 × Option Nat :=
  (env.RotateZBack (pool.segments r).axis_rot (pool.segments r).dir, some r)

/-- The example context with `kScatMinW` set to `1999/2000`, the weight of the
reflected child of a ray of weight 1. -/
def sampleBoundaryCtx : ProjectContext :=
  { sampleCtx sampleTwoPass with kScatMinW := 1999 / 2000 }

/-- The state of the example run of `ctx` after the crystal loop of its first
scatter pass, right before `RestoreResultRays`. -/
def samplePassOne (ctx : ProjectContext) : Simulator :=
  resultOf (Simulator.crystalLoop ctx sampleEnv [⟨0, 1, 0⟩]
    (Simulator.InitSunRays ctx sampleEnv
      (Simulator.reset ctx (Simulator.new.SetWavelengthIndex ctx 0))).scatterBegin)

/-- The number of child slots below `i` whose weight `w[1][j]` is positive:
the number of segments the slot loop of `StoreRaySegments` has acquired when it
reaches slot `i`. -/
def createdBefore (s : Simulator) (i : Nat) : Nat :=
  ((List.range i).filter (fun j => decide (0 < s.buffer_.w 1 j))).length

/-- The state of `StoreRaySegments` when its slot loop reaches slot `i`. -/
def Simulator.storeBefore (ctx : ProjectContext) (crystal : Crystal)
    (filter : AbstractRayPathFilter) (s : Simulator) (i : Nat) : Simulator :=
  (List.range i).foldl (Simulator.StoreRaySegments_slot ctx crystal filter) s

/-- What the slot loop of `StoreRaySegments` has laid out after the child slots
below `i`, started from `s0`: the buffers are untouched but for `ray_seg[1]`,
one segment was acquired per slot of positive weight, in slot order, and its
handle stored in `ray_seg[1]`. -/
def StoreLayout (s0 : Simulator) (i : Nat) (t : Simulator) : Prop :=
  t.active_ray_num_ = s0.active_ray_num_ ∧
  t.buffer_.w = s0.buffer_.w ∧ t.buffer_.face_id = s0.buffer_.face_id ∧
  t.buffer_.pt = s0.buffer_.pt ∧ t.buffer_.dir = s0.buffer_.dir ∧
  t.buffer_.ray_seg 0 = s0.buffer_.ray_seg 0 ∧
  t.pool.next_unused_id = s0.pool.next_unused_id + createdBefore s0 i ∧
  (∀ j, t.buffer_.ray_seg 1 j =
    if j < i ∧ 0 < s0.buffer_.w 1 j then some (s0.pool.next_unused_id + createdBefore s0 j)
    else s0.buffer_.ray_seg 1 j)

/-- The test the slot loop of `StoreRaySegments` makes on child slot `i` in the
state `t`: the slot has positive weight (so a segment is acquired), the filter
accepts the new segment, and the new segment is finished
(`face_id[1][i] < 0`) or its weight is below `kPropMinW`. -/
def Simulator.storeAccepts (ctx : ProjectContext) (crystal : Crystal)
    (filter : AbstractRayPathFilter) (t : Simulator) (i : Nat) : Bool :=
  decide (0 < t.buffer_.w 1 i) &&
  (filter.Filter crystal (Simulator.StoreRaySegments_link t.buffer_ t.pool i)
      t.pool.next_unused_id &&
    (decide (t.buffer_.face_id 1 i < 0) || decide (t.buffer_.w 1 i < ctx.kPropMinW)))

/-- The handles that the first `n` iterations of the slot loop of
`StoreRaySegments` append to the exit list, in slot order. -/
def Simulator.storeExits (ctx : ProjectContext) (crystal : Crystal)
    (filter : AbstractRayPathFilter) (s : Simulator) (n : Nat) : List Nat :=
  ((List.range n).filter (fun i =>
    (s.storeBefore ctx crystal filter i).storeAccepts ctx crystal filter i)).map
    (fun i => (s.storeBefore ctx crystal filter i).pool.next_unused_id)

/-- Parent slot `k` of buffer 0 has a child slot of positive weight in buffer 1. -/
def HasChild (s : Simulator) (k : Nat) : Prop :=
  0 < s.buffer_.w 1 (2 * k) ∨ 0 < s.buffer_.w 1 (2 * k + 1)

/-- The precondition of `StoreRaySegments` on buffer 0: every live parent slot
with a child of positive weight holds the handle of an acquired segment, and
two such slots hold different handles. -/
def ParentsLinked (s : Simulator) : Prop :=
  (∀ k, k < s.active_ray_num_ → HasChild s k →
    ∃ p, s.buffer_.ray_seg 0 k = some p ∧ p < s.pool.next_unused_id) ∧
  (∀ k k', k < s.active_ray_num_ → k' < s.active_ray_num_ → HasChild s k → HasChild s k' →
    s.buffer_.ray_seg 0 k = s.buffer_.ray_seg 0 k' → k = k')

/-- The links made by the slot loop of `StoreRaySegments` after the child slots
below `i`, started from `s0`: old segments keep `root_ctx`, `prev`, weight and
finished flag; the segment of each processed slot `j` of positive weight has the
handle of parent slot `j / 2` as `prev`, the parent's `root_ctx`, the weight
`w[1][j]` and is finished iff `face_id[1][j] < 0`; and the parent of slot `2k`
(`2k + 1`) has that segment as `next_reflect` (`next_refract`). -/
def StoreLinks (s0 : Simulator) (i : Nat) (t : Simulator) : Prop :=
  (∀ h, h < s0.pool.next_unused_id →
    (t.pool.segments h).root_ctx = (s0.pool.segments h).root_ctx ∧
    (t.pool.segments h).prev = (s0.pool.segments h).prev ∧
    (t.pool.segments h).is_finished = (s0.pool.segments h).is_finished ∧
    (t.pool.segments h).w = (s0.pool.segments h).w) ∧
  (∀ j, j < i → 0 < s0.buffer_.w 1 j →
    (t.pool.segments (s0.pool.next_unused_id + createdBefore s0 j)).prev =
      s0.buffer_.ray_seg 0 (j / 2) ∧
    (t.pool.segments (s0.pool.next_unused_id + createdBefore s0 j)).is_finished =
      decide (s0.buffer_.face_id 1 j < 0) ∧
    (t.pool.segments (s0.pool.next_unused_id + createdBefore s0 j)).w = s0.buffer_.w 1 j ∧
    (t.pool.segments (s0.pool.next_unused_id + createdBefore s0 j)).root_ctx =
      (s0.buffer_.ray_seg 0 (j / 2)).bind (fun p => (s0.pool.segments p).root_ctx)) ∧
  (∀ k, k < s0.active_ray_num_ → HasChild s0 k → ∀ p, s0.buffer_.ray_seg 0 k = some p →
    (t.pool.segments p).next_reflect =
      (if 2 * k < i ∧ 0 < s0.buffer_.w 1 (2 * k) then
        some (s0.pool.next_unused_id + createdBefore s0 (2 * k))
      else (s0.pool.segments p).next_reflect) ∧
    (t.pool.segments p).next_refract =
      (if 2 * k + 1 < i ∧ 0 < s0.buffer_.w 1 (2 * k + 1) then
        some (s0.pool.next_unused_id + createdBefore s0 (2 * k + 1))
      else (s0.pool.segments p).next_refract))

/-- The handle of the segment that `StoreRaySegments`, started from `s`,
acquires for child slot `i`: the segments are taken from the pool in slot order. -/
def Simulator.childHandle (s : Simulator) (i : Nat) : Nat :=
  s.pool.next_unused_id + createdBefore s i

/-- The state of the one-pass example run right before `StoreRaySegments` in its
first trace step: entry rays initialised and the kernels run. -/
def sampleFanned : Simulator :=
  traceFanOut sampleEnv sampleCrystal (IceRefractiveIndex.Get 550)
    (Simulator.InitEntryRays sampleEnv ((sampleCtx sampleOnePass).GetCrystalContext 0)
      sampleSeeded).growForTrace

/-- The slots `j < i` of buffer 1 that `RefreshBuffer` keeps (`face_id >= 0` and
`w > kPropMinW`), in slot order. -/
def keptBefore (ctx : ProjectContext) (b : SimulationBufferData) (i : Nat) : List Nat :=
  (List.range i).filter (fun j => decide (b.face_id 1 j ≥ 0 ∧ b.w 1 j > ctx.kPropMinW))

/-- Slot `a` of buffer 0 of `c` is a copy of slot `j` of buffer 1 of `b`. -/
def SlotCopied (c b : SimulationBufferData) (a j : Nat) : Prop :=
  c.pt 0 a = b.pt 1 j ∧ c.dir 0 a = b.dir 1 j ∧ c.w 0 a = b.w 1 j ∧
  c.face_id 0 a = b.face_id 1 j ∧ c.ray_seg 0 a = b.ray_seg 1 j

/-- What the slot loop of `RefreshBuffer` has done after the slots below `i`,
started from the buffer `b0`: buffer 1 is untouched, `idx` counts the kept slots
below `i`, and slot `a < idx` of buffer 0 is a copy of the `a`-th kept slot. -/
def RefreshExact (ctx : ProjectContext) (b0 : SimulationBufferData) (i : Nat)
    (acc : SimulationBufferData × Nat) : Prop :=
  acc.2 = (keptBefore ctx b0 i).length ∧
  (acc.1.pt 1 = b0.pt 1 ∧ acc.1.dir 1 = b0.dir 1 ∧ acc.1.w 1 = b0.w 1 ∧
    acc.1.face_id 1 = b0.face_id 1 ∧ acc.1.ray_seg 1 = b0.ray_seg 1) ∧
  (∀ a, a < acc.2 → SlotCopied acc.1 b0 a ((keptBefore ctx b0 i).getD a 0))

/-- The stripe size `std::max(active_ray_num_ / 100, 10)` of a `TraceRays` step. -/
def stripeStep (active : Nat) : Nat := max (active / 100) 10

/-- The ray slot `x` lies in the stripe `[j, j + min(active - j, step))` of the
job submitted for the start index `j`. -/
def InStripe (active step j x : Nat) : Prop := j ≤ x ∧ x < j + min (active - j) step

/-- The child slot `y` of buffer 1 lies in the range `[2j, 2j + 2 * current_num)`
written by the job submitted for the start index `j`. -/
def InChildStripe (active step j y : Nat) : Prop :=
  j * 2 ≤ y ∧ y < j * 2 + min (active - j) step * 2

/-- The states at the head of the iterations that the hit loop of
`Simulator::TraceRays` executes when its counter allows `k` more iterations from
the state `s`: the loop `for (i = 0; i < max_recursion_num; i++)` has no exit
other than its counter. -/
def Simulator.TraceRays_heads (ctx : ProjectContext) (env : Env) (crystal : Crystal)
    (filter : AbstractRayPathFilter) (n : ℚ) : Nat → Simulator → List Simulator
  | 0, _ => []
  | k + 1, s =>
    s :: Simulator.TraceRays_heads ctx env crystal filter n k
      (Simulator.TraceRays_step ctx env crystal filter n s)

/-- The one-pass example context with three hits allowed per trace. -/
def sampleThreeHits : ProjectContext :=
  { sampleCtx sampleOnePass with GetRayHitNum := 3 }

/-- The state of the one-pass example run right before `TraceRays`: the entry
ray is initialised. -/
def sampleEntered : Simulator :=
  (Simulator.InitEntryRays sampleEnv ((sampleCtx sampleOnePass).GetCrystalContext 0)
    sampleSeeded).advanceOffset

/-- The pool `q` agrees with the pool `p` on the acquired segments: same
occupancy cursor and same contents below it. -/
def PoolAgree (p q : RaySegmentPool) : Prop :=
  q.next_unused_id = p.next_unused_id ∧ ∀ h, h < p.next_unused_id → q.segments h = p.segments h

/-- The state `t` agrees with the state `s` on everything a run can observe
outside the double buffer: counters, enter-ray data, ray lists, exit and final
lists, the random generator call counter and the acquired segments. -/
def CoreAgree (s t : Simulator) : Prop :=
  t.current_wavelength_index_ = s.current_wavelength_index_ ∧
  t.total_ray_num_ = s.total_ray_num_ ∧
  t.active_ray_num_ = s.active_ray_num_ ∧
  t.enter_ray_offset_ = s.enter_ray_offset_ ∧
  t.enter_ray_data_ = s.enter_ray_data_ ∧
  t.rays_ = s.rays_ ∧
  t.exit_ray_segments_ = s.exit_ray_segments_ ∧
  t.final_ray_segments_ = s.final_ray_segments_ ∧
  t.rng = s.rng ∧
  PoolAgree s.pool t.pool

/-- Slot `k` of buffer `r` holds the same ray (`pt`, `dir`, `w`, `face_id`) in
the buffers `b` and `c`. -/
def SlotAgree (b c : SimulationBufferData) (r k : Nat) : Prop :=
  c.pt r k = b.pt r k ∧ c.dir r k = b.dir r k ∧ c.w r k = b.w r k ∧
  c.face_id r k = b.face_id r k

/-- The live slots fit the buffer: `buffer_size_` is the capacity and
`active_ray_num_` does not exceed it. -/
def Roomy (s : Simulator) : Prop :=
  s.buffer_.ray_num = s.buffer_size_ ∧ s.active_ray_num_ ≤ s.buffer_size_

/-- The live slots fit the buffer with room for their children: `buffer_size_`
is the capacity and is at least twice `active_ray_num_`. -/
def Wide (s : Simulator) : Prop :=
  s.buffer_.ray_num = s.buffer_size_ ∧ 2 * s.active_ray_num_ ≤ s.buffer_size_

/-- The example environment with kernels that give the reflected child of a
ray the fraction 1/1000 of its weight and a next face, and the refracted child
the rest of the weight and no next face. -/
def boundaryEnv : Env :=
  { sampleEnv with
    HitSurface := fun _ _ _ dirs _ ws =>
      (fun k => dirs.getD (k / 2) default,
       fun k => if k % 2 = 0 then ws.getD (k / 2) 0 * (1 / 1000)
         else ws.getD (k / 2) 0 * (1 - 1 / 1000))
    Propagate := fun _ _ pts _ _ _ =>
      (fun k => pts.getD (k / 2) default, fun k => if k % 2 = 0 then 0 else -1) }

/-- The state of the one-pass example run right before `StoreRaySegments` in its
first trace step, with the kernels of `boundaryEnv`. -/
def sampleBoundaryFanned : Simulator :=
  traceFanOut boundaryEnv sampleCrystal (IceRefractiveIndex.Get 550) sampleEntered.growForTrace

/-- The filter accepts the segment that `StoreRaySegments`, started from `s`,
acquires for child slot `i`. -/
def Simulator.slotPasses (ctx : ProjectContext) (crystal : Crystal)
    (filter : AbstractRayPathFilter) (s : Simulator) (i : Nat) : Bool :=
  filter.Filter crystal
    (Simulator.StoreRaySegments_link (s.storeBefore ctx crystal filter i).buffer_
      (s.storeBefore ctx crystal filter i).pool i)
    (s.storeBefore ctx crystal filter i).pool.next_unused_id

/-- Across `StoreRaySegments` (started from `s`) and the following
`RefreshBuffer`, child slot `i` is appended to the exit list. -/
def Simulator.slotExits (ctx : ProjectContext) (crystal : Crystal)
    (filter : AbstractRayPathFilter) (s : Simulator) (i : Nat) : Bool :=
  (s.storeBefore ctx crystal filter i).storeAccepts ctx crystal filter i

/-- Across `StoreRaySegments` (started from `s`) and the following
`RefreshBuffer`, child slot `i` is copied to buffer 0 as a live slot. -/
def Simulator.slotKept (ctx : ProjectContext) (crystal : Crystal)
    (filter : AbstractRayPathFilter) (s : Simulator) (i : Nat) : Bool :=
  decide (i ∈ keptBefore ctx (Simulator.StoreRaySegments ctx crystal filter s).buffer_
    (s.active_ray_num_ * 2))

/-- The scatter descriptors that the scatter loop of `Start` reaches from `s`,
each with the state in which its crystal loop starts. -/
def Simulator.passStarts (ctx : ProjectContext) (env : Env) :
    List MultiScatterContext → Simulator → List (MultiScatterContext × Simulator)
  | [], _ => []
  | it :: rest, s =>
    (it, s.scatterBegin) ::
      match Simulator.crystalLoop ctx env it.GetCrystalInfo s.scatterBegin with
      | Except.error _ => []
      | Except.ok s2 =>
        Simulator.passStarts ctx env rest (Simulator.scatterEnd ctx env it rest.isEmpty s2)

/-- Every scatter pass that `Start` reaches from `s` starts with fewer than
`2^24` rays, so that the conversion of `total_ray_num_` to `float` is exact. -/
def PassesExact (ctx : ProjectContext) (env : Env) (s : Simulator) : Prop :=
  ∀ x, x ∈ Simulator.passStarts ctx env ctx.multi_scatter_info_
      (Simulator.InitSunRays ctx env (Simulator.reset ctx s)) →
    x.2.total_ray_num_ < 16777216

/-- The project context of the worked examples with `16777219 = 2^24 + 3` initial
rays, a count that is not a binary32 value. -/
def sampleLargeCtx : ProjectContext :=
  { sampleCtx sampleOnePass with GetInitRayNum := 16777219 }

/-- The state in which the crystal loop of the only scatter pass of
`sampleLargeCtx` starts. -/
def sampleLargeStart : Simulator :=
  (Simulator.InitSunRays sampleLargeCtx sampleEnv
    (Simulator.reset sampleLargeCtx
      (Simulator.new.SetWavelengthIndex sampleLargeCtx 0))).scatterBegin

/-- The value `std::numeric_limits<int>::min()` that the projection functions
write for a ray that is not drawn. -/
def kIntMin : Int := -2147483648

/-- Modelled from the spec: the enumeration `LensType` (declared in a header
that is not in the sources). The four values named in `render.cpp` have a
projection function; `kUnlisted` stands for any value without one. -/
inductive LensType
  | kLinear
  | kEqualArea
  | kDualEquidistant
  | kDualEqualArea
  | kUnlisted
deriving DecidableEq

/-- Modelled from the spec: the enumeration `VisibleRange` (declared in a header
that is not in the sources); `render.cpp` names `kUpper`, `kLower` and `kFront`,
`kFull` stands for any other value. -/
inductive VisibleRange
  | kUpper
  | kLower
  | kFront
  | kFull
deriving DecidableEq

/-- External collaborators of the renderer: the helpers of `mymath.h` and the
pixel formulas of the projection functions, which use `atan2`, `asin`, `sin`,
`cos`, `tan` and `round` (each formula field is the pair
`static_cast<int>(std::round(...))` written in the last branch of its
projection function, as a function of the values that branch reads). -/
structure RenderEnv where
  kDegreeToRad : ℚ
  Norm3 : Vec3 → ℚ
  RotateZWithDataStep : Vec3 → (Nat → ℚ) → Nat → Nat → Nat → Nat → ℚ
  EqualAreaPixel : ℚ → Int → Int → Vec3 → Int × Int
  DualEqualAreaPixel : Int → Int → Vec3 → Int × Int
  DualEquidistantPixel : Int → Int → Vec3 → Int × Int
  RectLinearPixel : ℚ → Int → Int → Vec3 → Int × Int

/-- The parts of the project context read by `SpectrumRenderer::LoadData`
(`cam_ctx_`, `render_ctx_` and `GetInitRayNum`). -/
structure RenderContext where
  GetLensType : LensType
  GetCameraTargetDirection : Vec3
  GetFov : ℚ
  GetImageHeight : Nat
  GetImageWidth : Nat
  GetImageOffsetX : Int
  GetImageOffsetY : Int
  GetVisibleRange : VisibleRange
  GetInitRayNum : Nat

/-- The three floats at `a + off`. -/
def vecAt (a : Nat → ℚ) (off : Nat) : Vec3 := ⟨a off, a (off + 1), a (off + 2)⟩

/-- The local `cam_rot_copy`: the first two angles negated, all in radians. -/
def camRotCopy (R : RenderEnv) (cam_rot : Vec3) : Vec3 :=
  ⟨cam_rot.x * -1 * R.kDegreeToRad, cam_rot.y * -1 * R.kDegreeToRad, cam_rot.z * R.kDegreeToRad⟩

/-- The assignments `img_xy[i * 2 + 0] = p.1; img_xy[i * 2 + 1] = p.2`. -/
def setXY (img_xy : Nat → Int) (i : Nat) (p : Int × Int) : Nat → Int :=
  Function.update (Function.update img_xy (i * 2) p.1) (i * 2 + 1) p.2

/-- The ray loop shared by the projection functions: ray `i` gets the pixel
`pixel i`. -/
def projectRays (pixel : Nat → Int × Int) (data_number : Nat) (img_xy : Nat → Int) : Nat → Int :=
  (List.range data_number).foldl (fun xy i => setXY xy i (pixel i)) img_xy

/-- The body of the ray loop of `EqualAreaFishEye` for ray `i`. -/
def EqualAreaFishEye_ray (R : RenderEnv) (hov : ℚ) (dir_copy dir : Nat → ℚ)
    (img_wid img_hei : Int) (visible_range : VisibleRange) (i : Nat) : Int × Int :=
  if |R.Norm3 (vecAt dir_copy (i * 3)) - 1| > 1 / 10000 then (kIntMin, kIntMin)
  else if visible_range = VisibleRange.kFront ∧ dir_copy (i * 3 + 2) < 0 then (kIntMin, kIntMin)
  else if visible_range = VisibleRange.kUpper ∧ dir (i * 4 + 2) > 0 then (kIntMin, kIntMin)
  else if visible_range = VisibleRange.kLower ∧ dir (i * 4 + 2) < 0 then (kIntMin, kIntMin)
  else R.EqualAreaPixel hov img_wid img_hei (vecAt dir_copy (i * 3))

/-- The function `EqualAreaFishEye`. -/
def EqualAreaFishEye (R : RenderEnv) (cam_rot : Vec3) (hov : ℚ) (data_number : Nat)
    (dir : Nat → ℚ) (img_wid img_hei : Int) (img_xy : Nat → Int)
    (visible_range : VisibleRange) : Nat → Int :=
  projectRays (EqualAreaFishEye_ray R hov
    (R.RotateZWithDataStep (camRotCopy R cam_rot) dir 4 3 data_number) dir img_wid img_hei
    visible_range) data_number img_xy

/-- The body of the ray loop of `DualEqualAreaFishEye` for ray `i`. -/
def DualEqualAreaFishEye_ray (R : RenderEnv) (dir_copy : Nat → ℚ) (img_wid img_hei : Int)
    (i : Nat) : Int × Int :=
  if |R.Norm3 (vecAt dir_copy (i * 3)) - 1| > 1 / 10000 then (kIntMin, kIntMin)
  else R.DualEqualAreaPixel img_wid img_hei (vecAt dir_copy (i * 3))

/-- The function `DualEqualAreaFishEye`; camera rotation, field of view and
visible range are not used. -/
def DualEqualAreaFishEye (R : RenderEnv) (_cam_rot : Vec3) (_hov : ℚ) (data_number : Nat)
    (dir : Nat → ℚ) (img_wid img_hei : Int) (img_xy : Nat → Int)
    (_visible_range : VisibleRange) : Nat → Int :=
  projectRays (DualEqualAreaFishEye_ray R
    (R.RotateZWithDataStep (camRotCopy R ⟨90, 89999 / 1000, 0⟩) dir 4 3 data_number)
    img_wid img_hei) data_number img_xy

/-- The body of the ray loop of `DualEquidistantFishEye` for ray `i`. -/
def DualEquidistantFishEye_ray (R : RenderEnv) (dir_copy : Nat → ℚ) (img_wid img_hei : Int)
    (i : Nat) : Int × Int :=
  if |R.Norm3 (vecAt dir_copy (i * 3)) - 1| > 1 / 10000 then (kIntMin, kIntMin)
  else R.DualEquidistantPixel img_wid img_hei (vecAt dir_copy (i * 3))

/-- The function `DualEquidistantFishEye`; camera rotation, field of view and
visible range are not used. -/
def DualEquidistantFishEye (R : RenderEnv) (_cam_rot : Vec3) (_hov : ℚ) (data_number : Nat)
    (dir : Nat → ℚ) (img_wid img_hei : Int) (img_xy : Nat → Int)
    (_visible_range : VisibleRange) : Nat → Int :=
  projectRays (DualEquidistantFishEye_ray R
    (R.RotateZWithDataStep (camRotCopy R ⟨90, 89999 / 1000, 0⟩) dir 4 3 data_number)
    img_wid img_hei) data_number img_xy

/-- The body of the ray loop of `RectLinear` for ray `i`. -/
def RectLinear_ray (R : RenderEnv) (hov : ℚ) (dir_copy dir : Nat → ℚ)
    (img_wid img_hei : Int) (visible_range : VisibleRange) (i : Nat) : Int × Int :=
  if dir_copy (i * 3 + 2) < 0 ∨ |R.Norm3 (vecAt dir_copy (i * 3)) - 1| > 1 / 10000 then
    (kIntMin, kIntMin)
  else if visible_range = VisibleRange.kFront ∧ dir_copy (i * 3 + 2) < 0 then (kIntMin, kIntMin)
  else if visible_range = VisibleRange.kUpper ∧ dir (i * 4 + 2) > 0 then (kIntMin, kIntMin)
  else if visible_range = VisibleRange.kLower ∧ dir (i * 4 + 2) < 0 then (kIntMin, kIntMin)
  else R.RectLinearPixel hov img_wid img_hei (vecAt dir_copy (i * 3))

/-- The function `RectLinear`. -/
def RectLinear (R : RenderEnv) (cam_rot : Vec3) (hov : ℚ) (data_number : Nat)
    (dir : Nat → ℚ) (img_wid img_hei : Int) (img_xy : Nat → Int)
    (visible_range : VisibleRange) : Nat → Int :=
  projectRays (RectLinear_ray R hov
    (R.RotateZWithDataStep (camRotCopy R cam_rot) dir 4 3 data_number) dir img_wid img_hei
    visible_range) data_number img_xy

/-- The map returned by `GetProjectionFunctions`, as a lookup. -/
def GetProjectionFunctions (R : RenderEnv) : LensType →
    Option (Vec3 → ℚ → Nat → (Nat → ℚ) → Int → Int → (Nat → Int) → VisibleRange → Nat → Int)
  | LensType.kLinear => some (RectLinear R)
  | LensType.kEqualArea => some (EqualAreaFishEye R)
  | LensType.kDualEquidistant => some (DualEquidistantFishEye R)
  | LensType.kDualEqualArea => some (DualEqualAreaFishEye R)
  | LensType.kUnlisted => none

/-- The state of a `SpectrumRenderer`: the two maps from wavelength to image
array (`none` for a wavelength without entry) and the total weight. -/
structure SpectrumRenderer where
  spectrum_data_ : Int → Option (Nat → ℚ)
  spectrum_data_compensation_ : Int → Option (Nat → ℚ)
  total_w_ : ℚ

/-- The job submitted by `LoadData` for the rays starting at `i`: the projection
function reads `ray_data + i * 4` and writes `tmp_xy + i * 2`. -/
def projectJob
    (pf : Vec3 → ℚ → Nat → (Nat → ℚ) → Int → Int → (Nat → Int) → VisibleRange → Nat → Int)
    (ctx : RenderContext) (ray_data : Nat → ℚ) (current_num : Nat) (tmp_xy : Nat → Int)
    (i : Nat) : Nat → Int :=
  writeSlice tmp_xy (i * 2) (current_num * 2)
    (pf ctx.GetCameraTargetDirection ctx.GetFov current_num (fun k => ray_data (i * 4 + k))
      (ctx.GetImageWidth : Int) (ctx.GetImageHeight : Int) (fun k => tmp_xy (i * 2 + k))
      ctx.GetVisibleRange)

/-- The job fan-out of `LoadData`, jobs taken in submission order; `uninit_xy` is
the content of the fresh array `tmp_xy`. -/
def projectFanOut
    (pf : Vec3 → ℚ → Nat → (Nat → ℚ) → Int → Int → (Nat → Int) → VisibleRange → Nat → Int)
    (ctx : RenderContext) (ray_data : Nat → ℚ) (num : Nat) (uninit_xy : Nat → Int) : Nat → Int :=
  let step := max (num / 100) 10
  (stripeStarts num step num 0).foldl
    (fun xy i => projectJob pf ctx ray_data (min (num - i) step) xy i) uninit_xy

/-- The image coordinates of ray `i` after the image offset is added (for the
lens types other than the two dual ones). -/
def shiftedXY (ctx : RenderContext) (tmp_xy : Nat → Int) (i : Nat) : Int × Int :=
  if ctx.GetLensType ≠ LensType.kDualEqualArea ∧ ctx.GetLensType ≠ LensType.kDualEquidistant then
    (tmp_xy (i * 2) + ctx.GetImageOffsetX, tmp_xy (i * 2 + 1) + ctx.GetImageOffsetY)
  else (tmp_xy (i * 2), tmp_xy (i * 2 + 1))

/-- The body of the accumulation loop of `LoadData` for ray `i`; the state is the
pair of arrays `current_data`, `current_data_compensation`. -/
def SpectrumRenderer.LoadData_ray (ctx : RenderContext) (weight : ℚ) (ray_data : Nat → ℚ)
    (tmp_xy : Nat → Int) (acc : (Nat → ℚ) × (Nat → ℚ)) (i : Nat) : (Nat → ℚ) × (Nat → ℚ) :=
  if tmp_xy (i * 2) = kIntMin ∨ tmp_xy (i * 2 + 1) = kIntMin then acc
  else
    let x := (shiftedXY ctx tmp_xy i).1
    let y := (shiftedXY ctx tmp_xy i).2
    if x < 0 ∨ x ≥ (ctx.GetImageWidth : Int) ∨ y < 0 ∨ y ≥ (ctx.GetImageHeight : Int) then acc
    else
      let p := (y * (ctx.GetImageWidth : Int) + x).toNat
      let tmp_val := ray_data (i * 4 + 3) * weight - acc.2 p
      let tmp_sum := acc.1 p + tmp_val
      (Function.update acc.1 p tmp_sum, Function.update acc.2 p (tmp_sum - acc.1 p - tmp_val))

/-- The method `SpectrumRenderer::LoadData(wl, weight, ray_data, num)`. The
result is `none` when the compensation array of a wavelength that has a data
array is missing (a null pointer in the source). -/
def SpectrumRenderer.LoadData (R : RenderEnv) (ctx : RenderContext)
    (kMinWavelength kMaxWaveLength : Int) (uninit_xy : Nat → Int) (r : SpectrumRenderer)
    (wl weight : ℚ) (ray_data : Nat → ℚ) (num : Nat) : Option SpectrumRenderer :=
  match GetProjectionFunctions R ctx.GetLensType with
  | none => some r
  | some pf =>
    let wavelength := truncToInt wl
    if wavelength < kMinWavelength ∨ wavelength > kMaxWaveLength ∨ weight < 0 then some r
    else
      let tmp_xy := projectFanOut pf ctx ray_data num uninit_xy
      let arrays : Option ((Nat → ℚ) × (Nat → ℚ)) :=
        match r.spectrum_data_ wavelength with
        | some d =>
          match r.spectrum_data_compensation_ wavelength with
          | some c => some (d, c)
          | none => none
        | none => some (fun _ => 0, fun _ => 0)
      match arrays with
      | none => none
      | some a =>
        let res := (List.range num).foldl
          (SpectrumRenderer.LoadData_ray ctx weight ray_data tmp_xy) a
        some
          { spectrum_data_ := Function.update r.spectrum_data_ wavelength (some res.1)
            spectrum_data_compensation_ :=
              Function.update r.spectrum_data_compensation_ wavelength (some res.2)
            total_w_ := r.total_w_ + (ctx.GetInitRayNum : ℚ) * weight }

/-- Ray `i` lands on pixel `q`: neither coordinate of `tmp_xy` is the sentinel,
the shifted coordinates are inside the image, and `q` is the index
`y * width + x`, which is below `width * height`. -/
def RayHits (ctx : RenderContext) (tmp_xy : Nat → Int) (i q : Nat) : Prop :=
  tmp_xy (i * 2) ≠ kIntMin ∧ tmp_xy (i * 2 + 1) ≠ kIntMin ∧
  0 ≤ (shiftedXY ctx tmp_xy i).1 ∧ (shiftedXY ctx tmp_xy i).1 < (ctx.GetImageWidth : Int) ∧
  0 ≤ (shiftedXY ctx tmp_xy i).2 ∧ (shiftedXY ctx tmp_xy i).2 < (ctx.GetImageHeight : Int) ∧
  q = ((shiftedXY ctx tmp_xy i).2 * (ctx.GetImageWidth : Int) + (shiftedXY ctx tmp_xy i).1).toNat ∧
  q < ctx.GetImageWidth * ctx.GetImageHeight

/-- The camera rotation that the projection function of a lens type rotates
the rays by: the two dual projections use a fixed one. -/
def lensCamRot (R : RenderEnv) (lens : LensType) (cam_rot : Vec3) : Vec3 :=
  match lens with
  | LensType.kDualEqualArea => camRotCopy R ⟨90, 89999 / 1000, 0⟩
  | LensType.kDualEquidistant => camRotCopy R ⟨90, 89999 / 1000, 0⟩
  | _ => camRotCopy R cam_rot

/-- The arrays that `LoadData` accumulates into for the wavelength `w`: the
arrays of the maps when the wavelength has an entry, fresh zeroed arrays
otherwise. -/
def SpectrumRenderer.baseArrays (r : SpectrumRenderer) (w : Int) : (Nat → ℚ) × (Nat → ℚ) :=
  match r.spectrum_data_ w with
  | some d => (d, (r.spectrum_data_compensation_ w).getD (fun _ => 0))
  | none => (fun _ => 0, fun _ => 0)

/-- Every acquired segment without a parent (`prev`) is a root segment that
carries its own `RayInfo`. -/
def RootsMarked (p : RaySegmentPool) : Prop :=
  ∀ h, h < p.next_unused_id → (p.segments h).prev = none →
    ∃ info, (p.segments h).root_ctx = some info ∧ info.first_ray_segment = h

/-- Every live slot of buffer 0 holds the handle of an acquired segment. -/
def LiveValid (s : Simulator) : Prop :=
  ∀ k, k < s.active_ray_num_ →
    ∃ p, s.buffer_.ray_seg 0 k = some p ∧ p < s.pool.next_unused_id

/-- Every crystal population of every scatter descriptor lies in `[0, 1]`. -/
def PopulationsUnit (ctx : ProjectContext) : Prop :=
  ∀ it, it ∈ ctx.multi_scatter_info_ → ∀ c, c ∈ it.GetCrystalInfo →
    0 ≤ c.population ∧ c.population ≤ 1

/-! ## Theorems -/

theorem roundHalfEven_le (q : ℚ) : ((roundHalfEven q : Int) : ℚ) ≤ q + 1 / 2 := by
  have h1 := Int.floor_le q
  have h2 := Int.lt_floor_add_one q
  unfold roundHalfEven
  split_ifs with a b c
  · linarith
  · push_cast
    linarith
  · linarith
  · push_cast
    linarith

theorem roundHalfEven_nonneg (q : ℚ) (h : 0 ≤ q) : 0 ≤ roundHalfEven q := by
  have h1 : (0 : Int) ≤ ⌊q⌋ := Int.floor_nonneg.mpr h
  unfold roundHalfEven
  split_ifs <;> omega

theorem roundHalfEven_intCast (z : Int) : roundHalfEven (z : ℚ) = z := by
  unfold roundHalfEven
  rw [Int.floor_intCast, sub_self, if_pos (by norm_num)]

theorem ulpDown_spec : ∀ (fuel : Nat) (x u : ℚ), 0 < u →
    0 < ulpDown fuel x u ∧ (∃ k : Nat, ulpDown fuel x u = u / 2 ^ k) ∧
    (8388608 * ulpDown fuel x u ≤ x ∨ ulpDown fuel x u = u / 2 ^ fuel) := by
  intro fuel
  induction fuel with
  | zero =>
    intro x u hu
    exact ⟨hu, ⟨0, by simp [ulpDown]⟩, Or.inr (by simp [ulpDown])⟩
  | succ fuel ih =>
    intro x u hu
    unfold ulpDown
    split_ifs with h
    · obtain ⟨i1, ⟨k, i2⟩, i3⟩ := ih x (u / 2) (by positivity)
      refine ⟨i1, ⟨k + 1, ?_⟩, ?_⟩
      · rw [i2, pow_succ, div_div]
        congr 1
        ring
      · rcases i3 with i3 | i3
        · exact Or.inl i3
        · refine Or.inr ?_
          rw [i3, pow_succ, div_div]
          congr 1
          ring
    · exact ⟨hu, ⟨0, by simp⟩, Or.inl (not_lt.mp h)⟩

theorem ulpUp_spec : ∀ (fuel : Nat) (x u : ℚ), 0 < u → 8388608 * u ≤ x →
    0 < ulpUp fuel x u ∧ 8388608 * ulpUp fuel x u ≤ x := by
  intro fuel
  induction fuel with
  | zero =>
    intro x u hu hx
    exact ⟨hu, hx⟩
  | succ fuel ih =>
    intro x u hu hx
    unfold ulpUp
    split_ifs with h
    · exact ih x (2 * u) (by positivity) (by linarith)
    · exact ⟨hu, hx⟩

theorem floatUlp_spec (x : ℚ) :
    0 < floatUlp x ∧ (8388608 * floatUlp x ≤ x ∨ floatUlp x = 1 / 2 ^ 149) := by
  unfold floatUlp
  split_ifs with h
  · obtain ⟨h1, h2⟩ := ulpUp_spec 104 x 1 one_pos (by linarith)
    exact ⟨h1, Or.inl h2⟩
  · obtain ⟨h1, -, h3⟩ := ulpDown_spec 149 x 1 one_pos
    exact ⟨h1, h3⟩

theorem roundToFloat_nonneg (x : ℚ) (hx : 0 ≤ x) : 0 ≤ roundToFloat x := by
  obtain ⟨hu, -⟩ := floatUlp_spec x
  unfold roundToFloat
  rw [if_neg (not_lt.mpr hx)]
  have h := roundHalfEven_nonneg (x / floatUlp x) (div_nonneg hx (le_of_lt hu))
  have h' : (0 : ℚ) ≤ ((roundHalfEven (x / floatUlp x) : Int) : ℚ) := by exact_mod_cast h
  exact mul_nonneg h' (le_of_lt hu)

theorem roundToFloat_le_add (x : ℚ) (hx : 0 ≤ x) : roundToFloat x ≤ x + floatUlp x / 2 := by
  obtain ⟨hu, -⟩ := floatUlp_spec x
  unfold roundToFloat
  rw [if_neg (not_lt.mpr hx)]
  have h := roundHalfEven_le (x / floatUlp x)
  have h2 := mul_le_mul_of_nonneg_right h (le_of_lt hu)
  have h3 : (x / floatUlp x + 1 / 2) * floatUlp x = x + floatUlp x / 2 := by
    field_simp
    ring
  rw [h3] at h2
  exact h2

theorem roundToFloat_natCast (T : Nat) (hT : T < 16777216) : roundToFloat (T : ℚ) = (T : ℚ) := by
  have hlt : ¬ (16777216 : ℚ) ≤ (T : ℚ) := by
    rw [not_le]
    exact_mod_cast hT
  obtain ⟨hpos, ⟨k, hk⟩, -⟩ := ulpDown_spec 149 (T : ℚ) 1 one_pos
  have hu : floatUlp (T : ℚ) = 1 / 2 ^ k := by
    unfold floatUlp
    rw [if_neg hlt, hk]
  unfold roundToFloat
  rw [if_neg (not_lt.mpr (Nat.cast_nonneg T)), hu]
  have hq : (T : ℚ) / (1 / 2 ^ k) = (((T * 2 ^ k : Nat) : Int) : ℚ) := by
    push_cast
    field_simp
  rw [hq, roundHalfEven_intCast]
  push_cast
  field_simp

theorem floor_roundToFloat_le (x : ℚ) (hx : 0 ≤ x) :
    ((⌊roundToFloat x⌋ : Int) : ℚ) ≤ (1 + 1 / 16777216) * x := by
  obtain ⟨hu, hcase⟩ := floatUlp_spec x
  have hadd := roundToFloat_le_add x hx
  have hnn := roundToFloat_nonneg x hx
  by_cases hnorm : 8388608 * floatUlp x ≤ x
  · have h1 := Int.floor_le (roundToFloat x)
    linarith
  · have hsmall : floatUlp x = 1 / 2 ^ 149 := by
      rcases hcase with h | h
      · exact absurd h hnorm
      · exact h
    have hlt : roundToFloat x < 1 := by
      have hx2 : x < 8388608 * floatUlp x := not_le.mp hnorm
      rw [hsmall] at hx2 hadd
      have : (8388608 : ℚ) * (1 / 2 ^ 149) + 1 / 2 ^ 149 / 2 < 1 := by norm_num
      linarith
    have hz : ⌊roundToFloat x⌋ = 0 := Int.floor_eq_zero_iff.mpr ⟨hnn, hlt⟩
    rw [hz]
    push_cast
    have : (0 : ℚ) ≤ (1 + 1 / 16777216) * x := by positivity
    exact this

theorem roundToFloat_le_of_one_le (x : ℚ) (hx : 1 ≤ x) :
    roundToFloat x ≤ (1 + 1 / 16777216) * x := by
  obtain ⟨hu, hcase⟩ := floatUlp_spec x
  have hadd := roundToFloat_le_add x (by linarith)
  have hnorm : 8388608 * floatUlp x ≤ x := by
    rcases hcase with h | h
    · exact h
    · rw [h]
      have : (8388608 : ℚ) * (1 / 2 ^ 149) ≤ 1 := by norm_num
      linarith
  linarith

theorem roundToFloat_samples :
    roundToFloat 1 = 1 ∧ roundToFloat 16777216 = 16777216 ∧
    roundToFloat 16777217 = 16777216 ∧ roundToFloat 16777218 = 16777218 ∧
    roundToFloat 16777219 = 16777220 ∧ roundToFloat (1 / 3) = 11184811 / 33554432 ∧
    roundToFloat (1 / 10) = 13421773 / 134217728 ∧
    roundToFloat (-(1 / 10)) = -(13421773 / 134217728) ∧
    activeOf ⟨0, 1, 0⟩ 16777219 = 16777220 ∧ activeOf ⟨0, 1 / 2, 0⟩ 7 = 3 := by
  refine ⟨by decide!, by decide!, by decide!, by decide!, by decide!, by decide!, by decide!,
    by decide!, by decide!, by decide!⟩

theorem activeOf_zero (c : CrystalInfo) : activeOf c 0 = 0 := by
  have hr : roundToFloat ((0 : Nat) : ℚ) = ((0 : Nat) : ℚ) :=
    roundToFloat_natCast 0 (by norm_num)
  unfold activeOf
  rw [hr, Nat.cast_zero, mul_zero]
  rw [Nat.cast_zero] at hr
  rw [hr, Int.floor_zero]
  rfl

/-- C7 (as stated, refuted): in both copies of the wavelength table the first
step, from 350 nm to 400 nm, is 50 nm, so it is not true that the table starts
at 350, ends at 900 and has every consecutive difference equal to 10. -/
theorem C7_wl_steps_not_all_ten :
    ¬ (IceRefractiveIndex._wl.head? = some 350 ∧
        IceRefractiveIndex._wl.getLast? = some 900 ∧
        ∀ d ∈ consecutiveSteps IceRefractiveIndex._wl, d = 10) ∧
    ¬ (Flat.IceRefractiveIndex._wl.head? = some 350 ∧
        Flat.IceRefractiveIndex._wl.getLast? = some 900 ∧
        ∀ d ∈ consecutiveSteps Flat.IceRefractiveIndex._wl, d = 10) := by
  constructor
  · rintro ⟨-, -, h⟩
    have h50 := h 50 (by decide!)
    exact absurd h50 (by norm_num)
  · rintro ⟨-, -, h⟩
    have h50 := h 50 (by decide!)
    exact absurd h50 (by norm_num)

/-- C7 (amended): both copies of the wavelength table start at 350 nm, end at
900 nm, have 52 entries, their first step is 50 nm (350 to 400) and each of the
50 later consecutive steps is exactly 10 nm. -/
theorem C7_wl_table_shape :
    (IceRefractiveIndex._wl.head? = some 350 ∧
      IceRefractiveIndex._wl.getLast? = some 900 ∧
      IceRefractiveIndex._wl.length = 52 ∧
      consecutiveSteps IceRefractiveIndex._wl = 50 :: List.replicate 50 10) ∧
    (Flat.IceRefractiveIndex._wl.head? = some 350 ∧
      Flat.IceRefractiveIndex._wl.getLast? = some 900 ∧
      Flat.IceRefractiveIndex._wl.length = 52 ∧
      consecutiveSteps Flat.IceRefractiveIndex._wl = 50 :: List.replicate 50 10) := by
  decide!

/-- C8: the refractive index paired with 550 nm in the table is 1.3110, and
with that index `n^2 * sin^2(60 deg) = n^2 * 3/4` exceeds 1 (the condition for
total internal reflection). -/
theorem C8_index_at_550_total_reflection :
    (List.zip IceRefractiveIndex._wl IceRefractiveIndex._n).lookup 550 = some 1.3110 ∧
    ∃ n : ℚ, (List.zip IceRefractiveIndex._wl IceRefractiveIndex._n).lookup 550 = some n ∧
      n ^ 2 * (3 / 4) > 1 := by
  have h : (List.zip IceRefractiveIndex._wl IceRefractiveIndex._n).lookup 550 = some 1.3110 := by
    decide!
  exact ⟨h, 1.3110, h, by norm_num⟩

theorem foldl_inv {σ ι : Type} (P : σ → Prop) (f : σ → ι → σ) (l : List ι) (s : σ)
    (h0 : P s) (hf : ∀ t i, i ∈ l → P t → P (f t i)) : P (l.foldl f s) := by
  induction l generalizing s with
  | nil => simpa using h0
  | cons a l ih =>
    simp only [List.foldl_cons]
    apply ih
    · exact hf s a (List.mem_cons_self _ _) h0
    · intro t i hi ht
      exact hf t i (List.mem_cons_of_mem _ hi) ht

theorem length_backPush {α : Type} (v : List (List α)) (r : α) :
    (backPush v r).length = v.length := by
  induction v with
  | nil => rfl
  | cons l ls ih =>
    cases ls with
    | nil => rfl
    | cons m ms => simp only [backPush, List.length_cons] at ih ⊢; omega

theorem backPush_append_singleton {α : Type} (v : List (List α)) (l : List α) (r : α) :
    backPush (v ++ [l]) r = v ++ [l ++ [r]] := by
  induction v with
  | nil => rfl
  | cons a v ih =>
    cases v with
    | nil => rfl
    | cons b v =>
      have h : backPush (a :: b :: (v ++ [l])) r = a :: backPush (b :: (v ++ [l])) r := rfl
      rw [List.cons_append, List.cons_append, h]
      rw [List.cons_append] at ih
      rw [ih]
      rfl

theorem TraceFrame.tf_refl (s : Simulator) : TraceFrame s s :=
  ⟨rfl, rfl, rfl, rfl, rfl, rfl, rfl⟩

theorem TraceFrame.tf_trans {s t u : Simulator} (h1 : TraceFrame s t) (h2 : TraceFrame t u) :
    TraceFrame s u := by
  unfold TraceFrame at h1 h2 ⊢
  refine ⟨?_, ?_, ?_, ?_, ?_, ?_, ?_⟩
  · rw [h2.1, h1.1]
  · rw [h2.2.1, h1.2.1]
  · rw [h2.2.2.1, h1.2.2.1]
  · rw [h2.2.2.2.1, h1.2.2.2.1]
  · rw [h2.2.2.2.2.1, h1.2.2.2.2.1]
  · rw [h2.2.2.2.2.2.1, h1.2.2.2.2.2.1]
  · rw [h2.2.2.2.2.2.2, h1.2.2.2.2.2.2]

theorem TraceFrame.tf_foldl {ι : Type} (f : Simulator → ι → Simulator) (l : List ι) (s : Simulator)
    (hf : ∀ t i, TraceFrame t (f t i)) : TraceFrame s (l.foldl f s) :=
  foldl_inv (fun t => TraceFrame s t) f l s (TraceFrame.tf_refl s)
    (fun t i _ ht => ht.tf_trans (hf t i))

theorem InitEntryRays_ray_frame (env : Env) (c : CrystalContext) (s : Simulator) (i : Nat) :
    TraceFrame s (Simulator.InitEntryRays_ray env c s i) :=
  ⟨rfl, rfl, rfl, rfl, rfl, rfl, by simp [Simulator.InitEntryRays_ray, length_backPush]⟩

theorem InitEntryRays_frame (env : Env) (c : CrystalContext) (s : Simulator) :
    TraceFrame s (Simulator.InitEntryRays env c s) :=
  TraceFrame.tf_foldl _ _ _ (InitEntryRays_ray_frame env c)

theorem StoreRaySegments_slot_frame (ctx : ProjectContext) (crystal : Crystal)
    (filter : AbstractRayPathFilter) (s : Simulator) (i : Nat) :
    TraceFrame s (Simulator.StoreRaySegments_slot ctx crystal filter s i) := by
  unfold Simulator.StoreRaySegments_slot
  dsimp only
  split_ifs
  · exact TraceFrame.tf_refl s
  · exact ⟨rfl, rfl, rfl, rfl, rfl, rfl, rfl⟩
  · exact ⟨rfl, rfl, rfl, rfl, rfl, length_backPush _ _, rfl⟩
  · exact ⟨rfl, rfl, rfl, rfl, rfl, rfl, rfl⟩

theorem StoreRaySegments_frame (ctx : ProjectContext) (crystal : Crystal)
    (filter : AbstractRayPathFilter) (s : Simulator) :
    TraceFrame s (Simulator.StoreRaySegments ctx crystal filter s) :=
  TraceFrame.tf_foldl _ _ _ (StoreRaySegments_slot_frame ctx crystal filter)

theorem growForTrace_frame (s : Simulator) : TraceFrame s s.growForTrace := by
  unfold Simulator.growForTrace
  split_ifs
  · exact ⟨rfl, rfl, rfl, rfl, rfl, rfl, rfl⟩
  · exact TraceFrame.tf_refl s

theorem TraceRays_step_frame (ctx : ProjectContext) (env : Env) (crystal : Crystal)
    (filter : AbstractRayPathFilter) (n : ℚ) (s : Simulator) :
    TraceFrame s (Simulator.TraceRays_step ctx env crystal filter n s) := by
  unfold Simulator.TraceRays_step
  have h2 : ∀ t : Simulator, TraceFrame t (traceFanOut env crystal n t) :=
    fun t => ⟨rfl, rfl, rfl, rfl, rfl, rfl, rfl⟩
  have h4 : ∀ t : Simulator, TraceFrame t (Simulator.RefreshBuffer ctx t) :=
    fun t => ⟨rfl, rfl, rfl, rfl, rfl, rfl, rfl⟩
  exact (growForTrace_frame s).tf_trans
    ((h2 _).tf_trans ((StoreRaySegments_frame ctx crystal filter _).tf_trans (h4 _)))

theorem TraceRays_frame (ctx : ProjectContext) (env : Env) (crystal : Crystal)
    (filter : AbstractRayPathFilter) (s t : Simulator)
    (h : Simulator.TraceRays ctx env crystal filter s = Except.ok t) : TraceFrame s t := by
  unfold Simulator.TraceRays at h
  split at h
  · cases h
  · injection h with h
    subst h
    exact TraceFrame.tf_foldl _ _ _ (fun t _ => TraceRays_step_frame ctx env crystal filter _ t)

theorem TraceFrame.toPass {s t : Simulator} (h : TraceFrame s t) : PassFrame s t :=
  ⟨h.1, h.2.1, h.2.2.1, h.2.2.2.1, h.2.2.2.2.2.1, h.2.2.2.2.2.2⟩

theorem PassFrame.pf_trans {s t u : Simulator} (h1 : PassFrame s t) (h2 : PassFrame t u) :
    PassFrame s u := by
  unfold PassFrame at h1 h2 ⊢
  refine ⟨?_, ?_, ?_, ?_, ?_, ?_⟩
  · rw [h2.1, h1.1]
  · rw [h2.2.1, h1.2.1]
  · rw [h2.2.2.1, h1.2.2.1]
  · rw [h2.2.2.2.1, h1.2.2.2.1]
  · rw [h2.2.2.2.2.1, h1.2.2.2.2.1]
  · rw [h2.2.2.2.2.2, h1.2.2.2.2.2]

theorem crystalBegin_frame (c : CrystalInfo) (s : Simulator) :
    TraceFrame s (Simulator.crystalBegin c s) := by
  unfold Simulator.crystalBegin
  dsimp only
  split_ifs <;> exact ⟨rfl, rfl, rfl, rfl, rfl, rfl, rfl⟩

theorem crystalPass_frame (ctx : ProjectContext) (env : Env) (c : CrystalInfo) (s t : Simulator)
    (h : Simulator.crystalPass ctx env c s = Except.ok t) : PassFrame s t := by
  unfold Simulator.crystalPass at h
  have h1 := (TraceRays_frame ctx env _ _ _ _ h).toPass
  have h0 := ((crystalBegin_frame c s).tf_trans
    (InitEntryRays_frame env (ctx.GetCrystalContext c.crystal_id) _)).toPass
  exact (h0.pf_trans ⟨rfl, rfl, rfl, rfl, rfl, rfl⟩).pf_trans h1

theorem crystalLoop_frame (ctx : ProjectContext) (env : Env) (cs : List CrystalInfo) :
    ∀ s t : Simulator, Simulator.crystalLoop ctx env cs s = Except.ok t → PassFrame s t := by
  induction cs with
  | nil =>
    intro s t h
    simp only [Simulator.crystalLoop] at h
    injection h with h
    subst h
    exact ⟨rfl, rfl, rfl, rfl, rfl, rfl⟩
  | cons c cs ih =>
    intro s t h
    simp only [Simulator.crystalLoop] at h
    split at h
    · cases h
    · rename_i s5 h5
      exact (crystalPass_frame ctx env c s s5 h5).pf_trans (ih _ _ h)

theorem RestoreFrame.rf_refl (s : Simulator) : RestoreFrame s s :=
  ⟨rfl, rfl, rfl, rfl, [], by simp⟩

theorem RestoreFrame.rf_trans {s t u : Simulator} (h1 : RestoreFrame s t) (h2 : RestoreFrame t u) :
    RestoreFrame s u := by
  unfold RestoreFrame at h1 h2 ⊢
  obtain ⟨l1, hl1⟩ := h1.2.2.2.2
  obtain ⟨l2, hl2⟩ := h2.2.2.2.2
  refine ⟨?_, ?_, ?_, ?_, l1 ++ l2, ?_⟩
  · rw [h2.1, h1.1]
  · rw [h2.2.1, h1.2.1]
  · rw [h2.2.2.1, h1.2.2.1]
  · rw [h2.2.2.2.1, h1.2.2.2.1]
  · rw [hl2, hl1, List.append_assoc]

theorem growForRestore_frame (s : Simulator) : RestoreFrame s s.growForRestore := by
  unfold Simulator.growForRestore
  dsimp only
  split_ifs <;> exact ⟨rfl, rfl, rfl, rfl, [], by simp⟩

theorem RestoreResultRays_seg_frame (ctx : ProjectContext) (env : Env) (prob : ℚ)
    (acc : Simulator × Nat) (r : Nat) :
    RestoreFrame acc.1 (Simulator.RestoreResultRays_seg ctx env prob acc r).1 := by
  unfold Simulator.RestoreResultRays_seg
  dsimp only
  split_ifs
  · exact RestoreFrame.rf_refl _
  · exact ⟨rfl, rfl, rfl, rfl, [r], rfl⟩
  · exact ⟨rfl, rfl, rfl, rfl, [], by simp⟩

theorem RestoreResultRays_frame (ctx : ProjectContext) (env : Env) (prob : ℚ) (s : Simulator) :
    RestoreFrame s (Simulator.RestoreResultRays ctx env prob s) := by
  unfold Simulator.RestoreResultRays
  dsimp only
  have h1 : RestoreFrame s (Simulator.RestoreResultRays_select ctx env prob s) := by
    unfold Simulator.RestoreResultRays_select
    dsimp only
    have h := foldl_inv (fun acc : Simulator × Nat => RestoreFrame s acc.1)
      (Simulator.RestoreResultRays_seg ctx env prob) (backOf s.exit_ray_segments_)
      (s.growForRestore, 0) (growForRestore_frame s)
      (fun t r _ ht => ht.rf_trans (RestoreResultRays_seg_frame ctx env prob t r))
    exact h.rf_trans ⟨rfl, rfl, rfl, rfl, [], by simp⟩
  refine foldl_inv (fun t : Simulator => RestoreFrame s t) _ _ _ h1 ?_
  intro t i _ ht
  exact ht.rf_trans ⟨rfl, rfl, rfl, rfl, [], by simp [Simulator.RestoreResultRays_shuffle]⟩

theorem restoredBy_spec (ctx : ProjectContext) (env : Env) (prob : ℚ) (s : Simulator) :
    (Simulator.RestoreResultRays ctx env prob s).final_ray_segments_ =
      s.final_ray_segments_ ++ Simulator.restoredBy ctx env prob s := by
  obtain ⟨-, -, -, -, l, hl⟩ := RestoreResultRays_frame ctx env prob s
  unfold Simulator.restoredBy
  rw [hl, List.drop_left]

theorem scatterEnd_spec (ctx : ProjectContext) (env : Env) (it : MultiScatterContext)
    (is_last : Bool) (s : Simulator) :
    (Simulator.scatterEnd ctx env it is_last s).current_wavelength_index_ =
      s.current_wavelength_index_ ∧
    (Simulator.scatterEnd ctx env it is_last s).exit_ray_segments_ = s.exit_ray_segments_ ∧
    (Simulator.scatterEnd ctx env it is_last s).rays_ = s.rays_ ∧
    (Simulator.scatterEnd ctx env it is_last s).final_ray_segments_ = s.final_ray_segments_ ++
      (if is_last = false then Simulator.restoredBy ctx env it.GetProbability s else []) := by
  unfold Simulator.scatterEnd
  dsimp only
  split_ifs with h
  · obtain ⟨h1, h2, h3, -, -⟩ := RestoreResultRays_frame ctx env it.GetProbability s
    exact ⟨h1, h2, h3, restoredBy_spec ctx env _ s⟩
  · exact ⟨rfl, rfl, rfl, by simp⟩

theorem scatterLoop_spec (ctx : ProjectContext) (env : Env) (its : List MultiScatterContext) :
    ∀ s t : Simulator, Simulator.scatterLoop ctx env its s = Except.ok t →
      t.current_wavelength_index_ = s.current_wavelength_index_ ∧
      t.exit_ray_segments_.length = s.exit_ray_segments_.length + its.length ∧
      t.final_ray_segments_ = s.final_ray_segments_ ++ Simulator.restoredInLoop ctx env its s := by
  induction its with
  | nil =>
    intro s t h
    simp only [Simulator.scatterLoop] at h
    injection h with h
    subst h
    simp [Simulator.restoredInLoop]
  | cons it rest ih =>
    intro s t h
    simp only [Simulator.scatterLoop] at h
    split at h
    · cases h
    · rename_i s2 h2
      obtain ⟨c1, c2, -, -, c5, -⟩ := crystalLoop_frame ctx env _ _ _ h2
      obtain ⟨e1, e2, -, e4⟩ := scatterEnd_spec ctx env it rest.isEmpty s2
      obtain ⟨i1, i2, i3⟩ := ih _ _ h
      refine ⟨?_, ?_, ?_⟩
      · rw [i1, e1, c1]; rfl
      · rw [i2, e2, c5]; simp [Simulator.scatterBegin]; omega
      · rw [i3, e4, c2]
        simp only [Simulator.restoredInLoop, h2, List.append_assoc]
        rfl

theorem wavelengthAt_ok_TraceRays (ctx : ProjectContext) (env : Env) (crystal : Crystal)
    (filter : AbstractRayPathFilter) (s : Simulator)
    (h : wavelengthAt ctx s.current_wavelength_index_ ≠ none) :
    ∃ t, Simulator.TraceRays ctx env crystal filter s = Except.ok t := by
  unfold Simulator.TraceRays
  split
  · rename_i h0; exact absurd h0 h
  · exact ⟨_, rfl⟩

theorem crystalLoop_ok (ctx : ProjectContext) (env : Env) (cs : List CrystalInfo) :
    ∀ s : Simulator, wavelengthAt ctx s.current_wavelength_index_ ≠ none →
      ∃ t, Simulator.crystalLoop ctx env cs s = Except.ok t := by
  induction cs with
  | nil => intro s _; exact ⟨s, rfl⟩
  | cons c cs ih =>
    intro s hs
    have h0 := ((crystalBegin_frame c s).tf_trans
      (InitEntryRays_frame env (ctx.GetCrystalContext c.crystal_id) _)).1
    obtain ⟨s5, h5⟩ := wavelengthAt_ok_TraceRays ctx env (ctx.GetCrystal c.crystal_id)
      (ctx.GetRayPathFilter c.filter_id)
      (Simulator.InitEntryRays env (ctx.GetCrystalContext c.crystal_id)
        (Simulator.crystalBegin c s)).advanceOffset
      (by
        show wavelengthAt ctx (Simulator.InitEntryRays env (ctx.GetCrystalContext c.crystal_id)
          (Simulator.crystalBegin c s)).current_wavelength_index_ ≠ none
        rw [h0]; exact hs)
    have h5' : Simulator.crystalPass ctx env c s = Except.ok s5 := h5
    have h6 := (crystalPass_frame ctx env c s s5 h5').1
    obtain ⟨t, ht⟩ := ih s5 (by rw [h6]; exact hs)
    exact ⟨t, by simp only [Simulator.crystalLoop, h5', ht]⟩

theorem scatterLoop_ok (ctx : ProjectContext) (env : Env) (its : List MultiScatterContext) :
    ∀ s : Simulator, wavelengthAt ctx s.current_wavelength_index_ ≠ none →
      ∃ t, Simulator.scatterLoop ctx env its s = Except.ok t := by
  induction its with
  | nil => intro s _; exact ⟨s, rfl⟩
  | cons it rest ih =>
    intro s hs
    obtain ⟨s2, h2⟩ := crystalLoop_ok ctx env it.GetCrystalInfo s.scatterBegin hs
    have c1 := (crystalLoop_frame ctx env _ _ _ h2).1
    have e1 := (scatterEnd_spec ctx env it rest.isEmpty s2).1
    obtain ⟨t, ht⟩ := ih (Simulator.scatterEnd ctx env it rest.isEmpty s2)
      (by rw [e1, c1]; exact hs)
    exact ⟨t, by simp only [Simulator.scatterLoop, h2, ht]⟩

theorem foldl_concat_eq_append {α : Type} (l acc : List α) :
    l.foldl (fun final r => final ++ [r]) acc = acc ++ l := by
  induction l generalizing acc with
  | nil => simp
  | cons a l ih => simp [ih]

theorem restoredInLoop_singleton (ctx : ProjectContext) (env : Env) (it : MultiScatterContext)
    (s : Simulator) : Simulator.restoredInLoop ctx env [it] s = [] := by
  simp only [Simulator.restoredInLoop]
  split <;> simp [Simulator.restoredInLoop]

/-- C1: for a run of `Start` with a non-empty scatter list, (a) with a valid
wavelength index the run returns, and (b) whenever it returns there is one exit
list per descriptor and `final_ray_segments_` is the sequence of segments moved
by the earlier calls of `RestoreResultRays`, followed by the last pass's exit
list in order; with a single descriptor it is exactly that pass's exit list. -/
theorem C1_final_is_restored_then_last_exit (ctx : ProjectContext) (env : Env) (s : Simulator)
    (hne : ctx.multi_scatter_info_ ≠ []) :
    ((wavelengthAt ctx s.current_wavelength_index_).isSome = true →
      ∃ t, Simulator.Start ctx env s = Except.ok t) ∧
    ∀ t, Simulator.Start ctx env s = Except.ok t →
      t.exit_ray_segments_.length = ctx.multi_scatter_info_.length ∧
      t.final_ray_segments_ =
        Simulator.restoredInLoop ctx env ctx.multi_scatter_info_
          (Simulator.InitSunRays ctx env (Simulator.reset ctx s)) ++
        backOf t.exit_ray_segments_ ∧
      (ctx.multi_scatter_info_.length = 1 → t.final_ray_segments_ = backOf t.exit_ray_segments_) := by
  have hlen : ∀ s1, Simulator.scatterLoop ctx env ctx.multi_scatter_info_
      (Simulator.InitSunRays ctx env (Simulator.reset ctx s)) = Except.ok s1 →
      s1.exit_ray_segments_.length = ctx.multi_scatter_info_.length := by
    intro s1 h1
    have h := (scatterLoop_spec ctx env _ _ _ h1).2.1
    simpa [Simulator.InitSunRays, Simulator.reset] using h
  constructor
  · intro hw
    have hw' : wavelengthAt ctx
        (Simulator.InitSunRays ctx env (Simulator.reset ctx s)).current_wavelength_index_ ≠ none := by
      intro h0
      have : wavelengthAt ctx s.current_wavelength_index_ = none := h0
      rw [this] at hw
      cases hw
    obtain ⟨s1, h1⟩ := scatterLoop_ok ctx env ctx.multi_scatter_info_ _ hw'
    have hl := hlen s1 h1
    unfold Simulator.Start
    rw [h1]
    dsimp only
    cases hlast : s1.exit_ray_segments_.getLast? with
    | none =>
      rw [List.getLast?_eq_none_iff] at hlast
      rw [hlast] at hl
      exact absurd (List.length_eq_zero.mp hl.symm) hne
    | some last => exact ⟨_, rfl⟩
  · intro t ht
    unfold Simulator.Start at ht
    split at ht
    · cases ht
    · rename_i s1 h1
      have hl := hlen s1 h1
      have hf := (scatterLoop_spec ctx env _ _ _ h1).2.2
      split at ht
      · cases ht
      · rename_i last hlast
        injection ht with ht
        subst ht
        have hback : backOf s1.exit_ray_segments_ = last := by
          unfold backOf
          rw [List.getLastD_eq_getLast?, hlast]
          rfl
        have hfin : (Simulator.InitSunRays ctx env (Simulator.reset ctx s)).final_ray_segments_
            = [] := rfl
        rw [hfin, List.nil_append] at hf
        have hmain : last.foldl (fun final r => final ++ [r]) s1.final_ray_segments_ =
            Simulator.restoredInLoop ctx env ctx.multi_scatter_info_
              (Simulator.InitSunRays ctx env (Simulator.reset ctx s)) ++ last := by
          rw [foldl_concat_eq_append, hf]
        refine ⟨hl, ?_, ?_⟩
        · show last.foldl (fun final r => final ++ [r]) s1.final_ray_segments_ = _ ++
            backOf s1.exit_ray_segments_
          rw [hback, hmain]
        · intro h1len
          show last.foldl (fun final r => final ++ [r]) s1.final_ray_segments_ =
            backOf s1.exit_ray_segments_
          rw [hback, hmain]
          obtain ⟨it, hit⟩ := List.length_eq_one.mp h1len
          rw [hit, restoredInLoop_singleton, List.nil_append]

set_option maxRecDepth 100000 in
/-- Witness for C1: the two-pass example run returns, and its final list is the
restored segments followed by the last exit list. -/
theorem C1_witness :
    ∃ t, Simulator.Start (sampleCtx sampleTwoPass) sampleEnv
        (Simulator.new.SetWavelengthIndex (sampleCtx sampleTwoPass) 0) = Except.ok t ∧
      t.final_ray_segments_ =
        Simulator.restoredInLoop (sampleCtx sampleTwoPass) sampleEnv sampleTwoPass
          (Simulator.InitSunRays (sampleCtx sampleTwoPass) sampleEnv
            (Simulator.reset (sampleCtx sampleTwoPass)
              (Simulator.new.SetWavelengthIndex (sampleCtx sampleTwoPass) 0))) ++
        backOf t.exit_ray_segments_ := by
  have h := C1_final_is_restored_then_last_exit (sampleCtx sampleTwoPass) sampleEnv
    (Simulator.new.SetWavelengthIndex (sampleCtx sampleTwoPass) 0) (List.cons_ne_nil _ _)
  obtain ⟨t, ht⟩ := h.1 (by decide!)
  exact ⟨t, ht, (h.2 t ht).2.1⟩

theorem TraceRays_step_zero (ctx : ProjectContext) (env : Env) (crystal : Crystal)
    (filter : AbstractRayPathFilter) (n : ℚ) (s : Simulator) (h : s.active_ray_num_ = 0) :
    Simulator.TraceRays_step ctx env crystal filter n s = s := by
  have h1 : s.growForTrace = s := by
    unfold Simulator.growForTrace
    rw [if_neg (by rw [h]; simp)]
  have h2 : traceFanOut env crystal n s = s := by
    cases s
    simp only at h
    subst h
    rfl
  have h3 : Simulator.StoreRaySegments ctx crystal filter s = s := by
    cases s
    simp only at h
    subst h
    rfl
  have h4 : Simulator.RefreshBuffer ctx s = s := by
    cases s
    simp only at h
    subst h
    rfl
  unfold Simulator.TraceRays_step
  rw [h1, h2, h3, h4]

theorem TraceRays_zero (ctx : ProjectContext) (env : Env) (crystal : Crystal)
    (filter : AbstractRayPathFilter) (s t : Simulator) (h : s.active_ray_num_ = 0)
    (ht : Simulator.TraceRays ctx env crystal filter s = Except.ok t) : t = s := by
  unfold Simulator.TraceRays at ht
  split at ht
  · cases ht
  · injection ht with ht
    subst ht
    refine foldl_inv (fun t : Simulator => t = s) _ _ _ rfl ?_
    intro t _ _ ht
    subst ht
    exact TraceRays_step_zero ctx env crystal filter _ _ h

theorem crystalPass_zero (ctx : ProjectContext) (env : Env) (c : CrystalInfo) (s t : Simulator)
    (h : s.total_ray_num_ = 0) (ht : Simulator.crystalPass ctx env c s = Except.ok t) :
    t.total_ray_num_ = 0 ∧ t.exit_ray_segments_ = s.exit_ray_segments_ ∧ t.pool = s.pool ∧
      t.final_ray_segments_ = s.final_ray_segments_ := by
  have hb : Simulator.crystalBegin c s = { s with active_ray_num_ := 0 } := by
    unfold Simulator.crystalBegin
    simp [h, activeOf_zero]
  have hi : Simulator.InitEntryRays env (ctx.GetCrystalContext c.crystal_id)
      (Simulator.crystalBegin c s) = { s with active_ray_num_ := 0 } := by
    rw [hb]
    rfl
  unfold Simulator.crystalPass at ht
  rw [hi] at ht
  have := TraceRays_zero ctx env _ _ _ _ rfl ht
  subst this
  exact ⟨h, rfl, rfl, rfl⟩

theorem crystalLoop_zero (ctx : ProjectContext) (env : Env) (cs : List CrystalInfo) :
    ∀ s t : Simulator, s.total_ray_num_ = 0 → Simulator.crystalLoop ctx env cs s = Except.ok t →
      t.exit_ray_segments_ = s.exit_ray_segments_ ∧ t.pool = s.pool ∧
      t.final_ray_segments_ = s.final_ray_segments_ := by
  induction cs with
  | nil =>
    intro s t _ h
    simp only [Simulator.crystalLoop] at h
    injection h with h
    subst h
    exact ⟨rfl, rfl, rfl⟩
  | cons c cs ih =>
    intro s t h0 h
    simp only [Simulator.crystalLoop] at h
    split at h
    · cases h
    · rename_i s5 h5
      obtain ⟨a0, a1, a2, a3⟩ := crystalPass_zero ctx env c s s5 h0 h5
      obtain ⟨b1, b2, b3⟩ := ih s5 t a0 h
      exact ⟨b1.trans a1, b2.trans a2, b3.trans a3⟩

theorem RestoreResultRays_seg_all_final (ctx : ProjectContext) (env : Env)
    (hu : ∀ k, 0 < env.GetUniform k) (l : List Nat) :
    ∀ acc : Simulator × Nat,
      ((l.foldl (Simulator.RestoreResultRays_seg ctx env 0) acc).1.final_ray_segments_ =
        acc.1.final_ray_segments_ ++ l.filter (restoreEligible ctx acc.1.pool)) ∧
      (l.foldl (Simulator.RestoreResultRays_seg ctx env 0) acc).2 = acc.2 ∧
      (l.foldl (Simulator.RestoreResultRays_seg ctx env 0) acc).1.pool = acc.1.pool := by
  induction l with
  | nil => intro acc; simp
  | cons r l ih =>
    intro acc
    simp only [List.foldl_cons]
    obtain ⟨h1, h2, h3⟩ := ih (Simulator.RestoreResultRays_seg ctx env 0 acc r)
    rw [h1, h2, h3]
    unfold Simulator.RestoreResultRays_seg
    dsimp only
    by_cases he : (acc.1.pool.segments r).is_finished = false ∨
        (acc.1.pool.segments r).w < ctx.kScatMinW
    · rw [if_pos he]
      have : restoreEligible ctx acc.1.pool r = false := by
        unfold restoreEligible
        rcases he with he | he
        · simp [he]
        · simp [he]
      simp [List.filter_cons, this]
    · rw [if_neg he, if_pos (hu _)]
      have : restoreEligible ctx acc.1.pool r = true := by
        unfold restoreEligible
        push_neg at he
        simp [he.1, he.2]
      simp [List.filter_cons, this]

theorem RestoreResultRays_prob_zero (ctx : ProjectContext) (env : Env)
    (hu : ∀ k, 0 < env.GetUniform k) (s : Simulator) :
    (Simulator.RestoreResultRays ctx env 0 s).final_ray_segments_ =
      s.final_ray_segments_ ++ (backOf s.exit_ray_segments_).filter (restoreEligible ctx s.pool) ∧
    (Simulator.RestoreResultRays ctx env 0 s).total_ray_num_ = 0 := by
  have hg : s.growForRestore.final_ray_segments_ = s.final_ray_segments_ ∧
      s.growForRestore.pool = s.pool := by
    obtain ⟨-, -, -, hp, -⟩ := growForRestore_frame s
    refine ⟨?_, hp⟩
    unfold Simulator.growForRestore
    dsimp only
    split_ifs <;> rfl
  obtain ⟨h1, h2, -⟩ := RestoreResultRays_seg_all_final ctx env hu (backOf s.exit_ray_segments_)
    (s.growForRestore, 0)
  have hsel : (Simulator.RestoreResultRays_select ctx env 0 s).total_ray_num_ = 0 := h2
  have hself : (Simulator.RestoreResultRays_select ctx env 0 s).final_ray_segments_ =
      s.final_ray_segments_ ++ (backOf s.exit_ray_segments_).filter (restoreEligible ctx s.pool) := by
    show ((backOf s.exit_ray_segments_).foldl (Simulator.RestoreResultRays_seg ctx env 0)
      (s.growForRestore, 0)).1.final_ray_segments_ = _
    rw [h1]
    dsimp only
    rw [hg.1, hg.2]
  unfold Simulator.RestoreResultRays
  dsimp only
  rw [hsel]
  exact ⟨hself, hsel⟩

theorem getLastD_append_singleton {α : Type} (v : List (List α)) (l : List α) :
    backOf (v ++ [l]) = l := by
  unfold backOf
  rw [List.getLastD_eq_getLast?, List.getLast?_append]
  simp

theorem Start_ok_iff (ctx : ProjectContext) (env : Env) (s t : Simulator) :
    Simulator.Start ctx env s = Except.ok t ↔
      ∃ s1 last, Simulator.scatterLoop ctx env ctx.multi_scatter_info_
          (Simulator.InitSunRays ctx env (Simulator.reset ctx s)) = Except.ok s1 ∧
        s1.exit_ray_segments_.getLast? = some last ∧
        t = { s1 with final_ray_segments_ := s1.final_ray_segments_ ++ last } := by
  unfold Simulator.Start
  constructor
  · intro h
    split at h
    · cases h
    · rename_i s1 h1
      split at h
      · cases h
      · rename_i last hlast
        injection h with h
        refine ⟨s1, last, h1, hlast, ?_⟩
        rw [← h, foldl_concat_eq_append]
  · rintro ⟨s1, last, h1, hlast, rfl⟩
    rw [h1]
    dsimp only
    rw [hlast]
    dsimp only
    rw [foldl_concat_eq_append]

/-- C2 (amended): for a two-descriptor scatter list whose first descriptor has
probability 0.0 and uniform draws that are all positive, a returning `Start`
leaves two exit lists, the second one empty, and the final ray segments are
exactly the exit segments of the first pass that are finished and whose weight
is not below `kScatMinW`, in exit order. -/
theorem C2_pass_through_keeps_eligible_exits (ctx : ProjectContext) (env : Env)
    (s t : Simulator) (it1 it2 : MultiScatterContext)
    (h2 : ctx.multi_scatter_info_ = [it1, it2]) (hp : it1.GetProbability = 0)
    (hu : ∀ k, 0 < env.GetUniform k) (ht : Simulator.Start ctx env s = Except.ok t) :
    t.exit_ray_segments_.length = 2 ∧ t.exit_ray_segments_.getD 1 [] = [] ∧
    t.final_ray_segments_ =
      (t.exit_ray_segments_.getD 0 []).filter (restoreEligible ctx t.pool) := by
  obtain ⟨s1, last, h1, hlast, rfl⟩ := (Start_ok_iff ctx env s t).mp ht
  rw [h2] at h1
  simp only [Simulator.scatterLoop] at h1
  split at h1
  · cases h1
  · rename_i sa ha
    split at h1
    · cases h1
    · rename_i sb hb
      injection h1 with h1
      obtain ⟨-, a2, -, -, a5, -⟩ := crystalLoop_frame ctx env _ _ _ ha
      have ha2 : sa.final_ray_segments_ = [] := a2
      have ha5 : sa.exit_ray_segments_.length = 1 := a5
      obtain ⟨e0, he0⟩ := List.length_eq_one.mp ha5
      have hback : backOf sa.exit_ray_segments_ = e0 := by rw [he0]; rfl
      obtain ⟨r1, r2⟩ := RestoreResultRays_prob_zero ctx env hu sa
      obtain ⟨-, r3, -, r4, -⟩ := RestoreResultRays_frame ctx env 0 sa
      have hend : Simulator.scatterEnd ctx env it1 ([it2] : List MultiScatterContext).isEmpty sa =
          { Simulator.RestoreResultRays ctx env 0 sa with enter_ray_offset_ := 0 } := by
        unfold Simulator.scatterEnd
        rw [hp]
        rfl
      rw [hend] at hb
      obtain ⟨z1, z2, z3⟩ := crystalLoop_zero ctx env _
        ({ Simulator.RestoreResultRays ctx env 0 sa with enter_ray_offset_ := 0 } :
          Simulator).scatterBegin _ r2 hb
      have hz1 : sb.exit_ray_segments_ = [e0, []] := by
        rw [z1]
        show (Simulator.RestoreResultRays ctx env 0 sa).exit_ray_segments_ ++ [[]] = _
        rw [r3, he0]
        rfl
      have hz2 : sb.pool = sa.pool := by
        rw [z2]
        exact r4
      have hz3 : sb.final_ray_segments_ = e0.filter (restoreEligible ctx sa.pool) := by
        rw [z3]
        show (Simulator.RestoreResultRays ctx env 0 sa).final_ray_segments_ = _
        rw [r1, ha2, hback, List.nil_append]
      have hs1e : s1.exit_ray_segments_ = [e0, []] := by rw [← h1]; exact hz1
      have hs1p : s1.pool = sa.pool := by rw [← h1]; exact hz2
      have hs1f : s1.final_ray_segments_ = e0.filter (restoreEligible ctx sa.pool) := by
        rw [← h1]; exact hz3
      have hl : last = [] := by
        rw [hs1e] at hlast
        simpa using hlast.symm
      refine ⟨?_, ?_, ?_⟩
      · show s1.exit_ray_segments_.length = 2
        rw [hs1e]; rfl
      · show s1.exit_ray_segments_.getD 1 [] = []
        rw [hs1e]; rfl
      · show s1.final_ray_segments_ ++ last =
          (s1.exit_ray_segments_.getD 0 []).filter (restoreEligible ctx s1.pool)
        rw [hs1e, hs1p, hs1f, hl, List.append_nil]
        rfl

set_option maxRecDepth 100000 in
/-- C2 (as stated, refuted): in the two-pass example run, whose first
descriptor has probability 0.0, segment 2 is an exit segment of the first pass
(unfinished, kept because its weight is below `kPropMinW`) and is not a final
segment, so the two sets differ. -/
theorem C2_final_set_differs_from_first_exit_set :
    (∃ it1 it2, (sampleCtx sampleTwoPass).multi_scatter_info_ = [it1, it2] ∧
      it1.GetProbability = 0) ∧
    ∃ t, Simulator.Start (sampleCtx sampleTwoPass) sampleEnv
        (Simulator.new.SetWavelengthIndex (sampleCtx sampleTwoPass) 0) = Except.ok t ∧
      ¬ (∀ r, r ∈ t.final_ray_segments_ ↔ r ∈ t.exit_ray_segments_.getD 0 []) := by
  refine ⟨⟨_, _, rfl, rfl⟩, ?_⟩
  have hf : finalOf (Simulator.Start (sampleCtx sampleTwoPass) sampleEnv
      (Simulator.new.SetWavelengthIndex (sampleCtx sampleTwoPass) 0)) = some [1] := by decide!
  have he : exitOf (Simulator.Start (sampleCtx sampleTwoPass) sampleEnv
      (Simulator.new.SetWavelengthIndex (sampleCtx sampleTwoPass) 0)) = some [[1, 2], []] := by
    decide!
  cases h : Simulator.Start (sampleCtx sampleTwoPass) sampleEnv
      (Simulator.new.SetWavelengthIndex (sampleCtx sampleTwoPass) 0) with
  | error e => rw [h] at hf; cases hf
  | ok t =>
    rw [h] at hf he
    simp only [finalOf, exitOf, Option.some.injEq] at hf he
    refine ⟨t, rfl, ?_⟩
    intro hall
    have := (hall 2).mpr (by rw [he]; decide)
    rw [hf] at this
    exact absurd this (by decide)

set_option maxRecDepth 100000 in
/-- Witness for C2 (amended): the two-pass example run satisfies the hypotheses
(two descriptors, first probability 0, positive draws, returning run). -/
theorem C2_witness :
    ∃ t, Simulator.Start (sampleCtx sampleTwoPass) sampleEnv
        (Simulator.new.SetWavelengthIndex (sampleCtx sampleTwoPass) 0) = Except.ok t ∧
      t.exit_ray_segments_.length = 2 ∧ t.exit_ray_segments_.getD 1 [] = [] ∧
      t.final_ray_segments_ = (t.exit_ray_segments_.getD 0 []).filter
        (restoreEligible (sampleCtx sampleTwoPass) t.pool) := by
  have hf : finalOf (Simulator.Start (sampleCtx sampleTwoPass) sampleEnv
      (Simulator.new.SetWavelengthIndex (sampleCtx sampleTwoPass) 0)) = some [1] := by decide!
  cases h : Simulator.Start (sampleCtx sampleTwoPass) sampleEnv
      (Simulator.new.SetWavelengthIndex (sampleCtx sampleTwoPass) 0) with
  | error e => rw [h] at hf; cases hf
  | ok t =>
    exact ⟨t, rfl, C2_pass_through_keeps_eligible_exits (sampleCtx sampleTwoPass) sampleEnv _ t
      _ _ rfl rfl (fun _ => by show (0 : ℚ) < 1 / 2; norm_num) h⟩

set_option maxRecDepth 100000 in
/-- C3 (code defect): with wavelengths `[550]`, `SetWavelengthIndex(5)` stores
`-1`; `Start` on a one-descriptor, one-crystal, one-ray context then seeds
the sun ray, creates the entry ray and reaches `TraceRays`, whose read
`wavelengths_[-1]` is outside the vector: the run does not return with an empty
result. The sibling `SaveFinalDirections` does guard the same index. -/
theorem C3_invalid_index_still_traces :
    (Simulator.new.SetWavelengthIndex (sampleCtx sampleOnePass) 5).current_wavelength_index_ = -1 ∧
    faultOf (Simulator.Start (sampleCtx sampleOnePass) sampleEnv
      (Simulator.new.SetWavelengthIndex (sampleCtx sampleOnePass) 5)) =
        some Fault.wavelength_index_out_of_range ∧
    (Simulator.InitEntryRays sampleEnv ((sampleCtx sampleOnePass).GetCrystalContext 0)
      (Simulator.crystalBegin ⟨0, 1, 0⟩
        (Simulator.InitSunRays (sampleCtx sampleOnePass) sampleEnv
          (Simulator.reset (sampleCtx sampleOnePass)
            (Simulator.new.SetWavelengthIndex (sampleCtx sampleOnePass) 5))).scatterBegin)
      ).pool.next_unused_id = 1 ∧
    Simulator.SaveFinalDirections (sampleCtx sampleOnePass) sampleEnv true
      (Simulator.new.SetWavelengthIndex (sampleCtx sampleOnePass) 5) = some [] := by
  decide!

theorem entryProbRaw_fold (crystal : Crystal) (d : Vec3) (n : Nat) :
    (∀ k, ((List.range n).foldl (entryProbFace crystal d) (fun _ => 0, 0)).1 k =
      if k < n then entryFaceWeight crystal d k else 0) ∧
    0 ≤ ((List.range n).foldl (entryProbFace crystal d) (fun _ => 0, 0)).2 := by
  induction n with
  | zero => simp
  | succ n ih =>
    rw [List.range_succ, List.foldl_append]
    simp only [List.foldl_cons, List.foldl_nil]
    obtain ⟨h1, h2⟩ := ih
    generalize (List.range n).foldl (entryProbFace crystal d) (fun _ => 0, 0) = acc at h1 h2
    unfold entryProbFace
    dsimp only
    by_cases hok : crystal.face_norm_isnan n = false ∧ crystal.face_area n > 0
    · rw [if_pos hok]
      refine ⟨fun k => ?_, ?_⟩
      · by_cases hk : k = n
        · subst hk
          simp [entryFaceWeight, hok]
        · have hk' : (k < n + 1) = (k < n) := by
            apply propext; constructor <;> intro h <;> omega
          simp only [Function.update_noteq hk, h1 k, hk']
      · exact add_nonneg h2 (le_max_right _ _)
    · rw [if_neg hok]
      refine ⟨fun k => ?_, h2⟩
      by_cases hk : k = n
      · subst hk
        simp [entryFaceWeight, hok]
      · have hk' : (k < n + 1) = (k < n) := by
          apply propext; constructor <;> intro h <;> omega
        simp only [Function.update_noteq hk, h1 k, hk']

theorem entryProb_fold (sum : ℚ) (raw : Nat → ℚ) (n : Nat) :
    ∀ k, ((List.range n).foldl (fun prob k => Function.update prob k (prob k / sum)) raw) k =
      if k < n then raw k / sum else raw k := by
  induction n with
  | zero => intro k; simp
  | succ n ih =>
    intro k
    rw [List.range_succ, List.foldl_append]
    simp only [List.foldl_cons, List.foldl_nil]
    by_cases hk : k = n
    · subst hk
      rw [Function.update_same, ih k]
      simp
    · have hk' : k < n + 1 ↔ k < n := by omega
      rw [Function.update_noteq hk, ih k]
      simp only [hk']

theorem entryProb_eq (crystal : Crystal) (d : Vec3) (k : Nat) :
    entryProb crystal d k =
      if k < crystal.TotalFaces then entryFaceWeight crystal d k / (entryProbRaw crystal d).2
      else 0 := by
  unfold entryProb
  rw [entryProb_fold]
  have h := (entryProbRaw_fold crystal d crystal.TotalFaces).1 k
  unfold entryProbRaw
  rw [h]
  split_ifs <;> rfl

theorem entryProb_pos_enters (crystal : Crystal) (d : Vec3) (k : Nat)
    (h : entryProb crystal d k > 0) : Math.Dot3 (crystal.face_norm k) d < 0 := by
  rw [entryProb_eq] at h
  split_ifs at h with hk
  · have hsum : 0 ≤ (entryProbRaw crystal d).2 := (entryProbRaw_fold crystal d _).2
    have hw : 0 < entryFaceWeight crystal d k := by
      by_contra hneg
      push_neg at hneg
      exact absurd h (not_lt.mpr (div_nonpos_of_nonpos_of_nonneg hneg hsum))
    unfold entryFaceWeight at hw
    split_ifs at hw with hok
    · have hpos : 0 < -Math.Dot3 (crystal.face_norm k) d * crystal.face_area k := by
        rcases lt_max_iff.mp hw with h1 | h1
        · exact h1
        · exact absurd h1 (lt_irrefl _)
      have harea : 0 < crystal.face_area k := hok.2
      have : 0 < -Math.Dot3 (crystal.face_norm k) d := by
        by_contra hn
        push_neg at hn
        exact absurd hpos (not_lt.mpr (mul_nonpos_of_nonpos_of_nonneg hn harea.le))
      linarith
    · exact absurd hw (lt_irrefl _)
  · exact absurd h (lt_irrefl _)

theorem InitEntryRays_ray_dir (env : Env) (ctx : CrystalContext) (s : Simulator) (i : Nat) :
    (Simulator.InitEntryRays_ray env ctx s i).buffer_.dir 0 i =
      (Simulator.InitEntryRays_sample env ctx s i).dir := by
  simp [Simulator.InitEntryRays_ray, SimulationBufferData.setEntry]

/-- C9: in the body of the ray loop of `InitEntryRays`, the array handed to the
face sampler is `prob` computed from the ray's crystal-frame direction
`dir[0][i]`, and every face `k` with `prob[k] > 0` has a normal whose dot
product with that direction is negative. -/
theorem C9_sampled_face_is_entered (env : Env) (ctx : CrystalContext) (s : Simulator)
    (i k : Nat)
    (h : entryProb ctx.crystal ((Simulator.InitEntryRays_ray env ctx s i).buffer_.dir 0 i) k > 0) :
    Math.Dot3 (ctx.crystal.face_norm k)
      ((Simulator.InitEntryRays_ray env ctx s i).buffer_.dir 0 i) < 0 ∧
    (Simulator.InitEntryRays_sample env ctx s i).face =
      env.SampleIntProb (Simulator.InitMainAxis env ctx s.rng).2
        (slice (entryProb ctx.crystal ((Simulator.InitEntryRays_ray env ctx s i).buffer_.dir 0 i))
          0 ctx.crystal.TotalFaces) := by
  refine ⟨entryProb_pos_enters _ _ _ h, ?_⟩
  rw [InitEntryRays_ray_dir]
  rfl

set_option maxRecDepth 100000 in
/-- Witness for C9: in the example run the single face has positive sampling
probability for ray 0, and the ray enters through it. -/
theorem C9_witness :
    entryProb ((sampleCtx sampleOnePass).GetCrystalContext 0).crystal
      ((Simulator.InitEntryRays_ray sampleEnv ((sampleCtx sampleOnePass).GetCrystalContext 0)
        sampleSeeded 0).buffer_.dir 0 0) 0 > 0 ∧
    Math.Dot3 (((sampleCtx sampleOnePass).GetCrystalContext 0).crystal.face_norm 0)
      ((Simulator.InitEntryRays_ray sampleEnv ((sampleCtx sampleOnePass).GetCrystalContext 0)
        sampleSeeded 0).buffer_.dir 0 0) < 0 :=
  ⟨by decide!,
    (C9_sampled_face_is_entered sampleEnv ((sampleCtx sampleOnePass).GetCrystalContext 0)
      sampleSeeded 0 0 (by decide!)).1⟩

theorem slice_length {α : Type} (a : Nat → α) (off num : Nat) : (slice a off num).length = num := by
  simp [slice]

theorem slice_add {α : Type} (a : Nat → α) (off m n : Nat) :
    slice a off (m + n) = slice a off m ++ slice a (off + m) n := by
  unfold slice
  rw [List.range_add, List.map_append, List.map_map]
  congr 1
  apply List.map_congr_left
  intro k _
  simp [Nat.add_assoc]

theorem slice_congr {α : Type} (a b : Nat → α) (off num : Nat)
    (h : ∀ i, i < num → a (off + i) = b (off + i)) : slice a off num = slice b off num := by
  unfold slice
  apply List.map_congr_left
  intro k hk
  exact h k (List.mem_range.mp hk)

theorem slice_four {α : Type} (a : Nat → α) (off : Nat) :
    slice a off 4 = [a off, a (off + 1), a (off + 2), a (off + 3)] := by
  simp [slice, List.range_succ]

theorem SaveFinalDirections_fold (env : Env) (s : Simulator) (l : List Nat) :
    ∀ (data : Nat → ℚ) (k : Nat),
      (l.foldl (Simulator.SaveFinalDirections_seg env s) (data, k)).2 = k + l.length ∧
      (∀ i, i < k * 4 → (l.foldl (Simulator.SaveFinalDirections_seg env s) (data, k)).1 i = data i) ∧
      slice (l.foldl (Simulator.SaveFinalDirections_seg env s) (data, k)).1 (k * 4) (l.length * 4) =
        l.flatMap (rayRecord env s) := by
  induction l with
  | nil => intro data k; simp [slice]
  | cons r l ih =>
    intro data k
    simp only [List.foldl_cons]
    have hstep : Simulator.SaveFinalDirections_seg env s (data, k) r =
        (writeRay data (k * 4) (env.RotateZBack (s.pool.segments r).axis_rot (s.pool.segments r).dir)
          (s.pool.segments r).w, k + 1) := rfl
    rw [hstep]
    obtain ⟨h1, h2, h3⟩ := ih (writeRay data (k * 4)
      (env.RotateZBack (s.pool.segments r).axis_rot (s.pool.segments r).dir)
      (s.pool.segments r).w) (k + 1)
    refine ⟨?_, ?_, ?_⟩
    · rw [h1, List.length_cons]; omega
    · intro i hi
      rw [h2 i (by omega)]
      unfold writeRay
      rw [Function.update_noteq (by omega), Function.update_noteq (by omega),
        Function.update_noteq (by omega), Function.update_noteq (by omega)]
    · have hlen : (r :: l).length * 4 = 4 + l.length * 4 := by rw [List.length_cons]; omega
      rw [hlen, slice_add, List.flatMap_cons]
      have hk : k * 4 + 4 = (k + 1) * 4 := by omega
      rw [hk, h3]
      congr 1
      rw [slice_four, h2 _ (by omega), h2 _ (by omega), h2 _ (by omega), h2 _ (by omega)]
      unfold writeRay rayRecord
      simp [Function.update_apply]

theorem wavelengthAt_some_valid (ctx : ProjectContext) (index : Int) (w : WavelengthInfo)
    (h : wavelengthAt ctx index = some w) :
    ¬ (index < 0 ∨ index ≥ (ctx.wavelengths_.length : Int)) := by
  unfold wavelengthAt at h
  split_ifs at h with h0
  have hlt : index.toNat < ctx.wavelengths_.length := by
    by_contra hge
    rw [List.getElem?_eq_none (by omega)] at h
    cases h
  omega

theorem C5_aux (ctx : ProjectContext) (env : Env) (s : Simulator)
    (w : WavelengthInfo) (hw : wavelengthAt ctx s.current_wavelength_index_ = some w) :
    Simulator.SaveFinalDirections ctx env true s =
      some ([(w.wavelength : ℚ), w.weight] ++ s.final_ray_segments_.flatMap (rayRecord env s)) ∧
    ([(w.wavelength : ℚ), w.weight] ++ s.final_ray_segments_.flatMap (rayRecord env s)).length =
      2 + 4 * s.final_ray_segments_.length := by
  obtain ⟨h1, -, h3⟩ := SaveFinalDirections_fold env s s.final_ray_segments_ (fun _ => 0) 0
  constructor
  · unfold Simulator.SaveFinalDirections
    rw [if_neg (by simp), if_neg (wavelengthAt_some_valid ctx _ w hw), hw]
    dsimp only
    rw [h1, Nat.zero_add]
    rw [Nat.zero_mul] at h3
    rw [h3]
  · rw [List.length_append, ← h3, slice_length]
    simp
    omega

theorem flatMap_congr_mem {α β : Type} (l : List α) (f g : α → List β)
    (h : ∀ r, r ∈ l → f r = g r) : l.flatMap f = l.flatMap g := by
  induction l with
  | nil => rfl
  | cons a l ih =>
    have h1 : (a :: l).flatMap f = f a ++ l.flatMap f := rfl
    have h2 : (a :: l).flatMap g = g a ++ l.flatMap g := rfl
    rw [h1, h2, h a (List.mem_cons_self _ _), ih (fun r hr => h r (List.mem_cons_of_mem _ hr))]

theorem rayRecord_root (env : Env) (s : Simulator) (r : Nat) (info : RayInfo)
    (h : (s.pool.segments r).root_ctx = some info) :
    rayRecord env s r =
      [(env.RotateZBack info.main_axis_rot (s.pool.segments r).dir).x,
       (env.RotateZBack info.main_axis_rot (s.pool.segments r).dir).y,
       (env.RotateZBack info.main_axis_rot (s.pool.segments r).dir).z,
       (s.pool.segments r).w] := by
  unfold rayRecord RaySegment.axis_rot
  rw [h]

/-- Claim C5: for a valid current wavelength index (entry `w`) and an opened
file, `SaveFinalDirections` writes exactly the wavelength, its weight, and then
for each segment of `final_ray_segments_`, in order, four floats: `2 + 4 * N`
floats, with no ray count. When every final segment `r` has the root record
`info r` as its `root_ctx`, the four floats of `r` are the three components of
`RotateZBack((info r).main_axis_rot, dir)` followed by the segment weight. -/
theorem C5_dump_is_header_then_records (ctx : ProjectContext) (env : Env) (s : Simulator)
    (w : WavelengthInfo) (hw : wavelengthAt ctx s.current_wavelength_index_ = some w) :
    Simulator.SaveFinalDirections ctx env true s =
      some ([(w.wavelength : ℚ), w.weight] ++ s.final_ray_segments_.flatMap (rayRecord env s)) ∧
    ([(w.wavelength : ℚ), w.weight] ++ s.final_ray_segments_.flatMap (rayRecord env s)).length =
      2 + 4 * s.final_ray_segments_.length ∧
    ∀ info : Nat → RayInfo,
      (∀ r, r ∈ s.final_ray_segments_ → (s.pool.segments r).root_ctx = some (info r)) →
      Simulator.SaveFinalDirections ctx env true s =
        some ([(w.wavelength : ℚ), w.weight] ++ s.final_ray_segments_.flatMap (fun r =>
          [(env.RotateZBack (info r).main_axis_rot (s.pool.segments r).dir).x,
           (env.RotateZBack (info r).main_axis_rot (s.pool.segments r).dir).y,
           (env.RotateZBack (info r).main_axis_rot (s.pool.segments r).dir).z,
           (s.pool.segments r).w])) := by
  obtain ⟨h1, h2⟩ := C5_aux ctx env s w hw
  refine ⟨h1, h2, fun info hroot => ?_⟩
  rw [h1, flatMap_congr_mem _ _ _ (fun r hr => rayRecord_root env s r (info r) (hroot r hr))]

set_option maxRecDepth 100000 in
theorem sampleRun_final_roots :
    ∀ r, r ∈ sampleRun.final_ray_segments_ →
      (sampleRun.pool.segments r).root_ctx = some (sampleRunInfo r) := by
  intro r hr
  have hf : sampleRun.final_ray_segments_ = [1] := by decide!
  rw [hf] at hr
  rw [List.mem_singleton.mp hr]
  have hs : (sampleRun.pool.segments 1).root_ctx.isSome = true := by decide!
  unfold sampleRunInfo
  cases h : (sampleRun.pool.segments 1).root_ctx with
  | none => rw [h] at hs; cases hs
  | some i => rfl

set_option maxRecDepth 100000 in
/-- Witness for C5: the two-pass example run has one final segment, handle 1,
whose root record has the axis `(0, 0, 22/7)`; its dump is the six floats
`550, 1, 0, 0, -1, 1999/2000`, that is `2 + 4 * 1` floats, and the record is
`RotateZBack` of that axis and the segment direction, then the weight. -/
theorem C5_witness :
    sampleRun.final_ray_segments_ = [1] ∧
    (sampleRunInfo 1).main_axis_rot = ⟨0, 0, 22 / 7⟩ ∧
    Simulator.SaveFinalDirections (sampleCtx sampleTwoPass) sampleEnv true sampleRun =
      some [550, 1, 0, 0, -1, 1999 / 2000] ∧
    Simulator.SaveFinalDirections (sampleCtx sampleTwoPass) sampleEnv true sampleRun =
      some ([((550 : Int) : ℚ), 1] ++ sampleRun.final_ray_segments_.flatMap
        (rayRecord sampleEnv sampleRun)) ∧
    ([((550 : Int) : ℚ), 1] ++ sampleRun.final_ray_segments_.flatMap
        (rayRecord sampleEnv sampleRun)).length = 2 + 4 * sampleRun.final_ray_segments_.length ∧
    Simulator.SaveFinalDirections (sampleCtx sampleTwoPass) sampleEnv true sampleRun =
      some ([((550 : Int) : ℚ), 1] ++ sampleRun.final_ray_segments_.flatMap (fun r =>
        [(sampleEnv.RotateZBack (sampleRunInfo r).main_axis_rot (sampleRun.pool.segments r).dir).x,
         (sampleEnv.RotateZBack (sampleRunInfo r).main_axis_rot (sampleRun.pool.segments r).dir).y,
         (sampleEnv.RotateZBack (sampleRunInfo r).main_axis_rot (sampleRun.pool.segments r).dir).z,
         (sampleRun.pool.segments r).w])) :=
  ⟨by decide!, by decide!, by decide!,
    (C5_dump_is_header_then_records (sampleCtx sampleTwoPass) sampleEnv sampleRun ⟨550, 1⟩
      (by decide!)).1,
    (C5_dump_is_header_then_records (sampleCtx sampleTwoPass) sampleEnv sampleRun ⟨550, 1⟩
      (by decide!)).2.1,
    (C5_dump_is_header_then_records (sampleCtx sampleTwoPass) sampleEnv sampleRun ⟨550, 1⟩
      (by decide!)).2.2 sampleRunInfo sampleRun_final_roots⟩

theorem truncToInt_intCast (n : Int) : truncToInt (n : ℚ) = n := by
  unfold truncToInt
  split_ifs
  · exact Int.floor_intCast n
  · exact Int.ceil_intCast n

theorem slice_getD_take (l : List ℚ) (n : Nat) (hn : n ≤ l.length) :
    slice (fun i => l.getD i 0) 0 n = l.take n := by
  apply List.ext_getElem
  · rw [slice_length, List.length_take, Nat.min_eq_left hn]
  · intro i h1 h2
    rw [slice_length] at h1
    simp only [slice, List.getElem_map, List.getElem_range, Nat.zero_add, List.getElem_take]
    rw [List.getD_eq_getElem _ _ (by omega)]

theorem LoadDataFromFile_valid_header (kMin kMax : Int) (uninit : Nat → ℚ) (wl weight : ℚ)
    (rays : List ℚ) (hmin : kMin ≤ truncToInt wl) (hmax : truncToInt wl ≤ kMax)
    (hw : 0 ≤ weight) :
    SpectrumRenderer.LoadDataFromFile kMin kMax uninit ([wl, weight] ++ rays) =
      if rays.length / 4 = 0 then (0, none)
      else (((rays.length / 4 : Nat) : Int),
        some ⟨(truncToInt wl : ℚ), weight, rays.take (4 * (rays.length / 4)), rays.length / 4⟩) := by
  unfold SpectrumRenderer.LoadDataFromFile
  have hc1 : (fileRead ([wl, weight] ++ rays) 0 uninit 2).2 = 2 := by
    simp [fileRead]
  have hb0 : (fileRead ([wl, weight] ++ rays) 0 uninit 2).1 0 = wl := by
    simp [fileRead]
  have hb1 : (fileRead ([wl, weight] ++ rays) 0 uninit 2).1 1 = weight := by
    simp [fileRead]
  have hc2 : ∀ buf, (fileRead ([wl, weight] ++ rays) 2 buf ([wl, weight] ++ rays).length).2 =
      rays.length := by
    intro buf
    simp [fileRead]
    omega
  have hs2 : ∀ buf, slice (fileRead ([wl, weight] ++ rays) 2 buf
      ([wl, weight] ++ rays).length).1 0 (4 * (rays.length / 4)) =
      rays.take (4 * (rays.length / 4)) := by
    intro buf
    have hle : 4 * (rays.length / 4) ≤ rays.length := Nat.mul_div_le _ _
    rw [← slice_getD_take rays _ hle]
    apply slice_congr
    intro i hi
    have hi' : i < rays.length := by omega
    simp only [fileRead, Nat.zero_add]
    rw [if_pos (by simp; omega)]
    simp [List.getD_eq_getElem?_getD, List.getElem?_append_right, Nat.add_comm 2 i]
  dsimp only
  rw [hc1, hb0, hb1, if_neg (by omega), if_neg (by
    intro h
    rcases h with h | h | h
    · omega
    · omega
    · exact absurd h (not_lt.mpr hw)), hc2, hs2]

/-- C6: round trip of the dump format. For every valid wavelength entry `w`
(in range, non-negative weight) and `N >= 1` final segments, loading the floats
written by `SaveFinalDirections` returns `N` and calls `LoadData` with the same
wavelength, the same weight and the same `4 * N` ray floats in order; and for
any valid header followed by `F` floats the loader returns `F / 4` (integer
division), calling `LoadData` only when that is positive and then with the
first `4 * (F / 4)` floats, so a trailing incomplete record is ignored. -/
theorem C6_load_reads_back_dump (kMin kMax : Int) (uninit : Nat → ℚ) :
    (∀ (ctx : ProjectContext) (env : Env) (s : Simulator) (w : WavelengthInfo),
      wavelengthAt ctx s.current_wavelength_index_ = some w →
      kMin ≤ w.wavelength → w.wavelength ≤ kMax → 0 ≤ w.weight →
      1 ≤ s.final_ray_segments_.length →
      ∃ file, Simulator.SaveFinalDirections ctx env true s = some file ∧
        SpectrumRenderer.LoadDataFromFile kMin kMax uninit file =
          ((s.final_ray_segments_.length : Int),
            some ⟨(w.wavelength : ℚ), w.weight,
              s.final_ray_segments_.flatMap (rayRecord env s), s.final_ray_segments_.length⟩)) ∧
    (∀ (wl weight : ℚ) (rays : List ℚ),
      kMin ≤ truncToInt wl → truncToInt wl ≤ kMax → 0 ≤ weight →
      (SpectrumRenderer.LoadDataFromFile kMin kMax uninit ([wl, weight] ++ rays)).1 =
        ((rays.length / 4 : Nat) : Int) ∧
      (SpectrumRenderer.LoadDataFromFile kMin kMax uninit ([wl, weight] ++ rays)).2 =
        if rays.length / 4 = 0 then none
        else some ⟨(truncToInt wl : ℚ), weight, rays.take (4 * (rays.length / 4)),
          rays.length / 4⟩) := by
  constructor
  · intro ctx env s w hw hmin hmax hweight hN
    obtain ⟨hsave, hlen⟩ := C5_aux ctx env s w hw
    refine ⟨_, hsave, ?_⟩
    have hrl : (s.final_ray_segments_.flatMap (rayRecord env s)).length =
        4 * s.final_ray_segments_.length := by
      rw [List.length_append] at hlen
      simp only [List.length_cons, List.length_nil] at hlen
      omega
    rw [LoadDataFromFile_valid_header kMin kMax uninit _ _ _
      (by rw [truncToInt_intCast]; exact hmin) (by rw [truncToInt_intCast]; exact hmax) hweight]
    have hdiv : (s.final_ray_segments_.flatMap (rayRecord env s)).length / 4 =
        s.final_ray_segments_.length := by
      rw [hrl]; omega
    rw [hdiv, if_neg (by omega), truncToInt_intCast]
    congr 3
    rw [← hrl, List.take_length]
  · intro wl weight rays hmin hmax hweight
    rw [LoadDataFromFile_valid_header kMin kMax uninit wl weight rays hmin hmax hweight]
    split_ifs with h
    · simp [h]
    · exact ⟨rfl, rfl⟩

set_option maxRecDepth 100000 in
/-- Witness for C6: the dump of the two-pass example run is read back with the
same wavelength, weight and ray floats. -/
theorem C6_witness :
    ∃ file, Simulator.SaveFinalDirections (sampleCtx sampleTwoPass) sampleEnv true sampleRun =
        some file ∧
      SpectrumRenderer.LoadDataFromFile 360 830 (fun _ => 0) file =
        ((sampleRun.final_ray_segments_.length : Int),
          some ⟨((550 : Int) : ℚ), 1,
            sampleRun.final_ray_segments_.flatMap (rayRecord sampleEnv sampleRun),
            sampleRun.final_ray_segments_.length⟩) :=
  (C6_load_reads_back_dump 360 830 (fun _ => 0)).1 (sampleCtx sampleTwoPass) sampleEnv sampleRun
    ⟨550, 1⟩ (by decide!) (by decide) (by decide) (by decide!) (by decide!)

theorem foldl_range_inv {σ : Type} (P : Nat → σ → Prop) (f : σ → Nat → σ) (n : Nat) (s : σ)
    (h0 : P 0 s) (hstep : ∀ i t, i < n → P i t → P (i + 1) (f t i)) :
    P n ((List.range n).foldl f s) := by
  induction n with
  | zero => simpa using h0
  | succ n ih =>
    rw [List.range_succ, List.foldl_append]
    simp only [List.foldl_cons, List.foldl_nil]
    exact hstep n _ (Nat.lt_succ_self n)
      (ih (fun i t hi ht => hstep i t (Nat.lt_succ_of_lt hi) ht))

theorem link_next (b : SimulationBufferData) (pool : RaySegmentPool) (i : Nat) :
    (Simulator.StoreRaySegments_link b pool i).next_unused_id = pool.next_unused_id + 1 := by
  unfold Simulator.StoreRaySegments_link
  dsimp only [RaySegmentPool.modify, RaySegmentPool.GetRaySegment]
  split_ifs <;> cases b.ray_seg 0 (i / 2) <;> rfl

theorem link_w (b : SimulationBufferData) (pool : RaySegmentPool) (i h : Nat) :
    ((Simulator.StoreRaySegments_link b pool i).segments h).w =
      if h = pool.next_unused_id then b.w 1 i else (pool.segments h).w := by
  unfold Simulator.StoreRaySegments_link
  dsimp only [RaySegmentPool.modify, RaySegmentPool.GetRaySegment]
  split_ifs <;> cases b.ray_seg 0 (i / 2) <;>
    simp_all [RaySegmentPool.modifyPtr, RaySegmentPool.modify, Function.update_apply] <;>
    split_ifs <;> simp_all

theorem link_prev (b : SimulationBufferData) (pool : RaySegmentPool) (i h : Nat) :
    ((Simulator.StoreRaySegments_link b pool i).segments h).prev =
      if h = pool.next_unused_id then b.ray_seg 0 (i / 2) else (pool.segments h).prev := by
  unfold Simulator.StoreRaySegments_link
  dsimp only [RaySegmentPool.modify, RaySegmentPool.GetRaySegment]
  split_ifs <;> cases b.ray_seg 0 (i / 2) <;>
    simp_all [RaySegmentPool.modifyPtr, RaySegmentPool.modify, Function.update_apply] <;>
    split_ifs <;> simp_all

theorem link_finished (b : SimulationBufferData) (pool : RaySegmentPool) (i h : Nat) :
    ((Simulator.StoreRaySegments_link b pool i).segments h).is_finished =
      if h = pool.next_unused_id then decide (b.face_id 1 i < 0)
      else (pool.segments h).is_finished := by
  unfold Simulator.StoreRaySegments_link
  dsimp only [RaySegmentPool.modify, RaySegmentPool.GetRaySegment]
  split_ifs <;> cases b.ray_seg 0 (i / 2) <;>
    simp_all [RaySegmentPool.modifyPtr, RaySegmentPool.modify, Function.update_apply] <;>
    split_ifs <;> simp_all

theorem link_root_old (b : SimulationBufferData) (pool : RaySegmentPool) (i h : Nat)
    (hh : h ≠ pool.next_unused_id) :
    ((Simulator.StoreRaySegments_link b pool i).segments h).root_ctx =
      (pool.segments h).root_ctx := by
  unfold Simulator.StoreRaySegments_link
  dsimp only [RaySegmentPool.modify, RaySegmentPool.GetRaySegment]
  split_ifs <;> cases b.ray_seg 0 (i / 2) <;>
    simp_all [RaySegmentPool.modifyPtr, RaySegmentPool.modify, Function.update_apply] <;>
    split_ifs <;> simp_all

theorem link_reflect (b : SimulationBufferData) (pool : RaySegmentPool) (i h : Nat)
    (hp : b.ray_seg 0 (i / 2) ≠ some pool.next_unused_id) :
    ((Simulator.StoreRaySegments_link b pool i).segments h).next_reflect =
      if i % 2 = 0 ∧ b.ray_seg 0 (i / 2) = some h then some pool.next_unused_id
      else if h = pool.next_unused_id then none else (pool.segments h).next_reflect := by
  unfold Simulator.StoreRaySegments_link
  dsimp only [RaySegmentPool.modify, RaySegmentPool.GetRaySegment]
  split_ifs <;> cases hq : b.ray_seg 0 (i / 2) <;>
    simp_all [RaySegmentPool.modifyPtr, RaySegmentPool.modify, Function.update_apply] <;>
    split_ifs <;> simp_all

theorem link_refract (b : SimulationBufferData) (pool : RaySegmentPool) (i h : Nat)
    (hp : b.ray_seg 0 (i / 2) ≠ some pool.next_unused_id) :
    ((Simulator.StoreRaySegments_link b pool i).segments h).next_refract =
      if ¬ i % 2 = 0 ∧ b.ray_seg 0 (i / 2) = some h then some pool.next_unused_id
      else if h = pool.next_unused_id then none else (pool.segments h).next_refract := by
  unfold Simulator.StoreRaySegments_link
  dsimp only [RaySegmentPool.modify, RaySegmentPool.GetRaySegment]
  split_ifs <;> cases hq : b.ray_seg 0 (i / 2) <;>
    simp_all [RaySegmentPool.modifyPtr, RaySegmentPool.modify, Function.update_apply] <;>
    split_ifs <;> simp_all

theorem Store_slot_skip (ctx : ProjectContext) (crystal : Crystal)
    (filter : AbstractRayPathFilter) (t : Simulator) (i : Nat) (h : t.buffer_.w 1 i ≤ 0) :
    Simulator.StoreRaySegments_slot ctx crystal filter t i = t := by
  unfold Simulator.StoreRaySegments_slot
  rw [if_pos h]

theorem Store_slot_made (ctx : ProjectContext) (crystal : Crystal)
    (filter : AbstractRayPathFilter) (t : Simulator) (i : Nat) (h : ¬ t.buffer_.w 1 i ≤ 0) :
    (Simulator.StoreRaySegments_slot ctx crystal filter t i).pool =
      Simulator.StoreRaySegments_link t.buffer_ t.pool i ∧
    (Simulator.StoreRaySegments_slot ctx crystal filter t i).buffer_ =
      t.buffer_.setChildSeg i t.pool.next_unused_id ∧
    (Simulator.StoreRaySegments_slot ctx crystal filter t i).active_ray_num_ =
      t.active_ray_num_ := by
  unfold Simulator.StoreRaySegments_slot
  rw [if_neg h]
  dsimp only
  split_ifs <;> exact ⟨rfl, rfl, rfl⟩

theorem setChildSeg_fields (b : SimulationBufferData) (i r : Nat) :
    (b.setChildSeg i r).w = b.w ∧ (b.setChildSeg i r).face_id = b.face_id ∧
    (b.setChildSeg i r).ray_seg 0 = b.ray_seg 0 ∧
    (∀ j, (b.setChildSeg i r).ray_seg 1 j = if j = i then some r else b.ray_seg 1 j) := by
  refine ⟨rfl, rfl, ?_, ?_⟩
  · simp [SimulationBufferData.setChildSeg]
  · intro j
    simp [SimulationBufferData.setChildSeg, Function.update_apply]

theorem StoreCreated_step (ctx : ProjectContext) (crystal : Crystal)
    (filter : AbstractRayPathFilter) (s0 t : Simulator) (i : Nat) (h : StoreCreated s0 i t) :
    StoreCreated s0 (i + 1) (Simulator.StoreRaySegments_slot ctx crystal filter t i) := by
  obtain ⟨h1, h2, h3, h4, h5, h6, h7, h8⟩ := h
  by_cases hw : t.buffer_.w 1 i ≤ 0
  · rw [Store_slot_skip ctx crystal filter t i hw]
    have hnot : ¬ 0 < s0.buffer_.w 1 i := by rw [← h2]; exact not_lt.mpr hw
    refine ⟨h1, h2, h3, h4, h5, h6, ?_, ?_⟩
    · intro j hj hpos
      by_cases hji : j = i
      · subst hji
        exact absurd hpos hnot
      · exact h7 j (by omega) hpos
    · intro j j' r r' hjj hj' hp hp' hr hr'
      by_cases hji : j' = i
      · subst hji
        exact absurd hp' hnot
      · exact h8 j j' r r' hjj (by omega) hp hp' hr hr'
  · obtain ⟨e1, e2, e3⟩ := Store_slot_made ctx crystal filter t i hw
    obtain ⟨f1, f2, f3, f4⟩ := setChildSeg_fields t.buffer_ i t.pool.next_unused_id
    refine ⟨by rw [e3, h1], by rw [e2, f1, h2], by rw [e2, f2, h3], by rw [e2, f3, h4],
      ?_, ?_, ?_, ?_⟩
    · rw [e1, link_next]; omega
    · intro h hh
      rw [e1, link_w, if_neg (by omega)]
      exact h6 h hh
    · intro j hj hpos
      rw [e1, e2, f4, link_next]
      by_cases hji : j = i
      · subst hji
        refine ⟨t.pool.next_unused_id, by simp, h5, by omega, ?_⟩
        rw [link_w, if_pos rfl, h2]
      · obtain ⟨r, r1, r2, r3, r4⟩ := h7 j (by omega) hpos
        refine ⟨r, by rw [if_neg hji]; exact r1, r2, by omega, ?_⟩
        rw [link_w, if_neg (by omega)]
        exact r4
    · intro j j' r r' hjj hj' hp hp' hr hr'
      rw [e2, f4] at hr hr'
      rw [if_neg (by omega)] at hr
      by_cases hji : j' = i
      · rw [if_pos hji] at hr'
        injection hr' with hr'
        obtain ⟨r0, r1, -, r3, -⟩ := h7 j (by omega) hp
        rw [r1] at hr
        injection hr with hr
        omega
      · rw [if_neg hji] at hr'
        exact h8 j j' r r' hjj (by omega) hp hp' hr hr'

theorem StoreCreated_final (ctx : ProjectContext) (crystal : Crystal)
    (filter : AbstractRayPathFilter) (s : Simulator) :
    StoreCreated s (s.active_ray_num_ * 2) (Simulator.StoreRaySegments ctx crystal filter s) := by
  unfold Simulator.StoreRaySegments
  refine foldl_range_inv (fun i t => StoreCreated s i t) _ _ _ ?_ ?_
  · exact ⟨rfl, rfl, rfl, rfl, le_refl _, fun _ _ => rfl,
      fun j hj => absurd hj (Nat.not_lt_zero j),
      fun j j' _ _ _ hj' => absurd hj' (Nat.not_lt_zero j')⟩
  · intro i t _ ht
    exact StoreCreated_step ctx crystal filter s t i ht

theorem split_pos_left {w R : ℚ} (h0 : 0 ≤ R) (h : 0 < w * R) : 0 < w := by
  by_contra hn
  push_neg at hn
  exact absurd h (not_lt.mpr (mul_nonpos_of_nonpos_of_nonneg hn h0))

theorem childW_link_old (b : SimulationBufferData) (pool : RaySegmentPool) (i : Nat)
    (a : Option Nat) (ha : ∀ x, a = some x → x < pool.next_unused_id) :
    (Simulator.StoreRaySegments_link b pool i).childW a = pool.childW a := by
  cases a with
  | none => rfl
  | some x =>
    have := ha x rfl
    show ((Simulator.StoreRaySegments_link b pool i).segments x).w = (pool.segments x).w
    rw [link_w, if_neg (by omega)]

theorem StoreEnergy_skip (s0 t : Simulator) (i : Nat) (hc : StoreCreated s0 i t)
    (he : StoreEnergy s0 i t) (hw : t.buffer_.w 1 i ≤ 0) : StoreEnergy s0 (i + 1) t := by
  obtain ⟨e1, e2, e3⟩ := he
  refine ⟨e1, e2, ?_⟩
  intro k hk hpos
  obtain ⟨h, p1, p2, p3, p4, p5⟩ := e3 k hk hpos
  refine ⟨h, p1, p2, fun hi => p3 (by omega), fun hi => p4 (by omega), ?_⟩
  intro hi
  by_cases hlt : 2 * k < i
  · exact p5 hlt
  · have hik : i = 2 * k := by omega
    rw [p4 (by omega)]
    rw [hc.2.1, hik] at hw
    rw [max_eq_right hw]
    rfl

theorem StoreEnergy_made (ctx : ProjectContext) (crystal : Crystal)
    (filter : AbstractRayPathFilter) (s0 t : Simulator) (i : Nat)
    (hl : LiveSlots s0.buffer_ s0.pool s0.active_ray_num_)
    (hk : KernelRel s0.buffer_ s0.active_ray_num_) (hi : i < s0.active_ray_num_ * 2)
    (hc : StoreCreated s0 i t) (he : StoreEnergy s0 i t) (hw : ¬ t.buffer_.w 1 i ≤ 0) :
    StoreEnergy s0 (i + 1) (Simulator.StoreRaySegments_slot ctx crystal filter t i) := by
  obtain ⟨-, c2, -, c4, c5, c6, -, -⟩ := hc
  obtain ⟨⟨E1, E2, E3, E4⟩, e2, e3⟩ := he
  obtain ⟨m1, -, -⟩ := Store_slot_made ctx crystal filter t i hw
  have hwpos : 0 < s0.buffer_.w 1 i := by rw [← c2]; exact not_le.mp hw
  have hklt : i / 2 < s0.active_ray_num_ := by omega
  obtain ⟨R, R0, R1, Ra, Rb⟩ := hk (i / 2) hklt
  have hcase : i = 2 * (i / 2) ∨ i = 2 * (i / 2) + 1 := by omega
  have hf : ∃ f : ℚ, 0 ≤ f ∧ f ≤ 1 ∧ s0.buffer_.w 1 i = s0.buffer_.w 0 (i / 2) * f := by
    rcases hcase with h | h
    · exact ⟨R, R0, R1, (congrArg (s0.buffer_.w 1) h).trans Ra⟩
    · exact ⟨1 - R, by linarith, by linarith, (congrArg (s0.buffer_.w 1) h).trans Rb⟩
  obtain ⟨f, f0, f1, hfi⟩ := hf
  have hw0 : 0 < s0.buffer_.w 0 (i / 2) := by
    rw [hfi] at hwpos
    exact split_pos_left f0 hwpos
  obtain ⟨h, p1, p2, p3, p4, p5⟩ := e3 (i / 2) hklt hw0
  obtain ⟨h', q1, -, q3, -, -⟩ := hl.1 (i / 2) hklt hw0
  have hh : h' = h := by rw [p1] at q1; exact (Option.some.inj q1).symm
  subst hh
  have hwh : (t.pool.segments h').w = s0.buffer_.w 0 (i / 2) := by rw [c6 h' p2, q3]
  have hptr : t.buffer_.ray_seg 0 (i / 2) = some h' := by rw [c4]; exact p1
  have hhr : h' < t.pool.next_unused_id := by omega
  have hne : t.buffer_.ray_seg 0 (i / 2) ≠ some t.pool.next_unused_id := by
    rw [hptr]; intro hx; injection hx with hx; omega
  have hle : s0.buffer_.w 1 i ≤ s0.buffer_.w 0 (i / 2) := by
    rw [hfi]
    nlinarith
  have hnr : ∀ x, ((Simulator.StoreRaySegments_link t.buffer_ t.pool i).segments x).next_reflect =
      if i % 2 = 0 ∧ x = h' then some t.pool.next_unused_id
      else if x = t.pool.next_unused_id then none else (t.pool.segments x).next_reflect := by
    intro x
    rw [link_reflect _ _ _ _ hne, hptr]
    simp only [Option.some.injEq, eq_comm]
  have hnf : ∀ x, ((Simulator.StoreRaySegments_link t.buffer_ t.pool i).segments x).next_refract =
      if ¬ i % 2 = 0 ∧ x = h' then some t.pool.next_unused_id
      else if x = t.pool.next_unused_id then none else (t.pool.segments x).next_refract := by
    intro x
    rw [link_refract _ _ _ _ hne, hptr]
    simp only [Option.some.injEq, eq_comm]
  have hcw : ∀ a : Option Nat, (∀ x, a = some x → x < t.pool.next_unused_id) →
      (Simulator.StoreRaySegments_link t.buffer_ t.pool i).childW a = t.pool.childW a :=
    fun a ha => childW_link_old _ _ _ a ha
  have hcwr : (Simulator.StoreRaySegments_link t.buffer_ t.pool i).childW
      (some t.pool.next_unused_id) = s0.buffer_.w 1 i := by
    show ((Simulator.StoreRaySegments_link t.buffer_ t.pool i).segments _).w = _
    rw [link_w, if_pos rfl, c2]
  unfold StoreEnergy
  rw [m1]
  refine ⟨⟨?_, ?_, ?_, ?_⟩, ?_, ?_⟩
  · intro x hx q hq
    rw [link_next] at hx ⊢
    rw [link_prev] at hq
    rw [link_w, link_w]
    by_cases hxr : x = t.pool.next_unused_id
    · rw [if_pos hxr] at hq ⊢
      rw [hptr] at hq
      injection hq with hq
      subst hq
      rw [if_neg (by omega), hwh, c2]
      exact ⟨by omega, hwpos.le, hle⟩
    · rw [if_neg hxr] at hq ⊢
      obtain ⟨a1, a2, a3⟩ := E1 x (by omega) q hq
      rw [if_neg (by omega)]
      exact ⟨by omega, a2, a3⟩
  · intro q hq hchild
    rw [link_next] at hq
    rw [hnr, hnf] at hchild ⊢
    rw [link_w]
    by_cases hqr : q = t.pool.next_unused_id
    · subst hqr
      have : ¬ t.pool.next_unused_id = h' := by omega
      simp [this] at hchild
    · rw [if_neg hqr]
      by_cases hqh : q = h'
      · subst hqh
        rw [hwh]
        rcases hcase with hev | hod
        · have hmod : i % 2 = 0 := by omega
          simp only [hmod, true_and, if_true, not_true_eq_false, false_and, if_false, if_neg hqr]
          rw [p3 (by omega), hcwr]
          show s0.buffer_.w 1 i + 0 ≤ _
          rw [add_zero]
          exact hle
        · have hmod : ¬ i % 2 = 0 := by omega
          simp only [hmod, false_and, if_false, not_false_eq_true, true_and, if_true, if_neg hqr]
          rw [hcwr, hcw _ (fun x hx => E3 q hhr x (Or.inl hx)), p5 (by omega)]
          have hmax : max (s0.buffer_.w 1 (2 * (i / 2))) 0 = s0.buffer_.w 0 (i / 2) * R := by
            rw [Ra]
            exact max_eq_left (mul_nonneg hw0.le R0)
          have hwi : s0.buffer_.w 1 i = s0.buffer_.w 0 (i / 2) * (1 - R) :=
            (congrArg (s0.buffer_.w 1) hod).trans Rb
          rw [hmax, hwi]
          linarith
      · simp only [hqh, and_false, if_false, if_neg hqr] at hchild ⊢
        rw [hcw _ (fun x hx => E3 q (by omega) x (Or.inl hx)),
          hcw _ (fun x hx => E3 q (by omega) x (Or.inr hx))]
        exact E2 q (by omega) hchild
  · intro q hq a ha
    rw [link_next] at hq ⊢
    rw [hnr, hnf] at ha
    by_cases hqr : q = t.pool.next_unused_id
    · subst hqr
      have : ¬ t.pool.next_unused_id = h' := by omega
      simp [this] at ha
    · simp only [if_neg hqr] at ha
      by_cases hqh : q = h'
      · subst hqh
        rcases ha with ha | ha
        · split_ifs at ha
          · injection ha with ha; omega
          · have := E3 q hhr a (Or.inl ha); omega
        · split_ifs at ha
          · injection ha with ha; omega
          · have := E3 q hhr a (Or.inr ha); omega
      · simp only [hqh, and_false, if_false] at ha
        have := E3 q (by omega) a ha
        omega
  · intro x hx hprev
    rw [link_next] at hx
    rw [link_prev] at hprev
    by_cases hxr : x = t.pool.next_unused_id
    · rw [if_pos hxr, hptr] at hprev
      cases hprev
    · rw [if_neg hxr] at hprev
      rw [link_root_old _ _ _ _ hxr]
      exact E4 x (by omega) hprev
  · intro r hr1 hr2
    rw [link_next] at hr2
    rw [hnr, hnf]
    have hrh : ¬ r = h' := by omega
    simp only [hrh, and_false, if_false]
    by_cases hrr : r = t.pool.next_unused_id
    · simp [hrr]
    · simp only [if_neg hrr]
      exact e2 r hr1 (by omega)
  · intro k hk' hpos
    obtain ⟨g, g1, g2, g3, g4, g5⟩ := e3 k hk' hpos
    refine ⟨g, g1, g2, ?_, ?_, ?_⟩
    · intro hik
      rw [hnf, if_neg (by omega : ¬ g = t.pool.next_unused_id)]
      by_cases hgh : g = h'
      · subst hgh
        have hkk : k = i / 2 := hl.2 k (i / 2) hk' hklt hpos hw0 (by rw [g1, p1])
        have hmod : i % 2 = 0 := by omega
        simp only [hmod, not_true_eq_false, false_and, if_false]
        exact g3 (by omega)
      · simp only [hgh, and_false, if_false]
        exact g3 (by omega)
    · intro hik
      rw [hnr, if_neg (by omega : ¬ g = t.pool.next_unused_id)]
      by_cases hgh : g = h'
      · subst hgh
        have hkk : k = i / 2 := hl.2 k (i / 2) hk' hklt hpos hw0 (by rw [g1, p1])
        omega
      · simp only [hgh, and_false, if_false]
        exact g4 (by omega)
    · intro hik
      rw [hnr, if_neg (by omega : ¬ g = t.pool.next_unused_id)]
      by_cases hgh : g = h'
      · subst hgh
        have hkk : k = i / 2 := hl.2 k (i / 2) hk' hklt hpos hw0 (by rw [g1, p1])
        subst hkk
        rcases hcase with hev | hod
        · have hmod : i % 2 = 0 := by omega
          simp only [hmod, true_and, if_true]
          rw [hcwr, ← congrArg (s0.buffer_.w 1) hev]
          exact (max_eq_left hwpos.le).symm
        · have hmod : ¬ i % 2 = 0 := by omega
          simp only [hmod, false_and, if_false]
          rw [hcw _ (fun x hx => E3 g hhr x (Or.inl hx))]
          exact g5 (by omega)
      · simp only [hgh, and_false, if_false]
        rw [hcw _ (fun x hx => E3 g (by omega) x (Or.inl hx))]
        have hne2 : k ≠ i / 2 := by
          intro hkk
          subst hkk
          rw [g1] at p1
          injection p1 with p1
          exact hgh p1
        exact g5 (by omega)

theorem StoreEnergy_final (ctx : ProjectContext) (crystal : Crystal)
    (filter : AbstractRayPathFilter) (s : Simulator)
    (hl : LiveSlots s.buffer_ s.pool s.active_ray_num_)
    (hk : KernelRel s.buffer_ s.active_ray_num_) (hp : PoolEnergy s.pool) :
    StoreCreated s (s.active_ray_num_ * 2) (Simulator.StoreRaySegments ctx crystal filter s) ∧
    StoreEnergy s (s.active_ray_num_ * 2) (Simulator.StoreRaySegments ctx crystal filter s) := by
  unfold Simulator.StoreRaySegments
  refine foldl_range_inv (fun i t => StoreCreated s i t ∧ StoreEnergy s i t) _ _ _ ?_ ?_
  · refine ⟨⟨rfl, rfl, rfl, rfl, le_refl _, fun _ _ => rfl,
      fun j hj => absurd hj (Nat.not_lt_zero j),
      fun j j' _ _ _ hj' => absurd hj' (Nat.not_lt_zero j')⟩, hp, ?_, ?_⟩
    · intro r h1 h2
      omega
    · intro k hk' hpos
      obtain ⟨h, q1, q2, -, q4, q5⟩ := hl.1 k hk' hpos
      exact ⟨h, q1, q2, fun _ => q5, fun _ => q4, fun hlt => absurd hlt (Nat.not_lt_zero _)⟩
  · intro i t hi ht
    refine ⟨StoreCreated_step ctx crystal filter s t i ht.1, ?_⟩
    by_cases hw : t.buffer_.w 1 i ≤ 0
    · rw [Store_slot_skip ctx crystal filter t i hw]
      exact StoreEnergy_skip s t i ht.1 ht.2 hw
    · exact StoreEnergy_made ctx crystal filter s t i hl hk hi ht.1 ht.2 hw

theorem keepSlot_fields (b : SimulationBufferData) (idx i : Nat) :
    (b.keepSlot idx i).w 1 = b.w 1 ∧ (b.keepSlot idx i).face_id 1 = b.face_id 1 ∧
    (b.keepSlot idx i).ray_seg 1 = b.ray_seg 1 ∧
    (∀ a, (b.keepSlot idx i).w 0 a = if a = idx then b.w 1 i else b.w 0 a) ∧
    (∀ a, (b.keepSlot idx i).face_id 0 a = if a = idx then b.face_id 1 i else b.face_id 0 a) ∧
    (∀ a, (b.keepSlot idx i).ray_seg 0 a = if a = idx then b.ray_seg 1 i else b.ray_seg 0 a) := by
  refine ⟨?_, ?_, ?_, ?_, ?_, ?_⟩ <;>
    simp [SimulationBufferData.keepSlot, Function.update_apply]

theorem RefreshInv_step (ctx : ProjectContext) (b0 : SimulationBufferData) (i : Nat)
    (acc : SimulationBufferData × Nat) (h : RefreshInv ctx b0 i acc) :
    RefreshInv ctx b0 (i + 1) (Simulator.RefreshBuffer_slot ctx acc i) := by
  obtain ⟨h1, h2, h3, h4, src, h5, h6⟩ := h
  unfold Simulator.RefreshBuffer_slot
  split_ifs with hkeep
  · obtain ⟨k1, k2, k3, k4, k5, k6⟩ := keepSlot_fields acc.1 acc.2 i
    refine ⟨by show acc.2 + 1 ≤ i + 1; omega, by rw [k1, h2], by rw [k2, h3], by rw [k3, h4],
      Function.update src acc.2 i, ?_, ?_⟩
    · intro a ha
      have ha' : a < acc.2 + 1 := ha
      by_cases haa : a = acc.2
      · subst haa
        rw [Function.update_same, k4, k5, k6, if_pos rfl, if_pos rfl, if_pos rfl, ← h2, ← h3, ← h4]
        exact ⟨by omega, hkeep.1, hkeep.2, rfl, rfl, rfl⟩
      · rw [Function.update_noteq haa, k4, k5, k6, if_neg haa, if_neg haa, if_neg haa]
        obtain ⟨a1, a2, a3, a4, a5, a6⟩ := h5 a (by omega)
        exact ⟨by omega, a2, a3, a4, a5, a6⟩
    · intro a a' haa ha'
      have ha'' : a' < acc.2 + 1 := ha'
      rw [Function.update_noteq (by omega : a ≠ acc.2)]
      by_cases hx : a' = acc.2
      · rw [hx, Function.update_same]
        exact (h5 a (by omega)).1
      · rw [Function.update_noteq hx]
        exact h6 a a' haa (by omega)
  · refine ⟨by omega, h2, h3, h4, src, ?_, h6⟩
    intro a ha
    obtain ⟨a1, a2, a3, a4, a5, a6⟩ := h5 a ha
    exact ⟨by omega, a2, a3, a4, a5, a6⟩

theorem RefreshInv_final (ctx : ProjectContext) (s : Simulator) :
    RefreshInv ctx s.buffer_ (s.active_ray_num_ * 2)
      ((Simulator.RefreshBuffer ctx s).buffer_, (Simulator.RefreshBuffer ctx s).active_ray_num_) := by
  unfold Simulator.RefreshBuffer
  dsimp only
  refine foldl_range_inv (fun i acc => RefreshInv ctx s.buffer_ i acc) _ _ _ ?_ ?_
  · exact ⟨le_refl _, rfl, rfl, rfl, id, fun a ha => absurd ha (Nat.not_lt_zero a),
      fun a a' _ ha' => absurd ha' (Nat.not_lt_zero a')⟩
  · intro i acc _ hacc
    exact RefreshInv_step ctx s.buffer_ i acc hacc

theorem Refresh_slots (ctx : ProjectContext) (s0 t : Simulator)
    (hc : StoreCreated s0 (s0.active_ray_num_ * 2) t) :
    (Simulator.RefreshBuffer ctx t).pool = t.pool ∧
    (∀ a, a < (Simulator.RefreshBuffer ctx t).active_ray_num_ →
      ctx.kPropMinW < (Simulator.RefreshBuffer ctx t).buffer_.w 0 a ∧
      (0 < (Simulator.RefreshBuffer ctx t).buffer_.w 0 a →
        ∃ r, (Simulator.RefreshBuffer ctx t).buffer_.ray_seg 0 a = some r ∧
          s0.pool.next_unused_id ≤ r ∧ r < t.pool.next_unused_id ∧
          (t.pool.segments r).w = (Simulator.RefreshBuffer ctx t).buffer_.w 0 a)) ∧
    (∀ a a', a < (Simulator.RefreshBuffer ctx t).active_ray_num_ →
      a' < (Simulator.RefreshBuffer ctx t).active_ray_num_ →
      0 < (Simulator.RefreshBuffer ctx t).buffer_.w 0 a →
      0 < (Simulator.RefreshBuffer ctx t).buffer_.w 0 a' →
      (Simulator.RefreshBuffer ctx t).buffer_.ray_seg 0 a =
        (Simulator.RefreshBuffer ctx t).buffer_.ray_seg 0 a' → a = a') := by
  obtain ⟨c1, c2, -, -, -, -, c7, c8⟩ := hc
  obtain ⟨-, -, -, -, src, r5, r6⟩ := RefreshInv_final ctx t
  dsimp only at r5 r6
  rw [c1] at r5
  refine ⟨rfl, ?_, ?_⟩
  · intro a ha
    obtain ⟨a1, -, a3, a4, -, a6⟩ := r5 a ha
    rw [c2] at a3 a4
    refine ⟨by rw [a4]; exact a3, ?_⟩
    intro hpos
    rw [a4] at hpos
    obtain ⟨r, q1, q2, q3, q4⟩ := c7 (src a) a1 hpos
    exact ⟨r, by rw [a6]; exact q1, q2, q3, by rw [q4, a4]⟩
  · intro a a' ha ha' hpos hpos' heq
    obtain ⟨a1, -, -, a4, -, a6⟩ := r5 a ha
    obtain ⟨b1, -, -, b4, -, b6⟩ := r5 a' ha'
    rw [c2] at a4 b4
    rw [a4] at hpos
    rw [b4] at hpos'
    obtain ⟨r, q1, -⟩ := c7 (src a) a1 hpos
    obtain ⟨r', q1', -⟩ := c7 (src a') b1 hpos'
    rw [a6, b6, q1, q1'] at heq
    injection heq with heq
    by_contra hne
    rcases Nat.lt_or_gt_of_ne hne with hlt | hgt
    · have := c8 (src a) (src a') r r' (r6 a a' hlt ha') b1 hpos hpos' q1 q1'
      omega
    · have := c8 (src a') (src a) r' r (r6 a' a hgt ha) a1 hpos' hpos q1' q1
      omega

theorem Refresh_live (ctx : ProjectContext) (s0 t : Simulator)
    (hc : StoreCreated s0 (s0.active_ray_num_ * 2) t)
    (he : StoreEnergy s0 (s0.active_ray_num_ * 2) t) :
    LiveSlots (Simulator.RefreshBuffer ctx t).buffer_ (Simulator.RefreshBuffer ctx t).pool
      (Simulator.RefreshBuffer ctx t).active_ray_num_ := by
  obtain ⟨h1, h2, h3⟩ := Refresh_slots ctx s0 t hc
  rw [h1]
  refine ⟨?_, h3⟩
  intro k hk hpos
  obtain ⟨r, q1, q2, q3, q4⟩ := (h2 k hk).2 hpos
  obtain ⟨e1, e2⟩ := he.2.1 r q2 q3
  exact ⟨r, q1, q3, q4, e1, e2⟩

theorem Allocate_fields (b : SimulationBufferData) (n : Nat) :
    (∀ r k, (b.Allocate n).w r k = if k < min b.ray_num n then b.w r k else 0) ∧
    (∀ r k, (b.Allocate n).ray_seg r k = if k < min b.ray_num n then b.ray_seg r k else none) := by
  constructor <;> intro r k <;> simp only [SimulationBufferData.Allocate, copyPrefix] <;> rfl

theorem LiveSlots_Allocate (b : SimulationBufferData) (pool : RaySegmentPool) (n m : Nat)
    (h : LiveSlots b pool m) : LiveSlots (b.Allocate n) pool m := by
  obtain ⟨a1, a2⟩ := Allocate_fields b n
  obtain ⟨h1, h2⟩ := h
  constructor
  · intro k hk hpos
    rw [a1] at hpos
    split_ifs at hpos with hin
    · obtain ⟨r, q1, q2, q3, q4, q5⟩ := h1 k hk hpos
      exact ⟨r, by rw [a2, if_pos hin]; exact q1, q2, by rw [a1, if_pos hin]; exact q3, q4, q5⟩
    · exact absurd hpos (lt_irrefl _)
  · intro k k' hk hk' hpos hpos' heq
    rw [a1] at hpos hpos'
    split_ifs at hpos with hin
    · split_ifs at hpos' with hin'
      · rw [a2, a2, if_pos hin, if_pos hin'] at heq
        exact h2 k k' hk hk' hpos hpos' heq
      · exact absurd hpos' (lt_irrefl _)
    · exact absurd hpos (lt_irrefl _)

theorem growForTrace_live (s : Simulator)
    (h : LiveSlots s.buffer_ s.pool s.active_ray_num_) :
    LiveSlots s.growForTrace.buffer_ s.growForTrace.pool s.growForTrace.active_ray_num_ ∧
    s.growForTrace.pool = s.pool := by
  unfold Simulator.growForTrace
  split_ifs
  · exact ⟨LiveSlots_Allocate _ _ _ _ h, rfl⟩
  · exact ⟨h, rfl⟩

theorem slice_getD {α : Type} (a : Nat → α) (off num m : Nat) (d : α) (hm : m < num) :
    (slice a off num).getD m d = a (off + m) := by
  unfold slice
  rw [List.getD_eq_getElem _ _ (by simpa using hm)]
  simp

theorem traceJob_fields (env : Env) (crystal : Crystal) (n : ℚ) (cur : Nat)
    (b : SimulationBufferData) (j : Nat) :
    (traceJob env crystal n cur b j).w 0 = b.w 0 ∧
    (traceJob env crystal n cur b j).ray_seg = b.ray_seg ∧
    (∀ x, (traceJob env crystal n cur b j).w 1 x =
      if j * 2 ≤ x ∧ x < j * 2 + cur * 2 then
        (env.HitSurface crystal n cur (slice (b.dir 0) j cur) (slice (b.face_id 0) j cur)
          (slice (b.w 0) j cur)).2 (x - j * 2)
      else b.w 1 x) := by
  refine ⟨?_, rfl, ?_⟩
  · simp [traceJob]
  · intro x
    simp [traceJob, writeSlice]

theorem traceJob_split (env : Env) (hK : KernelSplits env) (crystal : Crystal) (n : ℚ)
    (cur : Nat) (b : SimulationBufferData) (j : Nat) :
    (∀ k, j ≤ k → k < j + cur → ∃ R : ℚ, 0 ≤ R ∧ R ≤ 1 ∧
      (traceJob env crystal n cur b j).w 1 (2 * k) =
        (traceJob env crystal n cur b j).w 0 k * R ∧
      (traceJob env crystal n cur b j).w 1 (2 * k + 1) =
        (traceJob env crystal n cur b j).w 0 k * (1 - R)) ∧
    (∀ k, k < j → ∀ R : ℚ, b.w 1 (2 * k) = b.w 0 k * R ∧ b.w 1 (2 * k + 1) = b.w 0 k * (1 - R) →
      (traceJob env crystal n cur b j).w 1 (2 * k) =
        (traceJob env crystal n cur b j).w 0 k * R ∧
      (traceJob env crystal n cur b j).w 1 (2 * k + 1) =
        (traceJob env crystal n cur b j).w 0 k * (1 - R)) := by
  obtain ⟨f1, -, f3⟩ := traceJob_fields env crystal n cur b j
  constructor
  · intro k hk1 hk2
    obtain ⟨R, R0, R1, Ra, Rb⟩ := hK crystal n cur (slice (b.dir 0) j cur)
      (slice (b.face_id 0) j cur) (slice (b.w 0) j cur) (k - j) (by omega)
      (by rw [slice_length]; omega)
    rw [slice_getD _ _ _ _ _ (by omega)] at Ra Rb
    have hjk : j + (k - j) = k := by omega
    rw [hjk] at Ra Rb
    have ea : 2 * k - j * 2 = 2 * (k - j) := by omega
    have eb : 2 * k + 1 - j * 2 = 2 * (k - j) + 1 := by omega
    refine ⟨R, R0, R1, ?_, ?_⟩
    · rw [f3, if_pos (by omega), f1, ea, Ra]
    · rw [f3, if_pos (by omega), f1, eb, Rb]
  · intro k hk R hR
    rw [f3, f3, if_neg (by omega), if_neg (by omega), f1]
    exact hR

theorem stripes_split (env : Env) (hK : KernelSplits env) (crystal : Crystal) (n : ℚ)
    (A step : Nat) :
    ∀ (fuel j : Nat) (b : SimulationBufferData), A - j ≤ fuel * step →
      (∀ k, k < j → k < A → ∃ R : ℚ, 0 ≤ R ∧ R ≤ 1 ∧
        b.w 1 (2 * k) = b.w 0 k * R ∧ b.w 1 (2 * k + 1) = b.w 0 k * (1 - R)) →
      ((stripeStarts A step fuel j).foldl
        (fun b j => traceJob env crystal n (min (A - j) step) b j) b).w 0 = b.w 0 ∧
      ((stripeStarts A step fuel j).foldl
        (fun b j => traceJob env crystal n (min (A - j) step) b j) b).ray_seg = b.ray_seg ∧
      KernelRel ((stripeStarts A step fuel j).foldl
        (fun b j => traceJob env crystal n (min (A - j) step) b j) b) A := by
  intro fuel
  induction fuel with
  | zero =>
    intro j b hcov hdone
    refine ⟨rfl, rfl, ?_⟩
    intro k hk
    exact hdone k (by omega) hk
  | succ fuel ih =>
    intro j b hcov hdone
    unfold stripeStarts
    split_ifs with hj
    · simp only [List.foldl_cons]
      obtain ⟨f1, f2, -⟩ := traceJob_fields env crystal n (min (A - j) step) b j
      obtain ⟨t1, t2⟩ := traceJob_split env hK crystal n (min (A - j) step) b j
      have hcov' : A - (j + step) ≤ fuel * step := by
        have : (fuel + 1) * step = fuel * step + step := by ring
        omega
      obtain ⟨i1, i2, i3⟩ := ih (j + step) (traceJob env crystal n (min (A - j) step) b j) hcov'
        (by
          intro k hk hkA
          by_cases hkj : k < j
          · obtain ⟨R, R0, R1, hR⟩ := hdone k hkj hkA
            exact ⟨R, R0, R1, t2 k hkj R hR⟩
          · exact t1 k (by omega) (by
              rcases Nat.le_total (A - j) step with hle | hle
              · rw [Nat.min_eq_left hle]; omega
              · rw [Nat.min_eq_right hle]; omega))
      exact ⟨i1.trans f1, i2.trans f2, i3⟩
    · refine ⟨rfl, rfl, ?_⟩
      intro k hk
      exact hdone k (by omega) hk

theorem traceFanOut_split (env : Env) (hK : KernelSplits env) (crystal : Crystal) (n : ℚ)
    (s : Simulator) (h : LiveSlots s.buffer_ s.pool s.active_ray_num_) :
    (traceFanOut env crystal n s).pool = s.pool ∧
    (traceFanOut env crystal n s).active_ray_num_ = s.active_ray_num_ ∧
    LiveSlots (traceFanOut env crystal n s).buffer_ s.pool s.active_ray_num_ ∧
    KernelRel (traceFanOut env crystal n s).buffer_ s.active_ray_num_ := by
  obtain ⟨i1, i2, i3⟩ := stripes_split env hK crystal n s.active_ray_num_
    (max (s.active_ray_num_ / 100) 10) s.active_ray_num_ 0 s.buffer_
    (by
      have : 1 ≤ max (s.active_ray_num_ / 100) 10 := by omega
      calc s.active_ray_num_ - 0 = s.active_ray_num_ * 1 := by omega
        _ ≤ s.active_ray_num_ * max (s.active_ray_num_ / 100) 10 := Nat.mul_le_mul_left _ this)
    (fun k hk => absurd hk (Nat.not_lt_zero k))
  refine ⟨rfl, rfl, ?_, i3⟩
  obtain ⟨h1, h2⟩ := h
  show LiveSlots ((stripeStarts s.active_ray_num_ (max (s.active_ray_num_ / 100) 10)
    s.active_ray_num_ 0).foldl (fun b j => traceJob env crystal n
      (min (s.active_ray_num_ - j) (max (s.active_ray_num_ / 100) 10)) b j) s.buffer_)
    s.pool s.active_ray_num_
  constructor
  · intro k hk hpos
    rw [i1] at hpos
    obtain ⟨r, q1, q2, q3, q4, q5⟩ := h1 k hk hpos
    exact ⟨r, by rw [i2]; exact q1, q2, by rw [i1]; exact q3, q4, q5⟩
  · intro k k' hk hk' hpos hpos' heq
    rw [i1] at hpos hpos'
    rw [i2] at heq
    exact h2 k k' hk hk' hpos hpos' heq

theorem addRoot_fields (p : RaySegmentPool) (e : EntrySample) (ctx : CrystalContext) :
    (p.addRoot e ctx).next_unused_id = p.next_unused_id + 1 ∧
    (∀ h, (p.addRoot e ctx).segments h =
      if h = p.next_unused_id then
        ⟨none, none, none, some (e.info ctx p.next_unused_id), e.pt, e.dir, e.w, e.face, false⟩
      else p.segments h) := by
  refine ⟨rfl, ?_⟩
  intro h
  simp only [RaySegmentPool.addRoot, RaySegmentPool.modify, RaySegmentPool.GetRaySegment,
    Function.update_apply]
  split_ifs <;> simp_all

theorem setEntry_fields (b : SimulationBufferData) (i : Nat) (e : EntrySample) (r : Nat) :
    (∀ k, (b.setEntry i e r).w 0 k = if k = i then e.w else b.w 0 k) ∧
    (∀ k, (b.setEntry i e r).ray_seg 0 k = if k = i then some r else b.ray_seg 0 k) := by
  constructor <;> intro k <;> simp [SimulationBufferData.setEntry, Function.update_apply]

theorem PoolEnergy_addRoot (p : RaySegmentPool) (e : EntrySample) (ctx : CrystalContext)
    (h : PoolEnergy p) : PoolEnergy (p.addRoot e ctx) := by
  obtain ⟨E1, E2, E3, E4⟩ := h
  obtain ⟨a1, a2⟩ := addRoot_fields p e ctx
  have hcw : ∀ a : Option Nat, (∀ x, a = some x → x < p.next_unused_id) →
      (p.addRoot e ctx).childW a = p.childW a := by
    intro a ha
    cases a with
    | none => rfl
    | some x =>
      show ((p.addRoot e ctx).segments x).w = (p.segments x).w
      rw [a2, if_neg (by have := ha x rfl; omega)]
  refine ⟨?_, ?_, ?_, ?_⟩
  · intro x hx q hq
    rw [a1] at hx ⊢
    rw [a2] at hq ⊢
    by_cases hxr : x = p.next_unused_id
    · rw [if_pos hxr] at hq
      cases hq
    · rw [if_neg hxr] at hq ⊢
      obtain ⟨b1, b2, b3⟩ := E1 x (by omega) q hq
      rw [a2, if_neg (by omega)]
      exact ⟨by omega, b2, b3⟩
  · intro q hq hchild
    rw [a1] at hq
    rw [a2] at hchild ⊢
    by_cases hqr : q = p.next_unused_id
    · rw [if_pos hqr] at hchild
      simp at hchild
    · rw [if_neg hqr] at hchild ⊢
      rw [hcw _ (fun x hx => E3 q (by omega) x (Or.inl hx)),
        hcw _ (fun x hx => E3 q (by omega) x (Or.inr hx))]
      exact E2 q (by omega) hchild
  · intro q hq a ha
    rw [a1] at hq ⊢
    rw [a2] at ha
    by_cases hqr : q = p.next_unused_id
    · rw [if_pos hqr] at ha
      simp at ha
    · rw [if_neg hqr] at ha
      have := E3 q (by omega) a ha
      omega
  · intro x hx hprev
    rw [a1] at hx
    rw [a2] at hprev ⊢
    by_cases hxr : x = p.next_unused_id
    · rw [if_pos hxr]
      exact ⟨_, rfl, hxr.symm⟩
    · rw [if_neg hxr] at hprev ⊢
      exact E4 x (by omega) hprev

theorem InitInv_step (env : Env) (ctx : CrystalContext) (s0 t : Simulator) (i : Nat)
    (h : InitInv s0 i t) : InitInv s0 (i + 1) (Simulator.InitEntryRays_ray env ctx t i) := by
  obtain ⟨h1, h2, h3, h4⟩ := h
  obtain ⟨a1, a2⟩ := addRoot_fields t.pool (Simulator.InitEntryRays_sample env ctx t i) ctx
  obtain ⟨b1, b2⟩ := setEntry_fields t.buffer_ i (Simulator.InitEntryRays_sample env ctx t i)
    t.pool.next_unused_id
  have hp : (Simulator.InitEntryRays_ray env ctx t i).pool =
      t.pool.addRoot (Simulator.InitEntryRays_sample env ctx t i) ctx := rfl
  have hb : (Simulator.InitEntryRays_ray env ctx t i).buffer_ =
      t.buffer_.setEntry i (Simulator.InitEntryRays_sample env ctx t i) t.pool.next_unused_id := rfl
  refine ⟨h1, by rw [hp, a1, h2]; omega,
    fun h0 => by rw [hp]; exact PoolEnergy_addRoot _ _ _ (h3 h0), ?_⟩
  intro k hk
  rw [hp, hb, a2, b1, b2]
  by_cases hki : k = i
  · subst hki
    rw [if_pos rfl, if_pos rfl, if_pos h2.symm, h2]
    exact ⟨rfl, rfl, rfl, rfl⟩
  · rw [if_neg hki, if_neg hki, if_neg (by omega)]
    exact h4 k (by omega)

theorem InitEntryRays_inv (env : Env) (ctx : CrystalContext) (s : Simulator) :
    InitInv s s.active_ray_num_ (Simulator.InitEntryRays env ctx s) := by
  unfold Simulator.InitEntryRays
  refine foldl_range_inv (fun i t => InitInv s i t) _ _ _ ?_ ?_
  · exact ⟨rfl, rfl, id, fun k hk => absurd hk (Nat.not_lt_zero k)⟩
  · intro i t _ ht
    exact InitInv_step env ctx s t i ht

theorem InitEntryRays_live (env : Env) (ctx : CrystalContext) (s : Simulator)
    (h : PoolEnergy s.pool) :
    PoolEnergy (Simulator.InitEntryRays env ctx s).pool ∧
    LiveSlots (Simulator.InitEntryRays env ctx s).buffer_ (Simulator.InitEntryRays env ctx s).pool
      (Simulator.InitEntryRays env ctx s).active_ray_num_ := by
  obtain ⟨h1, h2, h3, h4⟩ := InitEntryRays_inv env ctx s
  refine ⟨h3 h, ?_, ?_⟩
  · intro k hk _
    rw [h1] at hk
    obtain ⟨q1, q2, q3, q4⟩ := h4 k hk
    exact ⟨_, q1, by rw [h2]; omega, q2, q3, q4⟩
  · intro k k' hk hk' _ _ heq
    rw [h1] at hk hk'
    rw [(h4 k hk).1, (h4 k' hk').1] at heq
    injection heq with heq
    omega

theorem TraceRays_step_energy (ctx : ProjectContext) (env : Env) (hK : KernelSplits env)
    (crystal : Crystal) (filter : AbstractRayPathFilter) (n : ℚ) (s : Simulator)
    (hl : LiveSlots s.buffer_ s.pool s.active_ray_num_) (hp : PoolEnergy s.pool) :
    LiveSlots (Simulator.TraceRays_step ctx env crystal filter n s).buffer_
      (Simulator.TraceRays_step ctx env crystal filter n s).pool
      (Simulator.TraceRays_step ctx env crystal filter n s).active_ray_num_ ∧
    PoolEnergy (Simulator.TraceRays_step ctx env crystal filter n s).pool := by
  obtain ⟨g1, g2⟩ := growForTrace_live s hl
  obtain ⟨f1, f2, f3, f4⟩ := traceFanOut_split env hK crystal n s.growForTrace g1
  rw [← f1, ← f2] at f3
  rw [← f2] at f4
  have hp2 : PoolEnergy (traceFanOut env crystal n s.growForTrace).pool := by
    rw [f1, g2]; exact hp
  obtain ⟨sc, se⟩ := StoreEnergy_final ctx crystal filter _ f3 f4 hp2
  unfold Simulator.TraceRays_step
  exact ⟨Refresh_live ctx _ _ sc se, se.1⟩

theorem TraceRays_energy (ctx : ProjectContext) (env : Env) (hK : KernelSplits env)
    (crystal : Crystal) (filter : AbstractRayPathFilter) (s t : Simulator)
    (hl : LiveSlots s.buffer_ s.pool s.active_ray_num_) (hp : PoolEnergy s.pool)
    (ht : Simulator.TraceRays ctx env crystal filter s = Except.ok t) :
    LiveSlots t.buffer_ t.pool t.active_ray_num_ ∧ PoolEnergy t.pool := by
  unfold Simulator.TraceRays at ht
  split at ht
  · cases ht
  · injection ht with ht
    subst ht
    refine foldl_inv (fun t : Simulator =>
      LiveSlots t.buffer_ t.pool t.active_ray_num_ ∧ PoolEnergy t.pool) _ _ _ ⟨hl, hp⟩ ?_
    intro t _ _ ht
    exact TraceRays_step_energy ctx env hK crystal filter _ t ht.1 ht.2

theorem crystalBegin_pool (c : CrystalInfo) (s : Simulator) :
    (Simulator.crystalBegin c s).pool = s.pool := by
  unfold Simulator.crystalBegin
  dsimp only
  split_ifs <;> rfl

theorem crystalPass_energy (ctx : ProjectContext) (env : Env) (hK : KernelSplits env)
    (c : CrystalInfo) (s t : Simulator) (hp : PoolEnergy s.pool)
    (ht : Simulator.crystalPass ctx env c s = Except.ok t) :
    LiveSlots t.buffer_ t.pool t.active_ray_num_ ∧ PoolEnergy t.pool := by
  unfold Simulator.crystalPass at ht
  obtain ⟨i1, i2⟩ := InitEntryRays_live env (ctx.GetCrystalContext c.crystal_id)
    (Simulator.crystalBegin c s) (by rw [crystalBegin_pool]; exact hp)
  exact TraceRays_energy ctx env hK _ _
    (Simulator.InitEntryRays env (ctx.GetCrystalContext c.crystal_id)
      (Simulator.crystalBegin c s)).advanceOffset t i2 i1 ht

theorem crystalLoop_energy (ctx : ProjectContext) (env : Env) (hK : KernelSplits env)
    (cs : List CrystalInfo) :
    ∀ s t : Simulator, PoolEnergy s.pool → Simulator.crystalLoop ctx env cs s = Except.ok t →
      PoolEnergy t.pool := by
  induction cs with
  | nil =>
    intro s t hp h
    simp only [Simulator.crystalLoop] at h
    injection h with h
    subst h
    exact hp
  | cons c cs ih =>
    intro s t hp h
    simp only [Simulator.crystalLoop] at h
    split at h
    · cases h
    · rename_i s5 h5
      exact ih s5 t (crystalPass_energy ctx env hK c s s5 hp h5).2 h

theorem scatterLoop_energy (ctx : ProjectContext) (env : Env) (hK : KernelSplits env)
    (its : List MultiScatterContext) :
    ∀ s t : Simulator, PoolEnergy s.pool → Simulator.scatterLoop ctx env its s = Except.ok t →
      PoolEnergy t.pool := by
  induction its with
  | nil =>
    intro s t hp h
    simp only [Simulator.scatterLoop] at h
    injection h with h
    subst h
    exact hp
  | cons it rest ih =>
    intro s t hp h
    simp only [Simulator.scatterLoop] at h
    split at h
    · cases h
    · rename_i s2 h2
      have hp2 := crystalLoop_energy ctx env hK _ s.scatterBegin _ hp h2
      refine ih _ t ?_ h
      unfold Simulator.scatterEnd
      dsimp only
      split_ifs
      · show PoolEnergy (Simulator.RestoreResultRays ctx env it.GetProbability s2).pool
        rw [(RestoreResultRays_frame ctx env it.GetProbability s2).2.2.2.1]
        exact hp2
      · exact hp2

theorem Start_energy (ctx : ProjectContext) (env : Env) (hK : KernelSplits env)
    (s t : Simulator) (ht : Simulator.Start ctx env s = Except.ok t) : PoolEnergy t.pool := by
  obtain ⟨s1, last, h1, -, rfl⟩ := (Start_ok_iff ctx env s t).mp ht
  refine scatterLoop_energy ctx env hK _ _ s1 ?_ h1
  refine ⟨?_, ?_, ?_, ?_⟩ <;> intro x hx <;> exact absurd hx (Nat.not_lt_zero x)

theorem InitEntryRays_matches (env : Env) (c : CrystalContext) (s : Simulator) (k : Nat)
    (hk : k < (Simulator.InitEntryRays env c s).active_ray_num_) :
    SlotMatches (Simulator.InitEntryRays env c s).buffer_ (Simulator.InitEntryRays env c s).pool
      k := by
  obtain ⟨h1, h2, -, h4⟩ := InitEntryRays_inv env c s
  rw [h1] at hk
  obtain ⟨q1, q2, -, -⟩ := h4 k hk
  exact ⟨_, q1, by rw [h2]; omega, q2⟩

theorem Refresh_matches (ctx : ProjectContext) (crystal : Crystal)
    (filter : AbstractRayPathFilter) (s : Simulator) (h0 : 0 ≤ ctx.kPropMinW) (k : Nat)
    (hk : k < (Simulator.RefreshBuffer ctx
      (Simulator.StoreRaySegments ctx crystal filter s)).active_ray_num_) :
    SlotMatches
      (Simulator.RefreshBuffer ctx (Simulator.StoreRaySegments ctx crystal filter s)).buffer_
      (Simulator.RefreshBuffer ctx (Simulator.StoreRaySegments ctx crystal filter s)).pool k := by
  obtain ⟨h1, h2, -⟩ := Refresh_slots ctx s _ (StoreCreated_final ctx crystal filter s)
  obtain ⟨a1, a2⟩ := h2 k hk
  obtain ⟨r, q1, -, q3, q4⟩ := a2 (lt_of_le_of_lt h0 a1)
  exact ⟨r, q1, by rw [h1]; exact q3, by rw [h1]; exact q4⟩

/-- C4: assuming the surface-hit kernel splits every parent weight `w` into
`w * R` (even child slot) and `w * (1 - R)` (odd child slot) with `0 <= R <= 1`,
after every returning `Start` the segment pool obeys the energy bound: each
acquired segment either is a root (no `prev`, its own `RayInfo`) or has a weight
between 0 and the weight of the segment its `prev` link points to, and the
weights of the reflect and refract children of a segment sum to at most its
weight. The slot invariant it rests on holds through `InitEntryRays` and (for
`kPropMinW >= 0`) through every `StoreRaySegments` + `RefreshBuffer`: each live
slot `k` of buffer 0 holds the weight of the segment `ray_seg[0][k]` refers to. -/
theorem C4_energy_bound (ctx : ProjectContext) (env : Env) (hK : KernelSplits env) :
    (∀ s t : Simulator, Simulator.Start ctx env s = Except.ok t → PoolEnergy t.pool) ∧
    (∀ (c : CrystalContext) (s : Simulator) (k : Nat),
      k < (Simulator.InitEntryRays env c s).active_ray_num_ →
      SlotMatches (Simulator.InitEntryRays env c s).buffer_
        (Simulator.InitEntryRays env c s).pool k) ∧
    (0 ≤ ctx.kPropMinW →
      ∀ (crystal : Crystal) (filter : AbstractRayPathFilter) (s : Simulator) (k : Nat),
      k < (Simulator.RefreshBuffer ctx
        (Simulator.StoreRaySegments ctx crystal filter s)).active_ray_num_ →
      SlotMatches
        (Simulator.RefreshBuffer ctx (Simulator.StoreRaySegments ctx crystal filter s)).buffer_
        (Simulator.RefreshBuffer ctx (Simulator.StoreRaySegments ctx crystal filter s)).pool k) :=
  ⟨fun s t ht => Start_energy ctx env hK s t ht,
    fun c s k hk => InitEntryRays_matches env c s k hk,
    fun h0 crystal filter s k hk => Refresh_matches ctx crystal filter s h0 k hk⟩

theorem sampleEnv_splits : KernelSplits sampleEnv := by
  intro crystal n num dirs faces ws m _ _
  refine ⟨1999 / 2000, by norm_num, by norm_num, ?_, ?_⟩
  · show (if 2 * m % 2 = 0 then ws.getD (2 * m / 2) 0 * (1999 / 2000)
      else ws.getD (2 * m / 2) 0 * (1 - 1999 / 2000)) = _
    rw [if_pos (by omega), Nat.mul_div_cancel_left m (by omega : 0 < 2)]
  · show (if (2 * m + 1) % 2 = 0 then ws.getD ((2 * m + 1) / 2) 0 * (1999 / 2000)
      else ws.getD ((2 * m + 1) / 2) 0 * (1 - 1999 / 2000)) = _
    rw [if_neg (by omega), (by omega : (2 * m + 1) / 2 = m)]

set_option maxRecDepth 100000 in
/-- Witness for C4: the example kernel splits weights with `R = 1999/2000`, and
the pool of the two-pass example run (one root, two children) obeys the bound. -/
theorem C4_witness :
    KernelSplits sampleEnv ∧ sampleRun.pool.next_unused_id = 3 ∧ PoolEnergy sampleRun.pool := by
  have hf : finalOf (Simulator.Start (sampleCtx sampleTwoPass) sampleEnv
      (Simulator.new.SetWavelengthIndex (sampleCtx sampleTwoPass) 0)) = some [1] := by decide!
  cases h : Simulator.Start (sampleCtx sampleTwoPass) sampleEnv
      (Simulator.new.SetWavelengthIndex (sampleCtx sampleTwoPass) 0) with
  | error e => rw [h] at hf; cases hf
  | ok t =>
    have ht : sampleRun = t := by
      unfold sampleRun
      rw [h]
      rfl
    rw [ht]
    refine ⟨sampleEnv_splits, ?_, (C4_energy_bound (sampleCtx sampleTwoPass) sampleEnv
      sampleEnv_splits).1 _ t h⟩
    rw [← ht]
    decide!

theorem getD_backPush {α : Type} (v : List (List α)) (r : α) :
    ∀ j, (backPush v r).getD j [] = if j + 1 = v.length then v.getD j [] ++ [r] else v.getD j [] := by
  induction v with
  | nil => intro j; simp [backPush]
  | cons l ls ih =>
    cases ls with
    | nil =>
      intro j
      cases j with
      | zero => simp [backPush]
      | succ j => simp [backPush]
    | cons m ms =>
      intro j
      cases j with
      | zero => simp [backPush]
      | succ j =>
        have h := ih j
        simp only [backPush, List.getD_cons_succ, List.length_cons] at h ⊢
        rw [h]
        simp

theorem getD_append_nil {α : Type} (v : List (List α)) (j : Nat) :
    (v ++ [[]]).getD j [] = v.getD j [] := by
  induction v generalizing j with
  | nil => cases j <;> simp
  | cons l ls ih =>
    cases j with
    | zero => simp
    | succ j => simpa using ih j

theorem mem_getD_lt {α : Type} (v : List (List α)) (j : Nat) (x : α) (h : x ∈ v.getD j []) :
    j < v.length := by
  by_contra hn
  rw [List.getD_eq_default _ _ (by omega)] at h
  cases h

theorem prevExitAt_backPush (exits : List (List Nat)) (r j : Nat) (hj : j < exits.length) :
    prevExitAt (backPush exits r) j = prevExitAt exits j := by
  cases j with
  | zero => rfl
  | succ j =>
    simp only [prevExitAt]
    rw [getD_backPush, if_neg (by omega)]

theorem prevExitAt_append_nil (exits : List (List Nat)) (j : Nat) :
    prevExitAt (exits ++ [[]]) j = prevExitAt exits j := by
  cases j with
  | zero => rfl
  | succ j =>
    simp only [prevExitAt]
    rw [getD_append_nil]

theorem PoolExt_refl (p : RaySegmentPool) : PoolExt p p :=
  ⟨le_refl _, fun _ _ => ⟨rfl, rfl, rfl⟩⟩

theorem PoolExt_trans {p q r : RaySegmentPool} (h1 : PoolExt p q) (h2 : PoolExt q r) :
    PoolExt p r := by
  refine ⟨le_trans h1.1 h2.1, fun h hh => ?_⟩
  obtain ⟨x1, x2, x3⟩ := h1.2 h hh
  obtain ⟨y1, y2, y3⟩ := h2.2 h (lt_of_lt_of_le hh h1.1)
  exact ⟨y1.trans x1, y2.trans x2, y3.trans x3⟩

theorem EntryOk_ext {p q : RaySegmentPool} (h : PoolExt p q) (prev : Option (List Nat))
    (x : Option Nat) (hx : EntryOk p prev x) : EntryOk q prev x := by
  cases prev with
  | none => exact hx
  | some E =>
    obtain ⟨a, a1, a2, a3, a4⟩ := hx
    exact ⟨a, a1, a2, lt_of_lt_of_le a3 h.1, by rw [(h.2 a a3).2.1]; exact a4⟩

theorem RootOk_ext {p q : RaySegmentPool} (h : PoolExt p q) (prev : Option (List Nat))
    (info : RayInfo) (hx : RootOk p prev info) : RootOk q prev info := by
  obtain ⟨r1, r2, r3⟩ := hx
  refine ⟨lt_of_lt_of_le r1 h.1, by rw [(h.2 _ r1).2.2]; exact r2, ?_⟩
  cases prev with
  | none =>
    exact ⟨r3.1, by rw [(h.2 _ r1).1]; exact r3.2⟩
  | some E =>
    obtain ⟨a, a1, a2, a3, a4, a5⟩ := r3
    exact ⟨a, a1, a2, lt_of_lt_of_le a3 h.1, by rw [(h.2 a a3).2.1]; exact a4,
      by rw [(h.2 _ r1).1, (h.2 a a3).1]; exact a5⟩

theorem PoolExt_addRoot (p : RaySegmentPool) (e : EntrySample) (ctx : CrystalContext) :
    PoolExt p (p.addRoot e ctx) := by
  obtain ⟨a1, a2⟩ := addRoot_fields p e ctx
  refine ⟨by rw [a1]; omega, fun h hh => ?_⟩
  rw [a2, if_neg (by omega)]
  exact ⟨rfl, rfl, rfl⟩

theorem PoolExt_link (b : SimulationBufferData) (p : RaySegmentPool) (i : Nat) :
    PoolExt p (Simulator.StoreRaySegments_link b p i) := by
  refine ⟨by rw [link_next]; omega, fun h hh => ?_⟩
  rw [link_w, link_finished, link_root_old _ _ _ _ (by omega), if_neg (by omega),
    if_neg (by omega)]
  exact ⟨rfl, rfl, rfl⟩

theorem PassInv_congr {s t : Simulator} (h : CoreEq s t) (hs : PassInv s) : PassInv t := by
  obtain ⟨h1, h2, h3, h4, h5⟩ := h
  unfold PassInv RootsCore EnterFits at hs ⊢
  rw [h1, h2, h3, h4, h5]
  exact hs

theorem PassInv_InitEntryRays_ray (env : Env) (c : CrystalContext) (s : Simulator) (i : Nat)
    (h : PassInv s) (hi : s.enter_ray_offset_ + i < s.total_ray_num_) :
    PassInv (Simulator.InitEntryRays_ray env c s i) := by
  obtain ⟨⟨l, ev, ro⟩, pos, ef⟩ := h
  obtain ⟨a1, a2⟩ := addRoot_fields s.pool (Simulator.InitEntryRays_sample env c s i) c
  have hext := PoolExt_addRoot s.pool (Simulator.InitEntryRays_sample env c s i) c
  have hrays : (Simulator.InitEntryRays_ray env c s i).rays_ = backPush s.rays_
      ((Simulator.InitEntryRays_sample env c s i).info c s.pool.next_unused_id) := rfl
  have hexit : (Simulator.InitEntryRays_ray env c s i).exit_ray_segments_ =
      s.exit_ray_segments_ := rfl
  have hpool : (Simulator.InitEntryRays_ray env c s i).pool =
      s.pool.addRoot (Simulator.InitEntryRays_sample env c s i) c := rfl
  have htotal : (Simulator.InitEntryRays_ray env c s i).total_ray_num_ = s.total_ray_num_ := rfl
  have henter : (Simulator.InitEntryRays_ray env c s i).enter_ray_data_ = s.enter_ray_data_ := rfl
  unfold PassInv RootsCore EnterFits
  rw [hrays, hexit, hpool, htotal, henter, length_backPush]
  refine ⟨⟨l, ?_, ?_⟩, pos, ?_⟩
  · intro j r hr
    exact lt_of_lt_of_le (ev j r hr) hext.1
  · intro j info hinfo
    rw [getD_backPush] at hinfo
    have hold : info ∈ s.rays_.getD j [] →
        RootOk (s.pool.addRoot (Simulator.InitEntryRays_sample env c s i) c)
          (prevExitAt s.exit_ray_segments_ j) info :=
      fun hm => RootOk_ext hext _ _ (ro j info hm)
    split_ifs at hinfo with hj
    · rcases List.mem_append.mp hinfo with hm | hm
      · exact hold hm
      · rw [List.mem_singleton] at hm
        subst hm
        have hjm : j = s.rays_.length - 1 := by omega
        have hentry := ef (s.enter_ray_offset_ + i) hi
        rw [← hjm] at hentry
        refine ⟨by show s.pool.next_unused_id < _; rw [a1]; omega, ?_, ?_⟩
        · show ((s.pool.addRoot _ c).segments s.pool.next_unused_id).root_ctx = _
          rw [a2, if_pos rfl]
        · have hw : ((s.pool.addRoot (Simulator.InitEntryRays_sample env c s i) c).segments
              s.pool.next_unused_id).w = (Simulator.InitEntryRays_sample env c s i).w := by
            rw [a2, if_pos rfl]
          have hprev : (Simulator.InitEntryRays_sample env c s i).prev_r =
              s.enter_ray_data_.ray_seg (s.enter_ray_offset_ + i) := rfl
          have hwdef : (Simulator.InitEntryRays_sample env c s i).w =
              match s.enter_ray_data_.ray_seg (s.enter_ray_offset_ + i) with
              | some p => (s.pool.segments p).w
              | none => 1 := rfl
          cases hprevEx : prevExitAt s.exit_ray_segments_ j with
          | none =>
            rw [hprevEx] at hentry
            have hnone : s.enter_ray_data_.ray_seg (s.enter_ray_offset_ + i) = none := hentry
            rw [hnone] at hprev hwdef
            exact ⟨hprev, by
              show ((s.pool.addRoot _ c).segments s.pool.next_unused_id).w = 1
              rw [hw, hwdef]⟩
          | some E =>
            rw [hprevEx] at hentry
            obtain ⟨p, p1, p2, p3, p4⟩ := hentry
            rw [p1] at hprev hwdef
            refine ⟨p, hprev, p2, lt_of_lt_of_le p3 hext.1, ?_, ?_⟩
            · rw [(hext.2 p p3).2.1]; exact p4
            · show ((s.pool.addRoot _ c).segments s.pool.next_unused_id).w = _
              rw [hw, hwdef, (hext.2 p p3).1]
    · exact hold hinfo
  · intro k hk
    exact EntryOk_ext hext _ _ (ef k hk)

theorem PassInv_InitEntryRays (env : Env) (c : CrystalContext) (s : Simulator)
    (h : PassInv s) (hwin : s.enter_ray_offset_ + s.active_ray_num_ ≤ s.total_ray_num_) :
    PassInv (Simulator.InitEntryRays env c s) := by
  unfold Simulator.InitEntryRays
  have := foldl_range_inv (fun (_ : Nat) (t : Simulator) => PassInv t ∧
    t.enter_ray_offset_ = s.enter_ray_offset_ ∧ t.total_ray_num_ = s.total_ray_num_)
    (Simulator.InitEntryRays_ray env c) s.active_ray_num_ s ⟨h, rfl, rfl⟩
    (fun i t hi ht => ⟨PassInv_InitEntryRays_ray env c t i ht.1 (by rw [ht.2.1, ht.2.2]; omega),
      ht.2.1, ht.2.2⟩)
  exact this.1

theorem PassInv_Store_slot (ctx : ProjectContext) (crystal : Crystal)
    (filter : AbstractRayPathFilter) (s : Simulator) (i : Nat) (h : PassInv s) :
    PassInv (Simulator.StoreRaySegments_slot ctx crystal filter s i) := by
  obtain ⟨⟨l, ev, ro⟩, pos, ef⟩ := h
  have hext := PoolExt_link s.buffer_ s.pool i
  have hnext := link_next s.buffer_ s.pool i
  have hplain : PassInv ({ s with
      pool := Simulator.StoreRaySegments_link s.buffer_ s.pool i
      buffer_ := s.buffer_.setChildSeg i s.pool.next_unused_id } : Simulator) := by
    refine ⟨⟨l, ?_, ?_⟩, pos, ?_⟩
    · intro j r hr
      exact lt_of_lt_of_le (ev j r hr) hext.1
    · intro j info hinfo
      exact RootOk_ext hext _ _ (ro j info hinfo)
    · intro k hk
      exact EntryOk_ext hext _ _ (ef k hk)
  unfold Simulator.StoreRaySegments_slot
  dsimp only
  split_ifs
  · exact ⟨⟨l, ev, ro⟩, pos, ef⟩
  · exact hplain
  · refine ⟨⟨?_, ?_, ?_⟩, pos, ?_⟩
    · show s.rays_.length = (backPush s.exit_ray_segments_ s.pool.next_unused_id).length
      rw [length_backPush]; exact l
    · intro j r hr
      have hr' : r ∈ (backPush s.exit_ray_segments_ s.pool.next_unused_id).getD j [] := hr
      show r < (Simulator.StoreRaySegments_link s.buffer_ s.pool i).next_unused_id
      rw [getD_backPush] at hr'
      split_ifs at hr' with hj
      · rcases List.mem_append.mp hr' with hm | hm
        · exact lt_of_lt_of_le (ev j r hm) hext.1
        · rw [List.mem_singleton] at hm
          rw [hm, hnext]; omega
      · exact lt_of_lt_of_le (ev j r hr') hext.1
    · intro j info hinfo
      have hinfo' : info ∈ s.rays_.getD j [] := hinfo
      have hj := mem_getD_lt _ _ _ hinfo'
      show RootOk (Simulator.StoreRaySegments_link s.buffer_ s.pool i)
        (prevExitAt (backPush s.exit_ray_segments_ s.pool.next_unused_id) j) info
      rw [prevExitAt_backPush _ _ _ (by omega)]
      exact RootOk_ext hext _ _ (ro j info hinfo')
    · intro k hk
      show EntryOk (Simulator.StoreRaySegments_link s.buffer_ s.pool i)
        (prevExitAt (backPush s.exit_ray_segments_ s.pool.next_unused_id) (s.rays_.length - 1))
        (s.enter_ray_data_.ray_seg k)
      rw [prevExitAt_backPush _ _ _ (by omega)]
      exact EntryOk_ext hext _ _ (ef k hk)
  · exact hplain

theorem PassInv_TraceRays_step (ctx : ProjectContext) (env : Env) (crystal : Crystal)
    (filter : AbstractRayPathFilter) (n : ℚ) (s : Simulator) (h : PassInv s) :
    PassInv (Simulator.TraceRays_step ctx env crystal filter n s) := by
  have h1 : PassInv s.growForTrace := by
    refine PassInv_congr ?_ h
    unfold Simulator.growForTrace
    split_ifs <;> exact ⟨rfl, rfl, rfl, rfl, rfl⟩
  have h2 : PassInv (traceFanOut env crystal n s.growForTrace) :=
    PassInv_congr ⟨rfl, rfl, rfl, rfl, rfl⟩ h1
  have h3 : PassInv (Simulator.StoreRaySegments ctx crystal filter
      (traceFanOut env crystal n s.growForTrace)) := by
    unfold Simulator.StoreRaySegments
    exact foldl_inv (fun t : Simulator => PassInv t) _ _ _ h2
      (fun t i _ ht => PassInv_Store_slot ctx crystal filter t i ht)
  exact PassInv_congr ⟨rfl, rfl, rfl, rfl, rfl⟩ h3

theorem PassInv_TraceRays (ctx : ProjectContext) (env : Env) (crystal : Crystal)
    (filter : AbstractRayPathFilter) (s t : Simulator) (h : PassInv s)
    (ht : Simulator.TraceRays ctx env crystal filter s = Except.ok t) : PassInv t := by
  unfold Simulator.TraceRays at ht
  split at ht
  · cases ht
  · injection ht with ht
    subst ht
    exact foldl_inv (fun t : Simulator => PassInv t) _ _ _ h
      (fun t _ _ ht => PassInv_TraceRays_step ctx env crystal filter _ t ht)

theorem InitEntryRays_active (env : Env) (c : CrystalContext) (s : Simulator) :
    (Simulator.InitEntryRays env c s).active_ray_num_ = s.active_ray_num_ := by
  unfold Simulator.InitEntryRays
  exact foldl_inv (fun t : Simulator => t.active_ray_num_ = s.active_ray_num_) _ _ _ rfl
    (fun t _ _ ht => ht)

theorem crystalBegin_core (c : CrystalInfo) (s : Simulator) :
    CoreEq s (Simulator.crystalBegin c s) ∧
    (Simulator.crystalBegin c s).active_ray_num_ = activeOf c s.total_ray_num_ ∧
    (Simulator.crystalBegin c s).enter_ray_offset_ = s.enter_ray_offset_ := by
  unfold Simulator.crystalBegin
  dsimp only
  split_ifs <;> exact ⟨⟨rfl, rfl, rfl, rfl, rfl⟩, rfl, rfl⟩

theorem activeOf_le_rounded (c : CrystalInfo) (T : Nat) (h : 0 ≤ c.population) :
    ((activeOf c T : Nat) : ℚ) ≤
      (1 + 1 / 16777216) * (c.population * roundToFloat (T : ℚ)) := by
  have hx : 0 ≤ c.population * roundToFloat (T : ℚ) :=
    mul_nonneg h (roundToFloat_nonneg _ (Nat.cast_nonneg T))
  have h0 : (0 : ℤ) ≤ ⌊roundToFloat (c.population * roundToFloat (T : ℚ))⌋ :=
    Int.floor_nonneg.mpr (roundToFloat_nonneg _ hx)
  have h1 : ((activeOf c T : Nat) : ℚ) =
      ((⌊roundToFloat (c.population * roundToFloat (T : ℚ))⌋ : ℤ) : ℚ) := by
    unfold activeOf
    rw [← Int.cast_natCast, Int.toNat_of_nonneg h0]
  rw [h1]
  exact floor_roundToFloat_le _ hx

theorem activeOf_le (c : CrystalInfo) (T : Nat) (h : 0 ≤ c.population) (hT : T < 16777216) :
    ((activeOf c T : Nat) : ℚ) ≤ (1 + 1 / 16777216) * (c.population * (T : ℚ)) := by
  have h2 := activeOf_le_rounded c T h
  rwa [roundToFloat_natCast T hT] at h2

theorem activeOf_le_cap (c : CrystalInfo) (T : Nat) (h0 : 0 ≤ c.population)
    (h1 : c.population ≤ 1) : activeOf c T ≤ T * 4 := by
  have h2 := activeOf_le_rounded c T h0
  rcases Nat.eq_zero_or_pos T with hz | hp
  · subst hz
    have hr : roundToFloat ((0 : Nat) : ℚ) = ((0 : Nat) : ℚ) :=
      roundToFloat_natCast 0 (by norm_num)
    rw [hr] at h2
    have h3 : ((activeOf c 0 : Nat) : ℚ) ≤ ((0 : Nat) : ℚ) := by
      push_cast at h2 ⊢
      linarith
    have h4 := Nat.cast_le.mp h3
    omega
  · have hT1 : (1 : ℚ) ≤ (T : ℚ) := by exact_mod_cast hp
    have h3 := roundToFloat_le_of_one_le _ hT1
    have h4 := roundToFloat_nonneg (T : ℚ) (Nat.cast_nonneg T)
    have h5 : c.population * roundToFloat (T : ℚ) ≤ roundToFloat (T : ℚ) := by
      have := mul_le_mul_of_nonneg_right h1 h4
      rwa [one_mul] at this
    have h6 : ((activeOf c T : Nat) : ℚ) ≤ ((T * 4 : Nat) : ℚ) := by
      push_cast
      nlinarith
    exact Nat.cast_le.mp h6

theorem window_step (c : CrystalInfo) (T off : Nat) (rest : ℚ) (h0 : 0 ≤ c.population)
    (hT : T < 16777216)
    (hwin : (off : ℚ) + (1 + 1 / 16777216) * ((c.population + rest) * (T : ℚ)) ≤
      (1 + 1 / 16777216) * (T : ℚ)) :
    ((off + activeOf c T : Nat) : ℚ) + (1 + 1 / 16777216) * (rest * (T : ℚ)) ≤
      (1 + 1 / 16777216) * (T : ℚ) := by
  have h2 := activeOf_le c T h0 hT
  push_cast
  linarith

theorem window_inside (T n : Nat) (rest : ℚ) (hr : 0 ≤ rest) (hT : T < 16777216)
    (h : (n : ℚ) + (1 + 1 / 16777216) * (rest * (T : ℚ)) ≤ (1 + 1 / 16777216) * (T : ℚ)) :
    n ≤ T := by
  have hTq : (T : ℚ) < 16777216 := by exact_mod_cast hT
  have hT0 : (0 : ℚ) ≤ (T : ℚ) := Nat.cast_nonneg T
  have h1 : (n : ℚ) < ((T + 1 : Nat) : ℚ) := by
    push_cast
    nlinarith [mul_nonneg hr hT0]
  have h2 := Nat.cast_lt.mp h1
  omega

theorem window_first (T : Nat) (sum : ℚ) (hsum : sum ≤ 1) :
    ((0 : Nat) : ℚ) + (1 + 1 / 16777216) * (sum * (T : ℚ)) ≤ (1 + 1 / 16777216) * (T : ℚ) := by
  have hT0 : (0 : ℚ) ≤ (T : ℚ) := Nat.cast_nonneg T
  push_cast
  nlinarith

theorem crystalPass_PassInv (ctx : ProjectContext) (env : Env) (c : CrystalInfo)
    (s t : Simulator) (h : PassInv s)
    (hwin : s.enter_ray_offset_ + activeOf c s.total_ray_num_ ≤ s.total_ray_num_)
    (ht : Simulator.crystalPass ctx env c s = Except.ok t) :
    PassInv t ∧ t.enter_ray_offset_ = s.enter_ray_offset_ + activeOf c s.total_ray_num_ ∧
    t.total_ray_num_ = s.total_ray_num_ := by
  unfold Simulator.crystalPass at ht
  obtain ⟨b1, b2, b3⟩ := crystalBegin_core c s
  have hb : PassInv (Simulator.crystalBegin c s) := PassInv_congr b1 h
  have hi : PassInv (Simulator.InitEntryRays env (ctx.GetCrystalContext c.crystal_id)
      (Simulator.crystalBegin c s)) :=
    PassInv_InitEntryRays env _ _ hb (by rw [b2, b3, b1.2.2.2.1]; exact hwin)
  have hf := InitEntryRays_frame env (ctx.GetCrystalContext c.crystal_id)
    (Simulator.crystalBegin c s)
  have ha := InitEntryRays_active env (ctx.GetCrystalContext c.crystal_id)
    (Simulator.crystalBegin c s)
  have hadv : PassInv (Simulator.InitEntryRays env (ctx.GetCrystalContext c.crystal_id)
      (Simulator.crystalBegin c s)).advanceOffset :=
    PassInv_congr ⟨rfl, rfl, rfl, rfl, rfl⟩ hi
  have htf := TraceRays_frame ctx env _ _ _ _ ht
  refine ⟨PassInv_TraceRays ctx env _ _ _ _ hadv ht, ?_, ?_⟩
  · rw [htf.2.2.2.2.1]
    show (Simulator.InitEntryRays env (ctx.GetCrystalContext c.crystal_id)
      (Simulator.crystalBegin c s)).enter_ray_offset_ +
      (Simulator.InitEntryRays env (ctx.GetCrystalContext c.crystal_id)
      (Simulator.crystalBegin c s)).active_ray_num_ = _
    rw [ha, hf.2.2.2.2.1, b2, b3]
  · rw [htf.2.2.1]
    show (Simulator.InitEntryRays env (ctx.GetCrystalContext c.crystal_id)
      (Simulator.crystalBegin c s)).total_ray_num_ = _
    rw [hf.2.2.1, b1.2.2.2.1]

theorem sum_pop_nonneg (cs : List CrystalInfo) (h : ∀ c ∈ cs, 0 ≤ c.population) :
    0 ≤ (cs.map (fun c => c.population)).sum := by
  apply List.sum_nonneg
  intro x hx
  obtain ⟨c, hc, rfl⟩ := List.mem_map.mp hx
  exact h c hc

theorem crystalLoop_PassInv (ctx : ProjectContext) (env : Env) (cs : List CrystalInfo) :
    ∀ s t : Simulator, PassInv s → (∀ c ∈ cs, 0 ≤ c.population) →
    s.total_ray_num_ < 16777216 →
    (s.enter_ray_offset_ : ℚ) +
        (1 + 1 / 16777216) * ((cs.map (fun c => c.population)).sum * (s.total_ray_num_ : ℚ)) ≤
      (1 + 1 / 16777216) * (s.total_ray_num_ : ℚ) →
    Simulator.crystalLoop ctx env cs s = Except.ok t → PassInv t := by
  induction cs with
  | nil =>
    intro s t h _ _ _ ht
    simp only [Simulator.crystalLoop] at ht
    injection ht with ht
    rw [← ht]; exact h
  | cons c cs ih =>
    intro s t h hpos hT hwin ht
    simp only [Simulator.crystalLoop] at ht
    have hc : 0 ≤ c.population := hpos c (List.mem_cons_self _ _)
    have hrest : 0 ≤ (cs.map (fun c => c.population)).sum :=
      sum_pop_nonneg cs (fun d hd => hpos d (List.mem_cons_of_mem _ hd))
    rw [List.map_cons, List.sum_cons] at hwin
    have hstep := window_step c s.total_ray_num_ s.enter_ray_offset_ _ hc hT hwin
    have hwinN : s.enter_ray_offset_ + activeOf c s.total_ray_num_ ≤ s.total_ray_num_ :=
      window_inside _ _ _ hrest hT hstep
    cases h5 : Simulator.crystalPass ctx env c s with
    | error e => rw [h5] at ht; cases ht
    | ok s5 =>
      rw [h5] at ht
      obtain ⟨p1, p2, p3⟩ := crystalPass_PassInv ctx env c s s5 h hwinN h5
      refine ih s5 t p1 (fun d hd => hpos d (List.mem_cons_of_mem _ hd)) ?_ ?_ ht
      · rw [p3]
        exact hT
      · rw [p2, p3]
        exact hstep

theorem backOf_eq_getD {α : Type} (v : List (List α)) :
    backOf v = v.getD (v.length - 1) [] := by
  unfold backOf
  rw [List.getLastD_eq_getLast?, List.getLast?_eq_getElem?, List.getD_eq_getElem?_getD]

theorem SelectInv_seg (ctx : ProjectContext) (env : Env) (prob : ℚ) (s : Simulator)
    (E : List Nat) (acc : Simulator × Nat) (r : Nat) (hr : r ∈ E)
    (h : SelectInv s E acc.1 acc.2) :
    SelectInv s E (Simulator.RestoreResultRays_seg ctx env prob acc r).1
      (Simulator.RestoreResultRays_seg ctx env prob acc r).2 := by
  obtain ⟨h1, h2, h3, h4⟩ := h
  unfold Simulator.RestoreResultRays_seg
  dsimp only
  split_ifs with c1 c2
  · exact ⟨h1, h2, h3, h4⟩
  · exact ⟨h1, h2, h3, h4⟩
  · refine ⟨h1, h2, h3, ?_⟩
    intro i hi
    show ∃ p, Function.update acc.1.enter_ray_data_.ray_seg acc.2 (some r) i = some p ∧ _
    by_cases hia : i = acc.2
    · subst hia
      refine ⟨r, by rw [Function.update_same], hr, ?_⟩
      rw [← h1]
      by_contra hn
      exact c1 (Or.inl (by simpa using hn))
    · rw [Function.update_noteq hia]
      exact h4 i (by omega)

theorem SelectInv_select (ctx : ProjectContext) (env : Env) (prob : ℚ) (s : Simulator) :
    SelectInv s (backOf s.exit_ray_segments_) (Simulator.RestoreResultRays_select ctx env prob s)
      (Simulator.RestoreResultRays_select ctx env prob s).total_ray_num_ := by
  unfold Simulator.RestoreResultRays_select
  dsimp only
  have h0 : SelectInv s (backOf s.exit_ray_segments_) s.growForRestore 0 := by
    have hg := growForRestore_frame s
    exact ⟨hg.2.2.2.1, hg.2.1, hg.2.2.1, fun i hi => absurd hi (Nat.not_lt_zero i)⟩
  have := foldl_inv (fun acc : Simulator × Nat =>
      SelectInv s (backOf s.exit_ray_segments_) acc.1 acc.2)
    (Simulator.RestoreResultRays_seg ctx env prob) (backOf s.exit_ray_segments_)
    (s.growForRestore, 0) h0
    (fun acc r hr hacc => SelectInv_seg ctx env prob s _ acc r hr hacc)
  exact this

theorem SelectInv_shuffle (env : Env) (hS : SampleIntInRange env) (s : Simulator) (E : List Nat)
    (t : Simulator) (i : Nat) (hi : i < t.total_ray_num_)
    (h : SelectInv s E t t.total_ray_num_) :
    SelectInv s E (Simulator.RestoreResultRays_shuffle env t i)
      (Simulator.RestoreResultRays_shuffle env t i).total_ray_num_ := by
  obtain ⟨h1, h2, h3, h4⟩ := h
  have hr := hS t.rng ((t.total_ray_num_ - i : Nat) : Int) (by omega)
  have hj : ((i : Int) + env.SampleInt t.rng ((t.total_ray_num_ - i : Nat) : Int)).toNat <
      t.total_ray_num_ := by omega
  refine ⟨h1, h2, h3, ?_⟩
  intro k hk
  have hk' : k < t.total_ray_num_ := hk
  show ∃ p, Function.update (Function.update t.enter_ray_data_.ray_seg
      ((i : Int) + env.SampleInt t.rng ((t.total_ray_num_ - i : Nat) : Int)).toNat
      (t.enter_ray_data_.ray_seg i)) i
      (t.enter_ray_data_.ray_seg
        ((i : Int) + env.SampleInt t.rng ((t.total_ray_num_ - i : Nat) : Int)).toNat) k = some p ∧ _
  by_cases hki : k = i
  · subst hki
    rw [Function.update_same]
    exact h4 _ hj
  · rw [Function.update_noteq hki]
    by_cases hkj : k = ((i : Int) + env.SampleInt t.rng ((t.total_ray_num_ - i : Nat) : Int)).toNat
    · rw [hkj, Function.update_same]
      exact h4 _ hi
    · rw [Function.update_noteq hkj]
      exact h4 _ hk'

theorem SelectInv_Restore (ctx : ProjectContext) (env : Env) (hS : SampleIntInRange env)
    (prob : ℚ) (s : Simulator) :
    SelectInv s (backOf s.exit_ray_segments_) (Simulator.RestoreResultRays ctx env prob s)
      (Simulator.RestoreResultRays ctx env prob s).total_ray_num_ := by
  unfold Simulator.RestoreResultRays
  dsimp only
  have := foldl_range_inv (fun (_ : Nat) (t : Simulator) =>
      SelectInv s (backOf s.exit_ray_segments_) t t.total_ray_num_ ∧
      t.total_ray_num_ = (Simulator.RestoreResultRays_select ctx env prob s).total_ray_num_)
    (Simulator.RestoreResultRays_shuffle env)
    (Simulator.RestoreResultRays_select ctx env prob s).total_ray_num_
    (Simulator.RestoreResultRays_select ctx env prob s)
    ⟨SelectInv_select ctx env prob s, rfl⟩
    (fun i t hi ht => ⟨SelectInv_shuffle env hS s _ t i (by rw [ht.2]; exact hi) ht.1, ht.2⟩)
  exact this.1

theorem Restore_fits (ctx : ProjectContext) (env : Env) (hS : SampleIntInRange env)
    (prob : ℚ) (s : Simulator) (h : PassInv s) :
    RootsCore (Simulator.RestoreResultRays ctx env prob s) ∧
    EnterFits (Simulator.RestoreResultRays ctx env prob s)
      (Simulator.RestoreResultRays ctx env prob s).rays_.length := by
  obtain ⟨⟨l, ev, ro⟩, pos, _⟩ := h
  obtain ⟨h1, h2, h3, h4⟩ := SelectInv_Restore ctx env hS prob s
  unfold RootsCore EnterFits
  rw [h1, h2, h3]
  refine ⟨⟨l, ev, ro⟩, ?_⟩
  intro i hi
  obtain ⟨p, p1, p2, p3⟩ := h4 i hi
  rw [backOf_eq_getD] at p2
  have hprev : prevExitAt s.exit_ray_segments_ s.rays_.length =
      some (s.exit_ray_segments_.getD (s.exit_ray_segments_.length - 1) []) := by
    rw [l]
    cases hlen : s.exit_ray_segments_.length with
    | zero => omega
    | succ n => rfl
  rw [hprev]
  exact ⟨p, p1, p2, ev _ p p2, p3⟩

theorem scatterBegin_PassInv (s : Simulator) (h : RootsCore s)
    (hf : EnterFits s s.rays_.length) : PassInv s.scatterBegin := by
  obtain ⟨l, ev, ro⟩ := h
  have hr : s.scatterBegin.rays_ = s.rays_ ++ [[]] := rfl
  have he : s.scatterBegin.exit_ray_segments_ = s.exit_ray_segments_ ++ [[]] := rfl
  have hp : s.scatterBegin.pool = s.pool := rfl
  have ht : s.scatterBegin.total_ray_num_ = s.total_ray_num_ := rfl
  have hd : s.scatterBegin.enter_ray_data_ = s.enter_ray_data_ := rfl
  unfold PassInv RootsCore EnterFits
  rw [hr, he, hp, ht, hd]
  refine ⟨⟨by simp [l], ?_, ?_⟩, by simp, ?_⟩
  · intro j r hr
    rw [getD_append_nil] at hr
    exact ev j r hr
  · intro j info hinfo
    rw [getD_append_nil] at hinfo
    rw [prevExitAt_append_nil]
    exact ro j info hinfo
  · intro i hi
    rw [prevExitAt_append_nil]
    have : (s.rays_ ++ [[]]).length - 1 = s.rays_.length := by simp
    rw [this]
    exact hf i hi

theorem scatterLoop_roots (ctx : ProjectContext) (env : Env) (hS : SampleIntInRange env)
    (its : List MultiScatterContext) :
    ∀ s t : Simulator, RootsCore s →
    (its ≠ [] → EnterFits s s.rays_.length ∧ s.enter_ray_offset_ = 0) →
    (∀ it ∈ its, (∀ c ∈ it.GetCrystalInfo, 0 ≤ c.population) ∧
      (it.GetCrystalInfo.map (fun c => c.population)).sum ≤ 1) →
    (∀ x, x ∈ Simulator.passStarts ctx env its s → x.2.total_ray_num_ < 16777216) →
    Simulator.scatterLoop ctx env its s = Except.ok t → RootsCore t := by
  induction its with
  | nil =>
    intro s t h _ _ _ ht
    simp only [Simulator.scatterLoop] at ht
    injection ht with ht
    rw [← ht]; exact h
  | cons it rest ih =>
    intro s t h hfit hpop hsm ht
    simp only [Simulator.scatterLoop] at ht
    obtain ⟨hf, hoff⟩ := hfit (List.cons_ne_nil _ _)
    obtain ⟨hnn, hsum⟩ := hpop it (List.mem_cons_self _ _)
    have hb := scatterBegin_PassInv s h hf
    have hT : s.scatterBegin.total_ray_num_ < 16777216 :=
      hsm (it, s.scatterBegin) (by
        simp only [Simulator.passStarts]
        exact List.mem_cons_self _ _)
    have hwin : (s.scatterBegin.enter_ray_offset_ : ℚ) +
        (1 + 1 / 16777216) * ((it.GetCrystalInfo.map (fun c => c.population)).sum *
          (s.scatterBegin.total_ray_num_ : ℚ)) ≤
        (1 + 1 / 16777216) * (s.scatterBegin.total_ray_num_ : ℚ) := by
      have h0 : s.scatterBegin.enter_ray_offset_ = 0 := hoff
      rw [h0]
      exact window_first _ _ hsum
    cases h2 : Simulator.crystalLoop ctx env it.GetCrystalInfo s.scatterBegin with
    | error e => rw [h2] at ht; cases ht
    | ok s2 =>
      rw [h2] at ht
      have hp2 := crystalLoop_PassInv ctx env _ _ _ hb hnn hT hwin h2
      have hsm2 : ∀ x, x ∈ Simulator.passStarts ctx env rest
          (Simulator.scatterEnd ctx env it rest.isEmpty s2) → x.2.total_ray_num_ < 16777216 := by
        intro x hx
        refine hsm x ?_
        simp only [Simulator.passStarts]
        rw [h2]
        exact List.mem_cons_of_mem _ hx
      refine ih _ t ?_ ?_ (fun x hx => hpop x (List.mem_cons_of_mem _ hx)) hsm2 ht
      · unfold Simulator.scatterEnd
        dsimp only
        split_ifs
        · exact (Restore_fits ctx env hS it.GetProbability s2 hp2).1
        · exact hp2.1
      · intro hne
        unfold Simulator.scatterEnd
        dsimp only
        have hl : rest.isEmpty = false := by
          cases rest with
          | nil => exact absurd rfl hne
          | cons a b => rfl
        rw [if_pos hl]
        exact ⟨(Restore_fits ctx env hS it.GetProbability s2 hp2).2, rfl⟩

theorem Start_roots (ctx : ProjectContext) (env : Env) (hP : PopulationsOk ctx)
    (hS : SampleIntInRange env) (s t : Simulator) (hE : PassesExact ctx env s)
    (ht : Simulator.Start ctx env s = Except.ok t) : RootsCore t := by
  unfold Simulator.Start at ht
  cases h1 : Simulator.scatterLoop ctx env ctx.multi_scatter_info_
      (Simulator.InitSunRays ctx env (Simulator.reset ctx s)) with
  | error e => rw [h1] at ht; cases ht
  | ok s1 =>
    rw [h1] at ht
    dsimp only at ht
    have hcore : RootsCore s1 := by
      refine scatterLoop_roots ctx env hS _ _ s1 ?_ ?_ hP hE h1
      · refine ⟨rfl, ?_, ?_⟩
        · intro j r hr
          have : r ∈ ([] : List (List Nat)).getD j [] := hr
          simp at this
        · intro j info hinfo
          have : info ∈ ([] : List (List RayInfo)).getD j [] := hinfo
          simp at this
      · intro _
        refine ⟨?_, rfl⟩
        intro i _
        show EntryOk _ (prevExitAt _ 0)
          ((Simulator.InitSunRays ctx env (Simulator.reset ctx s)).enter_ray_data_.ray_seg i)
        show (Simulator.InitSunRays ctx env (Simulator.reset ctx s)).enter_ray_data_.ray_seg i = none
        unfold Simulator.InitSunRays Simulator.reset
        dsimp only
        split_ifs <;> rfl
    cases hl : s1.exit_ray_segments_.getLast? with
    | none => rw [hl] at ht; cases ht
    | some last =>
      rw [hl] at ht
      injection ht with ht
      rw [← ht]
      exact hcore

set_option maxRecDepth 100000 in
/-- Counterexample for C10 as stated: with a second scatter descriptor of two
crystals of population 1 each, the second crystal of the second pass reads the
enter-ray entry 1 of an array of 2 entries, of which `RestoreResultRays` filled
only entry 0; the root it creates has a null `prev_ray_segment` and weight 1,
in a later pass. -/
theorem C10_later_pass_root_with_null_prev :
    rootsOf (Simulator.Start (sampleCtx sampleOverfull) sampleEnv
      (Simulator.new.SetWavelengthIndex (sampleCtx sampleOverfull) 0)) =
      some [[(none, 1)], [(some 1, 1999 / 2000), (none, 1)]] ∧
    (resultOf (Simulator.Start (sampleCtx sampleOverfull) sampleEnv
      (Simulator.new.SetWavelengthIndex (sampleCtx sampleOverfull) 0))).enter_ray_data_.ray_num
      = 2 := by
  constructor
  · decide!
  · decide!

/-- Claim C10, amended: when the populations of every scatter descriptor are
non-negative and sum to at most 1, `SampleInt(n)` returns a value in `[0, n)`,
and every scatter pass of the run starts with fewer than `2^24` rays (so that
the `float` product `population * total_ray_num_` does not round above the exact
one by a whole ray), then after a `Start` that returned, every root recorded for
the first pass has a null `prev_ray_segment` and a root segment of weight 1, and
every root recorded for a later pass `j + 1` has as `prev_ray_segment` a
finished segment of the exit list of pass `j`, whose weight is the weight of the
root segment; in both cases the root segment is in the pool and carries the
record as its `root_ctx`. -/
theorem C10_roots_inherit_weight (ctx : ProjectContext) (env : Env) (hP : PopulationsOk ctx)
    (hS : SampleIntInRange env) :
    ∀ s t : Simulator, PassesExact ctx env s → Simulator.Start ctx env s = Except.ok t →
      RootsInherit t := by
  intro s t hE ht
  obtain ⟨_, _, ro⟩ := Start_roots ctx env hP hS s t hE ht
  constructor
  · intro info hinfo
    obtain ⟨r1, r2, r3⟩ := ro 0 info hinfo
    exact ⟨r1, r2, r3⟩
  · intro j info hinfo
    obtain ⟨r1, r2, r3⟩ := ro (j + 1) info hinfo
    obtain ⟨p, p1, p2, _, p4, p5⟩ := r3
    exact ⟨r1, r2, p, p1, p2, p4, p5⟩

theorem sampleEnv_int_range : SampleIntInRange sampleEnv := by
  intro k n hn
  exact ⟨le_refl _, hn⟩

theorem sampleReenter_populations : PopulationsOk (sampleCtx sampleReenter) := by
  intro it hit
  have hit' : it ∈ sampleReenter := hit
  unfold sampleReenter at hit'
  simp only [List.mem_cons, List.mem_singleton, List.not_mem_nil, or_false] at hit'
  rcases hit' with h | h <;> subst h <;> norm_num

set_option maxRecDepth 100000 in
theorem sampleReenter_exact :
    PassesExact (sampleCtx sampleReenter) sampleEnv
      (Simulator.new.SetWavelengthIndex (sampleCtx sampleReenter) 0) := by
  unfold PassesExact
  decide!

set_option maxRecDepth 100000 in
/-- Witness for C10: in the re-entering example run both passes start with one
ray, the first pass has one root with a null previous handle and weight 1, the
second pass has one root whose previous handle is the exit segment 1 and whose
weight is 1999/2000, and the root records of the run obey the statement. -/
theorem C10_witness :
    PopulationsOk (sampleCtx sampleReenter) ∧ SampleIntInRange sampleEnv ∧
    PassesExact (sampleCtx sampleReenter) sampleEnv
      (Simulator.new.SetWavelengthIndex (sampleCtx sampleReenter) 0) ∧
    rootsOf (Simulator.Start (sampleCtx sampleReenter) sampleEnv
      (Simulator.new.SetWavelengthIndex (sampleCtx sampleReenter) 0)) =
      some [[(none, 1)], [(some 1, 1999 / 2000)]] ∧
    exitOf (Simulator.Start (sampleCtx sampleReenter) sampleEnv
      (Simulator.new.SetWavelengthIndex (sampleCtx sampleReenter) 0)) =
      some [[1, 2], [4, 5]] ∧
    RootsInherit sampleReenterRun := by
  have hf : exitOf (Simulator.Start (sampleCtx sampleReenter) sampleEnv
      (Simulator.new.SetWavelengthIndex (sampleCtx sampleReenter) 0)) =
      some [[1, 2], [4, 5]] := by decide!
  refine ⟨sampleReenter_populations, sampleEnv_int_range, sampleReenter_exact, by decide!, hf, ?_⟩
  cases h : Simulator.Start (sampleCtx sampleReenter) sampleEnv
      (Simulator.new.SetWavelengthIndex (sampleCtx sampleReenter) 0) with
  | error e => rw [h] at hf; cases hf
  | ok t =>
    have ht : sampleReenterRun = t := by
      unfold sampleReenterRun
      rw [h]
      rfl
    rw [ht]
    exact C10_roots_inherit_weight (sampleCtx sampleReenter) sampleEnv
      sampleReenter_populations sampleEnv_int_range _ t sampleReenter_exact h

theorem link_root_new (b : SimulationBufferData) (pool : RaySegmentPool) (i h : Nat)
    (hp : b.ray_seg 0 (i / 2) = some h) (hh : h ≠ pool.next_unused_id) :
    ((Simulator.StoreRaySegments_link b pool i).segments pool.next_unused_id).root_ctx =
      (pool.segments h).root_ctx := by
  unfold Simulator.StoreRaySegments_link
  dsimp only [RaySegmentPool.modify, RaySegmentPool.GetRaySegment]
  rw [hp]
  split_ifs <;>
    simp_all [RaySegmentPool.modifyPtr, RaySegmentPool.modify, Function.update_apply]

theorem PoolTree_link (b : SimulationBufferData) (pool : RaySegmentPool) (i h : Nat)
    (ht : PoolTree pool) (hp : b.ray_seg 0 (i / 2) = some h) (hh : h < pool.next_unused_id) :
    PoolTree (Simulator.StoreRaySegments_link b pool i) := by
  intro x hx q hq
  rw [link_next] at hx
  rw [link_prev] at hq
  by_cases hxr : x = pool.next_unused_id
  · rw [if_pos hxr, hp] at hq
    injection hq with hq
    subst hq
    subst hxr
    refine ⟨hh, ?_⟩
    rw [link_root_new b pool i h hp (by omega), link_root_old _ _ _ _ (by omega)]
  · rw [if_neg hxr] at hq
    have hxlt : x < pool.next_unused_id := by omega
    obtain ⟨q1, q2⟩ := ht x hxlt q hq
    refine ⟨q1, ?_⟩
    rw [link_root_old _ _ _ _ hxr, link_root_old _ _ _ _ (by omega)]
    exact q2

theorem PoolTree_addRoot (p : RaySegmentPool) (e : EntrySample) (ctx : CrystalContext)
    (ht : PoolTree p) : PoolTree (p.addRoot e ctx) := by
  obtain ⟨a1, a2⟩ := addRoot_fields p e ctx
  intro x hx q hq
  rw [a1] at hx
  rw [a2] at hq
  by_cases hxr : x = p.next_unused_id
  · rw [if_pos hxr] at hq
    cases hq
  · rw [if_neg hxr] at hq
    obtain ⟨q1, q2⟩ := ht x (by omega) q hq
    refine ⟨q1, ?_⟩
    rw [a2, a2, if_neg hxr, if_neg (by omega)]
    exact q2

theorem InitEntryRays_tree (env : Env) (c : CrystalContext) (s : Simulator)
    (ht : PoolTree s.pool) : PoolTree (Simulator.InitEntryRays env c s).pool := by
  unfold Simulator.InitEntryRays
  exact foldl_inv (fun t : Simulator => PoolTree t.pool) _ _ _ ht
    (fun t i _ h => PoolTree_addRoot t.pool _ c h)

theorem mem_backPush {α : Type} (v : List (List α)) (r : α) :
    ∀ l, l ∈ backPush v r → ∀ x, x ∈ l → x = r ∨ ∃ l', l' ∈ v ∧ x ∈ l' := by
  induction v with
  | nil => intro l hl; simp [backPush] at hl
  | cons a v ih =>
    cases v with
    | nil =>
      intro l hl x hx
      simp only [backPush, List.mem_singleton] at hl
      subst hl
      rcases List.mem_append.mp hx with h | h
      · exact Or.inr ⟨a, List.mem_singleton.mpr rfl, h⟩
      · exact Or.inl (List.mem_singleton.mp h)
    | cons b w =>
      intro l hl x hx
      simp only [backPush, List.mem_cons] at hl
      rcases hl with h | h
      · subst h
        exact Or.inr ⟨l, List.mem_cons_self _ _, hx⟩
      · rcases ih l (by simpa [List.mem_cons] using h) x hx with h1 | ⟨l', h2, h3⟩
        · exact Or.inl h1
        · exact Or.inr ⟨l', List.mem_cons_of_mem _ h2, h3⟩

theorem mem_backOf {α : Type} (v : List (List α)) (x : α) (hx : x ∈ backOf v) :
    ∃ l, l ∈ v ∧ x ∈ l := by
  unfold backOf at hx
  cases v with
  | nil => simp at hx
  | cons a w =>
    rw [List.getLastD_cons] at hx
    by_cases hw : w = []
    · subst hw
      exact ⟨a, List.mem_singleton.mpr rfl, by simpa using hx⟩
    · refine ⟨w.getLastD a, List.mem_cons_of_mem _ ?_, hx⟩
      rw [List.getLastD_eq_getLast?, List.getLast?_eq_getLast _ hw]
      exact List.getLast_mem hw

theorem StoredValid_of_eq (s t : Simulator) (h : StoredValid s)
    (he : t.exit_ray_segments_ = s.exit_ray_segments_)
    (hf : t.final_ray_segments_ = s.final_ray_segments_)
    (hn : s.pool.next_unused_id ≤ t.pool.next_unused_id) : StoredValid t := by
  unfold StoredValid
  rw [he, hf]
  exact ⟨fun l hl r hr => lt_of_lt_of_le (h.1 l hl r hr) hn,
    fun r hr => lt_of_lt_of_le (h.2 r hr) hn⟩

theorem StoredValid_push (s t : Simulator) (h : StoredValid s)
    (he : t.exit_ray_segments_ = backPush s.exit_ray_segments_ s.pool.next_unused_id)
    (hf : t.final_ray_segments_ = s.final_ray_segments_)
    (hn : s.pool.next_unused_id < t.pool.next_unused_id) : StoredValid t := by
  unfold StoredValid
  rw [he, hf]
  refine ⟨fun l hl r hr => ?_, fun r hr => lt_trans (h.2 r hr) hn⟩
  rcases mem_backPush _ _ l hl r hr with h1 | ⟨l', h2, h3⟩
  · rw [h1]; exact hn
  · exact lt_trans (h.1 l' h2 r h3) hn

theorem StoredValid_Store_slot (ctx : ProjectContext) (crystal : Crystal)
    (filter : AbstractRayPathFilter) (s : Simulator) (i : Nat) (h : StoredValid s) :
    StoredValid (Simulator.StoreRaySegments_slot ctx crystal filter s i) := by
  have hnext := link_next s.buffer_ s.pool i
  unfold Simulator.StoreRaySegments_slot
  dsimp only
  split_ifs
  · exact h
  · exact StoredValid_of_eq _ _ h rfl rfl (by show _ ≤ (Simulator.StoreRaySegments_link _ _ _).next_unused_id; omega)
  · exact StoredValid_push _ _ h rfl rfl (by show _ < (Simulator.StoreRaySegments_link _ _ _).next_unused_id; omega)
  · exact StoredValid_of_eq _ _ h rfl rfl (by show _ ≤ (Simulator.StoreRaySegments_link _ _ _).next_unused_id; omega)

theorem StoredValid_TraceRays_step (ctx : ProjectContext) (env : Env) (crystal : Crystal)
    (filter : AbstractRayPathFilter) (n : ℚ) (s : Simulator) (h : StoredValid s) :
    StoredValid (Simulator.TraceRays_step ctx env crystal filter n s) := by
  have h1 : StoredValid s.growForTrace := by
    unfold Simulator.growForTrace
    split_ifs
    · exact StoredValid_of_eq _ _ h rfl rfl (le_refl _)
    · exact h
  have h2 : StoredValid (traceFanOut env crystal n s.growForTrace) :=
    StoredValid_of_eq _ _ h1 rfl rfl (le_refl _)
  have h3 : StoredValid (Simulator.StoreRaySegments ctx crystal filter
      (traceFanOut env crystal n s.growForTrace)) := by
    unfold Simulator.StoreRaySegments
    exact foldl_inv (fun t : Simulator => StoredValid t) _ _ _ h2
      (fun t i _ ht => StoredValid_Store_slot ctx crystal filter t i ht)
  exact StoredValid_of_eq _ _ h3 rfl rfl (le_refl _)

theorem StoredValid_crystalPass (ctx : ProjectContext) (env : Env) (c : CrystalInfo)
    (s t : Simulator) (h : StoredValid s)
    (ht : Simulator.crystalPass ctx env c s = Except.ok t) : StoredValid t := by
  unfold Simulator.crystalPass at ht
  have hb : StoredValid (Simulator.crystalBegin c s) := by
    unfold Simulator.crystalBegin
    dsimp only
    split_ifs <;> exact StoredValid_of_eq _ _ h rfl rfl (le_refl _)
  have hi : StoredValid (Simulator.InitEntryRays env (ctx.GetCrystalContext c.crystal_id)
      (Simulator.crystalBegin c s)) := by
    unfold Simulator.InitEntryRays
    refine foldl_inv (fun t : Simulator => StoredValid t) _ _ _ hb ?_
    intro t i _ hti
    refine StoredValid_of_eq _ _ hti rfl rfl ?_
    show _ ≤ (t.pool.addRoot _ _).next_unused_id
    rw [(addRoot_fields _ _ _).1]
    omega
  have ha : StoredValid (Simulator.InitEntryRays env (ctx.GetCrystalContext c.crystal_id)
      (Simulator.crystalBegin c s)).advanceOffset := StoredValid_of_eq _ _ hi rfl rfl (le_refl _)
  unfold Simulator.TraceRays at ht
  split at ht
  · cases ht
  · injection ht with ht
    subst ht
    exact foldl_inv (fun t : Simulator => StoredValid t) _ _ _ ha
      (fun t _ _ hti => StoredValid_TraceRays_step ctx env _ _ _ t hti)

theorem StoredValid_crystalLoop (ctx : ProjectContext) (env : Env) (cs : List CrystalInfo) :
    ∀ s t : Simulator, StoredValid s → Simulator.crystalLoop ctx env cs s = Except.ok t →
      StoredValid t := by
  induction cs with
  | nil =>
    intro s t hs h
    simp only [Simulator.crystalLoop] at h
    injection h with h
    subst h
    exact hs
  | cons c cs ih =>
    intro s t hs h
    simp only [Simulator.crystalLoop] at h
    split at h
    · cases h
    · rename_i s5 h5
      exact ih s5 t (StoredValid_crystalPass ctx env c s s5 hs h5) h

theorem StoredValid_Restore (ctx : ProjectContext) (env : Env) (prob : ℚ) (s : Simulator)
    (h : StoredValid s) : StoredValid (Simulator.RestoreResultRays ctx env prob s) := by
  have hsel : StoredValid (Simulator.RestoreResultRays_select ctx env prob s) := by
    unfold Simulator.RestoreResultRays_select
    dsimp only
    have hg : StoredValid s.growForRestore ∧
        s.growForRestore.exit_ray_segments_ = s.exit_ray_segments_ := by
      unfold Simulator.growForRestore
      dsimp only
      split_ifs <;> exact ⟨StoredValid_of_eq _ _ h rfl rfl (le_refl _), rfl⟩
    have := foldl_inv (fun acc : Simulator × Nat => StoredValid acc.1 ∧
        acc.1.exit_ray_segments_ = s.exit_ray_segments_)
      (Simulator.RestoreResultRays_seg ctx env prob) (backOf s.exit_ray_segments_)
      (s.growForRestore, 0) hg
      (fun acc r hr hacc => by
        obtain ⟨l, l1, l2⟩ := mem_backOf _ r hr
        rw [← hacc.2] at l1
        unfold Simulator.RestoreResultRays_seg
        dsimp only
        split_ifs
        · exact hacc
        · exact ⟨⟨hacc.1.1, fun x hx => by
            rcases List.mem_append.mp hx with h1 | h1
            · exact hacc.1.2 x h1
            · rw [List.mem_singleton.mp h1]; exact hacc.1.1 l l1 r l2⟩, hacc.2⟩
        · exact ⟨StoredValid_of_eq _ _ hacc.1 rfl rfl (le_refl _), hacc.2⟩)
    exact StoredValid_of_eq _ _ this.1 rfl rfl (le_refl _)
  unfold Simulator.RestoreResultRays
  dsimp only
  exact foldl_inv (fun t : Simulator => StoredValid t) _ _ _ hsel
    (fun t i _ hti => StoredValid_of_eq _ _ hti rfl rfl (le_refl _))

theorem StoredValid_scatterLoop (ctx : ProjectContext) (env : Env)
    (its : List MultiScatterContext) :
    ∀ s t : Simulator, StoredValid s → Simulator.scatterLoop ctx env its s = Except.ok t →
      StoredValid t := by
  induction its with
  | nil =>
    intro s t hs h
    simp only [Simulator.scatterLoop] at h
    injection h with h
    subst h
    exact hs
  | cons it rest ih =>
    intro s t hs h
    simp only [Simulator.scatterLoop] at h
    split at h
    · cases h
    · rename_i s2 h2
      have hb : StoredValid s.scatterBegin := by
        refine ⟨fun l hl r hr => ?_, hs.2⟩
        have hl' : l ∈ s.exit_ray_segments_ ++ [[]] := hl
        rcases List.mem_append.mp hl' with h1 | h1
        · exact hs.1 l h1 r hr
        · rw [List.mem_singleton.mp h1] at hr
          cases hr
      have h2v := StoredValid_crystalLoop ctx env _ _ _ hb h2
      refine ih _ t ?_ h
      unfold Simulator.scatterEnd
      dsimp only
      split_ifs
      · exact StoredValid_of_eq _ _ (StoredValid_Restore ctx env _ s2 h2v) rfl rfl (le_refl _)
      · exact StoredValid_of_eq _ _ h2v rfl rfl (le_refl _)

theorem StoredValid_Start (ctx : ProjectContext) (env : Env) (s t : Simulator)
    (ht : Simulator.Start ctx env s = Except.ok t) : StoredValid t := by
  obtain ⟨s1, last, h1, h2, rfl⟩ := (Start_ok_iff ctx env s t).mp ht
  have hv : StoredValid s1 := by
    refine StoredValid_scatterLoop ctx env _ _ s1 ?_ h1
    refine ⟨fun l hl => ?_, fun r hr => ?_⟩
    · have : l ∈ ([] : List (List Nat)) := hl
      cases this
    · have : r ∈ ([] : List Nat) := hr
      cases this
  refine ⟨hv.1, fun r hr => ?_⟩
  have hr' : r ∈ s1.final_ray_segments_ ++ last := hr
  rcases List.mem_append.mp hr' with h3 | h3
  · exact hv.2 r h3
  · exact hv.1 last (List.mem_of_mem_getLast? h2) r h3

theorem CapGrows_of_eq (s t : Simulator) (h1 : t.buffer_.ray_num = s.buffer_.ray_num)
    (h2 : t.buffer_size_ = s.buffer_size_) : CapGrows s t := by
  intro h
  unfold Synced at h ⊢
  exact ⟨by rw [h1, h2]; exact h, by rw [h1]⟩

theorem CapGrows_trans {s t u : Simulator} (h1 : CapGrows s t) (h2 : CapGrows t u) :
    CapGrows s u := by
  intro h
  have a := h1 h
  have b := h2 a.1
  exact ⟨b.1, le_trans a.2 b.2⟩

theorem CapGrows_foldl {ι : Type} (f : Simulator → ι → Simulator) (l : List ι) (s : Simulator)
    (hf : ∀ t i, CapGrows t (f t i)) : CapGrows s (l.foldl f s) :=
  foldl_inv (fun t : Simulator => CapGrows s t) f l s (fun h => ⟨h, le_refl _⟩)
    (fun t i _ ht => CapGrows_trans ht (hf t i))

theorem GrowthSite_cap (s t : Simulator) (n : Nat) (h : GrowthSite s t n) : CapGrows s t := by
  intro hs
  unfold Synced at hs ⊢
  rcases h with ⟨h1, h2⟩ | ⟨h1, h2, h3⟩
  · rw [h1, h2]; exact ⟨hs, le_refl _⟩
  · rw [h2, h3]
    exact ⟨rfl, le_of_lt h1⟩

theorem crystalBegin_site (c : CrystalInfo) (s : Simulator) (hs : Synced s) :
    GrowthSite s (Simulator.crystalBegin c s) (s.total_ray_num_ * kBufferSizeFactor) := by
  unfold Synced at hs
  unfold Simulator.crystalBegin
  dsimp only
  split_ifs with h
  · exact Or.inr ⟨by rw [hs]; exact h, rfl, rfl⟩
  · exact Or.inl ⟨rfl, rfl⟩

theorem growForTrace_site (s : Simulator) (hs : Synced s) :
    GrowthSite s s.growForTrace (s.active_ray_num_ * kBufferSizeFactor) := by
  unfold Synced at hs
  unfold Simulator.growForTrace
  split_ifs with h
  · refine Or.inr ⟨?_, rfl, rfl⟩
    rw [hs]
    unfold kBufferSizeFactor
    omega
  · exact Or.inl ⟨rfl, rfl⟩

theorem growForRestore_site (s : Simulator) (hs : Synced s) :
    GrowthSite s s.growForRestore ((backOf s.exit_ray_segments_).length * 2) := by
  unfold Synced at hs
  unfold Simulator.growForRestore
  dsimp only
  split_ifs with h h2
  · exact Or.inr ⟨by rw [hs]; exact h, rfl, rfl⟩
  · exact Or.inr ⟨by rw [hs]; exact h, rfl, rfl⟩
  · exact Or.inl ⟨rfl, rfl⟩
  · exact Or.inl ⟨rfl, rfl⟩

theorem Allocate_keeps_head (b : SimulationBufferData) (n : Nat) :
    (b.Allocate n).ray_num = n ∧
    ∀ r k, k < min b.ray_num n →
      (b.Allocate n).pt r k = b.pt r k ∧ (b.Allocate n).dir r k = b.dir r k ∧
      (b.Allocate n).w r k = b.w r k ∧ (b.Allocate n).face_id r k = b.face_id r k ∧
      (b.Allocate n).ray_seg r k = b.ray_seg r k := by
  refine ⟨rfl, fun r k hk => ?_⟩
  simp only [SimulationBufferData.Allocate, copyPrefix, if_pos hk, and_self]

theorem TraceRays_step_cap (ctx : ProjectContext) (env : Env) (crystal : Crystal)
    (filter : AbstractRayPathFilter) (n : ℚ) (s : Simulator) :
    CapGrows s (Simulator.TraceRays_step ctx env crystal filter n s) := by
  have h1 : CapGrows s s.growForTrace := fun hs =>
    GrowthSite_cap _ _ _ (growForTrace_site s hs) hs
  have h2 : ∀ t : Simulator, CapGrows t (traceFanOut env crystal n t) := by
    intro t
    refine CapGrows_of_eq _ _ ?_ rfl
    exact foldl_inv (fun b : SimulationBufferData => b.ray_num = t.buffer_.ray_num) _ _ _ rfl
      (fun b j _ hb => hb)
  have h3 : ∀ t : Simulator, CapGrows t (Simulator.StoreRaySegments ctx crystal filter t) := by
    intro t
    unfold Simulator.StoreRaySegments
    refine CapGrows_foldl _ _ _ ?_
    intro u i
    unfold Simulator.StoreRaySegments_slot
    dsimp only
    split_ifs <;> exact CapGrows_of_eq _ _ rfl rfl
  have h4 : ∀ t : Simulator, CapGrows t (Simulator.RefreshBuffer ctx t) := by
    intro t
    refine CapGrows_of_eq _ _ ?_ rfl
    exact foldl_inv (fun acc : SimulationBufferData × Nat => acc.1.ray_num = t.buffer_.ray_num)
      (Simulator.RefreshBuffer_slot ctx) _ (t.buffer_, 0) rfl
      (fun acc i _ hacc => by
        unfold Simulator.RefreshBuffer_slot
        split_ifs
        · exact hacc
        · exact hacc)
  unfold Simulator.TraceRays_step
  exact CapGrows_trans (CapGrows_trans (CapGrows_trans h1 (h2 _)) (h3 _)) (h4 _)

theorem crystalPass_cap (ctx : ProjectContext) (env : Env) (c : CrystalInfo)
    (s t : Simulator) (ht : Simulator.crystalPass ctx env c s = Except.ok t) : CapGrows s t := by
  unfold Simulator.crystalPass at ht
  have hb : CapGrows s (Simulator.crystalBegin c s) := fun hs =>
    GrowthSite_cap _ _ _ (crystalBegin_site c s hs) hs
  have hi : ∀ u : Simulator,
      CapGrows u (Simulator.InitEntryRays env (ctx.GetCrystalContext c.crystal_id) u) := by
    intro u
    unfold Simulator.InitEntryRays
    exact CapGrows_foldl _ _ _ (fun v i => CapGrows_of_eq _ _ rfl rfl)
  have ha : ∀ u : Simulator, CapGrows u u.advanceOffset := fun u => CapGrows_of_eq _ _ rfl rfl
  unfold Simulator.TraceRays at ht
  split at ht
  · cases ht
  · injection ht with ht
    subst ht
    exact CapGrows_trans (CapGrows_trans (CapGrows_trans hb (hi _)) (ha _))
      (CapGrows_foldl _ _ _ (fun v _ => TraceRays_step_cap ctx env _ _ _ v))

theorem crystalLoop_cap (ctx : ProjectContext) (env : Env) (cs : List CrystalInfo) :
    ∀ s t : Simulator, Simulator.crystalLoop ctx env cs s = Except.ok t → CapGrows s t := by
  induction cs with
  | nil =>
    intro s t h
    simp only [Simulator.crystalLoop] at h
    injection h with h
    subst h
    exact fun hs => ⟨hs, le_refl _⟩
  | cons c cs ih =>
    intro s t h
    simp only [Simulator.crystalLoop] at h
    split at h
    · cases h
    · rename_i s5 h5
      exact CapGrows_trans (crystalPass_cap ctx env c s s5 h5) (ih s5 t h)

theorem Restore_cap (ctx : ProjectContext) (env : Env) (prob : ℚ) (s : Simulator) :
    CapGrows s (Simulator.RestoreResultRays ctx env prob s) := by
  have hg : CapGrows s s.growForRestore := fun hs =>
    GrowthSite_cap _ _ _ (growForRestore_site s hs) hs
  have hsel : CapGrows s (Simulator.RestoreResultRays_select ctx env prob s) := by
    unfold Simulator.RestoreResultRays_select
    dsimp only
    have := foldl_inv (fun acc : Simulator × Nat => CapGrows s acc.1)
      (Simulator.RestoreResultRays_seg ctx env prob) (backOf s.exit_ray_segments_)
      (s.growForRestore, 0) hg
      (fun acc r _ hacc => by
        unfold Simulator.RestoreResultRays_seg
        dsimp only
        split_ifs
        · exact hacc
        · exact CapGrows_trans hacc (CapGrows_of_eq _ _ rfl rfl)
        · exact CapGrows_trans hacc (CapGrows_of_eq _ _ rfl rfl))
    exact CapGrows_trans this (CapGrows_of_eq _ _ rfl rfl)
  unfold Simulator.RestoreResultRays
  dsimp only
  exact CapGrows_trans hsel (CapGrows_foldl _ _ _ (fun v i => CapGrows_of_eq _ _ rfl rfl))

theorem scatterLoop_cap (ctx : ProjectContext) (env : Env) (its : List MultiScatterContext) :
    ∀ s t : Simulator, Simulator.scatterLoop ctx env its s = Except.ok t → CapGrows s t := by
  induction its with
  | nil =>
    intro s t h
    simp only [Simulator.scatterLoop] at h
    injection h with h
    subst h
    exact fun hs => ⟨hs, le_refl _⟩
  | cons it rest ih =>
    intro s t h
    simp only [Simulator.scatterLoop] at h
    split at h
    · cases h
    · rename_i s2 h2
      have hb : CapGrows s s.scatterBegin := CapGrows_of_eq _ _ rfl rfl
      have h2c := crystalLoop_cap ctx env _ _ _ h2
      have he : CapGrows s2 (Simulator.scatterEnd ctx env it rest.isEmpty s2) := by
        unfold Simulator.scatterEnd
        dsimp only
        split_ifs
        · exact CapGrows_trans (Restore_cap ctx env _ s2) (CapGrows_of_eq _ _ rfl rfl)
        · exact CapGrows_of_eq _ _ rfl rfl
      exact CapGrows_trans (CapGrows_trans (CapGrows_trans hb h2c) he) (ih _ t h)

theorem Start_cap (ctx : ProjectContext) (env : Env) (s t : Simulator)
    (ht : Simulator.Start ctx env s = Except.ok t) : CapGrows s t := by
  obtain ⟨s1, last, h1, -, rfl⟩ := (Start_ok_iff ctx env s t).mp ht
  have h0 : CapGrows s (Simulator.InitSunRays ctx env (Simulator.reset ctx s)) :=
    CapGrows_of_eq _ _ rfl rfl
  exact CapGrows_trans (CapGrows_trans h0 (scatterLoop_cap ctx env _ _ s1 h1))
    (CapGrows_of_eq _ _ rfl rfl)

/-- Claim C13: `Allocate(n)` sets the capacity to `n` and keeps the first
`min(old capacity, n)` entries of `pt`, `dir`, `w`, `face_id` and `ray_seg` of
both buffers; the constructor leaves `buffer_size_` equal to the capacity, and
from such a state each of the three guarded growth sites (the crystal loop of
`Start`, the hit loop of `TraceRays`, the head of `RestoreResultRays`) either
makes no `Allocate` call or makes one with a capacity strictly above the old
one; hence over a whole `Start` the capacity never shrinks. -/
theorem C13_allocate_grows_and_keeps_prefix :
    (∀ (b : SimulationBufferData) (n : Nat), (b.Allocate n).ray_num = n ∧
      ∀ r k, k < min b.ray_num n →
        (b.Allocate n).pt r k = b.pt r k ∧ (b.Allocate n).dir r k = b.dir r k ∧
        (b.Allocate n).w r k = b.w r k ∧ (b.Allocate n).face_id r k = b.face_id r k ∧
        (b.Allocate n).ray_seg r k = b.ray_seg r k) ∧
    Synced Simulator.new ∧ kBufferSizeFactor = 4 ∧
    (∀ (c : CrystalInfo) (s : Simulator), Synced s →
      GrowthSite s (Simulator.crystalBegin c s) (s.total_ray_num_ * kBufferSizeFactor)) ∧
    (∀ s : Simulator, Synced s →
      GrowthSite s s.growForTrace (s.active_ray_num_ * kBufferSizeFactor)) ∧
    (∀ s : Simulator, Synced s →
      GrowthSite s s.growForRestore ((backOf s.exit_ray_segments_).length * 2)) ∧
    (∀ (ctx : ProjectContext) (env : Env) (s t : Simulator), Synced s →
      Simulator.Start ctx env s = Except.ok t →
      Synced t ∧ s.buffer_.ray_num ≤ t.buffer_.ray_num) :=
  ⟨Allocate_keeps_head, rfl, rfl, crystalBegin_site, growForTrace_site, growForRestore_site,
    fun ctx env s t hs ht => Start_cap ctx env s t ht hs⟩

theorem restoreSplit_perm (env : Env) (prob : ℚ) (l : List Nat) :
    ∀ k, ((restoreSplit env prob k l).1 ++ (restoreSplit env prob k l).2).Perm l := by
  induction l with
  | nil => intro k; exact List.Perm.refl _
  | cons r rs ih =>
    intro k
    simp only [restoreSplit]
    split_ifs
    · exact (ih (k + 1)).cons r
    · exact List.perm_middle.trans ((ih (k + 1)).cons r)

theorem Restore_seg_fold (ctx : ProjectContext) (env : Env) (prob : ℚ) (l : List Nat) :
    ∀ (s : Simulator) (idx : Nat),
      ((l.foldl (Simulator.RestoreResultRays_seg ctx env prob) (s, idx)).1.final_ray_segments_ =
        s.final_ray_segments_ ++
          (restoreSplit env prob s.rng (l.filter (restoreEligible ctx s.pool))).1) ∧
      (l.foldl (Simulator.RestoreResultRays_seg ctx env prob) (s, idx)).2 =
        idx + (restoreSplit env prob s.rng (l.filter (restoreEligible ctx s.pool))).2.length ∧
      (l.foldl (Simulator.RestoreResultRays_seg ctx env prob) (s, idx)).1.pool = s.pool ∧
      (l.foldl (Simulator.RestoreResultRays_seg ctx env prob) (s, idx)).1.rng =
        s.rng + (l.filter (restoreEligible ctx s.pool)).length ∧
      (∀ a, a < idx →
        (l.foldl (Simulator.RestoreResultRays_seg ctx env prob) (s, idx)).1.enter_ray_data_.ray_dir a
          = s.enter_ray_data_.ray_dir a ∧
        (l.foldl (Simulator.RestoreResultRays_seg ctx env prob) (s, idx)).1.enter_ray_data_.ray_seg a
          = s.enter_ray_data_.ray_seg a) ∧
      (∀ a, a < (restoreSplit env prob s.rng (l.filter (restoreEligible ctx s.pool))).2.length →
        ((l.foldl (Simulator.RestoreResultRays_seg ctx env prob)
            (s, idx)).1.enter_ray_data_.ray_dir (idx + a),
         (l.foldl (Simulator.RestoreResultRays_seg ctx env prob)
            (s, idx)).1.enter_ray_data_.ray_seg (idx + a)) =
          enqueuedPair env s.pool
            ((restoreSplit env prob s.rng (l.filter (restoreEligible ctx s.pool))).2.getD a 0)) := by
  induction l with
  | nil =>
    intro s idx
    simp [restoreSplit]
  | cons r l ih =>
    intro s idx
    simp only [List.foldl_cons]
    by_cases he : (s.pool.segments r).is_finished = false ∨ (s.pool.segments r).w < ctx.kScatMinW
    · have hstep : Simulator.RestoreResultRays_seg ctx env prob (s, idx) r = (s, idx) := by
        unfold Simulator.RestoreResultRays_seg
        dsimp only
        rw [if_pos he]
      have hne : restoreEligible ctx s.pool r = false := by
        unfold restoreEligible
        rcases he with he | he
        · simp [he]
        · simp [he]
      rw [hstep, List.filter_cons, hne]
      exact ih s idx
    · have hel : restoreEligible ctx s.pool r = true := by
        unfold restoreEligible
        push_neg at he
        simp [he.1, he.2]
      rw [List.filter_cons, hel]
      simp only [if_true]
      by_cases hd : env.GetUniform s.rng > prob
      · have hstep : Simulator.RestoreResultRays_seg ctx env prob (s, idx) r =
            ({ s with final_ray_segments_ := s.final_ray_segments_ ++ [r], rng := s.rng + 1 },
              idx) := by
          unfold Simulator.RestoreResultRays_seg
          dsimp only
          rw [if_neg he, if_pos hd]
        rw [hstep]
        have ih1 := ih
          ({ s with final_ray_segments_ := s.final_ray_segments_ ++ [r], rng := s.rng + 1 }) idx
        dsimp only at ih1
        obtain ⟨h1, h2, h3, h4, h5, h6⟩ := ih1
        simp only [restoreSplit, if_pos hd]
        refine ⟨?_, h2, h3, ?_, h5, h6⟩
        · rw [h1]
          simp
        · rw [h4]
          simp only [List.length_cons]
          omega
      · have hstep : Simulator.RestoreResultRays_seg ctx env prob (s, idx) r =
            ({ s with
               enter_ray_data_ :=
                 { s.enter_ray_data_ with
                   ray_dir := Function.update s.enter_ray_data_.ray_dir idx
                     (env.RotateZBack (s.pool.segments r).axis_rot (s.pool.segments r).dir)
                   ray_seg := Function.update s.enter_ray_data_.ray_seg idx (some r) }
               rng := s.rng + 1 }, idx + 1) := by
          unfold Simulator.RestoreResultRays_seg
          dsimp only
          rw [if_neg he, if_neg hd]
        rw [hstep]
        have ih1 := ih
          ({ s with
               enter_ray_data_ :=
                 { s.enter_ray_data_ with
                   ray_dir := Function.update s.enter_ray_data_.ray_dir idx
                     (env.RotateZBack (s.pool.segments r).axis_rot (s.pool.segments r).dir)
                   ray_seg := Function.update s.enter_ray_data_.ray_seg idx (some r) }
               rng := s.rng + 1 }) (idx + 1)
        dsimp only at ih1
        obtain ⟨h1, h2, h3, h4, h5, h6⟩ := ih1
        simp only [restoreSplit, if_neg hd]
        refine ⟨h1, ?_, h3, ?_, ?_, ?_⟩
        · rw [h2]
          simp only [List.length_cons]
          omega
        · rw [h4]
          simp only [List.length_cons]
          omega
        · intro a ha
          obtain ⟨e1, e2⟩ := h5 a (by omega)
          rw [e1, e2]
          exact ⟨Function.update_noteq (by omega) _ _, Function.update_noteq (by omega) _ _⟩
        · intro a ha
          cases a with
          | zero =>
            obtain ⟨e1, e2⟩ := h5 idx (by omega)
            exact Prod.ext (e1.trans (Function.update_same _ _ _))
              (e2.trans (Function.update_same _ _ _))
          | succ a =>
            simp only [List.length_cons] at ha
            have := h6 a (by omega)
            rw [show idx + (a + 1) = idx + 1 + a by omega]
            rw [this]
            simp only [List.getD_cons_succ]

theorem swap_update_eq {α : Type} (f : Nat → α) (i j : Nat) :
    Function.update (Function.update f j (f i)) i (f j) = f ∘ (Equiv.swap i j) := by
  funext k
  simp only [Function.comp, Function.update_apply, Equiv.swap_apply_def]
  split_ifs <;> simp_all

theorem map_swap_range_perm (n i j : Nat) (hi : i < n) (hj : j < n) :
    ((List.range n).map (Equiv.swap i j)).Perm (List.range n) := by
  rw [List.perm_ext_iff_of_nodup ((List.nodup_range n).map (Equiv.injective _))
    (List.nodup_range n)]
  intro a
  simp only [List.mem_map, List.mem_range]
  constructor
  · rintro ⟨k, hk, rfl⟩
    rw [Equiv.swap_apply_def]
    split_ifs <;> omega
  · intro ha
    refine ⟨Equiv.swap i j a, ?_, Equiv.swap_apply_self i j a⟩
    rw [Equiv.swap_apply_def]
    split_ifs <;> omega

theorem swap_range_map_perm {α : Type} (f : Nat → α) (n i j : Nat) (hi : i < n) (hj : j < n) :
    ((List.range n).map (Function.update (Function.update f j (f i)) i (f j))).Perm
      ((List.range n).map f) := by
  rw [swap_update_eq, ← List.map_map]
  exact (map_swap_range_perm n i j hi hj).map f

theorem shuffle_index_lt (env : Env) (hS : SampleIntInRange env) (s : Simulator) (i : Nat)
    (hi : i < s.total_ray_num_) :
    0 ≤ (i : Int) + env.SampleInt s.rng ((s.total_ray_num_ - i : Nat) : Int) ∧
    ((i : Int) + env.SampleInt s.rng ((s.total_ray_num_ - i : Nat) : Int)).toNat <
      s.total_ray_num_ := by
  have hr := hS s.rng ((s.total_ray_num_ - i : Nat) : Int) (by omega)
  omega

theorem shuffle_step (env : Env) (hS : SampleIntInRange env) (s : Simulator) (i : Nat)
    (hi : i < s.total_ray_num_) :
    (enterPairs (Simulator.RestoreResultRays_shuffle env s i).enter_ray_data_
        s.total_ray_num_).Perm (enterPairs s.enter_ray_data_ s.total_ray_num_) ∧
    (∀ k, s.total_ray_num_ ≤ k →
      (Simulator.RestoreResultRays_shuffle env s i).enter_ray_data_.ray_dir k =
        s.enter_ray_data_.ray_dir k ∧
      (Simulator.RestoreResultRays_shuffle env s i).enter_ray_data_.ray_seg k =
        s.enter_ray_data_.ray_seg k) := by
  obtain ⟨-, hj⟩ := shuffle_index_lt env hS s i hi
  constructor
  · have hfun : (fun k => ((Simulator.RestoreResultRays_shuffle env s i).enter_ray_data_.ray_dir k,
        (Simulator.RestoreResultRays_shuffle env s i).enter_ray_data_.ray_seg k)) =
        Function.update (Function.update
          (fun k => (s.enter_ray_data_.ray_dir k, s.enter_ray_data_.ray_seg k))
          ((i : Int) + env.SampleInt s.rng ((s.total_ray_num_ - i : Nat) : Int)).toNat
          (s.enter_ray_data_.ray_dir i, s.enter_ray_data_.ray_seg i)) i
          (s.enter_ray_data_.ray_dir
              ((i : Int) + env.SampleInt s.rng ((s.total_ray_num_ - i : Nat) : Int)).toNat,
            s.enter_ray_data_.ray_seg
              ((i : Int) + env.SampleInt s.rng ((s.total_ray_num_ - i : Nat) : Int)).toNat) := by
      funext k
      simp only [Simulator.RestoreResultRays_shuffle, Function.update_apply]
      split_ifs <;> rfl
    unfold enterPairs
    rw [hfun]
    exact swap_range_map_perm
      (fun k => (s.enter_ray_data_.ray_dir k, s.enter_ray_data_.ray_seg k)) _ i _ hi hj
  · intro k hk
    simp only [Simulator.RestoreResultRays_shuffle, Function.update_apply]
    rw [if_neg (by omega), if_neg (by omega), if_neg (by omega), if_neg (by omega)]
    exact ⟨rfl, rfl⟩

theorem shuffle_all (ctx : ProjectContext) (env : Env) (hS : SampleIntInRange env) (prob : ℚ)
    (s : Simulator) :
    (Simulator.RestoreResultRays ctx env prob s).total_ray_num_ =
      (Simulator.RestoreResultRays_select ctx env prob s).total_ray_num_ ∧
    (enterPairs (Simulator.RestoreResultRays ctx env prob s).enter_ray_data_
        (Simulator.RestoreResultRays ctx env prob s).total_ray_num_).Perm
      (enterPairs (Simulator.RestoreResultRays_select ctx env prob s).enter_ray_data_
        (Simulator.RestoreResultRays_select ctx env prob s).total_ray_num_) ∧
    (∀ k, (Simulator.RestoreResultRays_select ctx env prob s).total_ray_num_ ≤ k →
      (Simulator.RestoreResultRays ctx env prob s).enter_ray_data_.ray_dir k =
        (Simulator.RestoreResultRays_select ctx env prob s).enter_ray_data_.ray_dir k ∧
      (Simulator.RestoreResultRays ctx env prob s).enter_ray_data_.ray_seg k =
        (Simulator.RestoreResultRays_select ctx env prob s).enter_ray_data_.ray_seg k) := by
  unfold Simulator.RestoreResultRays
  dsimp only
  have := foldl_range_inv (fun (_ : Nat) (t : Simulator) =>
      t.total_ray_num_ = (Simulator.RestoreResultRays_select ctx env prob s).total_ray_num_ ∧
      (enterPairs t.enter_ray_data_ t.total_ray_num_).Perm
        (enterPairs (Simulator.RestoreResultRays_select ctx env prob s).enter_ray_data_
          (Simulator.RestoreResultRays_select ctx env prob s).total_ray_num_) ∧
      (∀ k, (Simulator.RestoreResultRays_select ctx env prob s).total_ray_num_ ≤ k →
        t.enter_ray_data_.ray_dir k =
          (Simulator.RestoreResultRays_select ctx env prob s).enter_ray_data_.ray_dir k ∧
        t.enter_ray_data_.ray_seg k =
          (Simulator.RestoreResultRays_select ctx env prob s).enter_ray_data_.ray_seg k))
    (Simulator.RestoreResultRays_shuffle env)
    (Simulator.RestoreResultRays_select ctx env prob s).total_ray_num_
    (Simulator.RestoreResultRays_select ctx env prob s)
    ⟨rfl, List.Perm.refl _, fun _ _ => ⟨rfl, rfl⟩⟩
    (fun i t hi ht => by
      obtain ⟨t1, t2, t3⟩ := ht
      obtain ⟨p1, p2⟩ := shuffle_step env hS t i (by rw [t1]; exact hi)
      have htot : (Simulator.RestoreResultRays_shuffle env t i).total_ray_num_ =
          t.total_ray_num_ := rfl
      refine ⟨htot.trans t1, ?_, ?_⟩
      · rw [htot]
        exact p1.trans t2
      · intro k hk
        obtain ⟨q1, q2⟩ := p2 k (by rw [t1]; exact hk)
        obtain ⟨r1, r2⟩ := t3 k hk
        exact ⟨q1.trans r1, q2.trans r2⟩)
  exact this

theorem growForRestore_fields (s : Simulator) :
    s.growForRestore.pool = s.pool ∧ s.growForRestore.rng = s.rng ∧
    s.growForRestore.final_ray_segments_ = s.final_ray_segments_ := by
  unfold Simulator.growForRestore
  dsimp only
  split_ifs <;> exact ⟨rfl, rfl, rfl⟩

theorem select_spec (ctx : ProjectContext) (env : Env) (prob : ℚ) (s : Simulator) :
    (Simulator.RestoreResultRays_select ctx env prob s).final_ray_segments_ =
      s.final_ray_segments_ ++ s.restoreFinal ctx env prob ∧
    (Simulator.RestoreResultRays_select ctx env prob s).total_ray_num_ =
      (s.restoreEnqueued ctx env prob).length ∧
    enterPairs (Simulator.RestoreResultRays_select ctx env prob s).enter_ray_data_
        (Simulator.RestoreResultRays_select ctx env prob s).total_ray_num_ =
      (s.restoreEnqueued ctx env prob).map (enqueuedPair env s.pool) := by
  obtain ⟨g1, g2, g3⟩ := growForRestore_fields s
  obtain ⟨h1, h2, -, -, -, h6⟩ := Restore_seg_fold ctx env prob (backOf s.exit_ray_segments_)
    s.growForRestore 0
  rw [g1, g2, g3] at h1
  rw [g1, g2] at h2 h6
  rw [Nat.zero_add] at h2
  have htot : (Simulator.RestoreResultRays_select ctx env prob s).total_ray_num_ =
      (s.restoreEnqueued ctx env prob).length := h2
  refine ⟨h1, htot, ?_⟩
  rw [htot]
  apply List.ext_getElem
  · simp [enterPairs]
  · intro a ha hb
    simp only [enterPairs, List.length_map, List.length_range] at ha
    have := h6 a ha
    rw [Nat.zero_add] at this
    simp only [enterPairs, List.getElem_map, List.getElem_range]
    have hg : (s.restoreEnqueued ctx env prob).getD a 0 = (s.restoreEnqueued ctx env prob)[a] :=
      List.getD_eq_getElem _ _ ha
    exact this.trans (congrArg (enqueuedPair env s.pool) hg)

theorem Restore_final (ctx : ProjectContext) (env : Env) (prob : ℚ) (s : Simulator) :
    (Simulator.RestoreResultRays ctx env prob s).final_ray_segments_ =
      (Simulator.RestoreResultRays_select ctx env prob s).final_ray_segments_ ∧
    (Simulator.RestoreResultRays ctx env prob s).total_ray_num_ =
      (Simulator.RestoreResultRays_select ctx env prob s).total_ray_num_ := by
  unfold Simulator.RestoreResultRays
  dsimp only
  exact foldl_inv (fun t : Simulator =>
      t.final_ray_segments_ =
        (Simulator.RestoreResultRays_select ctx env prob s).final_ray_segments_ ∧
      t.total_ray_num_ = (Simulator.RestoreResultRays_select ctx env prob s).total_ray_num_)
    _ _ _ ⟨rfl, rfl⟩ (fun t i _ ht => ht)

set_option maxRecDepth 100000 in
/-- Counterexample for C14 as stated: with `kScatMinW = 1999/2000`, exit segment 1
of the first pass of the example run is finished and has weight exactly
`kScatMinW`, so its weight does not exceed the threshold; `RestoreResultRays(0)`
still moves it to `final_ray_segments_`, and `RestoreResultRays(1)` still
enqueues it as the only enter ray. -/
theorem C14_boundary_weight_is_restored :
    backOf (samplePassOne sampleBoundaryCtx).exit_ray_segments_ = [1, 2] ∧
    ((samplePassOne sampleBoundaryCtx).pool.segments 1).is_finished = true ∧
    ((samplePassOne sampleBoundaryCtx).pool.segments 1).w = sampleBoundaryCtx.kScatMinW ∧
    ¬ ((samplePassOne sampleBoundaryCtx).pool.segments 1).w > sampleBoundaryCtx.kScatMinW ∧
    (Simulator.RestoreResultRays sampleBoundaryCtx sampleEnv 0
      (samplePassOne sampleBoundaryCtx)).final_ray_segments_ = [1] ∧
    (Simulator.RestoreResultRays sampleBoundaryCtx sampleEnv 1
      (samplePassOne sampleBoundaryCtx)).total_ray_num_ = 1 ∧
    (Simulator.RestoreResultRays sampleBoundaryCtx sampleEnv 1
      (samplePassOne sampleBoundaryCtx)).enter_ray_data_.ray_seg 0 = some 1 := by
  refine ⟨by decide!, by decide!, by decide!, by decide!, by decide!, by decide!, by decide!⟩

/-- Claim C14, amended: `RestoreResultRays(prob)` keeps an exit segment of the
pass just finished iff it is finished and its weight is not below `kScatMinW`;
the kept segments, in exit order, are split by their uniform draws: those whose
draw exceeds `prob` are appended to `final_ray_segments_`, the others are
enqueued, and each kept segment is in exactly one of the two lists (together
they are a permutation of the kept list, so no skipped segment is in either);
`total_ray_num_` is the number enqueued; the selection loop leaves the enqueued
segments in the first `total_ray_num_` enter-ray entries, in order, each paired
with `RotateZBack` of its direction by the main axis of its root; and when
`SampleInt(n)` returns values in `[0, n)` the shuffle leaves those entries a
permutation of the same pairs. -/
theorem C14_restore_splits_kept_segments (ctx : ProjectContext) (env : Env) (prob : ℚ)
    (s : Simulator) :
    (∀ r, r ∈ s.restoreKept ctx ↔ r ∈ backOf s.exit_ray_segments_ ∧
      (s.pool.segments r).is_finished = true ∧ ctx.kScatMinW ≤ (s.pool.segments r).w) ∧
    (Simulator.RestoreResultRays ctx env prob s).final_ray_segments_ =
      s.final_ray_segments_ ++ s.restoreFinal ctx env prob ∧
    (Simulator.RestoreResultRays ctx env prob s).total_ray_num_ =
      (s.restoreEnqueued ctx env prob).length ∧
    (s.restoreFinal ctx env prob ++ s.restoreEnqueued ctx env prob).Perm (s.restoreKept ctx) ∧
    enterPairs (Simulator.RestoreResultRays_select ctx env prob s).enter_ray_data_
        (Simulator.RestoreResultRays_select ctx env prob s).total_ray_num_ =
      (s.restoreEnqueued ctx env prob).map (enqueuedPair env s.pool) ∧
    (SampleIntInRange env →
      (enterPairs (Simulator.RestoreResultRays ctx env prob s).enter_ray_data_
          (Simulator.RestoreResultRays ctx env prob s).total_ray_num_).Perm
        ((s.restoreEnqueued ctx env prob).map (enqueuedPair env s.pool))) := by
  obtain ⟨s1, s2, s3⟩ := select_spec ctx env prob s
  obtain ⟨f1, f2⟩ := Restore_final ctx env prob s
  refine ⟨?_, by rw [f1, s1], by rw [f2, s2], restoreSplit_perm env prob _ _, s3, ?_⟩
  · intro r
    unfold Simulator.restoreKept restoreEligible
    simp only [List.mem_filter, Bool.and_eq_true, decide_eq_true_eq, not_lt]
  · intro hS
    rw [← s3]
    exact (shuffle_all ctx env hS prob s).2.1

/-- Claim C15: for `SampleInt` results with `0 <= SampleInt(n) < n`, every step
`i < total_ray_num_` of the shuffle loop of `RestoreResultRays` swaps entry `i`
with an entry whose index `i + tmp_idx` is non-negative and below
`total_ray_num_`, it leaves the first `total_ray_num_` (direction, handle) pairs
a permutation of what they were and the entries from `total_ray_num_` on
untouched; so after the whole loop the first `total_ray_num_` pairs are a
permutation of the pairs the selection loop enqueued, each direction still
paired with its segment handle, and `total_ray_num_` is unchanged. -/
theorem C15_shuffle_permutes_enqueued_pairs (env : Env) (hS : SampleIntInRange env) :
    (∀ (s : Simulator) (i : Nat), i < s.total_ray_num_ →
      (0 ≤ (i : Int) + env.SampleInt s.rng ((s.total_ray_num_ - i : Nat) : Int) ∧
        ((i : Int) + env.SampleInt s.rng ((s.total_ray_num_ - i : Nat) : Int)).toNat <
          s.total_ray_num_) ∧
      (enterPairs (Simulator.RestoreResultRays_shuffle env s i).enter_ray_data_
          s.total_ray_num_).Perm (enterPairs s.enter_ray_data_ s.total_ray_num_) ∧
      (∀ k, s.total_ray_num_ ≤ k →
        (Simulator.RestoreResultRays_shuffle env s i).enter_ray_data_.ray_dir k =
          s.enter_ray_data_.ray_dir k ∧
        (Simulator.RestoreResultRays_shuffle env s i).enter_ray_data_.ray_seg k =
          s.enter_ray_data_.ray_seg k)) ∧
    (∀ (ctx : ProjectContext) (prob : ℚ) (s : Simulator),
      (Simulator.RestoreResultRays ctx env prob s).total_ray_num_ =
        (Simulator.RestoreResultRays_select ctx env prob s).total_ray_num_ ∧
      (enterPairs (Simulator.RestoreResultRays ctx env prob s).enter_ray_data_
          (Simulator.RestoreResultRays ctx env prob s).total_ray_num_).Perm
        (enterPairs (Simulator.RestoreResultRays_select ctx env prob s).enter_ray_data_
          (Simulator.RestoreResultRays_select ctx env prob s).total_ray_num_) ∧
      (∀ k, (Simulator.RestoreResultRays_select ctx env prob s).total_ray_num_ ≤ k →
        (Simulator.RestoreResultRays ctx env prob s).enter_ray_data_.ray_dir k =
          (Simulator.RestoreResultRays_select ctx env prob s).enter_ray_data_.ray_dir k ∧
        (Simulator.RestoreResultRays ctx env prob s).enter_ray_data_.ray_seg k =
          (Simulator.RestoreResultRays_select ctx env prob s).enter_ray_data_.ray_seg k)) :=
  ⟨fun s i hi => ⟨shuffle_index_lt env hS s i hi, shuffle_step env hS s i hi⟩,
    fun ctx prob s => shuffle_all ctx env hS prob s⟩

set_option maxRecDepth 100000 in
/-- Witness for C15: the example collaborators return `SampleInt(n) = 0`; in the
re-entering example run `RestoreResultRays(1)` enqueues one ray (segment 1) and
the shuffle leaves that entry in place. -/
theorem C15_witness :
    SampleIntInRange sampleEnv ∧
    (Simulator.RestoreResultRays (sampleCtx sampleReenter) sampleEnv 1
      (samplePassOne (sampleCtx sampleReenter))).total_ray_num_ = 1 ∧
    (Simulator.RestoreResultRays (sampleCtx sampleReenter) sampleEnv 1
      (samplePassOne (sampleCtx sampleReenter))).enter_ray_data_.ray_seg 0 = some 1 ∧
    (enterPairs (Simulator.RestoreResultRays (sampleCtx sampleReenter) sampleEnv 1
        (samplePassOne (sampleCtx sampleReenter))).enter_ray_data_
      (Simulator.RestoreResultRays (sampleCtx sampleReenter) sampleEnv 1
        (samplePassOne (sampleCtx sampleReenter))).total_ray_num_).Perm
      (enterPairs (Simulator.RestoreResultRays_select (sampleCtx sampleReenter) sampleEnv 1
        (samplePassOne (sampleCtx sampleReenter))).enter_ray_data_
      (Simulator.RestoreResultRays_select (sampleCtx sampleReenter) sampleEnv 1
        (samplePassOne (sampleCtx sampleReenter))).total_ray_num_) :=
  ⟨sampleEnv_int_range, by decide!, by decide!,
    ((C15_shuffle_permutes_enqueued_pairs sampleEnv sampleEnv_int_range).2
      (sampleCtx sampleReenter) 1 (samplePassOne (sampleCtx sampleReenter))).2.1⟩

theorem createdBefore_succ (s : Simulator) (i : Nat) :
    createdBefore s (i + 1) = createdBefore s i + if 0 < s.buffer_.w 1 i then 1 else 0 := by
  unfold createdBefore
  rw [List.range_succ, List.filter_append, List.length_append]
  by_cases h : 0 < s.buffer_.w 1 i
  · simp [h]
  · simp [h]

theorem createdBefore_mono (s : Simulator) (i j : Nat) (h : i ≤ j) :
    createdBefore s i ≤ createdBefore s j := by
  induction j with
  | zero =>
    have : i = 0 := by omega
    rw [this]
  | succ j ih =>
    by_cases hij : i = j + 1
    · rw [hij]
    · have := ih (by omega)
      rw [createdBefore_succ]
      omega

theorem createdBefore_lt (s : Simulator) (i j : Nat) (h : i < j)
    (hw : 0 < s.buffer_.w 1 i) : createdBefore s i < createdBefore s j := by
  have h1 := createdBefore_mono s (i + 1) j (by omega)
  rw [createdBefore_succ, if_pos hw] at h1
  omega

theorem setChildSeg_more (b : SimulationBufferData) (i r : Nat) :
    (b.setChildSeg i r).pt = b.pt ∧ (b.setChildSeg i r).dir = b.dir := ⟨rfl, rfl⟩

theorem StoreLayout_step (ctx : ProjectContext) (crystal : Crystal)
    (filter : AbstractRayPathFilter) (s0 t : Simulator) (i : Nat) (h : StoreLayout s0 i t) :
    StoreLayout s0 (i + 1) (Simulator.StoreRaySegments_slot ctx crystal filter t i) := by
  obtain ⟨h1, h2, h3, h4, h5, h6, h7, h8⟩ := h
  by_cases hw : t.buffer_.w 1 i ≤ 0
  · rw [Store_slot_skip ctx crystal filter t i hw]
    have hnot : ¬ 0 < s0.buffer_.w 1 i := by rw [← h2]; exact not_lt.mpr hw
    refine ⟨h1, h2, h3, h4, h5, h6, ?_, ?_⟩
    · rw [createdBefore_succ, if_neg hnot, Nat.add_zero]
      exact h7
    · intro j
      rw [h8 j]
      by_cases hji : j = i
      · subst hji
        rw [if_neg (fun hx => hnot hx.2), if_neg (fun hx => hnot hx.2)]
      · by_cases hc : j < i ∧ 0 < s0.buffer_.w 1 j
        · rw [if_pos hc, if_pos ⟨by omega, hc.2⟩]
        · rw [if_neg hc, if_neg (fun hx => hc ⟨by omega, hx.2⟩)]
  · obtain ⟨e1, e2, e3⟩ := Store_slot_made ctx crystal filter t i hw
    obtain ⟨f1, f2, f3, f4⟩ := setChildSeg_fields t.buffer_ i t.pool.next_unused_id
    have hpos : 0 < s0.buffer_.w 1 i := by rw [← h2]; exact not_le.mp hw
    refine ⟨by rw [e3, h1], by rw [e2, f1, h2], by rw [e2, f2, h3],
      by rw [e2, (setChildSeg_more _ _ _).1, h4], by rw [e2, (setChildSeg_more _ _ _).2, h5],
      by rw [e2, f3, h6], ?_, ?_⟩
    · rw [e1, link_next, h7, createdBefore_succ, if_pos hpos]
      omega
    · intro j
      rw [e2, f4]
      by_cases hji : j = i
      · subst hji
        rw [if_pos rfl, if_pos ⟨by omega, hpos⟩, h7]
      · rw [if_neg hji, h8 j]
        by_cases hc : j < i ∧ 0 < s0.buffer_.w 1 j
        · rw [if_pos hc, if_pos ⟨by omega, hc.2⟩]
        · rw [if_neg hc, if_neg (fun hx => hc ⟨by omega, hx.2⟩)]

theorem StoreLayout_before (ctx : ProjectContext) (crystal : Crystal)
    (filter : AbstractRayPathFilter) (s : Simulator) (i : Nat) :
    StoreLayout s i (s.storeBefore ctx crystal filter i) := by
  unfold Simulator.storeBefore
  refine foldl_range_inv (fun i t => StoreLayout s i t) _ _ _ ?_ ?_
  · refine ⟨rfl, rfl, rfl, rfl, rfl, rfl, rfl, fun j => ?_⟩
    rw [if_neg (fun hx => Nat.not_lt_zero j hx.1)]
  · intro k t _ ht
    exact StoreLayout_step ctx crystal filter s t k ht

theorem storeBefore_succ (ctx : ProjectContext) (crystal : Crystal)
    (filter : AbstractRayPathFilter) (s : Simulator) (i : Nat) :
    s.storeBefore ctx crystal filter (i + 1) =
      Simulator.StoreRaySegments_slot ctx crystal filter (s.storeBefore ctx crystal filter i) i := by
  unfold Simulator.storeBefore
  rw [List.range_succ, List.foldl_append]
  rfl

theorem storeBefore_all (ctx : ProjectContext) (crystal : Crystal)
    (filter : AbstractRayPathFilter) (s : Simulator) :
    Simulator.StoreRaySegments ctx crystal filter s =
      s.storeBefore ctx crystal filter (s.active_ray_num_ * 2) := rfl

theorem Store_slot_exit (ctx : ProjectContext) (crystal : Crystal)
    (filter : AbstractRayPathFilter) (t : Simulator) (i : Nat) :
    (Simulator.StoreRaySegments_slot ctx crystal filter t i).exit_ray_segments_ =
      if t.storeAccepts ctx crystal filter i = true then
        backPush t.exit_ray_segments_ t.pool.next_unused_id
      else t.exit_ray_segments_ := by
  unfold Simulator.StoreRaySegments_slot Simulator.storeAccepts
  by_cases hw : t.buffer_.w 1 i ≤ 0
  · rw [if_pos hw]
    have : ¬ 0 < t.buffer_.w 1 i := not_lt.mpr hw
    simp [this]
  · rw [if_neg hw]
    have hpos : 0 < t.buffer_.w 1 i := not_le.mp hw
    dsimp only
    rw [link_finished, if_pos rfl, link_w, if_pos rfl]
    by_cases hf : filter.Filter crystal (Simulator.StoreRaySegments_link t.buffer_ t.pool i)
        t.pool.next_unused_id = false
    · rw [if_pos hf]
      simp [hf]
    · rw [if_neg hf]
      have hf' : filter.Filter crystal (Simulator.StoreRaySegments_link t.buffer_ t.pool i)
          t.pool.next_unused_id = true := by simpa using hf
      by_cases hc : decide (t.buffer_.face_id 1 i < 0) = true ∨ t.buffer_.w 1 i < ctx.kPropMinW
      · rw [if_pos hc]
        rcases hc with hc | hc
        · simp [hpos, hf', hc]
        · simp [hpos, hf', hc]
      · rw [if_neg hc]
        have h1 : ¬ t.buffer_.face_id 1 i < 0 := fun hx => hc (Or.inl (decide_eq_true hx))
        have h2 : ¬ t.buffer_.w 1 i < ctx.kPropMinW := fun hx => hc (Or.inr hx)
        simp [hpos, hf', h1, h2]

theorem storeExits_succ (ctx : ProjectContext) (crystal : Crystal)
    (filter : AbstractRayPathFilter) (s : Simulator) (n : Nat) :
    s.storeExits ctx crystal filter (n + 1) = s.storeExits ctx crystal filter n ++
      if (s.storeBefore ctx crystal filter n).storeAccepts ctx crystal filter n = true then
        [(s.storeBefore ctx crystal filter n).pool.next_unused_id]
      else [] := by
  unfold Simulator.storeExits
  rw [List.range_succ, List.filter_append, List.map_append]
  by_cases h : (s.storeBefore ctx crystal filter n).storeAccepts ctx crystal filter n = true
  · simp [h]
  · simp [h]

theorem storeBefore_exit (ctx : ProjectContext) (crystal : Crystal)
    (filter : AbstractRayPathFilter) (s : Simulator) (n : Nat) :
    (s.storeBefore ctx crystal filter n).exit_ray_segments_ =
      (s.storeExits ctx crystal filter n).foldl backPush s.exit_ray_segments_ := by
  induction n with
  | zero => rfl
  | succ n ih =>
    rw [storeBefore_succ, Store_slot_exit, storeExits_succ, List.foldl_append, ← ih]
    split_ifs <;> rfl

theorem foldl_backPush_last {α : Type} (l : List α) :
    ∀ (v : List (List α)) (a : List α), l.foldl backPush (v ++ [a]) = v ++ [a ++ l] := by
  induction l with
  | nil => intro v a; simp
  | cons r l ih =>
    intro v a
    rw [List.foldl_cons, backPush_append_singleton, ih]
    simp

theorem storeAccepts_positive (ctx : ProjectContext) (crystal : Crystal)
    (filter : AbstractRayPathFilter) (t : Simulator) (i : Nat)
    (h : t.storeAccepts ctx crystal filter i = true) : 0 < t.buffer_.w 1 i := by
  unfold Simulator.storeAccepts at h
  simp only [Bool.and_eq_true, decide_eq_true_eq] at h
  exact h.1

theorem storeExits_sorted (ctx : ProjectContext) (crystal : Crystal)
    (filter : AbstractRayPathFilter) (s : Simulator) (n : Nat) :
    (s.storeExits ctx crystal filter n).Pairwise (fun a b => a < b) := by
  unfold Simulator.storeExits
  rw [List.pairwise_map]
  have h2 : ((List.range n).filter (fun i =>
      (s.storeBefore ctx crystal filter i).storeAccepts ctx crystal filter i)).Pairwise
      (fun a b => a < b) := (List.pairwise_lt_range n).filter _
  refine h2.imp_of_mem ?_
  intro a b ha _ hab
  have hacc := (List.mem_filter.mp ha).2
  have hpos := storeAccepts_positive ctx crystal filter _ a hacc
  rw [(StoreLayout_before ctx crystal filter s a).2.1] at hpos
  rw [(StoreLayout_before ctx crystal filter s a).2.2.2.2.2.2.1,
    (StoreLayout_before ctx crystal filter s b).2.2.2.2.2.2.1]
  have := createdBefore_lt s a b hab hpos
  omega

theorem StoreLinks_skip (s0 t : Simulator) (i : Nat) (hl : StoreLayout s0 i t)
    (hk : StoreLinks s0 i t) (hw : t.buffer_.w 1 i ≤ 0) : StoreLinks s0 (i + 1) t := by
  obtain ⟨A, B, C⟩ := hk
  have hnot : ¬ 0 < s0.buffer_.w 1 i := by rw [← hl.2.1]; exact not_lt.mpr hw
  refine ⟨A, ?_, ?_⟩
  · intro j hj hpos
    by_cases hji : j = i
    · subst hji
      exact absurd hpos hnot
    · exact B j (by omega) hpos
  · intro k hk hc p hp
    obtain ⟨c1, c2⟩ := C k hk hc p hp
    constructor
    · rw [c1]
      by_cases hki : 2 * k = i
      · rw [if_neg (fun hx => hnot (hki ▸ hx.2)), if_neg (fun hx => hnot (hki ▸ hx.2))]
      · by_cases hx : 2 * k < i ∧ 0 < s0.buffer_.w 1 (2 * k)
        · rw [if_pos hx, if_pos ⟨by omega, hx.2⟩]
        · rw [if_neg hx, if_neg (fun hy => hx ⟨by omega, hy.2⟩)]
    · rw [c2]
      by_cases hki : 2 * k + 1 = i
      · rw [if_neg (fun hx => hnot (hki ▸ hx.2)), if_neg (fun hx => hnot (hki ▸ hx.2))]
      · by_cases hx : 2 * k + 1 < i ∧ 0 < s0.buffer_.w 1 (2 * k + 1)
        · rw [if_pos hx, if_pos ⟨by omega, hx.2⟩]
        · rw [if_neg hx, if_neg (fun hy => hx ⟨by omega, hy.2⟩)]

theorem slot_parent (s0 : Simulator) (i : Nat) (hp : ParentsLinked s0)
    (hi : i < s0.active_ray_num_ * 2) (hpos : 0 < s0.buffer_.w 1 i) :
    i / 2 < s0.active_ray_num_ ∧ HasChild s0 (i / 2) ∧
    ∃ p, s0.buffer_.ray_seg 0 (i / 2) = some p ∧ p < s0.pool.next_unused_id := by
  have hk : i / 2 < s0.active_ray_num_ := by omega
  have hc : HasChild s0 (i / 2) := by
    unfold HasChild
    rcases (by omega : i = 2 * (i / 2) ∨ i = 2 * (i / 2) + 1) with h | h
    · exact Or.inl (h ▸ hpos)
    · exact Or.inr (h ▸ hpos)
  exact ⟨hk, hc, hp.1 (i / 2) hk hc⟩

theorem StoreLinks_made (s0 t : Simulator) (i : Nat) (hp : ParentsLinked s0)
    (hi : i < s0.active_ray_num_ * 2) (hl : StoreLayout s0 i t) (hk : StoreLinks s0 i t)
    (hw : ¬ t.buffer_.w 1 i ≤ 0) :
    StoreLinks s0 (i + 1)
      { t with pool := Simulator.StoreRaySegments_link t.buffer_ t.pool i } := by
  obtain ⟨A, B, C⟩ := hk
  obtain ⟨-, l2, l3, -, -, l6, l7, -⟩ := hl
  have hpos : 0 < s0.buffer_.w 1 i := by rw [← l2]; exact not_le.mp hw
  obtain ⟨hklt, hchild, p, hp1, hp2⟩ := slot_parent s0 i hp hi hpos
  have hptr : t.buffer_.ray_seg 0 (i / 2) = some p := by rw [l6]; exact hp1
  have hne : t.buffer_.ray_seg 0 (i / 2) ≠ some t.pool.next_unused_id := by
    rw [hptr]; intro hx; injection hx with hx; omega
  refine ⟨?_, ?_, ?_⟩
  · intro h hh
    obtain ⟨a1, a2, a3, a4⟩ := A h hh
    show ((Simulator.StoreRaySegments_link t.buffer_ t.pool i).segments h).root_ctx = _ ∧
      ((Simulator.StoreRaySegments_link t.buffer_ t.pool i).segments h).prev = _ ∧
      ((Simulator.StoreRaySegments_link t.buffer_ t.pool i).segments h).is_finished = _ ∧
      ((Simulator.StoreRaySegments_link t.buffer_ t.pool i).segments h).w = _
    rw [link_root_old _ _ _ _ (by omega), link_prev, if_neg (by omega), link_finished,
      if_neg (by omega), link_w, if_neg (by omega)]
    exact ⟨a1, a2, a3, a4⟩
  · intro j hj hjpos
    show ((Simulator.StoreRaySegments_link t.buffer_ t.pool i).segments _).prev = _ ∧
      ((Simulator.StoreRaySegments_link t.buffer_ t.pool i).segments _).is_finished = _ ∧
      ((Simulator.StoreRaySegments_link t.buffer_ t.pool i).segments _).w = _ ∧
      ((Simulator.StoreRaySegments_link t.buffer_ t.pool i).segments _).root_ctx = _
    by_cases hji : j = i
    · subst hji
      rw [← l7, link_prev, if_pos rfl, link_finished, if_pos rfl, link_w, if_pos rfl,
        link_root_new _ _ _ p hptr (by omega), l6, l3, l2, hp1, (A p hp2).1]
      exact ⟨rfl, rfl, rfl, rfl⟩
    · have hlt := createdBefore_lt s0 j i (by omega) hjpos
      obtain ⟨b1, b2, b3, b4⟩ := B j (by omega) hjpos
      rw [link_prev, if_neg (by omega), link_finished, if_neg (by omega), link_w,
        if_neg (by omega), link_root_old _ _ _ _ (by omega)]
      exact ⟨b1, b2, b3, b4⟩
  · intro k hk hc q hq
    obtain ⟨c1, c2⟩ := C k hk hc q hq
    obtain ⟨q', hq1, hq2⟩ := hp.1 k hk hc
    have hqq : q' = q := by rw [hq] at hq1; exact (Option.some.inj hq1).symm
    subst hqq
    have hqne : q' ≠ t.pool.next_unused_id := by omega
    have hiff : t.buffer_.ray_seg 0 (i / 2) = some q' ↔ i / 2 = k := by
      constructor
      · intro hx
        rw [l6, ← hq] at hx
        exact hp.2 (i / 2) k hklt hk hchild hc hx
      · intro hx
        rw [l6, hx]
        exact hq
    show ((Simulator.StoreRaySegments_link t.buffer_ t.pool i).segments q').next_reflect = _ ∧
      ((Simulator.StoreRaySegments_link t.buffer_ t.pool i).segments q').next_refract = _
    rw [link_reflect _ _ _ _ hne, link_refract _ _ _ _ hne]
    constructor
    · by_cases hx : i % 2 = 0 ∧ t.buffer_.ray_seg 0 (i / 2) = some q'
      · have hik : 2 * k = i := by
          have := hiff.mp hx.2
          omega
        rw [if_pos hx, if_pos ⟨by omega, hik ▸ hpos⟩, hik, l7]
      · rw [if_neg hx, if_neg hqne, c1]
        have hik : 2 * k ≠ i := by
          intro h
          exact hx ⟨by omega, hiff.mpr (by omega)⟩
        by_cases hy : 2 * k < i ∧ 0 < s0.buffer_.w 1 (2 * k)
        · rw [if_pos hy, if_pos ⟨by omega, hy.2⟩]
        · rw [if_neg hy, if_neg (fun hz => hy ⟨by omega, hz.2⟩)]
    · by_cases hx : ¬ i % 2 = 0 ∧ t.buffer_.ray_seg 0 (i / 2) = some q'
      · have hik : 2 * k + 1 = i := by
          have := hiff.mp hx.2
          omega
        rw [if_pos hx, if_pos ⟨by omega, hik ▸ hpos⟩, hik, l7]
      · rw [if_neg hx, if_neg hqne, c2]
        have hik : 2 * k + 1 ≠ i := by
          intro h
          exact hx ⟨by omega, hiff.mpr (by omega)⟩
        by_cases hy : 2 * k + 1 < i ∧ 0 < s0.buffer_.w 1 (2 * k + 1)
        · rw [if_pos hy, if_pos ⟨by omega, hy.2⟩]
        · rw [if_neg hy, if_neg (fun hz => hy ⟨by omega, hz.2⟩)]

theorem StoreLinks_all (ctx : ProjectContext) (crystal : Crystal)
    (filter : AbstractRayPathFilter) (s : Simulator) (hp : ParentsLinked s) :
    StoreLayout s (s.active_ray_num_ * 2) (Simulator.StoreRaySegments ctx crystal filter s) ∧
    StoreLinks s (s.active_ray_num_ * 2) (Simulator.StoreRaySegments ctx crystal filter s) := by
  unfold Simulator.StoreRaySegments
  refine foldl_range_inv (fun i t => StoreLayout s i t ∧ StoreLinks s i t) _ _ _ ?_ ?_
  · refine ⟨⟨rfl, rfl, rfl, rfl, rfl, rfl, rfl, fun j => ?_⟩, fun h _ => ⟨rfl, rfl, rfl, rfl⟩,
      fun j hj => absurd hj (Nat.not_lt_zero j), fun k _ _ p _ => ?_⟩
    · rw [if_neg (fun hx => Nat.not_lt_zero j hx.1)]
    · rw [if_neg (fun hx => Nat.not_lt_zero _ hx.1), if_neg (fun hx => Nat.not_lt_zero _ hx.1)]
      exact ⟨rfl, rfl⟩
  · intro i t hi ht
    refine ⟨StoreLayout_step ctx crystal filter s t i ht.1, ?_⟩
    by_cases hw : t.buffer_.w 1 i ≤ 0
    · rw [Store_slot_skip ctx crystal filter t i hw]
      exact StoreLinks_skip s t i ht.1 ht.2 hw
    · have hm := StoreLinks_made s t i hp hi ht.1 ht.2 hw
      obtain ⟨A, B, C⟩ := hm
      have hpool := (Store_slot_made ctx crystal filter t i hw).1
      unfold StoreLinks
      rw [hpool]
      exact ⟨A, B, C⟩

theorem ParentsLinked_of_live (s : Simulator)
    (hl : LiveSlots s.buffer_ s.pool s.active_ray_num_)
    (hk : KernelRel s.buffer_ s.active_ray_num_) : ParentsLinked s := by
  have hpos : ∀ k, k < s.active_ray_num_ → HasChild s k → 0 < s.buffer_.w 0 k := by
    intro k hklt hc
    obtain ⟨R, R0, R1, Ra, Rb⟩ := hk k hklt
    rcases hc with h | h
    · rw [Ra] at h
      exact split_pos_left R0 h
    · rw [Rb] at h
      exact split_pos_left (by linarith) h
  constructor
  · intro k hklt hc
    obtain ⟨p, p1, p2, -⟩ := hl.1 k hklt (hpos k hklt hc)
    exact ⟨p, p1, p2⟩
  · intro k k' hklt hklt' hc hc' heq
    exact hl.2 k k' hklt hklt' (hpos k hklt hc) (hpos k' hklt' hc') heq

theorem ParentsLinked_in_trace (env : Env) (hK : KernelSplits env) (crystal : Crystal) (n : ℚ)
    (s : Simulator) (hl : LiveSlots s.buffer_ s.pool s.active_ray_num_) :
    ParentsLinked (traceFanOut env crystal n s.growForTrace) := by
  obtain ⟨g1, -⟩ := growForTrace_live s hl
  obtain ⟨f1, f2, f3, f4⟩ := traceFanOut_split env hK crystal n s.growForTrace g1
  rw [← f1, ← f2] at f3
  rw [← f2] at f4
  exact ParentsLinked_of_live _ f3 f4

theorem Store_slot_next (ctx : ProjectContext) (crystal : Crystal)
    (filter : AbstractRayPathFilter) (t : Simulator) (i : Nat) :
    (Simulator.StoreRaySegments_slot ctx crystal filter t i).pool.next_unused_id =
      t.pool.next_unused_id + if 0 < t.buffer_.w 1 i then 1 else 0 := by
  by_cases hw : t.buffer_.w 1 i ≤ 0
  · rw [Store_slot_skip ctx crystal filter t i hw, if_neg (not_lt.mpr hw)]
    rfl
  · rw [(Store_slot_made ctx crystal filter t i hw).1, link_next, if_pos (not_le.mp hw)]

/-- Claim C16: when every live parent slot with a child of positive weight holds
the handle of an acquired segment and such slots hold different handles,
`StoreRaySegments` acquires one segment per child slot `i < 2 * active_ray_num_`
with `w[1][i] > 0` and none for the others (the pool grows by the number of
such slots, and each body of the loop takes one segment iff the weight is
positive); the segment of slot `i` is new, has the handle `p` of parent slot
`i / 2` as `prev` and the `root_ctx` of `p`, `p` has it as `next_reflect` when `i`
is even and as `next_refract` when `i` is odd, its handle is stored in
`ray_seg[1][i]`, it is finished iff `face_id[1][i] < 0`, and different slots get
different segments, in slot order. -/
theorem C16_store_links_children (ctx : ProjectContext) (crystal : Crystal)
    (filter : AbstractRayPathFilter) (s : Simulator) (hp : ParentsLinked s) :
    (∀ (t : Simulator) (i : Nat),
      (Simulator.StoreRaySegments_slot ctx crystal filter t i).pool.next_unused_id =
        t.pool.next_unused_id + if 0 < t.buffer_.w 1 i then 1 else 0) ∧
    (Simulator.StoreRaySegments ctx crystal filter s).pool.next_unused_id =
      s.pool.next_unused_id + createdBefore s (s.active_ray_num_ * 2) ∧
    (∀ i, i < s.active_ray_num_ * 2 → ¬ 0 < s.buffer_.w 1 i →
      (Simulator.StoreRaySegments ctx crystal filter s).buffer_.ray_seg 1 i =
        s.buffer_.ray_seg 1 i) ∧
    (∀ i, i < s.active_ray_num_ * 2 → 0 < s.buffer_.w 1 i →
      ∃ p, s.buffer_.ray_seg 0 (i / 2) = some p ∧ p < s.pool.next_unused_id ∧
        s.pool.next_unused_id ≤ s.childHandle i ∧
        s.childHandle i < (Simulator.StoreRaySegments ctx crystal filter s).pool.next_unused_id ∧
        (Simulator.StoreRaySegments ctx crystal filter s).buffer_.ray_seg 1 i =
          some (s.childHandle i) ∧
        ((Simulator.StoreRaySegments ctx crystal filter s).pool.segments (s.childHandle i)).prev =
          some p ∧
        ((Simulator.StoreRaySegments ctx crystal filter s).pool.segments
            (s.childHandle i)).root_ctx =
          ((Simulator.StoreRaySegments ctx crystal filter s).pool.segments p).root_ctx ∧
        (i % 2 = 0 →
          ((Simulator.StoreRaySegments ctx crystal filter s).pool.segments p).next_reflect =
            some (s.childHandle i)) ∧
        (i % 2 = 1 →
          ((Simulator.StoreRaySegments ctx crystal filter s).pool.segments p).next_refract =
            some (s.childHandle i)) ∧
        (((Simulator.StoreRaySegments ctx crystal filter s).pool.segments
            (s.childHandle i)).is_finished = true ↔ s.buffer_.face_id 1 i < 0)) ∧
    (∀ i j, i < j → 0 < s.buffer_.w 1 i → s.childHandle i < s.childHandle j) := by
  obtain ⟨⟨-, -, -, -, -, -, l7, l8⟩, A, B, C⟩ := StoreLinks_all ctx crystal filter s hp
  refine ⟨Store_slot_next ctx crystal filter, l7, ?_, ?_, ?_⟩
  · intro i _ hn
    rw [l8 i, if_neg (fun hx => hn hx.2)]
  · intro i hi hpos
    obtain ⟨hklt, hchild, p, hp1, hp2⟩ := slot_parent s i hp hi hpos
    obtain ⟨b1, b2, -, b4⟩ := B i hi hpos
    obtain ⟨c1, c2⟩ := C (i / 2) hklt hchild p hp1
    have hlt := createdBefore_lt s i (s.active_ray_num_ * 2) hi hpos
    refine ⟨p, hp1, hp2, Nat.le_add_right _ _, ?_, ?_, ?_, ?_, ?_, ?_, ?_⟩
    · rw [l7]
      unfold Simulator.childHandle
      omega
    · rw [l8 i, if_pos ⟨hi, hpos⟩]
      rfl
    · unfold Simulator.childHandle
      rw [b1, hp1]
    · unfold Simulator.childHandle
      rw [b4, hp1, (A p hp2).1]
      rfl
    · intro he
      have h2 : 2 * (i / 2) = i := by omega
      rw [c1, h2, if_pos ⟨hi, hpos⟩]
      rfl
    · intro ho
      have h2 : 2 * (i / 2) + 1 = i := by omega
      rw [c2, h2, if_pos ⟨hi, hpos⟩]
      rfl
    · unfold Simulator.childHandle
      rw [b2]
      exact decide_eq_true_iff
  · intro i j hij hpos
    unfold Simulator.childHandle
    have := createdBefore_lt s i j hij hpos
    omega

set_option maxRecDepth 100000 in
/-- Witness for C16: before `StoreRaySegments` in the first trace step of the
one-pass example run there is one live parent slot, holding the root segment 0,
and both child slots have positive weight; the two children become segments 1
and 2. -/
theorem C16_witness :
    ParentsLinked sampleFanned ∧ sampleFanned.active_ray_num_ = 1 ∧
    sampleFanned.pool.next_unused_id = 1 ∧
    (Simulator.StoreRaySegments (sampleCtx sampleOnePass) sampleCrystal ⟨fun _ _ _ => true⟩
      sampleFanned).pool.next_unused_id =
        sampleFanned.pool.next_unused_id + createdBefore sampleFanned
          (sampleFanned.active_ray_num_ * 2) ∧
    createdBefore sampleFanned 2 = 2 := by
  have hact : sampleFanned.active_ray_num_ = 1 := by decide!
  have hp : ParentsLinked sampleFanned := by
    constructor
    · intro k hk _
      rw [hact] at hk
      have hk0 : k = 0 := by omega
      subst hk0
      exact ⟨0, by decide!, by decide!⟩
    · intro k k' hk hk' _ _ _
      rw [hact] at hk hk'
      omega
  exact ⟨hp, hact, by decide!,
    (C16_store_links_children (sampleCtx sampleOnePass) sampleCrystal ⟨fun _ _ _ => true⟩
      sampleFanned hp).2.1, by decide!⟩

/-- Claim C17: the body of the slot loop of `StoreRaySegments` appends the
segment it acquires for slot `i` to the last exit list iff the slot has positive
weight (a segment is acquired), the filter accepts the new segment and the new
segment is finished or its weight is below `kPropMinW`; the whole call extends
the last exit list by the handles of the accepted slots in slot order; the
handle acquired for a slot is the pool cursor advanced by the number of earlier
slots of positive weight, so segments are acquired, and appended to the exit
list, in strictly increasing slot order. -/
theorem C17_exit_appended_in_slot_order (ctx : ProjectContext) (crystal : Crystal)
    (filter : AbstractRayPathFilter) (s : Simulator) :
    (∀ (t : Simulator) (i : Nat),
      (t.storeAccepts ctx crystal filter i = true ↔
        0 < t.buffer_.w 1 i ∧
        filter.Filter crystal (Simulator.StoreRaySegments_link t.buffer_ t.pool i)
          t.pool.next_unused_id = true ∧
        (((Simulator.StoreRaySegments_link t.buffer_ t.pool i).segments
            t.pool.next_unused_id).is_finished = true ∨
          ((Simulator.StoreRaySegments_link t.buffer_ t.pool i).segments
            t.pool.next_unused_id).w < ctx.kPropMinW)) ∧
      (Simulator.StoreRaySegments_slot ctx crystal filter t i).exit_ray_segments_ =
        if t.storeAccepts ctx crystal filter i = true then
          backPush t.exit_ray_segments_ t.pool.next_unused_id
        else t.exit_ray_segments_) ∧
    (Simulator.StoreRaySegments ctx crystal filter s).exit_ray_segments_ =
      (s.storeExits ctx crystal filter (s.active_ray_num_ * 2)).foldl backPush
        s.exit_ray_segments_ ∧
    (∀ v l, s.exit_ray_segments_ = v ++ [l] →
      (Simulator.StoreRaySegments ctx crystal filter s).exit_ray_segments_ =
        v ++ [l ++ s.storeExits ctx crystal filter (s.active_ray_num_ * 2)]) ∧
    (∀ i, (s.storeBefore ctx crystal filter i).pool.next_unused_id =
      s.pool.next_unused_id + createdBefore s i) ∧
    (∀ i j, i < j → 0 < s.buffer_.w 1 i → createdBefore s i < createdBefore s j) ∧
    (s.storeExits ctx crystal filter (s.active_ray_num_ * 2)).Pairwise (fun a b => a < b) := by
  have hall : (Simulator.StoreRaySegments ctx crystal filter s).exit_ray_segments_ =
      (s.storeExits ctx crystal filter (s.active_ray_num_ * 2)).foldl backPush
        s.exit_ray_segments_ := storeBefore_exit ctx crystal filter s _
  refine ⟨fun t i => ⟨?_, Store_slot_exit ctx crystal filter t i⟩, hall, ?_,
    fun i => (StoreLayout_before ctx crystal filter s i).2.2.2.2.2.2.1,
    fun i j hij hpos => createdBefore_lt s i j hij hpos,
    storeExits_sorted ctx crystal filter s _⟩
  · unfold Simulator.storeAccepts
    rw [link_finished, if_pos rfl, link_w, if_pos rfl]
    simp only [Bool.and_eq_true, Bool.or_eq_true, decide_eq_true_eq]
  · intro v l hv
    rw [hall, hv, foldl_backPush_last]

theorem keptBefore_succ (ctx : ProjectContext) (b : SimulationBufferData) (i : Nat) :
    keptBefore ctx b (i + 1) = keptBefore ctx b i ++
      if b.face_id 1 i ≥ 0 ∧ b.w 1 i > ctx.kPropMinW then [i] else [] := by
  unfold keptBefore
  rw [List.range_succ, List.filter_append]
  by_cases h : b.face_id 1 i ≥ 0 ∧ b.w 1 i > ctx.kPropMinW
  · simp [h]
  · simp [h]

theorem keepSlot_rows (b : SimulationBufferData) (idx i : Nat) :
    ((b.keepSlot idx i).pt 1 = b.pt 1 ∧ (b.keepSlot idx i).dir 1 = b.dir 1 ∧
      (b.keepSlot idx i).w 1 = b.w 1 ∧ (b.keepSlot idx i).face_id 1 = b.face_id 1 ∧
      (b.keepSlot idx i).ray_seg 1 = b.ray_seg 1) ∧
    SlotCopied (b.keepSlot idx i) b idx i ∧
    (∀ a, a ≠ idx → (b.keepSlot idx i).pt 0 a = b.pt 0 a ∧
      (b.keepSlot idx i).dir 0 a = b.dir 0 a ∧ (b.keepSlot idx i).w 0 a = b.w 0 a ∧
      (b.keepSlot idx i).face_id 0 a = b.face_id 0 a ∧
      (b.keepSlot idx i).ray_seg 0 a = b.ray_seg 0 a) := by
  refine ⟨?_, ?_, ?_⟩
  · simp [SimulationBufferData.keepSlot]
  · simp [SimulationBufferData.keepSlot, SlotCopied]
  · intro a ha
    simp [SimulationBufferData.keepSlot, Function.update_apply, ha]

theorem RefreshExact_step (ctx : ProjectContext) (b0 : SimulationBufferData) (i : Nat)
    (acc : SimulationBufferData × Nat) (h : RefreshExact ctx b0 i acc) :
    RefreshExact ctx b0 (i + 1) (Simulator.RefreshBuffer_slot ctx acc i) := by
  obtain ⟨h1, ⟨r1, r2, r3, r4, r5⟩, h3⟩ := h
  unfold Simulator.RefreshBuffer_slot
  by_cases hc : acc.1.face_id 1 i ≥ 0 ∧ acc.1.w 1 i > ctx.kPropMinW
  · rw [if_pos hc]
    have hc0 : b0.face_id 1 i ≥ 0 ∧ b0.w 1 i > ctx.kPropMinW := by
      rw [← r4, ← r3]; exact hc
    obtain ⟨⟨k1, k2, k3, k4, k5⟩, kc, ko⟩ := keepSlot_rows acc.1 acc.2 i
    refine ⟨?_, ⟨k1.trans r1, k2.trans r2, k3.trans r3, k4.trans r4, k5.trans r5⟩, ?_⟩
    · show acc.2 + 1 = _
      rw [keptBefore_succ, if_pos hc0, List.length_append, h1]
      rfl
    · intro a ha
      have ha' : a < acc.2 + 1 := ha
      rw [keptBefore_succ, if_pos hc0]
      by_cases hai : a = acc.2
      · subst hai
        have hg : (keptBefore ctx b0 i ++ [i]).getD acc.2 0 = i := by
          rw [h1, List.getD_eq_getElem _ _ (by simp), List.getElem_append_right (le_refl _)]
          simp
        rw [hg]
        obtain ⟨c1, c2, c3, c4, c5⟩ := kc
        exact ⟨c1.trans (congrFun r1 i), c2.trans (congrFun r2 i), c3.trans (congrFun r3 i),
          c4.trans (congrFun r4 i), c5.trans (congrFun r5 i)⟩
      · have halt : a < acc.2 := by omega
        have hg : (keptBefore ctx b0 i ++ [i]).getD a 0 = (keptBefore ctx b0 i).getD a 0 := by
          rw [List.getD_append _ _ _ _ (by rw [← h1]; exact halt)]
        rw [hg]
        obtain ⟨o1, o2, o3, o4, o5⟩ := ko a hai
        obtain ⟨c1, c2, c3, c4, c5⟩ := h3 a halt
        exact ⟨o1.trans c1, o2.trans c2, o3.trans c3, o4.trans c4, o5.trans c5⟩
  · rw [if_neg hc]
    have hc0 : ¬ (b0.face_id 1 i ≥ 0 ∧ b0.w 1 i > ctx.kPropMinW) := by
      rw [← r4, ← r3]; exact hc
    refine ⟨?_, ⟨r1, r2, r3, r4, r5⟩, ?_⟩
    · rw [keptBefore_succ, if_neg hc0, List.append_nil]
      exact h1
    · intro a ha
      rw [keptBefore_succ, if_neg hc0, List.append_nil]
      exact h3 a ha

theorem RefreshExact_final (ctx : ProjectContext) (s : Simulator) :
    RefreshExact ctx s.buffer_ (s.active_ray_num_ * 2)
      ((Simulator.RefreshBuffer ctx s).buffer_, (Simulator.RefreshBuffer ctx s).active_ray_num_) := by
  unfold Simulator.RefreshBuffer
  dsimp only
  refine foldl_range_inv (fun i acc => RefreshExact ctx s.buffer_ i acc) _ _ _ ?_ ?_
  · exact ⟨rfl, ⟨rfl, rfl, rfl, rfl, rfl⟩, fun a ha => absurd ha (Nat.not_lt_zero a)⟩
  · intro i acc _ hacc
    exact RefreshExact_step ctx s.buffer_ i acc hacc

theorem keptBefore_mem (ctx : ProjectContext) (b : SimulationBufferData) (n j : Nat) :
    j ∈ keptBefore ctx b n ↔ j < n ∧ 0 ≤ b.face_id 1 j ∧ ctx.kPropMinW < b.w 1 j := by
  unfold keptBefore
  simp only [List.mem_filter, List.mem_range, decide_eq_true_eq, ge_iff_le, gt_iff_lt]

/-- Claim C18: `RefreshBuffer` leaves buffer 1 untouched, sets `active_ray_num_`
to the number `m` of slots `i < 2 * active_ray_num_` of buffer 1 with
`face_id >= 0` and `w > kPropMinW`, and makes slot `a < m` of buffer 0 a copy
(`pt`, `dir`, `w`, `face_id`, segment handle) of the `a`-th such slot in slot
order; hence `m` is at most twice the previous active count and every live slot
afterwards has `face_id >= 0` and `w > kPropMinW`. -/
theorem C18_refresh_compacts_kept_slots (ctx : ProjectContext) (s : Simulator) :
    (∀ j, j ∈ keptBefore ctx s.buffer_ (s.active_ray_num_ * 2) ↔
      j < s.active_ray_num_ * 2 ∧ 0 ≤ s.buffer_.face_id 1 j ∧
        ctx.kPropMinW < s.buffer_.w 1 j) ∧
    (keptBefore ctx s.buffer_ (s.active_ray_num_ * 2)).Pairwise (fun a b => a < b) ∧
    (Simulator.RefreshBuffer ctx s).active_ray_num_ =
      (keptBefore ctx s.buffer_ (s.active_ray_num_ * 2)).length ∧
    (∀ a, a < (Simulator.RefreshBuffer ctx s).active_ray_num_ →
      SlotCopied (Simulator.RefreshBuffer ctx s).buffer_ s.buffer_ a
        ((keptBefore ctx s.buffer_ (s.active_ray_num_ * 2)).getD a 0)) ∧
    ((Simulator.RefreshBuffer ctx s).buffer_.pt 1 = s.buffer_.pt 1 ∧
      (Simulator.RefreshBuffer ctx s).buffer_.dir 1 = s.buffer_.dir 1 ∧
      (Simulator.RefreshBuffer ctx s).buffer_.w 1 = s.buffer_.w 1 ∧
      (Simulator.RefreshBuffer ctx s).buffer_.face_id 1 = s.buffer_.face_id 1 ∧
      (Simulator.RefreshBuffer ctx s).buffer_.ray_seg 1 = s.buffer_.ray_seg 1) ∧
    (Simulator.RefreshBuffer ctx s).active_ray_num_ ≤ 2 * s.active_ray_num_ ∧
    (∀ a, a < (Simulator.RefreshBuffer ctx s).active_ray_num_ →
      0 ≤ (Simulator.RefreshBuffer ctx s).buffer_.face_id 0 a ∧
      ctx.kPropMinW < (Simulator.RefreshBuffer ctx s).buffer_.w 0 a) := by
  obtain ⟨h1, h2, h3⟩ := RefreshExact_final ctx s
  have h1' : (Simulator.RefreshBuffer ctx s).active_ray_num_ =
      (keptBefore ctx s.buffer_ (s.active_ray_num_ * 2)).length := h1
  refine ⟨keptBefore_mem ctx s.buffer_ _, (List.pairwise_lt_range _).filter _, h1', h3, h2,
    ?_, ?_⟩
  · rw [h1']
    unfold keptBefore
    have := List.length_filter_le
      (fun j => decide (s.buffer_.face_id 1 j ≥ 0 ∧ s.buffer_.w 1 j > ctx.kPropMinW))
      (List.range (s.active_ray_num_ * 2))
    rw [List.length_range] at this
    omega
  · intro a ha
    obtain ⟨-, -, c3, c4, -⟩ := h3 a ha
    have hmem : (keptBefore ctx s.buffer_ (s.active_ray_num_ * 2)).getD a 0 ∈
        keptBefore ctx s.buffer_ (s.active_ray_num_ * 2) := by
      rw [List.getD_eq_getElem _ _ (by rw [← h1']; exact ha)]
      exact List.getElem_mem _
    obtain ⟨-, m2, m3⟩ := (keptBefore_mem ctx s.buffer_ _ _).mp hmem
    rw [c3, c4]
    exact ⟨m2, m3⟩

theorem mem_stripeStarts (A step : Nat) :
    ∀ (fuel j0 x : Nat), x ∈ stripeStarts A step fuel j0 ↔
      ∃ k, k < fuel ∧ x = j0 + k * step ∧ x < A := by
  intro fuel
  induction fuel with
  | zero =>
    intro j0 x
    simp [stripeStarts]
  | succ fuel ih =>
    intro j0 x
    unfold stripeStarts
    by_cases hj : j0 < A
    · rw [if_pos hj, List.mem_cons, ih]
      constructor
      · rintro (h | ⟨k, hk, hx, hxA⟩)
        · exact ⟨0, by omega, by rw [h]; simp, by rw [h]; exact hj⟩
        · exact ⟨k + 1, by omega, by rw [hx, Nat.add_mul]; omega, hxA⟩
      · rintro ⟨k, hk, hx, hxA⟩
        cases k with
        | zero => left; rw [hx]; simp
        | succ k => right; exact ⟨k, by omega, by rw [hx, Nat.add_mul]; omega, hxA⟩
    · rw [if_neg hj]
      constructor
      · intro h; cases h
      · rintro ⟨k, -, hx, hxA⟩
        have : j0 ≤ j0 + k * step := Nat.le_add_right _ _
        omega

theorem stripeStep_pos (A : Nat) : 0 < stripeStep A := by
  unfold stripeStep
  omega

theorem mem_starts_iff (A j : Nat) :
    j ∈ stripeStarts A (stripeStep A) A 0 ↔ (∃ k, j = k * stripeStep A) ∧ j < A := by
  rw [mem_stripeStarts A _]
  constructor
  · rintro ⟨k, -, hx, hxA⟩
    exact ⟨⟨k, by omega⟩, hxA⟩
  · rintro ⟨⟨k, hk⟩, hjA⟩
    refine ⟨k, ?_, by omega, hjA⟩
    have h1 : k ≤ k * stripeStep A := Nat.le_mul_of_pos_right k (stripeStep_pos A)
    omega

theorem stripe_of_slot (A x : Nat) (hx : x < A) :
    x / stripeStep A * stripeStep A ∈ stripeStarts A (stripeStep A) A 0 ∧
    InStripe A (stripeStep A) (x / stripeStep A * stripeStep A) x := by
  have hs := stripeStep_pos A
  have h1 : x / stripeStep A * stripeStep A ≤ x := Nat.div_mul_le_self x _
  have h2 : x < x / stripeStep A * stripeStep A + stripeStep A := by
    have := Nat.lt_div_mul_add (a := x) hs
    omega
  refine ⟨(mem_starts_iff A _).mpr ⟨⟨x / stripeStep A, rfl⟩, by omega⟩, h1, ?_⟩
  generalize x / stripeStep A * stripeStep A = j at h1 h2 ⊢
  omega

theorem stripe_unique (A x j : Nat) (hj : j ∈ stripeStarts A (stripeStep A) A 0)
    (hin : InStripe A (stripeStep A) j x) : j = x / stripeStep A * stripeStep A := by
  obtain ⟨⟨k, hk⟩, -⟩ := (mem_starts_iff A j).mp hj
  obtain ⟨h1, h2⟩ := hin
  have hs := stripeStep_pos A
  have h3 : x < (k + 1) * stripeStep A := by
    rw [Nat.add_mul, ← hk]
    generalize stripeStep A = st at *
    omega
  have hdiv : x / stripeStep A = k :=
    Nat.div_eq_of_lt_le (by rw [← hk]; exact h1) h3
  rw [hdiv, hk]

theorem stripe_within (A j x : Nat) (hin : InStripe A (stripeStep A) j x) : x < A := by
  obtain ⟨h1, h2⟩ := hin
  omega

theorem child_stripe_iff (A step j y : Nat) :
    InChildStripe A step j y ↔ InStripe A step j (y / 2) := by
  unfold InChildStripe InStripe
  omega

theorem traceJob_outside (env : Env) (crystal : Crystal) (n : ℚ) (cur : Nat)
    (b : SimulationBufferData) (j y : Nat) (hy : ¬ (j * 2 ≤ y ∧ y < j * 2 + cur * 2)) :
    (traceJob env crystal n cur b j).pt 1 y = b.pt 1 y ∧
    (traceJob env crystal n cur b j).dir 1 y = b.dir 1 y ∧
    (traceJob env crystal n cur b j).w 1 y = b.w 1 y ∧
    (traceJob env crystal n cur b j).face_id 1 y = b.face_id 1 y ∧
    (traceJob env crystal n cur b j).pt 0 = b.pt 0 ∧
    (traceJob env crystal n cur b j).dir 0 = b.dir 0 ∧
    (traceJob env crystal n cur b j).w 0 = b.w 0 ∧
    (traceJob env crystal n cur b j).face_id 0 = b.face_id 0 ∧
    (traceJob env crystal n cur b j).ray_seg = b.ray_seg := by
  simp [traceJob, writeSlice, hy]

/-- Claim C20: for every value `A` of `active_ray_num_`, with
`step = max(A / 100, 10)`, the start indexes `j = 0, step, 2 * step, ...` below
`A` of the job loop of a `TraceRays` step give stripes
`[j, j + min(A - j, step))` such that every ray slot below `A` lies in exactly
one stripe and every stripe lies below `A`; likewise every child slot below
`2 * A` lies in exactly one of the ranges `[2j, 2j + 2 * min(A - j, step))`, each
of which lies below `2 * A`; the fan-out runs one job per start index, and a job
leaves buffer 0 and every slot of buffer 1 outside its own range untouched. -/
theorem C20_stripes_partition_live_slots (A : Nat) :
    stripeStep A = max (A / 100) 10 ∧
    (∀ j, j ∈ stripeStarts A (stripeStep A) A 0 ↔ (∃ k, j = k * stripeStep A) ∧ j < A) ∧
    (∀ x, x < A → ∃ j, j ∈ stripeStarts A (stripeStep A) A 0 ∧ InStripe A (stripeStep A) j x ∧
      ∀ j', j' ∈ stripeStarts A (stripeStep A) A 0 → InStripe A (stripeStep A) j' x → j' = j) ∧
    (∀ j x, j ∈ stripeStarts A (stripeStep A) A 0 → InStripe A (stripeStep A) j x → x < A) ∧
    (∀ y, y < 2 * A → ∃ j, j ∈ stripeStarts A (stripeStep A) A 0 ∧
      InChildStripe A (stripeStep A) j y ∧
      ∀ j', j' ∈ stripeStarts A (stripeStep A) A 0 → InChildStripe A (stripeStep A) j' y →
        j' = j) ∧
    (∀ j y, j ∈ stripeStarts A (stripeStep A) A 0 → InChildStripe A (stripeStep A) j y →
      y < 2 * A) ∧
    (∀ (env : Env) (crystal : Crystal) (n : ℚ) (s : Simulator), s.active_ray_num_ = A →
      (traceFanOut env crystal n s).buffer_ =
        (stripeStarts A (stripeStep A) A 0).foldl
          (fun b j => traceJob env crystal n (min (A - j) (stripeStep A)) b j) s.buffer_) ∧
    (∀ (env : Env) (crystal : Crystal) (n : ℚ) (b : SimulationBufferData) (j y : Nat),
      ¬ InChildStripe A (stripeStep A) j y →
      (traceJob env crystal n (min (A - j) (stripeStep A)) b j).pt 1 y = b.pt 1 y ∧
      (traceJob env crystal n (min (A - j) (stripeStep A)) b j).dir 1 y = b.dir 1 y ∧
      (traceJob env crystal n (min (A - j) (stripeStep A)) b j).w 1 y = b.w 1 y ∧
      (traceJob env crystal n (min (A - j) (stripeStep A)) b j).face_id 1 y = b.face_id 1 y ∧
      (traceJob env crystal n (min (A - j) (stripeStep A)) b j).pt 0 = b.pt 0 ∧
      (traceJob env crystal n (min (A - j) (stripeStep A)) b j).dir 0 = b.dir 0 ∧
      (traceJob env crystal n (min (A - j) (stripeStep A)) b j).w 0 = b.w 0 ∧
      (traceJob env crystal n (min (A - j) (stripeStep A)) b j).face_id 0 = b.face_id 0 ∧
      (traceJob env crystal n (min (A - j) (stripeStep A)) b j).ray_seg = b.ray_seg) := by
  refine ⟨rfl, mem_starts_iff A, ?_, ?_, ?_, ?_, ?_, ?_⟩
  · intro x hx
    obtain ⟨h1, h2⟩ := stripe_of_slot A x hx
    exact ⟨_, h1, h2, fun j' hj' hin => stripe_unique A x j' hj' hin⟩
  · intro j x _ hin
    exact stripe_within A j x hin
  · intro y hy
    obtain ⟨h1, h2⟩ := stripe_of_slot A (y / 2) (by omega)
    exact ⟨_, h1, (child_stripe_iff A _ _ y).mpr h2,
      fun j' hj' hin => stripe_unique A (y / 2) j' hj' ((child_stripe_iff A _ j' y).mp hin)⟩
  · intro j y _ hin
    have := stripe_within A j (y / 2) ((child_stripe_iff A _ j y).mp hin)
    omega
  · intro env crystal n s hs
    subst hs
    rfl
  · intro env crystal n b j y hy
    exact traceJob_outside env crystal n _ b j y hy

theorem TraceRays_heads_length (ctx : ProjectContext) (env : Env) (crystal : Crystal)
    (filter : AbstractRayPathFilter) (n : ℚ) :
    ∀ (k : Nat) (s : Simulator),
      (Simulator.TraceRays_heads ctx env crystal filter n k s).length = k := by
  intro k
  induction k with
  | zero => intro s; rfl
  | succ k ih =>
    intro s
    simp only [Simulator.TraceRays_heads, List.length_cons, ih]

theorem TraceRays_idle (ctx : ProjectContext) (env : Env) (crystal : Crystal)
    (filter : AbstractRayPathFilter) (n : ℚ) (s : Simulator) (h : s.active_ray_num_ = 0) :
    ∀ k, (List.range k).foldl
      (fun t (_ : Nat) => Simulator.TraceRays_step ctx env crystal filter n t) s = s := by
  intro k
  refine foldl_inv (fun t : Simulator => t = s) _ _ _ rfl ?_
  intro t _ _ ht
  subst ht
  exact TraceRays_step_zero ctx env crystal filter n _ h

theorem TraceRays_heads_idle (ctx : ProjectContext) (env : Env) (crystal : Crystal)
    (filter : AbstractRayPathFilter) (n : ℚ) (s : Simulator) (h : s.active_ray_num_ = 0) :
    ∀ k, Simulator.TraceRays_heads ctx env crystal filter n k s = List.replicate k s := by
  intro k
  induction k with
  | zero => rfl
  | succ k ih =>
    simp only [Simulator.TraceRays_heads, List.replicate_succ,
      TraceRays_step_zero ctx env crystal filter n s h, ih]

set_option maxRecDepth 100000 in
/-- Counterexample for C19 as stated: in the one-pass example run with three hits
allowed, `RefreshBuffer` leaves `active_ray_num_` equal to zero in the first
iteration of the hit loop, and the loop still executes its second and third
iteration (both entered with `active_ray_num_ = 0`). -/
theorem C19_hit_loop_runs_on_after_live_set_empties :
    sampleThreeHits.GetRayHitNum = 3 ∧
    (Simulator.TraceRays_step sampleThreeHits sampleEnv sampleCrystal ⟨fun _ _ _ => true⟩
      (IceRefractiveIndex.Get 550) sampleEntered).active_ray_num_ = 0 ∧
    (Simulator.TraceRays_heads sampleThreeHits sampleEnv sampleCrystal ⟨fun _ _ _ => true⟩
      (IceRefractiveIndex.Get 550) 3 sampleEntered).map (fun t => t.active_ray_num_) =
        [1, 0, 0] := by
  refine ⟨rfl, by decide!, by decide!⟩

/-- Claim C19, amended: the hit loop of `TraceRays` always executes
`max_recursion_num` iterations; from a state whose `active_ray_num_` is zero (as
`RefreshBuffer` leaves it when the live set empties) an iteration submits no
kernel job and leaves the simulator state unchanged, so the remaining
iterations change nothing and `TraceRays` returns that state. -/
theorem C19_idle_steps_after_live_set_empties (ctx : ProjectContext) (env : Env)
    (crystal : Crystal) (filter : AbstractRayPathFilter) :
    (∀ (n : ℚ) (k : Nat) (s : Simulator),
      (Simulator.TraceRays_heads ctx env crystal filter n k s).length = k) ∧
    (∀ (n : ℚ) (s : Simulator), s.active_ray_num_ = 0 →
      stripeStarts s.active_ray_num_ (max (s.active_ray_num_ / 100) 10) s.active_ray_num_ 0 =
        [] ∧
      Simulator.TraceRays_step ctx env crystal filter n s = s ∧
      (∀ k, Simulator.TraceRays_heads ctx env crystal filter n k s = List.replicate k s) ∧
      (∀ k, (List.range k).foldl
        (fun t (_ : Nat) => Simulator.TraceRays_step ctx env crystal filter n t) s = s)) ∧
    (∀ s t : Simulator, s.active_ray_num_ = 0 →
      Simulator.TraceRays ctx env crystal filter s = Except.ok t → t = s) := by
  refine ⟨fun n => TraceRays_heads_length ctx env crystal filter n, ?_,
    fun s t h ht => TraceRays_zero ctx env crystal filter s t h ht⟩
  intro n s h
  refine ⟨?_, TraceRays_step_zero ctx env crystal filter n s h,
    TraceRays_heads_idle ctx env crystal filter n s h,
    TraceRays_idle ctx env crystal filter n s h⟩
  rw [h]
  rfl

theorem PoolAgree_refl (p : RaySegmentPool) : PoolAgree p p := ⟨rfl, fun _ _ => rfl⟩

theorem traceJob_keep0 (env : Env) (crystal : Crystal) (n : ℚ) (cur : Nat)
    (b : SimulationBufferData) (j : Nat) :
    (traceJob env crystal n cur b j).pt 0 = b.pt 0 ∧
    (traceJob env crystal n cur b j).dir 0 = b.dir 0 ∧
    (traceJob env crystal n cur b j).w 0 = b.w 0 ∧
    (traceJob env crystal n cur b j).face_id 0 = b.face_id 0 ∧
    (traceJob env crystal n cur b j).ray_seg = b.ray_seg := by
  simp [traceJob]

theorem stripes_keep0 (env : Env) (crystal : Crystal) (n : ℚ) (A step : Nat) (l : List Nat)
    (b : SimulationBufferData) :
    (l.foldl (fun b j => traceJob env crystal n (min (A - j) step) b j) b).pt 0 = b.pt 0 ∧
    (l.foldl (fun b j => traceJob env crystal n (min (A - j) step) b j) b).dir 0 = b.dir 0 ∧
    (l.foldl (fun b j => traceJob env crystal n (min (A - j) step) b j) b).w 0 = b.w 0 ∧
    (l.foldl (fun b j => traceJob env crystal n (min (A - j) step) b j) b).face_id 0 =
      b.face_id 0 ∧
    (l.foldl (fun b j => traceJob env crystal n (min (A - j) step) b j) b).ray_seg =
      b.ray_seg := by
  refine foldl_inv (fun x : SimulationBufferData => x.pt 0 = b.pt 0 ∧ x.dir 0 = b.dir 0 ∧
    x.w 0 = b.w 0 ∧ x.face_id 0 = b.face_id 0 ∧ x.ray_seg = b.ray_seg) _ _ _
    ⟨rfl, rfl, rfl, rfl, rfl⟩ ?_
  intro x j _ hx
  obtain ⟨k1, k2, k3, k4, k5⟩ := traceJob_keep0 env crystal n (min (A - j) step) x j
  exact ⟨k1.trans hx.1, k2.trans hx.2.1, k3.trans hx.2.2.1, k4.trans hx.2.2.2.1,
    k5.trans hx.2.2.2.2⟩

theorem Store_slot_same (ctx : ProjectContext) (crystal : Crystal)
    (filter : AbstractRayPathFilter) (t : Simulator) (i : Nat) :
    (Simulator.StoreRaySegments_slot ctx crystal filter t i).current_wavelength_index_ =
      t.current_wavelength_index_ ∧
    (Simulator.StoreRaySegments_slot ctx crystal filter t i).total_ray_num_ = t.total_ray_num_ ∧
    (Simulator.StoreRaySegments_slot ctx crystal filter t i).active_ray_num_ =
      t.active_ray_num_ ∧
    (Simulator.StoreRaySegments_slot ctx crystal filter t i).enter_ray_offset_ =
      t.enter_ray_offset_ ∧
    (Simulator.StoreRaySegments_slot ctx crystal filter t i).enter_ray_data_ =
      t.enter_ray_data_ ∧
    (Simulator.StoreRaySegments_slot ctx crystal filter t i).rays_ = t.rays_ ∧
    (Simulator.StoreRaySegments_slot ctx crystal filter t i).final_ray_segments_ =
      t.final_ray_segments_ ∧
    (Simulator.StoreRaySegments_slot ctx crystal filter t i).rng = t.rng ∧
    (Simulator.StoreRaySegments_slot ctx crystal filter t i).buffer_size_ = t.buffer_size_ ∧
    (Simulator.StoreRaySegments_slot ctx crystal filter t i).buffer_.ray_num =
      t.buffer_.ray_num := by
  unfold Simulator.StoreRaySegments_slot
  dsimp only
  split_ifs <;> exact ⟨rfl, rfl, rfl, rfl, rfl, rfl, rfl, rfl, rfl, rfl⟩

theorem Refresh_same (ctx : ProjectContext) (t : Simulator) :
    (Simulator.RefreshBuffer ctx t).current_wavelength_index_ = t.current_wavelength_index_ ∧
    (Simulator.RefreshBuffer ctx t).total_ray_num_ = t.total_ray_num_ ∧
    (Simulator.RefreshBuffer ctx t).enter_ray_offset_ = t.enter_ray_offset_ ∧
    (Simulator.RefreshBuffer ctx t).enter_ray_data_ = t.enter_ray_data_ ∧
    (Simulator.RefreshBuffer ctx t).rays_ = t.rays_ ∧
    (Simulator.RefreshBuffer ctx t).exit_ray_segments_ = t.exit_ray_segments_ ∧
    (Simulator.RefreshBuffer ctx t).final_ray_segments_ = t.final_ray_segments_ ∧
    (Simulator.RefreshBuffer ctx t).rng = t.rng ∧
    (Simulator.RefreshBuffer ctx t).pool = t.pool ∧
    (Simulator.RefreshBuffer ctx t).buffer_size_ = t.buffer_size_ :=
  ⟨rfl, rfl, rfl, rfl, rfl, rfl, rfl, rfl, rfl, rfl⟩

theorem grow_keeps (s : Simulator) (hr : Roomy s) :
    Wide s.growForTrace ∧ CoreAgree s s.growForTrace ∧
    ∀ k, k < s.active_ray_num_ → SlotAgree s.buffer_ s.growForTrace.buffer_ 0 k ∧
      s.growForTrace.buffer_.ray_seg 0 k = s.buffer_.ray_seg 0 k := by
  obtain ⟨r1, r2⟩ := hr
  unfold Simulator.growForTrace
  split_ifs with h
  · refine ⟨⟨rfl, ?_⟩, ⟨rfl, rfl, rfl, rfl, rfl, rfl, rfl, rfl, rfl, PoolAgree_refl _⟩, ?_⟩
    · show 2 * s.active_ray_num_ ≤ s.active_ray_num_ * kBufferSizeFactor
      unfold kBufferSizeFactor
      omega
    · intro k hk
      have hk' : k < min s.buffer_.ray_num (s.active_ray_num_ * kBufferSizeFactor) := by
        unfold kBufferSizeFactor
        omega
      obtain ⟨a1, a2, a3, a4, a5⟩ := (Allocate_keeps_head s.buffer_ _).2 0 k hk'
      exact ⟨⟨a1, a2, a3, a4⟩, a5⟩
  · exact ⟨⟨r1, by omega⟩, ⟨rfl, rfl, rfl, rfl, rfl, rfl, rfl, rfl, rfl, PoolAgree_refl _⟩,
      fun k _ => ⟨⟨rfl, rfl, rfl, rfl⟩, rfl⟩⟩

theorem step_roomy (ctx : ProjectContext) (env : Env) (crystal : Crystal)
    (filter : AbstractRayPathFilter) (n : ℚ) (s : Simulator) (hw : Wide s.growForTrace) :
    Roomy (Simulator.TraceRays_step ctx env crystal filter n s) ∧
    s.pool.next_unused_id ≤
      (Simulator.TraceRays_step ctx env crystal filter n s).pool.next_unused_id ∧
    (Simulator.TraceRays_step ctx env crystal filter n s).enter_ray_data_ =
      s.enter_ray_data_ := by
  obtain ⟨w1, w2⟩ := hw
  have hg : s.growForTrace.pool = s.pool ∧ s.growForTrace.active_ray_num_ = s.active_ray_num_ := by
    unfold Simulator.growForTrace
    split_ifs <;> exact ⟨rfl, rfl⟩
  have f1 : (traceFanOut env crystal n s.growForTrace).buffer_.ray_num =
      s.growForTrace.buffer_.ray_num :=
    foldl_inv (fun b : SimulationBufferData => b.ray_num = s.growForTrace.buffer_.ray_num)
      _ _ _ rfl (fun b j _ hb => hb)
  have f2 : (traceFanOut env crystal n s.growForTrace).buffer_size_ =
      s.growForTrace.buffer_size_ := rfl
  have f3 : (traceFanOut env crystal n s.growForTrace).active_ray_num_ =
      s.growForTrace.active_ray_num_ := rfl
  have f4 : (traceFanOut env crystal n s.growForTrace).pool = s.growForTrace.pool := rfl
  have st := foldl_inv (fun u : Simulator =>
      u.buffer_.ray_num = (traceFanOut env crystal n s.growForTrace).buffer_.ray_num ∧
      u.buffer_size_ = (traceFanOut env crystal n s.growForTrace).buffer_size_)
    (Simulator.StoreRaySegments_slot ctx crystal filter)
    (List.range ((traceFanOut env crystal n s.growForTrace).active_ray_num_ * 2))
    (traceFanOut env crystal n s.growForTrace) ⟨rfl, rfl⟩
    (fun u i _ hu => ⟨(Store_slot_same ctx crystal filter u i).2.2.2.2.2.2.2.2.2.trans hu.1,
      (Store_slot_same ctx crystal filter u i).2.2.2.2.2.2.2.2.1.trans hu.2⟩)
  have sc := StoreCreated_final ctx crystal filter (traceFanOut env crystal n s.growForTrace)
  have ri := RefreshInv_final ctx
    (Simulator.StoreRaySegments ctx crystal filter (traceFanOut env crystal n s.growForTrace))
  have rn : (Simulator.TraceRays_step ctx env crystal filter n s).buffer_.ray_num =
      (Simulator.StoreRaySegments ctx crystal filter
        (traceFanOut env crystal n s.growForTrace)).buffer_.ray_num :=
    foldl_inv (fun acc : SimulationBufferData × Nat => acc.1.ray_num =
        (Simulator.StoreRaySegments ctx crystal filter
          (traceFanOut env crystal n s.growForTrace)).buffer_.ray_num)
      (Simulator.RefreshBuffer_slot ctx) _ (_, 0) rfl
      (fun acc i _ hacc => by
        unfold Simulator.RefreshBuffer_slot
        split_ifs
        · exact hacc
        · exact hacc)
  have hsize : (Simulator.TraceRays_step ctx env crystal filter n s).buffer_size_ =
      s.growForTrace.buffer_size_ := st.2.trans f2
  have hact : (Simulator.TraceRays_step ctx env crystal filter n s).active_ray_num_ ≤
      2 * s.growForTrace.active_ray_num_ := by
    have h1 := ri.1
    have h2 : (Simulator.StoreRaySegments ctx crystal filter
        (traceFanOut env crystal n s.growForTrace)).active_ray_num_ =
        s.growForTrace.active_ray_num_ := sc.1.trans f3
    rw [h2] at h1
    have h3 : (Simulator.TraceRays_step ctx env crystal filter n s).active_ray_num_ ≤
        s.growForTrace.active_ray_num_ * 2 := h1
    omega
  refine ⟨⟨?_, ?_⟩, ?_, ?_⟩
  · rw [rn, hsize]
    exact (st.1.trans f1).trans w1
  · rw [hsize]
    omega
  · have h5 := sc.2.2.2.2.1
    rw [f4, hg.1] at h5
    exact h5
  · exact (TraceRays_step_frame ctx env crystal filter n s).2.2.2.1

theorem crystalBegin_fields (c : CrystalInfo) (s : Simulator) :
    (Simulator.crystalBegin c s).current_wavelength_index_ = s.current_wavelength_index_ ∧
    (Simulator.crystalBegin c s).total_ray_num_ = s.total_ray_num_ ∧
    (Simulator.crystalBegin c s).active_ray_num_ = activeOf c s.total_ray_num_ ∧
    (Simulator.crystalBegin c s).enter_ray_offset_ = s.enter_ray_offset_ ∧
    (Simulator.crystalBegin c s).enter_ray_data_ = s.enter_ray_data_ ∧
    (Simulator.crystalBegin c s).rays_ = s.rays_ ∧
    (Simulator.crystalBegin c s).exit_ray_segments_ = s.exit_ray_segments_ ∧
    (Simulator.crystalBegin c s).final_ray_segments_ = s.final_ray_segments_ ∧
    (Simulator.crystalBegin c s).rng = s.rng ∧
    (Simulator.crystalBegin c s).pool = s.pool ∧
    s.total_ray_num_ * kBufferSizeFactor ≤ (Simulator.crystalBegin c s).buffer_size_ := by
  unfold Simulator.crystalBegin
  dsimp only
  split_ifs with h
  · exact ⟨rfl, rfl, rfl, rfl, rfl, rfl, rfl, rfl, rfl, rfl, le_refl _⟩
  · exact ⟨rfl, rfl, rfl, rfl, rfl, rfl, rfl, rfl, rfl, rfl, not_lt.mp h⟩

theorem InitEntryRays_roomy (env : Env) (c : CrystalContext) (s : Simulator) (h : Roomy s) :
    Roomy (Simulator.InitEntryRays env c s) := by
  have := foldl_inv (fun u : Simulator => u.buffer_.ray_num = s.buffer_.ray_num ∧
      u.buffer_size_ = s.buffer_size_ ∧ u.active_ray_num_ = s.active_ray_num_)
    (Simulator.InitEntryRays_ray env c) (List.range s.active_ray_num_) s ⟨rfl, rfl, rfl⟩
    (fun u i _ hu => hu)
  obtain ⟨a1, a2, a3⟩ := this
  unfold Roomy Simulator.InitEntryRays
  rw [a1, a2, a3]
  exact h

theorem activeOf_le_total (c : CrystalInfo) (T : Nat) (h0 : 0 ≤ c.population)
    (h1 : c.population ≤ 1) (hT : T < 16777216) : activeOf c T ≤ T := by
  have h2 := activeOf_le c T h0 hT
  have hT0 : (0 : ℚ) ≤ (T : ℚ) := Nat.cast_nonneg T
  refine window_inside T (activeOf c T) 0 (le_refl _) hT ?_
  nlinarith

theorem heads_roomy (ctx : ProjectContext) (env : Env) (crystal : Crystal)
    (filter : AbstractRayPathFilter) (n : ℚ) :
    ∀ (k : Nat) (s : Simulator), Roomy s →
      ∀ h, h ∈ Simulator.TraceRays_heads ctx env crystal filter n k s → Roomy h := by
  intro k
  induction k with
  | zero =>
    intro s _ h hh
    cases hh
  | succ k ih =>
    intro s hs h hh
    simp only [Simulator.TraceRays_heads, List.mem_cons] at hh
    rcases hh with rfl | hh
    · exact hs
    · exact ih _ (step_roomy ctx env crystal filter n s (grow_keeps s hs).1).1 h hh

theorem step_capacity (ctx : ProjectContext) (env : Env) (crystal : Crystal)
    (filter : AbstractRayPathFilter) (n : ℚ) (g : Simulator) :
    (traceFanOut env crystal n g).buffer_.ray_num = g.buffer_.ray_num ∧
    (traceFanOut env crystal n g).active_ray_num_ = g.active_ray_num_ ∧
    (Simulator.StoreRaySegments ctx crystal filter (traceFanOut env crystal n g)).buffer_.ray_num =
      g.buffer_.ray_num ∧
    (Simulator.StoreRaySegments ctx crystal filter
      (traceFanOut env crystal n g)).active_ray_num_ = g.active_ray_num_ := by
  have f1 : (traceFanOut env crystal n g).buffer_.ray_num = g.buffer_.ray_num :=
    foldl_inv (fun b : SimulationBufferData => b.ray_num = g.buffer_.ray_num)
      _ _ _ rfl (fun b j _ hb => hb)
  have st := foldl_inv (fun u : Simulator =>
      u.buffer_.ray_num = g.buffer_.ray_num ∧ u.active_ray_num_ = g.active_ray_num_)
    (Simulator.StoreRaySegments_slot ctx crystal filter)
    (List.range ((traceFanOut env crystal n g).active_ray_num_ * 2))
    (traceFanOut env crystal n g) ⟨f1, rfl⟩
    (fun u i _ hu => ⟨(Store_slot_same ctx crystal filter u i).2.2.2.2.2.2.2.2.2.trans hu.1,
      (Store_slot_same ctx crystal filter u i).2.2.1.trans hu.2⟩)
  exact ⟨f1, rfl, st.1, st.2⟩

theorem refresh_targets (ctx : ProjectContext) (b : SimulationBufferData) (i : Nat) :
    ((List.range i).foldl (Simulator.RefreshBuffer_slot ctx) (b, 0)).2 ≤ i ∧
    ((List.range i).foldl (Simulator.RefreshBuffer_slot ctx) (b, 0)).1.ray_num = b.ray_num := by
  refine foldl_range_inv (fun (j : Nat) (acc : SimulationBufferData × Nat) =>
    acc.2 ≤ j ∧ acc.1.ray_num = b.ray_num) (Simulator.RefreshBuffer_slot ctx) i (b, 0)
    ⟨le_refl _, rfl⟩ ?_
  intro j acc _ hacc
  unfold Simulator.RefreshBuffer_slot
  split_ifs
  · exact ⟨Nat.succ_le_succ hacc.1, hacc.2⟩
  · exact ⟨Nat.le_succ_of_le hacc.1, hacc.2⟩

set_option maxRecDepth 100000 in
/-- Counterexample for C21 as stated: with `2^24 + 3` initial rays and one
crystal of population 1, the `float` product `population * total_ray_num_`
rounds to `2^24 + 4`, so when `InitEntryRays` is called `active_ray_num_` is
16777220 while the capacity is `16777219 * 4 = 67108876`, which is less than
`active_ray_num_ * 4 = 67108880`. -/
theorem C21_rounded_product_exceeds_quarter_capacity :
    (0 : ℚ) ≤ (⟨0, 1, 0⟩ : CrystalInfo).population ∧
    (⟨0, 1, 0⟩ : CrystalInfo).population ≤ 1 ∧
    Synced sampleLargeStart ∧ sampleLargeStart.total_ray_num_ = 16777219 ∧
    (Simulator.crystalBegin ⟨0, 1, 0⟩ sampleLargeStart).active_ray_num_ = 16777220 ∧
    (Simulator.crystalBegin ⟨0, 1, 0⟩ sampleLargeStart).buffer_.ray_num = 67108876 ∧
    ¬ ((Simulator.crystalBegin ⟨0, 1, 0⟩ sampleLargeStart).active_ray_num_ * 4 ≤
      (Simulator.crystalBegin ⟨0, 1, 0⟩ sampleLargeStart).buffer_.ray_num) := by
  refine ⟨by decide!, by decide!, ?_, by decide!, by decide!, by decide!, by decide!⟩
  unfold Synced
  decide!

/-- Claim C21, amended: with `kBufferSizeFactor = 4`, a crystal population in
`[0, 1]` and `buffer_size_` equal to the buffer capacity, when `InitEntryRays`
is called the capacity is at least `total_ray_num_ * 4` and at least
`active_ray_num_`, and at least `active_ray_num_ * 4` when `total_ray_num_` is
below `2^24`; `InitEntryRays` leaves the capacity unchanged; at the head of
every iteration of the hit loop of `TraceRays` started with `active_ray_num_`
within the capacity, after the growth the capacity is at
least `2 * active_ray_num_`, the kernels and `StoreRaySegments` change neither
the capacity nor `active_ray_num_`, the compaction target `idx` of
`RefreshBuffer` when it reaches child slot `i` is at most `i`, and
`RefreshBuffer` keeps the capacity. So the slots `i < active_ray_num_` of
buffer 0, `i < 2 * active_ray_num_` of buffer 1 and every compaction target are
below the capacity. -/
theorem C21_slot_indexes_below_capacity (ctx : ProjectContext) (env : Env) :
    kBufferSizeFactor = 4 ∧
    (∀ (c : CrystalInfo) (cc : CrystalContext) (s : Simulator),
      0 ≤ c.population → c.population ≤ 1 → Synced s →
      (Simulator.crystalBegin c s).total_ray_num_ * 4 ≤
        (Simulator.crystalBegin c s).buffer_.ray_num ∧
      (Simulator.crystalBegin c s).active_ray_num_ ≤
        (Simulator.crystalBegin c s).buffer_.ray_num ∧
      (s.total_ray_num_ < 16777216 →
        (Simulator.crystalBegin c s).active_ray_num_ * 4 ≤
          (Simulator.crystalBegin c s).buffer_.ray_num) ∧
      (Simulator.InitEntryRays env cc (Simulator.crystalBegin c s)).buffer_.ray_num =
        (Simulator.crystalBegin c s).buffer_.ray_num ∧
      Roomy (Simulator.InitEntryRays env cc (Simulator.crystalBegin c s)).advanceOffset) ∧
    (∀ (crystal : Crystal) (filter : AbstractRayPathFilter) (n : ℚ) (k : Nat) (s : Simulator),
      Roomy s → ∀ h, h ∈ Simulator.TraceRays_heads ctx env crystal filter n k s →
        h.growForTrace.active_ray_num_ = h.active_ray_num_ ∧
        2 * h.active_ray_num_ ≤ h.growForTrace.buffer_.ray_num ∧
        (traceFanOut env crystal n h.growForTrace).buffer_.ray_num =
          h.growForTrace.buffer_.ray_num ∧
        (traceFanOut env crystal n h.growForTrace).active_ray_num_ = h.active_ray_num_ ∧
        (Simulator.StoreRaySegments ctx crystal filter
          (traceFanOut env crystal n h.growForTrace)).buffer_.ray_num =
          h.growForTrace.buffer_.ray_num ∧
        (Simulator.StoreRaySegments ctx crystal filter
          (traceFanOut env crystal n h.growForTrace)).active_ray_num_ = h.active_ray_num_ ∧
        (∀ i, i < 2 * h.active_ray_num_ →
          ((List.range i).foldl (Simulator.RefreshBuffer_slot ctx)
            ((Simulator.StoreRaySegments ctx crystal filter
              (traceFanOut env crystal n h.growForTrace)).buffer_, 0)).2 <
            h.growForTrace.buffer_.ray_num ∧
          ((List.range i).foldl (Simulator.RefreshBuffer_slot ctx)
            ((Simulator.StoreRaySegments ctx crystal filter
              (traceFanOut env crystal n h.growForTrace)).buffer_, 0)).1.ray_num =
            h.growForTrace.buffer_.ray_num) ∧
        (Simulator.TraceRays_step ctx env crystal filter n h).buffer_.ray_num =
          h.growForTrace.buffer_.ray_num ∧
        (Simulator.TraceRays_step ctx env crystal filter n h).active_ray_num_ ≤
          (Simulator.TraceRays_step ctx env crystal filter n h).buffer_.ray_num) := by
  refine ⟨rfl, ?_, ?_⟩
  · intro c cc s h0 h1 ys
    obtain ⟨-, a2, a3, -, -, -, -, -, -, -, a11⟩ := crystalBegin_fields c s
    have hsy : Synced (Simulator.crystalBegin c s) :=
      (GrowthSite_cap _ _ _ (crystalBegin_site c s ys) ys).1
    have hle := activeOf_le_cap c s.total_ray_num_ h0 h1
    unfold Synced at hsy
    unfold kBufferSizeFactor at a11
    have htot : (Simulator.crystalBegin c s).total_ray_num_ * 4 ≤
        (Simulator.crystalBegin c s).buffer_.ray_num := by
      rw [hsy, a2]
      exact a11
    have hact : (Simulator.crystalBegin c s).active_ray_num_ ≤
        (Simulator.crystalBegin c s).buffer_.ray_num := by
      rw [hsy, a3]
      omega
    have hcap : s.total_ray_num_ < 16777216 →
        (Simulator.crystalBegin c s).active_ray_num_ * 4 ≤
          (Simulator.crystalBegin c s).buffer_.ray_num := by
      intro hT
      have hex := activeOf_le_total c s.total_ray_num_ h0 h1 hT
      rw [hsy, a3]
      omega
    have hr : Roomy (Simulator.crystalBegin c s) := ⟨hsy, by rw [← hsy]; exact hact⟩
    have hi := InitEntryRays_roomy env cc _ hr
    refine ⟨htot, hact, hcap, ?_, hi⟩
    exact foldl_inv (fun u : Simulator =>
        u.buffer_.ray_num = (Simulator.crystalBegin c s).buffer_.ray_num)
      (Simulator.InitEntryRays_ray env cc) _ _ rfl (fun u i _ hu => hu)
  · intro crystal filter n k s hs h hh
    have hr := heads_roomy ctx env crystal filter n k s hs h hh
    obtain ⟨⟨w1, w2⟩, -, -⟩ := grow_keeps h hr
    have hga : h.growForTrace.active_ray_num_ = h.active_ray_num_ := by
      unfold Simulator.growForTrace
      split_ifs <;> rfl
    rw [hga] at w2
    obtain ⟨c1, c2, c3, c4⟩ := step_capacity ctx env crystal filter n h.growForTrace
    obtain ⟨⟨r1, r2⟩, -, -⟩ := step_roomy ctx env crystal filter n h ⟨w1, by rw [hga]; exact w2⟩
    have hstep : (Simulator.TraceRays_step ctx env crystal filter n h).buffer_.ray_num =
        h.growForTrace.buffer_.ray_num :=
      (refresh_targets ctx _ _).2.trans c3
    refine ⟨hga, by rw [w1]; exact w2, c1, c2.trans hga, c3, c4.trans hga, ?_, hstep, ?_⟩
    · intro i hi
      obtain ⟨t1, t2⟩ := refresh_targets ctx (Simulator.StoreRaySegments ctx crystal filter
        (traceFanOut env crystal n h.growForTrace)).buffer_ i
      refine ⟨?_, t2.trans c3⟩
      rw [w1]
      omega
    · rw [r1]
      exact r2

set_option maxRecDepth 100000 in
/-- Witness for C21: in the state of the one-pass example run right before
`InitEntryRays` (one ray, `buffer_size_` equal to the capacity 4), the head of
the crystal loop for a crystal of population 1 sets one active ray and keeps the
capacity 4, which is `active_ray_num_ * 4`. -/
theorem C21_witness :
    Synced sampleSeeded ∧ sampleSeeded.total_ray_num_ = 1 ∧
    (Simulator.crystalBegin ⟨0, 1, 0⟩ sampleSeeded).active_ray_num_ = 1 ∧
    (Simulator.crystalBegin ⟨0, 1, 0⟩ sampleSeeded).buffer_.ray_num = 4 ∧
    (Simulator.crystalBegin ⟨0, 1, 0⟩ sampleSeeded).active_ray_num_ * 4 ≤
      (Simulator.crystalBegin ⟨0, 1, 0⟩ sampleSeeded).buffer_.ray_num := by
  have hs : Synced sampleSeeded := by
    unfold Synced
    decide!
  exact ⟨hs, by decide!, by decide!, by decide!,
    ((C21_slot_indexes_below_capacity (sampleCtx sampleOnePass) sampleEnv).2.1 ⟨0, 1, 0⟩
      ((sampleCtx sampleOnePass).GetCrystalContext 0) sampleSeeded (by decide!) (by decide!)
      hs).2.2.1 (by decide!)⟩

theorem entryProbRaw_sum (crystal : Crystal) (d : Vec3) (n : Nat) :
    ((List.range n).foldl (entryProbFace crystal d) (fun _ => 0, 0)).2 =
      Finset.sum (Finset.range n) (entryFaceWeight crystal d) := by
  induction n with
  | zero => simp
  | succ n ih =>
    rw [List.range_succ, List.foldl_append, Finset.sum_range_succ, ← ih]
    simp only [List.foldl_cons, List.foldl_nil]
    unfold entryProbFace entryFaceWeight
    dsimp only
    split_ifs
    · rfl
    · exact (add_zero _).symm

theorem entryFaceWeight_nonneg (crystal : Crystal) (d : Vec3) (k : Nat) :
    0 ≤ entryFaceWeight crystal d k := by
  unfold entryFaceWeight
  split_ifs
  · exact le_max_right _ _
  · exact le_refl _

theorem entryFaceWeight_valid (crystal : Crystal) (d : Vec3) (k : Nat)
    (h1 : crystal.face_norm_isnan k = false) (h2 : crystal.face_area k > 0) :
    entryFaceWeight crystal d k =
      max 0 (-(Math.Dot3 (crystal.face_norm k) d)) * crystal.face_area k := by
  unfold entryFaceWeight
  rw [if_pos ⟨h1, h2⟩, max_mul_of_nonneg _ _ (le_of_lt h2), zero_mul, max_comm]

theorem entryFaceWeight_degenerate (crystal : Crystal) (d : Vec3) (k : Nat)
    (h : crystal.face_norm_isnan k = true ∨ crystal.face_area k ≤ 0) :
    entryFaceWeight crystal d k = 0 := by
  unfold entryFaceWeight
  refine if_neg ?_
  rintro ⟨h1, h2⟩
  rcases h with h | h
  · rw [h1] at h
    cases h
  · exact absurd h2 (not_lt.mpr h)

theorem entryProbRaw_weight (crystal : Crystal) (d : Vec3) (k : Nat) :
    (entryProbRaw crystal d).1 k =
      if k < crystal.TotalFaces then entryFaceWeight crystal d k else 0 :=
  (entryProbRaw_fold crystal d crystal.TotalFaces).1 k

/-- Claim C22: in `InitEntryRays` the array handed to the face sampler is `prob`
computed from the crystal-frame direction `d` of the ray. After the first face
loop `prob[k]` is `max(0, -(n_k . d)) * area_k` for a face whose normal is not
NaN and whose area is positive, and 0 for a face with a NaN normal or without
positive area, which keeps 0 after the normalisation. Whenever some face has
positive weight, after the normalisation every `prob[k]` is non-negative and the
values of the faces sum to 1. -/
theorem C22_entry_face_weights (env : Env) (ctx : CrystalContext) (s : Simulator) (i : Nat)
    (crystal : Crystal) (d : Vec3) :
    (Simulator.InitEntryRays_sample env ctx s i).face =
      env.SampleIntProb (Simulator.InitMainAxis env ctx s.rng).2
        (slice (entryProb ctx.crystal (Simulator.InitEntryRays_sample env ctx s i).dir)
          0 ctx.crystal.TotalFaces) ∧
    (Simulator.InitEntryRays_sample env ctx s i).dir =
      env.RotateZ (Simulator.InitEntryRays_sample env ctx s i).axis_rot
        (s.enter_ray_data_.ray_dir (i + s.enter_ray_offset_)) ∧
    (∀ k, k < crystal.TotalFaces →
      (crystal.face_norm_isnan k = false → crystal.face_area k > 0 →
        (entryProbRaw crystal d).1 k =
          max 0 (-(Math.Dot3 (crystal.face_norm k) d)) * crystal.face_area k) ∧
      (crystal.face_norm_isnan k = true ∨ crystal.face_area k ≤ 0 →
        (entryProbRaw crystal d).1 k = 0 ∧ entryProb crystal d k = 0)) ∧
    ((∃ k, k < crystal.TotalFaces ∧ 0 < (entryProbRaw crystal d).1 k) →
      (∀ k, 0 ≤ entryProb crystal d k) ∧
      Finset.sum (Finset.range crystal.TotalFaces) (entryProb crystal d) = 1) := by
  refine ⟨rfl, rfl, fun k hk => ⟨fun h1 h2 => ?_, fun h => ?_⟩, ?_⟩
  · rw [entryProbRaw_weight, if_pos hk]
    exact entryFaceWeight_valid crystal d k h1 h2
  · rw [entryProbRaw_weight, entryProb_eq, if_pos hk, if_pos hk,
      entryFaceWeight_degenerate crystal d k h]
    exact ⟨rfl, zero_div _⟩
  · rintro ⟨k0, hk0, hpos⟩
    have hsum : (entryProbRaw crystal d).2 =
        Finset.sum (Finset.range crystal.TotalFaces) (entryFaceWeight crystal d) :=
      entryProbRaw_sum crystal d crystal.TotalFaces
    rw [entryProbRaw_weight, if_pos hk0] at hpos
    have hS : 0 < (entryProbRaw crystal d).2 := by
      rw [hsum]
      exact lt_of_lt_of_le hpos (Finset.single_le_sum
        (fun j _ => entryFaceWeight_nonneg crystal d j) (Finset.mem_range.mpr hk0))
    refine ⟨fun k => ?_, ?_⟩
    · rw [entryProb_eq]
      split_ifs
      · exact div_nonneg (entryFaceWeight_nonneg crystal d k) (le_of_lt hS)
      · exact le_refl _
    · have hcongr : Finset.sum (Finset.range crystal.TotalFaces) (entryProb crystal d) =
          Finset.sum (Finset.range crystal.TotalFaces)
            (fun k => entryFaceWeight crystal d k / (entryProbRaw crystal d).2) := by
        refine Finset.sum_congr rfl (fun k hk => ?_)
        rw [entryProb_eq, if_pos (Finset.mem_range.mp hk)]
      rw [hcongr, ← Finset.sum_div, ← hsum]
      exact div_self (ne_of_gt hS)

theorem slotExits_iff (ctx : ProjectContext) (crystal : Crystal)
    (filter : AbstractRayPathFilter) (s : Simulator) (i : Nat) :
    s.slotExits ctx crystal filter i = true ↔
      0 < s.buffer_.w 1 i ∧ s.slotPasses ctx crystal filter i = true ∧
      (s.buffer_.face_id 1 i < 0 ∨ s.buffer_.w 1 i < ctx.kPropMinW) := by
  obtain ⟨-, a2, a3, -⟩ := StoreLayout_before ctx crystal filter s i
  unfold Simulator.slotExits Simulator.storeAccepts Simulator.slotPasses
  rw [a2, a3]
  simp only [Bool.and_eq_true, Bool.or_eq_true, decide_eq_true_eq]

theorem slotKept_iff (ctx : ProjectContext) (crystal : Crystal)
    (filter : AbstractRayPathFilter) (s : Simulator) (i : Nat) :
    s.slotKept ctx crystal filter i = true ↔
      i < s.active_ray_num_ * 2 ∧ 0 ≤ s.buffer_.face_id 1 i ∧
      ctx.kPropMinW < s.buffer_.w 1 i := by
  obtain ⟨-, a2, a3, -⟩ := StoreLayout_before ctx crystal filter s (s.active_ray_num_ * 2)
  unfold Simulator.slotKept
  rw [decide_eq_true_eq, keptBefore_mem, storeBefore_all, a2, a3]

/-- Claim C23, amended: in a trace step, a child slot `i < 2 * active_ray_num_`
with `w > 0` whose segment the filter accepts is never both appended to the exit
list by `StoreRaySegments` and kept live by `RefreshBuffer`; it is neither of
the two exactly when it has a next face (`face_id >= 0`) and its weight equals
`kPropMinW`, and otherwise it is exactly one of the two. -/
theorem C23_accepted_child_exits_or_stays_off_boundary (ctx : ProjectContext) (crystal : Crystal)
    (filter : AbstractRayPathFilter) (s : Simulator) (i : Nat)
    (hi : i < s.active_ray_num_ * 2) (hw : 0 < s.buffer_.w 1 i)
    (hf : s.slotPasses ctx crystal filter i = true) :
    ¬ (s.slotExits ctx crystal filter i = true ∧ s.slotKept ctx crystal filter i = true) ∧
    ((s.slotExits ctx crystal filter i = false ∧ s.slotKept ctx crystal filter i = false) ↔
      (0 ≤ s.buffer_.face_id 1 i ∧ s.buffer_.w 1 i = ctx.kPropMinW)) := by
  have he := slotExits_iff ctx crystal filter s i
  have hk := slotKept_iff ctx crystal filter s i
  constructor
  · rintro ⟨h1, h2⟩
    obtain ⟨-, -, h3⟩ := he.mp h1
    obtain ⟨-, h4, h5⟩ := hk.mp h2
    rcases h3 with h3 | h3
    · exact absurd h4 (not_le.mpr h3)
    · exact absurd h5 (not_lt.mpr (le_of_lt h3))
  · constructor
    · rintro ⟨h1, h2⟩
      have n1 : ¬ (s.buffer_.face_id 1 i < 0 ∨ s.buffer_.w 1 i < ctx.kPropMinW) := by
        intro hx
        rw [he.mpr ⟨hw, hf, hx⟩] at h1
        cases h1
      have hface : 0 ≤ s.buffer_.face_id 1 i := not_lt.mp (fun hx => n1 (Or.inl hx))
      have hge : ctx.kPropMinW ≤ s.buffer_.w 1 i := not_lt.mp (fun hx => n1 (Or.inr hx))
      have n2 : ¬ ctx.kPropMinW < s.buffer_.w 1 i := by
        intro hx
        rw [hk.mpr ⟨hi, hface, hx⟩] at h2
        cases h2
      exact ⟨hface, le_antisymm (not_lt.mp n2) hge⟩
    · rintro ⟨h1, h2⟩
      constructor
      · cases hx : s.slotExits ctx crystal filter i with
        | false => rfl
        | true =>
          obtain ⟨-, -, h3⟩ := he.mp hx
          rcases h3 with h3 | h3
          · exact absurd h1 (not_le.mpr h3)
          · exact absurd h2 (ne_of_lt h3)
      · cases hx : s.slotKept ctx crystal filter i with
        | false => rfl
        | true =>
          obtain ⟨-, -, h3⟩ := hk.mp hx
          exact absurd h2.symm (ne_of_lt h3)

set_option maxRecDepth 100000 in
/-- Witness for C23: in the example step with the kernels of `boundaryEnv`,
child slot 1 has the weight 999/1000 and no next face, the filter accepts its
segment, and it is appended to the exit list and not kept live. -/
theorem C23_witness :
    1 < sampleBoundaryFanned.active_ray_num_ * 2 ∧
    sampleBoundaryFanned.buffer_.w 1 1 = 999 / 1000 ∧
    sampleBoundaryFanned.buffer_.face_id 1 1 = -1 ∧
    sampleBoundaryFanned.slotExits (sampleCtx sampleOnePass) sampleCrystal
      ((sampleCtx sampleOnePass).GetRayPathFilter 0) 1 = true ∧
    sampleBoundaryFanned.slotKept (sampleCtx sampleOnePass) sampleCrystal
      ((sampleCtx sampleOnePass).GetRayPathFilter 0) 1 = false ∧
    (¬ (sampleBoundaryFanned.slotExits (sampleCtx sampleOnePass) sampleCrystal
        ((sampleCtx sampleOnePass).GetRayPathFilter 0) 1 = true ∧
      sampleBoundaryFanned.slotKept (sampleCtx sampleOnePass) sampleCrystal
        ((sampleCtx sampleOnePass).GetRayPathFilter 0) 1 = true) ∧
    ((sampleBoundaryFanned.slotExits (sampleCtx sampleOnePass) sampleCrystal
        ((sampleCtx sampleOnePass).GetRayPathFilter 0) 1 = false ∧
      sampleBoundaryFanned.slotKept (sampleCtx sampleOnePass) sampleCrystal
        ((sampleCtx sampleOnePass).GetRayPathFilter 0) 1 = false) ↔
      (0 ≤ sampleBoundaryFanned.buffer_.face_id 1 1 ∧
        sampleBoundaryFanned.buffer_.w 1 1 = (sampleCtx sampleOnePass).kPropMinW))) :=
  ⟨by decide!, by decide!, by decide!, by decide!, by decide!,
    C23_accepted_child_exits_or_stays_off_boundary (sampleCtx sampleOnePass) sampleCrystal
      ((sampleCtx sampleOnePass).GetRayPathFilter 0) sampleBoundaryFanned 1
      (by decide!) (by decide!) (by decide!)⟩

set_option maxRecDepth 100000 in
/-- Counterexample for C23 as stated: in the example step with the kernels of
`boundaryEnv`, child slot 0 has the positive weight `kPropMinW = 1/1000` and a
next face, and the filter accepts its segment (handle 1); `StoreRaySegments`
appends only the segment of slot 1 (handle 2) to the exit list, `RefreshBuffer`
keeps no slot, and the step ends with no live ray: the child of slot 0 is
neither an exit segment nor a live slot. -/
theorem C23_boundary_weight_child_is_dropped :
    sampleBoundaryFanned.active_ray_num_ = 1 ∧
    sampleBoundaryFanned.buffer_.w 1 0 = (sampleCtx sampleOnePass).kPropMinW ∧
    0 < sampleBoundaryFanned.buffer_.w 1 0 ∧
    0 ≤ sampleBoundaryFanned.buffer_.face_id 1 0 ∧
    sampleBoundaryFanned.slotPasses (sampleCtx sampleOnePass) sampleCrystal
      ((sampleCtx sampleOnePass).GetRayPathFilter 0) 0 = true ∧
    sampleBoundaryFanned.childHandle 0 = 1 ∧
    sampleBoundaryFanned.slotExits (sampleCtx sampleOnePass) sampleCrystal
      ((sampleCtx sampleOnePass).GetRayPathFilter 0) 0 = false ∧
    sampleBoundaryFanned.slotKept (sampleCtx sampleOnePass) sampleCrystal
      ((sampleCtx sampleOnePass).GetRayPathFilter 0) 0 = false ∧
    sampleBoundaryFanned.exit_ray_segments_ = [[]] ∧
    (Simulator.StoreRaySegments (sampleCtx sampleOnePass) sampleCrystal
      ((sampleCtx sampleOnePass).GetRayPathFilter 0)
      sampleBoundaryFanned).exit_ray_segments_ = [[2]] ∧
    (Simulator.TraceRays_step (sampleCtx sampleOnePass) boundaryEnv sampleCrystal
      ((sampleCtx sampleOnePass).GetRayPathFilter 0) (IceRefractiveIndex.Get 550)
      sampleEntered).active_ray_num_ = 0 ∧
    (Simulator.TraceRays_step (sampleCtx sampleOnePass) boundaryEnv sampleCrystal
      ((sampleCtx sampleOnePass).GetRayPathFilter 0) (IceRefractiveIndex.Get 550)
      sampleEntered).exit_ray_segments_ = [[2]] := by
  refine ⟨by decide!, by decide!, by decide!, by decide!, by decide!, by decide!, by decide!,
    by decide!, by decide!, by decide!, by decide!, by decide!⟩

theorem LoadDataFromFile_empty (kMin kMax : Int) (uninit : Nat → ℚ) :
    SpectrumRenderer.LoadDataFromFile kMin kMax uninit [] = (-1, none) := by
  simp [SpectrumRenderer.LoadDataFromFile, fileRead]

theorem LoadDataFromFile_bad_header (kMin kMax : Int) (uninit : Nat → ℚ) (wl weight : ℚ)
    (rays : List ℚ) (h : truncToInt wl < kMin ∨ truncToInt wl > kMax ∨ weight < 0) :
    SpectrumRenderer.LoadDataFromFile kMin kMax uninit (wl :: weight :: rays) = (-1, none) := by
  unfold SpectrumRenderer.LoadDataFromFile
  have hc1 : (fileRead (wl :: weight :: rays) 0 uninit 2).2 = 2 := by
    simp [fileRead]
  have hb0 : (fileRead (wl :: weight :: rays) 0 uninit 2).1 0 = wl := by
    simp [fileRead]
  have hb1 : (fileRead (wl :: weight :: rays) 0 uninit 2).1 1 = weight := by
    simp [fileRead]
  dsimp only
  rw [hc1, hb0, hb1, if_neg (by decide), if_pos h]

theorem LoadDataFromFile_one_float (kMin kMax : Int) (uninit : Nat → ℚ) (wl : ℚ) :
    SpectrumRenderer.LoadDataFromFile kMin kMax uninit [wl] =
      if truncToInt wl < kMin ∨ truncToInt wl > kMax ∨ uninit 1 < 0 then (-1, none)
      else (0, none) := by
  unfold SpectrumRenderer.LoadDataFromFile
  have hc1 : (fileRead [wl] 0 uninit 2).2 = 1 := by
    simp [fileRead]
  have hb0 : (fileRead [wl] 0 uninit 2).1 0 = wl := by
    simp [fileRead]
  have hb1 : (fileRead [wl] 0 uninit 2).1 1 = uninit 1 := by
    simp [fileRead]
  have hc2 : ∀ buf, (fileRead [wl] 1 buf [wl].length).2 = 0 := by
    intro buf
    simp [fileRead]
  dsimp only
  rw [hc1, hb0, hb1, if_neg (by decide)]
  split_ifs with h1 h2
  · rfl
  · rfl
  · exact absurd (by rw [hc2]) h2

theorem LoadDataFromFile_short (kMin kMax : Int) (uninit : Nat → ℚ) (file : List ℚ)
    (h : file.length < 2) :
    (SpectrumRenderer.LoadDataFromFile kMin kMax uninit file).2 = none := by
  match file, h with
  | [], _ => rw [LoadDataFromFile_empty]
  | [wl], _ =>
    rw [LoadDataFromFile_one_float]
    split_ifs <;> rfl

/-- Claim C25 at a file of one float: with the wavelength range `[360, 830]`, a
file that holds the single float `550` and a read buffer whose unwritten memory
holds zeros, the first `Read` returns 1, the test `read_count <= 0` passes, the
weight is taken from the unwritten `read_buffer[1]`, and `LoadDataFromFile`
returns 0, not -1, without a call of `LoadData`; with a negative value in the
unwritten memory the same file gives -1. -/
theorem C25_one_float_file_returns_zero :
    (fileRead [550] 0 (fun _ => 0) 2).2 = 1 ∧
    SpectrumRenderer.LoadDataFromFile 360 830 (fun _ => 0) [550] = (0, none) ∧
    SpectrumRenderer.LoadDataFromFile 360 830 (fun _ => -1) [550] = (-1, none) := by
  refine ⟨by decide, ?_, ?_⟩
  · rw [LoadDataFromFile_one_float]
    decide!
  · rw [LoadDataFromFile_one_float]
    decide!

theorem setXY_other (xy : Nat → Int) (i : Nat) (p : Int × Int) (m : Nat)
    (h1 : m ≠ i * 2) (h2 : m ≠ i * 2 + 1) : setXY xy i p m = xy m := by
  unfold setXY
  rw [Function.update_noteq h2, Function.update_noteq h1]

theorem projectRays_spec (pixel : Nat → Int × Int) (img_xy : Nat → Int) (n : Nat) :
    (∀ k, k < n → projectRays pixel n img_xy (k * 2) = (pixel k).1 ∧
      projectRays pixel n img_xy (k * 2 + 1) = (pixel k).2) ∧
    (∀ m, n * 2 ≤ m → projectRays pixel n img_xy m = img_xy m) := by
  unfold projectRays
  induction n with
  | zero =>
    exact ⟨fun k hk => absurd hk (Nat.not_lt_zero k), fun m _ => rfl⟩
  | succ n ih =>
    rw [List.range_succ, List.foldl_append]
    simp only [List.foldl_cons, List.foldl_nil]
    obtain ⟨i1, i2⟩ := ih
    refine ⟨fun k hk => ?_, fun m hm => ?_⟩
    · by_cases hkn : k = n
      · subst hkn
        unfold setXY
        constructor
        · rw [Function.update_noteq (by omega), Function.update_same]
        · rw [Function.update_same]
      · have hk' : k < n := by omega
        rw [setXY_other _ _ _ _ (by omega) (by omega), setXY_other _ _ _ _ (by omega) (by omega)]
        exact i1 k hk'
    · rw [setXY_other _ _ _ _ (by omega) (by omega)]
      exact i2 m (by omega)

theorem projection_sentinel (R : RenderEnv) (lens : LensType)
    (pf : Vec3 → ℚ → Nat → (Nat → ℚ) → Int → Int → (Nat → Int) → VisibleRange → Nat → Int)
    (hpf : GetProjectionFunctions R lens = some pf) (cam_rot : Vec3) (hov : ℚ)
    (data_number : Nat) (dir : Nat → ℚ) (img_wid img_hei : Int) (img_xy : Nat → Int)
    (vr : VisibleRange) (k : Nat) (hk : k < data_number)
    (hn : |R.Norm3 (vecAt (R.RotateZWithDataStep (lensCamRot R lens cam_rot) dir 4 3
      data_number) (k * 3)) - 1| > 1 / 10000) :
    pf cam_rot hov data_number dir img_wid img_hei img_xy vr (k * 2) = kIntMin ∧
    pf cam_rot hov data_number dir img_wid img_hei img_xy vr (k * 2 + 1) = kIntMin := by
  cases lens with
  | kLinear =>
    injection hpf with hpf
    subst hpf
    have hn' : |R.Norm3 (vecAt (R.RotateZWithDataStep (camRotCopy R cam_rot) dir 4 3
        data_number) (k * 3)) - 1| > 1 / 10000 := hn
    obtain ⟨h1, h2⟩ := (projectRays_spec (RectLinear_ray R hov
      (R.RotateZWithDataStep (camRotCopy R cam_rot) dir 4 3 data_number) dir img_wid img_hei vr)
      img_xy data_number).1 k hk
    unfold RectLinear
    rw [h1, h2]
    unfold RectLinear_ray
    rw [if_pos (Or.inr hn')]
    exact ⟨rfl, rfl⟩
  | kEqualArea =>
    injection hpf with hpf
    subst hpf
    have hn' : |R.Norm3 (vecAt (R.RotateZWithDataStep (camRotCopy R cam_rot) dir 4 3
        data_number) (k * 3)) - 1| > 1 / 10000 := hn
    obtain ⟨h1, h2⟩ := (projectRays_spec (EqualAreaFishEye_ray R hov
      (R.RotateZWithDataStep (camRotCopy R cam_rot) dir 4 3 data_number) dir img_wid img_hei vr)
      img_xy data_number).1 k hk
    unfold EqualAreaFishEye
    rw [h1, h2]
    unfold EqualAreaFishEye_ray
    rw [if_pos hn']
    exact ⟨rfl, rfl⟩
  | kDualEquidistant =>
    injection hpf with hpf
    subst hpf
    have hn' : |R.Norm3 (vecAt (R.RotateZWithDataStep (camRotCopy R ⟨90, 89999 / 1000, 0⟩)
        dir 4 3 data_number) (k * 3)) - 1| > 1 / 10000 := hn
    obtain ⟨h1, h2⟩ := (projectRays_spec (DualEquidistantFishEye_ray R
      (R.RotateZWithDataStep (camRotCopy R ⟨90, 89999 / 1000, 0⟩) dir 4 3 data_number)
      img_wid img_hei) img_xy data_number).1 k hk
    unfold DualEquidistantFishEye
    rw [h1, h2]
    unfold DualEquidistantFishEye_ray
    rw [if_pos hn']
    exact ⟨rfl, rfl⟩
  | kDualEqualArea =>
    injection hpf with hpf
    subst hpf
    have hn' : |R.Norm3 (vecAt (R.RotateZWithDataStep (camRotCopy R ⟨90, 89999 / 1000, 0⟩)
        dir 4 3 data_number) (k * 3)) - 1| > 1 / 10000 := hn
    obtain ⟨h1, h2⟩ := (projectRays_spec (DualEqualAreaFishEye_ray R
      (R.RotateZWithDataStep (camRotCopy R ⟨90, 89999 / 1000, 0⟩) dir 4 3 data_number)
      img_wid img_hei) img_xy data_number).1 k hk
    unfold DualEqualAreaFishEye
    rw [h1, h2]
    unfold DualEqualAreaFishEye_ray
    rw [if_pos hn']
    exact ⟨rfl, rfl⟩
  | kUnlisted => cases hpf

theorem pixel_index_lt (x y : Int) (W H : Nat) (hx0 : 0 ≤ x) (hx1 : x < (W : Int))
    (hy0 : 0 ≤ y) (hy1 : y < (H : Int)) : (y * (W : Int) + x).toNat < W * H := by
  obtain ⟨xn, rfl⟩ := Int.eq_ofNat_of_zero_le hx0
  obtain ⟨yn, rfl⟩ := Int.eq_ofNat_of_zero_le hy0
  have hx : xn < W := by exact_mod_cast hx1
  have hy : yn < H := by exact_mod_cast hy1
  have hcast : ((yn : Int) * (W : Int) + (xn : Int)).toNat = yn * W + xn := by
    have : ((yn : Int) * (W : Int) + (xn : Int)) = ((yn * W + xn : Nat) : Int) := by push_cast; rfl
    rw [this, Int.toNat_natCast]
  rw [hcast]
  calc yn * W + xn < yn * W + W := by omega
    _ = (yn + 1) * W := by ring
    _ ≤ H * W := Nat.mul_le_mul_right W hy
    _ = W * H := Nat.mul_comm _ _

theorem LoadData_ray_changes (ctx : RenderContext) (weight : ℚ) (ray_data : Nat → ℚ)
    (tmp_xy : Nat → Int) (acc : (Nat → ℚ) × (Nat → ℚ)) (i q : Nat)
    (h : (SpectrumRenderer.LoadData_ray ctx weight ray_data tmp_xy acc i).1 q ≠ acc.1 q ∨
      (SpectrumRenderer.LoadData_ray ctx weight ray_data tmp_xy acc i).2 q ≠ acc.2 q) :
    RayHits ctx tmp_xy i q := by
  unfold SpectrumRenderer.LoadData_ray at h
  by_cases h1 : tmp_xy (i * 2) = kIntMin ∨ tmp_xy (i * 2 + 1) = kIntMin
  · rw [if_pos h1] at h
    rcases h with h | h <;> exact absurd rfl h
  · rw [if_neg h1] at h
    dsimp only at h
    by_cases h2 : (shiftedXY ctx tmp_xy i).1 < 0 ∨
        (shiftedXY ctx tmp_xy i).1 ≥ (ctx.GetImageWidth : Int) ∨
        (shiftedXY ctx tmp_xy i).2 < 0 ∨ (shiftedXY ctx tmp_xy i).2 ≥ (ctx.GetImageHeight : Int)
    · rw [if_pos h2] at h
      rcases h with h | h <;> exact absurd rfl h
    · rw [if_neg h2] at h
      have a1 : tmp_xy (i * 2) ≠ kIntMin := fun hx => h1 (Or.inl hx)
      have a2 : tmp_xy (i * 2 + 1) ≠ kIntMin := fun hx => h1 (Or.inr hx)
      have b1 : 0 ≤ (shiftedXY ctx tmp_xy i).1 := not_lt.mp (fun hx => h2 (Or.inl hx))
      have b2 : (shiftedXY ctx tmp_xy i).1 < (ctx.GetImageWidth : Int) :=
        not_le.mp (fun hx => h2 (Or.inr (Or.inl hx)))
      have b3 : 0 ≤ (shiftedXY ctx tmp_xy i).2 :=
        not_lt.mp (fun hx => h2 (Or.inr (Or.inr (Or.inl hx))))
      have b4 : (shiftedXY ctx tmp_xy i).2 < (ctx.GetImageHeight : Int) :=
        not_le.mp (fun hx => h2 (Or.inr (Or.inr (Or.inr hx))))
      have hq : q = ((shiftedXY ctx tmp_xy i).2 * (ctx.GetImageWidth : Int) +
          (shiftedXY ctx tmp_xy i).1).toNat := by
        by_contra hne
        rcases h with h | h
        · exact h (Function.update_noteq hne _ _)
        · exact h (Function.update_noteq hne _ _)
      refine ⟨a1, a2, b1, b2, b3, b4, hq, ?_⟩
      rw [hq]
      exact pixel_index_lt _ _ _ _ b1 b2 b3 b4

theorem LoadData_loop_changes (ctx : RenderContext) (weight : ℚ) (ray_data : Nat → ℚ)
    (tmp_xy : Nat → Int) (a : (Nat → ℚ) × (Nat → ℚ)) (num q : Nat)
    (h : ((List.range num).foldl (SpectrumRenderer.LoadData_ray ctx weight ray_data tmp_xy) a).1 q
        ≠ a.1 q ∨
      ((List.range num).foldl (SpectrumRenderer.LoadData_ray ctx weight ray_data tmp_xy) a).2 q
        ≠ a.2 q) :
    ∃ i, i < num ∧ RayHits ctx tmp_xy i q := by
  have key := foldl_range_inv (fun (n : Nat) (acc : (Nat → ℚ) × (Nat → ℚ)) =>
      (acc.1 q ≠ a.1 q ∨ acc.2 q ≠ a.2 q) → ∃ i, i < n ∧ RayHits ctx tmp_xy i q)
    (SpectrumRenderer.LoadData_ray ctx weight ray_data tmp_xy) num a
    (fun h0 => by rcases h0 with h0 | h0 <;> exact absurd rfl h0)
    (fun i acc _ hacc hch => by
      by_cases hstep : (SpectrumRenderer.LoadData_ray ctx weight ray_data tmp_xy acc i).1 q ≠
          acc.1 q ∨
          (SpectrumRenderer.LoadData_ray ctx weight ray_data tmp_xy acc i).2 q ≠ acc.2 q
      · exact ⟨i, Nat.lt_succ_self i, LoadData_ray_changes ctx weight ray_data tmp_xy acc i q hstep⟩
      · have e1 : (SpectrumRenderer.LoadData_ray ctx weight ray_data tmp_xy acc i).1 q = acc.1 q :=
          not_not.mp (fun hx => hstep (Or.inl hx))
        have e2 : (SpectrumRenderer.LoadData_ray ctx weight ray_data tmp_xy acc i).2 q = acc.2 q :=
          not_not.mp (fun hx => hstep (Or.inr hx))
        rw [e1, e2] at hch
        obtain ⟨j, hj, hhit⟩ := hacc hch
        exact ⟨j, Nat.lt_succ_of_lt hj, hhit⟩)
  exact key h

theorem foldl_sets {σ ι : Type} (Q : σ → Prop) (f : σ → ι → σ) (j : ι) :
    ∀ (l : List ι) (s : σ), j ∈ l → (∀ x, Q (f x j)) →
      (∀ x j', j' ∈ l → Q x → Q (f x j')) → Q (l.foldl f s) := by
  intro l
  induction l with
  | nil =>
    intro s hj _ _
    cases hj
  | cons a l ih =>
    intro s hj hset hkeep
    simp only [List.foldl_cons]
    rcases List.mem_cons.mp hj with rfl | hj'
    · exact foldl_inv Q f l _ (hset s) (fun x j' hj' hx =>
        hkeep x j' (List.mem_cons_of_mem _ hj') hx)
    · exact ih _ hj' hset (fun x j' hjm hx => hkeep x j' (List.mem_cons_of_mem _ hjm) hx)

theorem projectFanOut_sentinel (R : RenderEnv) (ctx : RenderContext)
    (pf : Vec3 → ℚ → Nat → (Nat → ℚ) → Int → Int → (Nat → Int) → VisibleRange → Nat → Int)
    (hpf : GetProjectionFunctions R ctx.GetLensType = some pf) (ray_data : Nat → ℚ)
    (num : Nat) (uninit_xy : Nat → Int) (i : Nat) (hi : i < num)
    (hn : |R.Norm3 (vecAt (R.RotateZWithDataStep
        (lensCamRot R ctx.GetLensType ctx.GetCameraTargetDirection)
        (fun m => ray_data (i / stripeStep num * stripeStep num * 4 + m)) 4 3
        (min (num - i / stripeStep num * stripeStep num) (stripeStep num)))
        ((i - i / stripeStep num * stripeStep num) * 3)) - 1| > 1 / 10000) :
    projectFanOut pf ctx ray_data num uninit_xy (i * 2) = kIntMin ∧
    projectFanOut pf ctx ray_data num uninit_xy (i * 2 + 1) = kIntMin := by
  obtain ⟨hmem, hin⟩ := stripe_of_slot num i hi
  have hin' := hin
  obtain ⟨s1, s2⟩ := hin'
  unfold projectFanOut
  refine foldl_sets (fun xy : Nat → Int => xy (i * 2) = kIntMin ∧ xy (i * 2 + 1) = kIntMin)
    _ (i / stripeStep num * stripeStep num) _ _ hmem ?_ ?_
  · intro xy
    have hk : i - i / stripeStep num * stripeStep num <
        min (num - i / stripeStep num * stripeStep num) (max (num / 100) 10) := by
      have : stripeStep num = max (num / 100) 10 := rfl
      rw [← this]
      omega
    obtain ⟨p1, p2⟩ := projection_sentinel R ctx.GetLensType pf hpf ctx.GetCameraTargetDirection
      ctx.GetFov _ (fun m => ray_data (i / stripeStep num * stripeStep num * 4 + m))
      (ctx.GetImageWidth : Int) (ctx.GetImageHeight : Int)
      (fun k => xy (i / stripeStep num * stripeStep num * 2 + k)) ctx.GetVisibleRange
      (i - i / stripeStep num * stripeStep num) hk hn
    have e1 : i * 2 - i / stripeStep num * stripeStep num * 2 =
        (i - i / stripeStep num * stripeStep num) * 2 := by omega
    have e2 : i * 2 + 1 - i / stripeStep num * stripeStep num * 2 =
        (i - i / stripeStep num * stripeStep num) * 2 + 1 := by omega
    unfold projectJob writeSlice
    rw [if_pos ⟨by omega, by omega⟩, if_pos ⟨by omega, by omega⟩, e1, e2]
    exact ⟨p1, p2⟩
  · intro xy j' hj' hxy
    by_cases hjj : j' = i / stripeStep num * stripeStep num
    · subst hjj
      have hk : i - i / stripeStep num * stripeStep num <
          min (num - i / stripeStep num * stripeStep num) (max (num / 100) 10) := by
        have : stripeStep num = max (num / 100) 10 := rfl
        rw [← this]
        omega
      obtain ⟨p1, p2⟩ := projection_sentinel R ctx.GetLensType pf hpf
        ctx.GetCameraTargetDirection
        ctx.GetFov _ (fun m => ray_data (i / stripeStep num * stripeStep num * 4 + m))
        (ctx.GetImageWidth : Int) (ctx.GetImageHeight : Int)
        (fun k => xy (i / stripeStep num * stripeStep num * 2 + k)) ctx.GetVisibleRange
        (i - i / stripeStep num * stripeStep num) hk hn
      have e1 : i * 2 - i / stripeStep num * stripeStep num * 2 =
          (i - i / stripeStep num * stripeStep num) * 2 := by omega
      have e2 : i * 2 + 1 - i / stripeStep num * stripeStep num * 2 =
          (i - i / stripeStep num * stripeStep num) * 2 + 1 := by omega
      unfold projectJob writeSlice
      rw [if_pos ⟨by omega, by omega⟩, if_pos ⟨by omega, by omega⟩, e1, e2]
      exact ⟨p1, p2⟩
    · have hout : ¬ InStripe num (stripeStep num) j' i :=
        fun hx => hjj (stripe_unique num i j' hj' hx)
      have hst : stripeStep num = max (num / 100) 10 := rfl
      unfold InStripe at hout
      unfold projectJob writeSlice
      rw [← hst, if_neg (by omega), if_neg (by omega)]
      exact hxy

theorem LoadData_rejects (R : RenderEnv) (ctx : RenderContext) (kMin kMax : Int)
    (uninit_xy : Nat → Int) (r : SpectrumRenderer) (wl weight : ℚ) (ray_data : Nat → ℚ)
    (num : Nat)
    (h : GetProjectionFunctions R ctx.GetLensType = none ∨ truncToInt wl < kMin ∨
      truncToInt wl > kMax ∨ weight < 0) :
    SpectrumRenderer.LoadData R ctx kMin kMax uninit_xy r wl weight ray_data num = some r := by
  unfold SpectrumRenderer.LoadData
  cases hpf : GetProjectionFunctions R ctx.GetLensType with
  | none => rfl
  | some pf =>
    rw [hpf] at h
    have h' : truncToInt wl < kMin ∨ truncToInt wl > kMax ∨ weight < 0 := by
      rcases h with h | h
      · cases h
      · exact h
    dsimp only
    rw [if_pos h']

theorem LoadData_accepts (R : RenderEnv) (ctx : RenderContext) (kMin kMax : Int)
    (uninit_xy : Nat → Int) (r : SpectrumRenderer) (wl weight : ℚ) (ray_data : Nat → ℚ)
    (num : Nat)
    (pf : Vec3 → ℚ → Nat → (Nat → ℚ) → Int → Int → (Nat → Int) → VisibleRange → Nat → Int)
    (hpf : GetProjectionFunctions R ctx.GetLensType = some pf)
    (h1 : kMin ≤ truncToInt wl) (h2 : truncToInt wl ≤ kMax) (h3 : 0 ≤ weight)
    (hinv : r.spectrum_data_ (truncToInt wl) = none ∨
      ∃ c, r.spectrum_data_compensation_ (truncToInt wl) = some c) :
    SpectrumRenderer.LoadData R ctx kMin kMax uninit_xy r wl weight ray_data num =
      some
        { spectrum_data_ := Function.update r.spectrum_data_ (truncToInt wl)
            (some ((List.range num).foldl (SpectrumRenderer.LoadData_ray ctx weight ray_data
              (projectFanOut pf ctx ray_data num uninit_xy)) (r.baseArrays (truncToInt wl))).1)
          spectrum_data_compensation_ :=
            Function.update r.spectrum_data_compensation_ (truncToInt wl)
              (some ((List.range num).foldl (SpectrumRenderer.LoadData_ray ctx weight ray_data
                (projectFanOut pf ctx ray_data num uninit_xy)) (r.baseArrays (truncToInt wl))).2)
          total_w_ := r.total_w_ + (ctx.GetInitRayNum : ℚ) * weight } := by
  have hok : ¬ (truncToInt wl < kMin ∨ truncToInt wl > kMax ∨ weight < 0) := by
    rintro (h | h | h)
    · exact absurd h1 (not_le.mpr h)
    · exact absurd h2 (not_le.mpr h)
    · exact absurd h3 (not_le.mpr h)
  unfold SpectrumRenderer.LoadData SpectrumRenderer.baseArrays
  rw [hpf]
  dsimp only
  rw [if_neg hok]
  cases hd : r.spectrum_data_ (truncToInt wl) with
  | none => rfl
  | some d =>
    rw [hd] at hinv
    rcases hinv with hinv | ⟨c, hc⟩
    · cases hinv
    · rw [hc]
      rfl

/-- Claim C26: every projection function writes the sentinel `INT_MIN` to both
coordinates of a ray whose rotated direction has a norm that differs from 1 by
more than 1e-4, and such a ray of a `LoadData` call lands on no pixel.
`LoadData` returns without any change when the lens type has no projection
function, the truncated wavelength is out of range or the weight is negative.
One iteration of its accumulation loop changes an entry `q` of the data or
compensation array only if neither coordinate of the ray is the sentinel, the
coordinates after the image offset is added (for the non-dual lens types only)
satisfy `0 <= x < width` and `0 <= y < height`, and `q = y * width + x`, which
is below `width * height`. An accepted call updates `total_w_`, leaves the
arrays of every other wavelength as they were, and changes an entry `q` of the
arrays of its wavelength (the existing ones, or fresh zeroed ones) only if one
of its rays lands on `q` in that sense. -/
theorem C26_load_data_changes_only_hit_pixels (R : RenderEnv) (ctx : RenderContext)
    (kMin kMax : Int) (uninit_xy : Nat → Int) (r : SpectrumRenderer) (wl weight : ℚ)
    (ray_data : Nat → ℚ) (num : Nat) :
    (∀ pf, GetProjectionFunctions R ctx.GetLensType = some pf →
      (∀ (cam_rot : Vec3) (hov : ℚ) (n : Nat) (dir : Nat → ℚ) (W H : Int) (xy : Nat → Int)
        (vr : VisibleRange) (k : Nat), k < n →
        |R.Norm3 (vecAt (R.RotateZWithDataStep (lensCamRot R ctx.GetLensType cam_rot) dir 4 3 n)
          (k * 3)) - 1| > 1 / 10000 →
        pf cam_rot hov n dir W H xy vr (k * 2) = kIntMin ∧
        pf cam_rot hov n dir W H xy vr (k * 2 + 1) = kIntMin) ∧
      (∀ i, i < num →
        |R.Norm3 (vecAt (R.RotateZWithDataStep
          (lensCamRot R ctx.GetLensType ctx.GetCameraTargetDirection)
          (fun m => ray_data (i / stripeStep num * stripeStep num * 4 + m)) 4 3
          (min (num - i / stripeStep num * stripeStep num) (stripeStep num)))
          ((i - i / stripeStep num * stripeStep num) * 3)) - 1| > 1 / 10000 →
        ∀ q, ¬ RayHits ctx (projectFanOut pf ctx ray_data num uninit_xy) i q)) ∧
    (GetProjectionFunctions R ctx.GetLensType = none ∨ truncToInt wl < kMin ∨
        truncToInt wl > kMax ∨ weight < 0 →
      SpectrumRenderer.LoadData R ctx kMin kMax uninit_xy r wl weight ray_data num = some r) ∧
    (∀ (tmp_xy : Nat → Int) (acc : (Nat → ℚ) × (Nat → ℚ)) (i q : Nat),
      ((SpectrumRenderer.LoadData_ray ctx weight ray_data tmp_xy acc i).1 q ≠ acc.1 q ∨
        (SpectrumRenderer.LoadData_ray ctx weight ray_data tmp_xy acc i).2 q ≠ acc.2 q) →
      tmp_xy (i * 2) ≠ kIntMin ∧ tmp_xy (i * 2 + 1) ≠ kIntMin ∧
      0 ≤ (shiftedXY ctx tmp_xy i).1 ∧ (shiftedXY ctx tmp_xy i).1 < (ctx.GetImageWidth : Int) ∧
      0 ≤ (shiftedXY ctx tmp_xy i).2 ∧ (shiftedXY ctx tmp_xy i).2 < (ctx.GetImageHeight : Int) ∧
      q = ((shiftedXY ctx tmp_xy i).2 * (ctx.GetImageWidth : Int) +
        (shiftedXY ctx tmp_xy i).1).toNat ∧
      q < ctx.GetImageWidth * ctx.GetImageHeight) ∧
    (∀ pf, GetProjectionFunctions R ctx.GetLensType = some pf →
      kMin ≤ truncToInt wl → truncToInt wl ≤ kMax → 0 ≤ weight →
      (r.spectrum_data_ (truncToInt wl) = none ∨
        ∃ c, r.spectrum_data_compensation_ (truncToInt wl) = some c) →
      ∃ r' d' c',
        SpectrumRenderer.LoadData R ctx kMin kMax uninit_xy r wl weight ray_data num = some r' ∧
        r'.total_w_ = r.total_w_ + (ctx.GetInitRayNum : ℚ) * weight ∧
        (∀ w, w ≠ truncToInt wl → r'.spectrum_data_ w = r.spectrum_data_ w ∧
          r'.spectrum_data_compensation_ w = r.spectrum_data_compensation_ w) ∧
        r'.spectrum_data_ (truncToInt wl) = some d' ∧
        r'.spectrum_data_compensation_ (truncToInt wl) = some c' ∧
        ∀ q, (d' q ≠ (r.baseArrays (truncToInt wl)).1 q ∨
            c' q ≠ (r.baseArrays (truncToInt wl)).2 q) →
          ∃ i, i < num ∧ RayHits ctx (projectFanOut pf ctx ray_data num uninit_xy) i q) := by
  refine ⟨fun pf hpf => ⟨fun cam_rot hov n dir W H xy vr k hk hn =>
      projection_sentinel R ctx.GetLensType pf hpf cam_rot hov n dir W H xy vr k hk hn,
      fun i hi hn q hq => ?_⟩,
    LoadData_rejects R ctx kMin kMax uninit_xy r wl weight ray_data num,
    fun tmp_xy acc i q h => LoadData_ray_changes ctx weight ray_data tmp_xy acc i q h,
    fun pf hpf h1 h2 h3 hinv => ?_⟩
  · obtain ⟨s1, -⟩ := projectFanOut_sentinel R ctx pf hpf ray_data num uninit_xy i hi hn
    exact hq.1 s1
  · refine ⟨_,
      ((List.range num).foldl (SpectrumRenderer.LoadData_ray ctx weight ray_data
        (projectFanOut pf ctx ray_data num uninit_xy)) (r.baseArrays (truncToInt wl))).1,
      ((List.range num).foldl (SpectrumRenderer.LoadData_ray ctx weight ray_data
        (projectFanOut pf ctx ray_data num uninit_xy)) (r.baseArrays (truncToInt wl))).2,
      LoadData_accepts R ctx kMin kMax uninit_xy r wl weight ray_data num pf hpf
      h1 h2 h3 hinv, rfl, fun w hw => ⟨?_, ?_⟩, ?_, ?_, ?_⟩
    · exact Function.update_noteq hw _ _
    · exact Function.update_noteq hw _ _
    · exact Function.update_same _ _ _
    · exact Function.update_same _ _ _
    · intro q hq
      exact LoadData_loop_changes ctx weight ray_data _ _ num q hq

theorem interpolate_bounds (lo hi : ℚ) :
    ∀ (t : List (ℚ × ℚ)), t ≠ [] → t.Chain' (fun p q => p.1 < q.1) →
      (∀ p, p ∈ t → lo ≤ p.2 ∧ p.2 ≤ hi) →
      ∀ wl, lo ≤ IceRefractiveIndex.interpolate t wl ∧ IceRefractiveIndex.interpolate t wl ≤ hi := by
  intro t
  induction t with
  | nil => intro h; exact absurd rfl h
  | cons p rest ih =>
    intro _ hch hb wl
    cases rest with
    | nil =>
      simp only [IceRefractiveIndex.interpolate]
      exact hb p (List.mem_cons_self _ _)
    | cons q rest =>
      have hp := hb p (List.mem_cons_self _ _)
      have hq := hb q (List.mem_cons_of_mem _ (List.mem_cons_self _ _))
      have hpq : p.1 < q.1 := (List.chain'_cons.mp hch).1
      simp only [IceRefractiveIndex.interpolate]
      split_ifs with h1 h2
      · exact hp
      · have hd : 0 < q.1 - p.1 := sub_pos.mpr hpq
        have hl0 : 0 ≤ (wl - p.1) / (q.1 - p.1) :=
          div_nonneg (le_of_lt (sub_pos.mpr (not_le.mp h1))) (le_of_lt hd)
        have hl1 : (wl - p.1) / (q.1 - p.1) ≤ 1 := by
          rw [div_le_one hd]
          linarith
        constructor
        · nlinarith [mul_nonneg hl0 (sub_nonneg.mpr hq.1),
            mul_nonneg (sub_nonneg.mpr hl1) (sub_nonneg.mpr hp.1)]
        · nlinarith [mul_nonneg hl0 (sub_nonneg.mpr hq.2),
            mul_nonneg (sub_nonneg.mpr hl1) (sub_nonneg.mpr hp.2)]
      · exact ih (List.cons_ne_nil _ _) (List.chain'_cons.mp hch).2
          (fun r hr => hb r (List.mem_cons_of_mem _ hr)) wl

theorem bracket_exists (wl : ℚ) :
    ∀ (rest : List ℚ) (x y : ℚ), x ≤ wl →
      (∀ b, (x :: y :: rest).getLast? = some b → wl ≤ b) →
      ∃ p, p ∈ (x :: y :: rest).zip (y :: rest) ∧ p.1 ≤ wl ∧ wl ≤ p.2 := by
  intro rest
  induction rest with
  | nil =>
    intro x y hx hlast
    exact ⟨(x, y), by simp, hx, hlast y rfl⟩
  | cons z rest ih =>
    intro x y hx hlast
    by_cases hy : wl ≤ y
    · exact ⟨(x, y), by simp, hx, hy⟩
    · obtain ⟨p, hp, h1, h2⟩ := ih y z (le_of_lt (not_le.mp hy)) (fun b hb => hlast b (by
        simpa [List.getLast?_cons_cons] using hb))
      refine ⟨p, ?_, h1, h2⟩
      simp only [List.zip_cons_cons, List.mem_cons] at hp ⊢
      exact Or.inr hp

set_option maxRecDepth 100000 in
theorem tables_shape :
    IceRefractiveIndex._wl.length = 52 ∧ IceRefractiveIndex._n.length = 52 ∧
    Flat.IceRefractiveIndex._wl = IceRefractiveIndex._wl ∧
    Flat.IceRefractiveIndex._n = IceRefractiveIndex._n ∧
    IceRefractiveIndex._wl.Pairwise (fun a b => a < b) ∧
    IceRefractiveIndex._n.Pairwise (fun a b => a > b) ∧
    (List.zip IceRefractiveIndex._wl IceRefractiveIndex._n).Pairwise (fun p q => p.1 < q.1) ∧
    (∀ p, p ∈ List.zip IceRefractiveIndex._wl IceRefractiveIndex._n →
      (13032 / 10000 : ℚ) ≤ p.2 ∧ p.2 ≤ 13249 / 10000) := by
  refine ⟨by decide, by decide, by decide!, by decide!, by decide!, by decide!, by decide!,
    by decide!⟩

theorem bracket_list (wl : ℚ) (l : List ℚ) (a b : ℚ) (ha : l.head? = some a)
    (hb : l.getLast? = some b) (hlen : 2 ≤ l.length) (h1 : a ≤ wl) (h2 : wl ≤ b) :
    ∃ p, p ∈ l.zip l.tail ∧ p.1 ≤ wl ∧ wl ≤ p.2 := by
  match l, hlen with
  | x :: y :: rest, _ =>
    have hx : x = a := by
      simp only [List.head?_cons, Option.some.injEq] at ha
      exact ha
    refine bracket_exists wl rest x y (by rw [hx]; exact h1) (fun c hc => ?_)
    rw [hb] at hc
    injection hc with hc
    rw [← hc]
    exact h2

/-- Claim C27: in both copies of `IceRefractiveIndex` the tables `_wl` and `_n`
have 52 entries, the two copies hold the same values, the wavelengths are
strictly increasing and the indices strictly decreasing; every wavelength in
`[350, 900]` lies between two consecutive entries of `_wl`, and the index
interpolated linearly over either copy of the tables lies in
`[1.3032, 1.3249]`. -/
theorem C27_tables_monotone_and_index_bounded :
    (IceRefractiveIndex._wl.length = 52 ∧ IceRefractiveIndex._n.length = 52 ∧
      Flat.IceRefractiveIndex._wl.length = 52 ∧ Flat.IceRefractiveIndex._n.length = 52) ∧
    (Flat.IceRefractiveIndex._wl = IceRefractiveIndex._wl ∧
      Flat.IceRefractiveIndex._n = IceRefractiveIndex._n) ∧
    (IceRefractiveIndex._wl.Pairwise (fun a b => a < b) ∧
      IceRefractiveIndex._n.Pairwise (fun a b => a > b) ∧
      Flat.IceRefractiveIndex._wl.Pairwise (fun a b => a < b) ∧
      Flat.IceRefractiveIndex._n.Pairwise (fun a b => a > b)) ∧
    (∀ wl : ℚ, 350 ≤ wl → wl ≤ 900 →
      (∃ p, p ∈ IceRefractiveIndex._wl.zip IceRefractiveIndex._wl.tail ∧ p.1 ≤ wl ∧ wl ≤ p.2) ∧
      (∃ p, p ∈ Flat.IceRefractiveIndex._wl.zip Flat.IceRefractiveIndex._wl.tail ∧
        p.1 ≤ wl ∧ wl ≤ p.2) ∧
      (13032 / 10000 ≤ IceRefractiveIndex.Get wl ∧ IceRefractiveIndex.Get wl ≤ 13249 / 10000) ∧
      (13032 / 10000 ≤ IceRefractiveIndex.interpolate
          (List.zip Flat.IceRefractiveIndex._wl Flat.IceRefractiveIndex._n) wl ∧
        IceRefractiveIndex.interpolate
          (List.zip Flat.IceRefractiveIndex._wl Flat.IceRefractiveIndex._n) wl ≤
          13249 / 10000)) := by
  obtain ⟨l1, l2, e1, e2, m1, m2, m3, m4⟩ := tables_shape
  have hne : List.zip IceRefractiveIndex._wl IceRefractiveIndex._n ≠ [] := by
    intro h
    have := congrArg List.length h
    rw [List.length_zip, l1, l2] at this
    cases this
  have hb : ∀ wl, 13032 / 10000 ≤ IceRefractiveIndex.interpolate
        (List.zip IceRefractiveIndex._wl IceRefractiveIndex._n) wl ∧
      IceRefractiveIndex.interpolate
        (List.zip IceRefractiveIndex._wl IceRefractiveIndex._n) wl ≤ 13249 / 10000 :=
    interpolate_bounds _ _ _ hne m3.chain' m4
  have hbr : ∀ wl : ℚ, 350 ≤ wl → wl ≤ 900 →
      ∃ p, p ∈ IceRefractiveIndex._wl.zip IceRefractiveIndex._wl.tail ∧ p.1 ≤ wl ∧ wl ≤ p.2 :=
    fun wl h1 h2 => bracket_list wl _ 350 900 (by decide!) (by decide!) (by rw [l1]; decide) h1 h2
  refine ⟨⟨l1, l2, by rw [e1]; exact l1, by rw [e2]; exact l2⟩, ⟨e1, e2⟩,
    ⟨m1, m2, by rw [e1]; exact m1, by rw [e2]; exact m2⟩, fun wl h1 h2 => ⟨hbr wl h1 h2, ?_,
      hb wl, ?_⟩⟩
  · rw [e1]
    exact hbr wl h1 h2
  · rw [e1, e2]
    exact hb wl

theorem chainRoot_marked (p : RaySegmentPool) (ht : PoolTree p) (hm : RootsMarked p) :
    ∀ fuel h, h < p.next_unused_id → h ≤ fuel →
      ∃ info, (p.segments h).root_ctx = some info ∧
        info.first_ray_segment = p.chainRoot fuel h ∧
        (p.segments (p.chainRoot fuel h)).prev = none ∧
        (p.segments (p.chainRoot fuel h)).root_ctx = some info := by
  intro fuel
  induction fuel with
  | zero =>
    intro h hh hf
    have h0 : h = 0 := by omega
    subst h0
    have hprev : (p.segments 0).prev = none := by
      cases hq : (p.segments 0).prev with
      | none => rfl
      | some q => exact absurd (ht 0 hh q hq).1 (Nat.not_lt_zero q)
    obtain ⟨info, i1, i2⟩ := hm 0 hh hprev
    exact ⟨info, i1, i2, hprev, i1⟩
  | succ fuel ih =>
    intro h hh hf
    cases hq : (p.segments h).prev with
    | none =>
      obtain ⟨info, i1, i2⟩ := hm h hh hq
      have hc : p.chainRoot (fuel + 1) h = h := by
        simp only [RaySegmentPool.chainRoot, hq]
      rw [hc]
      exact ⟨info, i1, i2, hq, i1⟩
    | some q =>
      obtain ⟨q1, q2⟩ := ht h hh q hq
      have hc : p.chainRoot (fuel + 1) h = p.chainRoot fuel q := by
        simp only [RaySegmentPool.chainRoot, hq]
      rw [hc, q2]
      exact ih q (by omega) (by omega)

theorem carries_of_marked (p : RaySegmentPool) (ht : PoolTree p) (hm : RootsMarked p) (r : Nat)
    (hr : r < p.next_unused_id) : CarriesRootInfo p r := by
  obtain ⟨info, i1, i2, i3, i4⟩ := chainRoot_marked p ht hm r r hr (le_refl r)
  refine ⟨info, i1, i2, i3, i4, ?_⟩
  unfold RaySegment.axis_rot
  rw [i1]

theorem RootsMarked_link (b : SimulationBufferData) (pool : RaySegmentPool) (i h : Nat)
    (hm : RootsMarked pool) (hp : b.ray_seg 0 (i / 2) = some h) :
    RootsMarked (Simulator.StoreRaySegments_link b pool i) := by
  intro x hx hprev
  rw [link_next] at hx
  rw [link_prev] at hprev
  by_cases hxr : x = pool.next_unused_id
  · rw [if_pos hxr, hp] at hprev
    cases hprev
  · rw [if_neg hxr] at hprev
    rw [link_root_old _ _ _ _ hxr]
    exact hm x (by omega) hprev

theorem RootsMarked_addRoot (p : RaySegmentPool) (e : EntrySample) (ctx : CrystalContext)
    (hm : RootsMarked p) : RootsMarked (p.addRoot e ctx) := by
  obtain ⟨a1, a2⟩ := addRoot_fields p e ctx
  intro x hx hprev
  rw [a1] at hx
  rw [a2] at hprev ⊢
  by_cases hxr : x = p.next_unused_id
  · rw [if_pos hxr]
    exact ⟨_, rfl, hxr.symm⟩
  · rw [if_neg hxr] at hprev ⊢
    exact hm x (by omega) hprev

theorem Store_forest (ctx : ProjectContext) (crystal : Crystal) (filter : AbstractRayPathFilter)
    (s : Simulator) (hv : LiveValid s) (ht : PoolTree s.pool) (hm : RootsMarked s.pool) :
    PoolTree (Simulator.StoreRaySegments ctx crystal filter s).pool ∧
    RootsMarked (Simulator.StoreRaySegments ctx crystal filter s).pool := by
  unfold Simulator.StoreRaySegments
  have := foldl_range_inv
    (fun i t => StoreCreated s i t ∧ PoolTree t.pool ∧ RootsMarked t.pool)
    (Simulator.StoreRaySegments_slot ctx crystal filter) (s.active_ray_num_ * 2) s
    ⟨⟨rfl, rfl, rfl, rfl, le_refl _, fun _ _ => rfl,
      fun j hj => absurd hj (Nat.not_lt_zero j),
      fun j j' _ _ _ hj' => absurd hj' (Nat.not_lt_zero j')⟩, ht, hm⟩
    (fun i t hi hti => by
      refine ⟨StoreCreated_step ctx crystal filter s t i hti.1, ?_⟩
      by_cases hw : t.buffer_.w 1 i ≤ 0
      · rw [Store_slot_skip ctx crystal filter t i hw]
        exact hti.2
      · obtain ⟨-, -, -, c4, c5, -, -, -⟩ := hti.1
        obtain ⟨h, h1, h2⟩ := hv (i / 2) (by omega)
        have hp : t.buffer_.ray_seg 0 (i / 2) = some h := by
          rw [c4]
          exact h1
        rw [(Store_slot_made ctx crystal filter t i hw).1]
        exact ⟨PoolTree_link _ _ _ h hti.2.1 hp (by omega),
          RootsMarked_link _ _ _ h hti.2.2 hp⟩)
  exact this.2

theorem step_forest (ctx : ProjectContext) (env : Env) (crystal : Crystal)
    (filter : AbstractRayPathFilter) (n : ℚ) (s : Simulator) (h0 : 0 ≤ ctx.kPropMinW)
    (hr : Roomy s) (hv : LiveValid s) (ht : PoolTree s.pool) (hm : RootsMarked s.pool) :
    Roomy (Simulator.TraceRays_step ctx env crystal filter n s) ∧
    LiveValid (Simulator.TraceRays_step ctx env crystal filter n s) ∧
    PoolTree (Simulator.TraceRays_step ctx env crystal filter n s).pool ∧
    RootsMarked (Simulator.TraceRays_step ctx env crystal filter n s).pool := by
  obtain ⟨gw, -, gk⟩ := grow_keeps s hr
  have hg : s.growForTrace.pool = s.pool ∧
      s.growForTrace.active_ray_num_ = s.active_ray_num_ := by
    unfold Simulator.growForTrace
    split_ifs <;> exact ⟨rfl, rfl⟩
  have hfs : (traceFanOut env crystal n s.growForTrace).buffer_.ray_seg =
      s.growForTrace.buffer_.ray_seg :=
    (stripes_keep0 env crystal n _ _ _ _).2.2.2.2
  have hfv : LiveValid (traceFanOut env crystal n s.growForTrace) := by
    intro k hk
    have hk2 : k < s.active_ray_num_ := by
      rw [← hg.2]
      exact hk
    obtain ⟨p, p1, p2⟩ := hv k hk2
    refine ⟨p, ?_, ?_⟩
    · rw [hfs, (gk k hk2).2]
      exact p1
    · show p < s.growForTrace.pool.next_unused_id
      rw [hg.1]
      exact p2
  have hst := Store_forest ctx crystal filter (traceFanOut env crystal n s.growForTrace) hfv
    (by
      show PoolTree s.growForTrace.pool
      rw [hg.1]
      exact ht)
    (by
      show RootsMarked s.growForTrace.pool
      rw [hg.1]
      exact hm)
  obtain ⟨-, c2, -, -, -, -, c7, -⟩ :=
    StoreCreated_final ctx crystal filter (traceFanOut env crystal n s.growForTrace)
  obtain ⟨r1, -, r3⟩ := RefreshExact_final ctx
    (Simulator.StoreRaySegments ctx crystal filter (traceFanOut env crystal n s.growForTrace))
  refine ⟨(step_roomy ctx env crystal filter n s gw).1, ?_, hst.1, hst.2⟩
  intro a ha
  have ha2 : a < (keptBefore ctx (Simulator.StoreRaySegments ctx crystal filter
      (traceFanOut env crystal n s.growForTrace)).buffer_
      ((Simulator.StoreRaySegments ctx crystal filter
        (traceFanOut env crystal n s.growForTrace)).active_ray_num_ * 2)).length := by
    rw [← r1]
    exact ha
  have hmem := List.getElem_mem ha2
  rw [← List.getD_eq_getElem _ 0 ha2] at hmem
  obtain ⟨m1, -, m3⟩ := (keptBefore_mem ctx _ _ _).mp hmem
  have hcopy := (r3 a ha).2.2.2.2
  rw [c2] at m3
  obtain ⟨r, q1, -, q3, -⟩ := c7 _ (by
    have hact : (Simulator.StoreRaySegments ctx crystal filter
        (traceFanOut env crystal n s.growForTrace)).active_ray_num_ =
        (traceFanOut env crystal n s.growForTrace).active_ray_num_ :=
      (StoreCreated_final ctx crystal filter (traceFanOut env crystal n s.growForTrace)).1
    exact lt_of_lt_of_eq m1 (congrArg (fun x => x * 2) hact)) (lt_of_le_of_lt h0 m3)
  exact ⟨r, hcopy.trans q1, q3⟩

theorem TraceRays_forest (ctx : ProjectContext) (env : Env) (crystal : Crystal)
    (filter : AbstractRayPathFilter) (s t : Simulator) (h0 : 0 ≤ ctx.kPropMinW)
    (hr : Roomy s) (hv : LiveValid s) (ht : PoolTree s.pool) (hm : RootsMarked s.pool)
    (hx : Simulator.TraceRays ctx env crystal filter s = Except.ok t) :
    PoolTree t.pool ∧ RootsMarked t.pool := by
  unfold Simulator.TraceRays at hx
  split at hx
  · cases hx
  · injection hx with hx
    subst hx
    rename_i wl hwl
    have hfold := foldl_inv (fun u : Simulator =>
        Roomy u ∧ LiveValid u ∧ PoolTree u.pool ∧ RootsMarked u.pool)
      (fun s (_ : Nat) => Simulator.TraceRays_step ctx env crystal filter
        (IceRefractiveIndex.Get wl.wavelength) s)
      (List.range ctx.GetRayHitNum.toNat) s ⟨hr, hv, ht, hm⟩
      (fun u _ _ h => step_forest ctx env crystal filter _ u h0 h.1 h.2.1 h.2.2.1 h.2.2.2)
    exact ⟨hfold.2.2.1, hfold.2.2.2⟩

theorem InitEntryRays_forest (env : Env) (c : CrystalContext) (s : Simulator)
    (ht : PoolTree s.pool) (hm : RootsMarked s.pool) :
    LiveValid (Simulator.InitEntryRays env c s) ∧
    PoolTree (Simulator.InitEntryRays env c s).pool ∧
    RootsMarked (Simulator.InitEntryRays env c s).pool := by
  obtain ⟨h1, h2, -, h4⟩ := InitEntryRays_inv env c s
  refine ⟨?_, InitEntryRays_tree env c s ht, ?_⟩
  · intro k hk
    rw [h1] at hk
    exact ⟨_, (h4 k hk).1, by rw [h2]; omega⟩
  · unfold Simulator.InitEntryRays
    exact foldl_inv (fun t : Simulator => RootsMarked t.pool) _ _ _ hm
      (fun t i _ h => RootsMarked_addRoot t.pool _ c h)

theorem crystalPass_forest (ctx : ProjectContext) (env : Env) (c : CrystalInfo)
    (s t : Simulator) (h0 : 0 ≤ ctx.kPropMinW) (hc0 : 0 ≤ c.population)
    (hc1 : c.population ≤ 1) (hs : Synced s) (ht : PoolTree s.pool)
    (hm : RootsMarked s.pool) (hx : Simulator.crystalPass ctx env c s = Except.ok t) :
    Synced t ∧ PoolTree t.pool ∧ RootsMarked t.pool := by
  have hsy := (crystalPass_cap ctx env c s t hx hs).1
  unfold Simulator.crystalPass at hx
  obtain ⟨-, -, a3, -, -, -, -, -, -, a10, a11⟩ := crystalBegin_fields c s
  have hbs : Synced (Simulator.crystalBegin c s) :=
    (GrowthSite_cap _ _ _ (crystalBegin_site c s hs) hs).1
  have hle := activeOf_le_cap c s.total_ray_num_ hc0 hc1
  have hr : Roomy (Simulator.crystalBegin c s) := by
    unfold kBufferSizeFactor at a11
    exact ⟨hbs, by rw [a3]; omega⟩
  have hi := InitEntryRays_roomy env (ctx.GetCrystalContext c.crystal_id) _ hr
  obtain ⟨i1, i2, i3⟩ := InitEntryRays_forest env (ctx.GetCrystalContext c.crystal_id)
    (Simulator.crystalBegin c s) (by rw [a10]; exact ht) (by rw [a10]; exact hm)
  obtain ⟨r2, r3⟩ := TraceRays_forest ctx env _ _
    (Simulator.InitEntryRays env (ctx.GetCrystalContext c.crystal_id)
      (Simulator.crystalBegin c s)).advanceOffset t h0 hi i1 i2 i3 hx
  exact ⟨hsy, r2, r3⟩

theorem crystalLoop_forest (ctx : ProjectContext) (env : Env) (h0 : 0 ≤ ctx.kPropMinW)
    (cs : List CrystalInfo) :
    ∀ s t : Simulator, (∀ c, c ∈ cs → 0 ≤ c.population ∧ c.population ≤ 1) →
      Synced s → PoolTree s.pool → RootsMarked s.pool →
      Simulator.crystalLoop ctx env cs s = Except.ok t →
      Synced t ∧ PoolTree t.pool ∧ RootsMarked t.pool := by
  induction cs with
  | nil =>
    intro s t _ hs ht hm h
    simp only [Simulator.crystalLoop] at h
    injection h with h
    subst h
    exact ⟨hs, ht, hm⟩
  | cons c cs ih =>
    intro s t hpop hs ht hm h
    simp only [Simulator.crystalLoop] at h
    split at h
    · cases h
    · rename_i s5 h5
      obtain ⟨p1, p2, p3⟩ := crystalPass_forest ctx env c s s5 h0
        (hpop c (List.mem_cons_self _ _)).1 (hpop c (List.mem_cons_self _ _)).2 hs ht hm h5
      exact ih s5 t (fun d hd => hpop d (List.mem_cons_of_mem _ hd)) p1 p2 p3 h

theorem scatterLoop_forest (ctx : ProjectContext) (env : Env) (h0 : 0 ≤ ctx.kPropMinW)
    (its : List MultiScatterContext) :
    ∀ s t : Simulator,
      (∀ it, it ∈ its → ∀ c, c ∈ it.GetCrystalInfo → 0 ≤ c.population ∧ c.population ≤ 1) →
      Synced s → PoolTree s.pool → RootsMarked s.pool →
      Simulator.scatterLoop ctx env its s = Except.ok t →
      PoolTree t.pool ∧ RootsMarked t.pool := by
  induction its with
  | nil =>
    intro s t _ _ ht hm h
    simp only [Simulator.scatterLoop] at h
    injection h with h
    subst h
    exact ⟨ht, hm⟩
  | cons it rest ih =>
    intro s t hpop hs ht hm h
    simp only [Simulator.scatterLoop] at h
    split at h
    · cases h
    · rename_i s2 h2
      obtain ⟨p1, p2, p3⟩ := crystalLoop_forest ctx env h0 _ s.scatterBegin s2
        (hpop it (List.mem_cons_self _ _)) hs ht hm h2
      have hpool : (Simulator.scatterEnd ctx env it rest.isEmpty s2).pool = s2.pool := by
        unfold Simulator.scatterEnd
        dsimp only
        split_ifs
        · exact (RestoreResultRays_frame ctx env it.GetProbability s2).2.2.2.1
        · rfl
      have hcap : CapGrows s2 (Simulator.scatterEnd ctx env it rest.isEmpty s2) := by
        unfold Simulator.scatterEnd
        dsimp only
        split_ifs
        · exact CapGrows_trans (Restore_cap ctx env _ s2) (CapGrows_of_eq _ _ rfl rfl)
        · exact CapGrows_of_eq _ _ rfl rfl
      exact ih _ t (fun x hx => hpop x (List.mem_cons_of_mem _ hx)) (hcap p1).1
        (by rw [hpool]; exact p2) (by rw [hpool]; exact p3) h

theorem Start_forest (ctx : ProjectContext) (env : Env) (hP : PopulationsUnit ctx)
    (h0 : 0 ≤ ctx.kPropMinW) (s t : Simulator) (hs : Synced s)
    (ht : Simulator.Start ctx env s = Except.ok t) :
    PoolTree t.pool ∧ RootsMarked t.pool := by
  obtain ⟨s1, last, h1, -, rfl⟩ := (Start_ok_iff ctx env s t).mp ht
  refine scatterLoop_forest ctx env h0 _ _ s1 hP ?_ ?_ ?_ h1
  · exact hs
  · intro x hx
    exact absurd hx (Nat.not_lt_zero x)
  · intro x hx
    exact absurd hx (Nat.not_lt_zero x)

/-- Claim C11: when every crystal population lies in `[0, 1]` and `kPropMinW` is
not negative, after a `Start` that began with `buffer_size_` equal to the buffer
capacity and returned, every handle stored in `final_ray_segments_` or in one of
the `exit_ray_segments_` lists is an acquired segment whose `root_ctx` is
non-null and is the `RayInfo` held by the root segment at the end of its `prev`
chain (the record names that root as `first_ray_segment`), so the rotation read
as `r->root_ctx->main_axis_rot` is the one of its root; and the record that
`InitEntryRays` attaches to a root it acquires holds the main axis sampled for
that ray by `InitMainAxis`. -/
theorem C11_stored_segments_carry_root_info (ctx : ProjectContext) (env : Env)
    (hP : PopulationsUnit ctx) (h0 : 0 ≤ ctx.kPropMinW) :
    (∀ s t : Simulator, Synced s → Simulator.Start ctx env s = Except.ok t →
      ∀ r, (r ∈ t.final_ray_segments_ ∨ ∃ l, l ∈ t.exit_ray_segments_ ∧ r ∈ l) →
        r < t.pool.next_unused_id ∧ CarriesRootInfo t.pool r) ∧
    (∀ (c : CrystalContext) (s : Simulator) (i : Nat),
      ((Simulator.InitEntryRays_ray env c s i).pool.segments s.pool.next_unused_id).root_ctx =
        some ⟨s.pool.next_unused_id, s.enter_ray_data_.ray_seg (s.enter_ray_offset_ + i), c,
          (Simulator.InitMainAxis env c s.rng).1⟩ ∧
      ((Simulator.InitEntryRays_ray env c s i).pool.segments s.pool.next_unused_id).prev =
        none) := by
  constructor
  · intro s t hs ht r hr
    have hv := StoredValid_Start ctx env s t ht
    have hlt : r < t.pool.next_unused_id := by
      rcases hr with h | ⟨l, h1, h2⟩
      · exact hv.2 r h
      · exact hv.1 l h1 r h2
    obtain ⟨f1, f2⟩ := Start_forest ctx env hP h0 s t hs ht
    exact ⟨hlt, carries_of_marked t.pool f1 f2 r hlt⟩
  · intro c s i
    have h := (addRoot_fields s.pool (Simulator.InitEntryRays_sample env c s i) c).2
      s.pool.next_unused_id
    rw [if_pos rfl] at h
    constructor
    · show ((s.pool.addRoot _ c).segments s.pool.next_unused_id).root_ctx = _
      rw [h]
      rfl
    · show ((s.pool.addRoot _ c).segments s.pool.next_unused_id).prev = _
      rw [h]

theorem sampleTwoPass_unit : PopulationsUnit (sampleCtx sampleTwoPass) := by
  intro it hit c hc
  have hit2 : it ∈ sampleTwoPass := hit
  unfold sampleTwoPass at hit2
  simp only [List.mem_cons, List.mem_singleton, List.not_mem_nil, or_false] at hit2
  rcases hit2 with h | h <;> subst h <;>
    · have hc2 : c ∈ [(⟨0, 1, 0⟩ : CrystalInfo)] := hc
      rw [List.mem_singleton.mp hc2]
      norm_num

set_option maxRecDepth 100000 in
/-- Witness for C11: in the two-pass example run, started from the fresh
simulator (whose `buffer_size_` is its capacity), the final list is `[1]`;
segment 1 is a child of the root segment 0 and carries the root's record. -/
theorem C11_witness :
    PopulationsUnit (sampleCtx sampleTwoPass) ∧ 0 ≤ (sampleCtx sampleTwoPass).kPropMinW ∧
    Synced (Simulator.new.SetWavelengthIndex (sampleCtx sampleTwoPass) 0) ∧
    finalOf (Simulator.Start (sampleCtx sampleTwoPass) sampleEnv
      (Simulator.new.SetWavelengthIndex (sampleCtx sampleTwoPass) 0)) = some [1] ∧
    sampleRun.pool.rootOf 1 = 0 ∧
    1 < sampleRun.pool.next_unused_id ∧ CarriesRootInfo sampleRun.pool 1 := by
  have hf : finalOf (Simulator.Start (sampleCtx sampleTwoPass) sampleEnv
      (Simulator.new.SetWavelengthIndex (sampleCtx sampleTwoPass) 0)) = some [1] := by decide!
  have hk : 0 ≤ (sampleCtx sampleTwoPass).kPropMinW := by decide!
  have hs : Synced (Simulator.new.SetWavelengthIndex (sampleCtx sampleTwoPass) 0) := by
    unfold Synced
    decide!
  refine ⟨sampleTwoPass_unit, hk, hs, hf, by decide!, ?_⟩
  cases h : Simulator.Start (sampleCtx sampleTwoPass) sampleEnv
      (Simulator.new.SetWavelengthIndex (sampleCtx sampleTwoPass) 0) with
  | error e => rw [h] at hf; cases hf
  | ok t =>
    have ht : sampleRun = t := by
      unfold sampleRun
      rw [h]
      rfl
    rw [ht]
    refine (C11_stored_segments_carry_root_info (sampleCtx sampleTwoPass) sampleEnv sampleTwoPass_unit hk).1 _ t hs h 1
      (Or.inl ?_)
    rw [h] at hf
    injection hf with hf
    rw [hf]
    exact List.mem_singleton.mpr rfl

end IceHalo
